import Mathlib

/-!
# USB host driver for the STM32F20x OTG_FS controller (usbh_stm32f20x.c)

A shallow embedding of the driver's channel, endpoint, URB and interrupt code.

* Machine words are natural numbers; where the C arithmetic can leave the
  32-bit range the result is reduced modulo 2^32 explicitly.
* The channel register blocks, the driver's static arrays and the client's
  URBs are fields of one `State`; every function passes the state along.
* A pointer is the address it holds, 0 being the null pointer.  A channel
  pointer `ptrCH` denotes the register block of index
  `USBH_STM32_CH_GetIndexFromCH ptrCH`.
* A register keeps the value last stored into it.  The bounded polling loops
  read volatile hardware: each poll takes the next entry of `State.hw`
  (0 once the list is used up) and stores it as the register's content.
* `State.log` records, in order, the stores to channel registers, the DMA
  operations, the completion callbacks and the pops of the receive status
  queue.
* The calls of `USBH_STM32_Delay_ms` only pass time and are left out.
-/

namespace Usbh

/-! ## Constants -/

/-- Number of host channels (`#define OTG_FS_MAX_CH 8`). -/
def OTG_FS_MAX_CH : Nat := 8

/-- Timeout budget in frame ticks (`#define MAX_TIMEOUT_COUNT 100`). -/
def MAX_TIMEOUT_COUNT : Nat := 100

/-- Debounce window in polls (`#define DEBOUNCE_500ms 500`). -/
def DEBOUNCE_500ms : Nat := 500

/-- Modelled from the spec: the header usbh_stm32f20x.h is not among the
sources; HCCHAR bit 31, channel enable. -/
def USBH_STM32_HCCHAR_CHENA : Nat := 1 <<< 31
/-- Modelled from the spec: header constant, HCCHAR bit 30, channel disable. -/
def USBH_STM32_HCCHAR_CHDIS : Nat := 1 <<< 30
/-- Modelled from the spec: header constant, HCCHAR bit 29, odd frame. -/
def USBH_STM32_HCCHAR_ODDFRM : Nat := 1 <<< 29
/-- Modelled from the spec: header constant, HCCHAR bits 22..28, device
address (the position `<< 22` is the one `USBH_STM32_EP_Add` uses). -/
def USBH_STM32_HCCHAR_DAD : Nat := 0x7F <<< 22
/-- Modelled from the spec: header constant, HCCHAR bits 20..21, multi count. -/
def USBH_STM32_HCCHAR_MCNT : Nat := 3 <<< 20
/-- Modelled from the spec: header constant, multi count of 1. -/
def USBH_STM32_HCCHAR_MCNT1 : Nat := 1 <<< 20
/-- Modelled from the spec: header constant, HCCHAR bits 18..19, endpoint
type (`<< 18` in `USBH_STM32_EP_Add`). -/
def USBH_STM32_HCCHAR_EPTYP : Nat := 3 <<< 18
/-- Modelled from the spec: header constant, HCCHAR bit 17, low-speed device
(`<< 17` in `USBH_STM32_EP_Add`). -/
def USBH_STM32_HCCHAR_LSDEV : Nat := 1 <<< 17
/-- Modelled from the spec: header constant, HCCHAR bit 15, endpoint
direction (`<< 15` in `USBH_STM32_EP_Add`). -/
def USBH_STM32_HCCHAR_EPDIR : Nat := 1 <<< 15
/-- Modelled from the spec: header constant, HCCHAR bits 11..14, endpoint
number (`<< 11` in `USBH_STM32_EP_Add`). -/
def USBH_STM32_HCCHAR_EPNUM : Nat := 0xF <<< 11
/-- Modelled from the spec: header constant, HCCHAR bits 0..10, maximum
packet size (`& 0x7FF` in the driver). -/
def USBH_STM32_HCCHAR_MPSIZ : Nat := 0x7FF

/-- Modelled from the spec: header constant, HCTSIZ bit 31, do PING. -/
def USBH_STM32_HCTSIZ_DOPING : Nat := 1 <<< 31
/-- Modelled from the spec: header constant, HCTSIZ bits 29..30, data PID. -/
def USBH_STM32_HCTSIZ_DPID : Nat := 3 <<< 29
/-- Modelled from the spec: header constant, data PID DATA0. -/
def USBH_STM32_HCTSIZ_DPID_DATA0 : Nat := 0 <<< 29
/-- Modelled from the spec: header constant, data PID DATA1. -/
def USBH_STM32_HCTSIZ_DPID_DATA1 : Nat := 2 <<< 29
/-- Modelled from the spec: header constant, data PID MDATA (SETUP). -/
def USBH_STM32_HCTSIZ_DPID_MDATA : Nat := 3 <<< 29

/-- Modelled from the spec: header constant, HCINT bit 0, transfer complete. -/
def USBH_STM32_HCINT_XFRC : Nat := 1 <<< 0
/-- Modelled from the spec: header constant, HCINT bit 1, channel halted. -/
def USBH_STM32_HCINT_CHH : Nat := 1 <<< 1
/-- Modelled from the spec: header constant, HCINT bit 3, STALL received. -/
def USBH_STM32_HCINT_STALL : Nat := 1 <<< 3
/-- Modelled from the spec: header constant, HCINT bit 4, NAK received. -/
def USBH_STM32_HCINT_NAK : Nat := 1 <<< 4
/-- Modelled from the spec: header constant, HCINT bit 5, ACK received. -/
def USBH_STM32_HCINT_ACK : Nat := 1 <<< 5
/-- Modelled from the spec: header constant, HCINT bit 6, NYET received. -/
def USBH_STM32_HCINT_NYET : Nat := 1 <<< 6
/-- Modelled from the spec: header constant, HCINT bit 7, transaction error. -/
def USBH_STM32_HCINT_TXERR : Nat := 1 <<< 7
/-- Modelled from the spec: header constant, HCINT bit 8, babble error. -/
def USBH_STM32_HCINT_BBERR : Nat := 1 <<< 8
/-- Modelled from the spec: header constant, HCINT bit 9, frame overrun. -/
def USBH_STM32_HCINT_FRMOR : Nat := 1 <<< 9
/-- Modelled from the spec: header constant, HCINT bit 10, data toggle error. -/
def USBH_STM32_HCINT_DTERR : Nat := 1 <<< 10
/-- Modelled from the spec: header constant, the four error causes, HCINT
bits 7..10 (the driver shifts the masked value right by 7). -/
def USBH_STM32_HCINT_ERR : Nat := 0xF <<< 7

/-- Modelled from the spec: header constant, HCINTMSK bit 0. -/
def USBH_STM32_HCINTMSK_XFRCM : Nat := 1 <<< 0
/-- Modelled from the spec: header constant, HCINTMSK bit 3. -/
def USBH_STM32_HCINTMSK_STALLM : Nat := 1 <<< 3
/-- Modelled from the spec: header constant, HCINTMSK bit 4. -/
def USBH_STM32_HCINTMSK_NAKM : Nat := 1 <<< 4
/-- Modelled from the spec: header constant, HCINTMSK bit 5. -/
def USBH_STM32_HCINTMSK_ACKM : Nat := 1 <<< 5
/-- Modelled from the spec: header constant, HCINTMSK bit 6. -/
def USBH_STM32_HCINTMSK_NYET : Nat := 1 <<< 6
/-- Modelled from the spec: header constant, HCINTMSK bit 7. -/
def USBH_STM32_HCINTMSK_TXERRM : Nat := 1 <<< 7
/-- Modelled from the spec: header constant, HCINTMSK bit 8. -/
def USBH_STM32_HCINTMSK_BBERRM : Nat := 1 <<< 8
/-- Modelled from the spec: header constant, HCINTMSK bit 10. -/
def USBH_STM32_HCINTMSK_DTERRM : Nat := 1 <<< 10

/-- Modelled from the spec: header constant, GINTSTS bit 3, start of frame. -/
def USBH_STM32_GINTSTS_SOF : Nat := 1 <<< 3
/-- Modelled from the spec: header constant, GINTSTS bit 4, receive FIFO
non-empty. -/
def USBH_STM32_GINTSTS_RXFLVL : Nat := 1 <<< 4
/-- Modelled from the spec: header constant, GINTSTS bit 24, host port. -/
def USBH_STM32_GINTSTS_HPRTINT : Nat := 1 <<< 24
/-- Modelled from the spec: header constant, GINTSTS bit 25, host channels. -/
def USBH_STM32_GINTSTS_HCINT : Nat := 1 <<< 25
/-- Modelled from the spec: header constant, GINTSTS bit 29, disconnect. -/
def USBH_STM32_GINTSTS_DISCINT : Nat := 1 <<< 29
/-- Modelled from the spec: header constant, GINTMSK bit 4. -/
def USBH_STM32_GINTMSK_RXFLVLM : Nat := 1 <<< 4

/-- Modelled from the spec: header constant, HPRT bit 0, port connect status. -/
def USBH_STM32_HPRT_PCSTS : Nat := 1 <<< 0
/-- Modelled from the spec: header constant, HPRT bit 1, connect detected. -/
def USBH_STM32_HPRT_PCDET : Nat := 1 <<< 1
/-- Modelled from the spec: header constant, HPRT bit 2, port enable. -/
def USBH_STM32_HPRT_PENA : Nat := 1 <<< 2
/-- Modelled from the spec: header constant, HPRT bit 3, enable changed. -/
def USBH_STM32_HPRT_PENCHNG : Nat := 1 <<< 3

/-- Modelled from the spec: rl_usb.h is not among the sources; endpoint type
codes of the USB endpoint descriptor. -/
def USB_ENDPOINT_TYPE_MASK : Nat := 0x03
/-- Modelled from the spec: header constant, control endpoint. -/
def USB_ENDPOINT_TYPE_CONTROL : Nat := 0x00
/-- Modelled from the spec: header constant, isochronous endpoint. -/
def USB_ENDPOINT_TYPE_ISOCHRONOUS : Nat := 0x01
/-- Modelled from the spec: header constant, bulk endpoint. -/
def USB_ENDPOINT_TYPE_BULK : Nat := 0x02
/-- Modelled from the spec: header constant, interrupt endpoint. -/
def USB_ENDPOINT_TYPE_INTERRUPT : Nat := 0x03

/-- Modelled from the spec: header constant (rl_usb.h), packet kind OUT; the
packet kinds are four-bit codes, pairwise different. -/
def USBH_PACKET_OUT : Nat := 0x1
/-- Modelled from the spec: header constant, packet kind IN. -/
def USBH_PACKET_IN : Nat := 0x9
/-- Modelled from the spec: header constant, packet kind SETUP. -/
def USBH_PACKET_SETUP : Nat := 0xD
/-- Modelled from the spec: header constant, packet kind PING. -/
def USBH_PACKET_PING : Nat := 0x4
/-- Modelled from the spec: header constant, response ACK. -/
def USBH_PACKET_ACK : Nat := 0x2
/-- Modelled from the spec: header constant, response NAK. -/
def USBH_PACKET_NAK : Nat := 0xA
/-- Modelled from the spec: header constant, response STALL. -/
def USBH_PACKET_STALL : Nat := 0xE
/-- Modelled from the spec: header constant, response NYET. -/
def USBH_PACKET_NYET : Nat := 0x6

/-- Modelled from the spec: header constant (rl_usb.h), low speed. -/
def USBH_LS : Nat := 0
/-- Modelled from the spec: header constant, full speed. -/
def USBH_FS : Nat := 1
/-- Modelled from the spec: header constant, high speed. -/
def USBH_HS : Nat := 2

/-- Modelled from the spec: address of the first channel register block
(`&OTG->HCCHAR0`), OTG_FS base 0x50000000 plus offset 0x500. -/
def HCCHAR0_ADDR : Nat := 0x50000500
/-- Modelled from the spec: size in bytes of one `USBH_STM32_CH` block. -/
def SIZEOF_CH : Nat := 0x20

/-! ## Machine arithmetic -/

/-- Reduction to an unsigned 32-bit word. -/
def u32 (x : Nat) : Nat := x % 4294967296

/-- The C operator `~` on an unsigned 32-bit word. -/
def not32 (x : Nat) : Nat := 4294967295 - x % 4294967296

/-- Unsigned 32-bit subtraction, wrapping. -/
def sub32 (a b : Nat) : Nat := (a % 4294967296 + 4294967296 - b % 4294967296) % 4294967296

/-! ## Data -/

/-- Modelled from the spec: the declaration of `USBH_STM32_CH`
(usbh_stm32f20x.h) is not among the sources; the four registers of a channel
register block that the driver uses. -/
structure USBH_STM32_CH where
  HCCHAR : Nat
  HCINT : Nat
  HCINTMSK : Nat
  HCTSIZ : Nat
deriving DecidableEq, Repr

/-- Modelled from the spec: the bit-field `EPTYP` of `USBH_STM32_CH`, bits
18..19 of `HCCHAR` (where `USBH_STM32_EP_Add` puts the endpoint type). -/
def USBH_STM32_CH.EPTYP (c : USBH_STM32_CH) : Nat := (c.HCCHAR >>> 18) &&& 3

/-- Modelled from the spec: the declaration of `USBH_URB` (rl_usb.h) is not
among the sources.  `Parameters` is the word whose low four bits are the
bit-field `PacketType` (bit 4 the toggle value, bit 5 the toggle force, as
`USBH_STM32_CH_TransferEnqueue` decodes it).  `Status` is the word that
overlays the bit-fields `Submitted`, `InProgress`, `Cancelled`, `Completed`,
`Timeout`, `ResponsePacketType` and `Error`: storing 0 into `Status` clears
them all, which is why `USBH_STM32_URB_Submit` copies `ResponsePacketType`
into a local before it stores 0 into `Status`. -/
structure USBH_URB where
  ptrDataBuffer : Nat
  DataLength : Nat
  DataTransferred : Nat
  Parameters : Nat
  Submitted : Bool
  InProgress : Bool
  Cancelled : Bool
  Completed : Bool
  Timeout : Bool
  ResponsePacketType : Nat
  Error : Nat
  NAKRetries : Nat
  TimeoutCount : Nat
  CompletedCallback : Nat
deriving DecidableEq, Repr

/-- The bit-field `PacketType`, the low four bits of `Parameters`. -/
def USBH_URB.PacketType (u : USBH_URB) : Nat := u.Parameters &&& 0x0F

/-- The store `ptrURB->Status = 0`. -/
def USBH_URB.clearStatus (u : USBH_URB) : USBH_URB :=
  { u with Submitted := false, InProgress := false, Cancelled := false, Completed := false,
           Timeout := false, ResponsePacketType := 0, Error := 0 }

/-- Modelled from the spec: the declaration of `USB_ENDPOINT_DESCRIPTOR`
(rl_usb.h) is not among the sources; the four fields the driver reads. -/
structure USB_ENDPOINT_DESCRIPTOR where
  bEndpointAddress : Nat
  bmAttributes : Nat
  wMaxPacketSize : Nat
  bInterval : Nat
deriving DecidableEq, Repr

/-- Modelled from the spec: the declaration of `DMA_Stream_TypeDef` is not
among the sources; the registers of DMA2 stream 0 the driver uses, and
`DMA2->LIFCR`. -/
structure DMA_Stream where
  CR : Nat
  NDTR : Nat
  PAR : Nat
  M0AR : Nat
  M1AR : Nat
  FCR : Nat
  LIFCR : Nat
deriving DecidableEq, Repr

/-- One recorded hardware operation. -/
inductive HwOp where
  | wrHCCHAR (ch v : Nat)
  | wrHCINT (ch v : Nat)
  | wrHCINTMSK (ch v : Nat)
  | wrHCTSIZ (ch v : Nat)
  | dmaStop
  | dmaWait
  | dmaStart (dest src len : Nat)
  | callback (fn : Nat)
  | rdGRXSTSP
deriving DecidableEq, Repr

/-- The driver's static variables, the controller registers it uses, and the
client memory it reaches. -/
structure State where
  /-- Channel register blocks, by channel index. -/
  CH : Nat → USBH_STM32_CH
  HW_Accessing : Bool
  /-- Slot `CHURB[ch]`: a pointer to the URB of the channel (0 when empty). -/
  CHURB : Nat → Nat
  cntInterval : Nat → Nat
  cntIntervalMax : Nat → Nat
  cntDebounce : Nat
  Port_Discon_Evt : Nat
  Port_Speed : Nat
  Port_Con : Nat
  GINTSTS : Nat
  GINTMSK : Nat
  HPRT : Nat
  HAINT : Nat
  /-- The entry on top of the receive status queue (GRXSTSR / GRXSTSP). -/
  GRXSTS : Nat
  DMA : DMA_Stream
  /-- The client's URBs, by address. -/
  URB : Nat → USBH_URB
  /-- Byte memory holding the data buffers. -/
  mem : Nat → Nat
  /-- The words the receive FIFO delivers, in order. -/
  fifo : List Nat
  /-- The values the polled registers deliver, in order. -/
  hw : List Nat
  log : List HwOp

/-! ## State access -/

/-- One volatile read inside a polling loop. -/
def poll (s : State) : Nat × State :=
  match s.hw with
  | [] => (0, s)
  | v :: rest => (v, { s with hw := rest })

/-- Store to `HCCHAR` of channel `ch`. -/
def wrHCCHAR (s : State) (ch v : Nat) : State :=
  { s with CH := Function.update s.CH ch { s.CH ch with HCCHAR := v },
           log := s.log ++ [HwOp.wrHCCHAR ch v] }

/-- Store to `HCINT` of channel `ch`. -/
def wrHCINT (s : State) (ch v : Nat) : State :=
  { s with CH := Function.update s.CH ch { s.CH ch with HCINT := v },
           log := s.log ++ [HwOp.wrHCINT ch v] }

/-- Store to `HCINTMSK` of channel `ch`. -/
def wrHCINTMSK (s : State) (ch v : Nat) : State :=
  { s with CH := Function.update s.CH ch { s.CH ch with HCINTMSK := v },
           log := s.log ++ [HwOp.wrHCINTMSK ch v] }

/-- Store to `HCTSIZ` of channel `ch`. -/
def wrHCTSIZ (s : State) (ch v : Nat) : State :=
  { s with CH := Function.update s.CH ch { s.CH ch with HCTSIZ := v },
           log := s.log ++ [HwOp.wrHCTSIZ ch v] }

/-- Store through a URB pointer: the URB at address `p` becomes `f` of it. -/
def modURB (s : State) (p : Nat) (f : USBH_URB → USBH_URB) : State :=
  { s with URB := Function.update s.URB p (f (s.URB p)) }

/-- Store to `CHURB[ch]`. -/
def setCHURB (s : State) (ch p : Nat) : State :=
  { s with CHURB := Function.update s.CHURB ch p }

/-! ## DMA functions -/

/-- The polling loop of `USBH_STM32_DMA_Stop`, `tout` counting down to 0. -/
def DMA_Stop_loop : Nat → State → State × Bool
  | tout, s =>
    let r := poll s
    let s1 : State := { r.2 with DMA := { r.2.DMA with CR := r.1 } }
    if r.1 &&& 1 = 0 then (s1, true)
    else
      match tout with
      | 0 => (s1, false)
      | t + 1 => DMA_Stop_loop t s1

/-- Function `USBH_STM32_DMA_Stop`: disable the stream, then wait for it to read as
disabled. -/
def USBH_STM32_DMA_Stop (s : State) : State × Bool :=
  let s1 : State := { s with DMA := { s.DMA with CR := 0 }, log := s.log ++ [HwOp.dmaStop] }
  DMA_Stop_loop 1010 s1

/-- Function `USBH_STM32_DMA_Start`. -/
def USBH_STM32_DMA_Start (s : State) (ptrDest ptrSrc len : Nat) : State × Bool :=
  let cr : Nat := 0 ||| ((0 <<< 23) ||| (0 <<< 21) ||| (0 <<< 19) ||| (0 <<< 18) ||| (0 <<< 16) |||
      (0 <<< 15) ||| (2 <<< 13) ||| (2 <<< 11) ||| (1 <<< 10) ||| (1 <<< 9) ||| (0 <<< 8) |||
      (2 <<< 6) ||| (0 <<< 5) ||| (0 <<< 4) ||| (0 <<< 3) ||| (0 <<< 2) ||| (0 <<< 1))
  ({ s with DMA := { LIFCR := 0x3D, PAR := ptrSrc, M1AR := 0, M0AR := ptrDest,
                     NDTR := ((len % 65536) + 3) / 4, FCR := 0, CR := cr ||| (1 <<< 0) },
            log := s.log ++ [HwOp.dmaStart ptrDest ptrSrc (len % 65536)] }, true)

/-- The polling loop of `USBH_STM32_DMA_Wait`. -/
def DMA_Wait_loop : Nat → State → State × Bool
  | tout, s =>
    let r := poll s
    let s1 : State := { r.2 with DMA := { r.2.DMA with CR := r.1 } }
    if r.1 &&& 1 = 0 then (s1, true)
    else
      let r2 := poll s1
      let s2 : State := { r2.2 with DMA := { r2.2.DMA with NDTR := r2.1 } }
      if r2.1 = 0 then (s2, true)
      else
        match tout with
        | 0 => (s2, false)
        | t + 1 => DMA_Wait_loop t s2

/-- Function `USBH_STM32_DMA_Wait`: wait for the running load to finish, then stop the
stream. -/
def USBH_STM32_DMA_Wait (s : State) : State × Bool :=
  let r := DMA_Wait_loop 1010 { s with log := s.log ++ [HwOp.dmaWait] }
  if r.2 = false then (r.1, false)
  else
    let r2 := USBH_STM32_DMA_Stop r.1
    if r2.2 = false then (r2.1, false) else (r2.1, true)

/-! ## Channel functions -/

/-- Function `USBH_STM32_CH_GetIndexFromCH`: the pointer difference to channel 0. -/
def USBH_STM32_CH_GetIndexFromCH (ptrCH : Nat) : Nat := (ptrCH - HCCHAR0_ADDR) / SIZEOF_CH

/-- Function `USBH_STM32_CH_GetCHFromIndex`. -/
def USBH_STM32_CH_GetCHFromIndex (idx : Nat) : Nat := HCCHAR0_ADDR + SIZEOF_CH * idx

/-- Modelled from the spec: the addresses `OTG_FS_DFIFO0` .. `OTG_FS_DFIFO7`
in the table `OTG_DFIFO` come from the missing header; the FIFO windows start
at offset 0x1000 of the controller and are 0x1000 apart. -/
def OTG_DFIFO (ch : Nat) : Nat := 0x50001000 + 0x1000 * ch

/-- The interrupt mask `USBH_STM32_CH_TransferEnqueue` selects for a packet
kind (the `hcintmsk` part of its `switch`). -/
def enqueue_hcintmsk (tgl_typ : Nat) : Nat :=
  if tgl_typ &&& 0x0F = USBH_PACKET_IN then
    USBH_STM32_HCINTMSK_DTERRM ||| USBH_STM32_HCINTMSK_BBERRM ||| USBH_STM32_HCINTMSK_TXERRM |||
    USBH_STM32_HCINTMSK_ACKM ||| USBH_STM32_HCINTMSK_NAKM ||| USBH_STM32_HCINTMSK_STALLM |||
    USBH_STM32_HCINTMSK_XFRCM
  else if tgl_typ &&& 0x0F = USBH_PACKET_OUT then
    USBH_STM32_HCINTMSK_TXERRM ||| USBH_STM32_HCINTMSK_NYET ||| USBH_STM32_HCINTMSK_NAKM |||
    USBH_STM32_HCINTMSK_STALLM ||| USBH_STM32_HCINTMSK_XFRCM
  else if tgl_typ &&& 0x0F = USBH_PACKET_SETUP then
    USBH_STM32_HCINTMSK_TXERRM ||| USBH_STM32_HCINTMSK_NAKM ||| USBH_STM32_HCINTMSK_STALLM |||
    USBH_STM32_HCINTMSK_XFRCM
  else if tgl_typ &&& 0x0F = USBH_PACKET_PING then
    USBH_STM32_HCINTMSK_TXERRM ||| USBH_STM32_HCINTMSK_ACKM ||| USBH_STM32_HCINTMSK_NAKM |||
    USBH_STM32_HCINTMSK_STALLM ||| USBH_STM32_HCINTMSK_XFRCM
  else 0

/-- The value `USBH_STM32_CH_TransferEnqueue` prepares for `HCCHAR`. -/
def enqueue_hcchar (hcchar0 tgl_typ : Nat) : Nat :=
  let hcchar := hcchar0 &&& (USBH_STM32_HCCHAR_ODDFRM ||| USBH_STM32_HCCHAR_DAD |||
      USBH_STM32_HCCHAR_MCNT ||| USBH_STM32_HCCHAR_EPTYP ||| USBH_STM32_HCCHAR_LSDEV |||
      USBH_STM32_HCCHAR_EPNUM ||| USBH_STM32_HCCHAR_MPSIZ)
  let hcchar :=
    if tgl_typ &&& 0x0F = USBH_PACKET_IN then hcchar ||| USBH_STM32_HCCHAR_EPDIR
    else if tgl_typ &&& 0x0F = USBH_PACKET_OUT then hcchar &&& not32 USBH_STM32_HCCHAR_EPDIR
    else if tgl_typ &&& 0x0F = USBH_PACKET_SETUP then hcchar &&& not32 USBH_STM32_HCCHAR_EPDIR
    else if tgl_typ &&& 0x0F = USBH_PACKET_PING then hcchar &&& not32 USBH_STM32_HCCHAR_EPDIR
    else hcchar
  let hcchar := hcchar &&& not32 USBH_STM32_HCCHAR_CHDIS
  hcchar ||| USBH_STM32_HCCHAR_CHENA

/-- The data PID part of the value `USBH_STM32_CH_TransferEnqueue` prepares
for `HCTSIZ`: the old DPID is kept, replaced by MDATA for SETUP or by the
forced toggle value, and DOPING is added for PING. -/
def enqueue_dpid (hctsiz0 tgl_typ : Nat) : Nat :=
  let hctsiz := hctsiz0 &&& USBH_STM32_HCTSIZ_DPID
  let hctsiz :=
    if tgl_typ &&& 0x0F = USBH_PACKET_SETUP then
      (hctsiz &&& not32 USBH_STM32_HCTSIZ_DPID) ||| USBH_STM32_HCTSIZ_DPID_MDATA
    else if (tgl_typ >>> 5) &&& 1 ≠ 0 then
      if (tgl_typ >>> 4) &&& 1 ≠ 0 then
        (hctsiz &&& not32 USBH_STM32_HCTSIZ_DPID) ||| USBH_STM32_HCTSIZ_DPID_DATA1
      else
        (hctsiz &&& not32 USBH_STM32_HCTSIZ_DPID) ||| USBH_STM32_HCTSIZ_DPID_DATA0
    else hctsiz
  if tgl_typ &&& 0x0F = USBH_PACKET_PING then hctsiz ||| USBH_STM32_HCTSIZ_DOPING else hctsiz

/-- The value `USBH_STM32_CH_TransferEnqueue` prepares for `HCTSIZ`, from the
register's old value, the prepared `HCCHAR`, the packet kind and toggle, and
the length. -/
def enqueue_hctsiz (hctsiz0 hcchar tgl_typ len : Nat) : Nat :=
  let hctsiz := enqueue_dpid hctsiz0 tgl_typ
  let mpsiz := hcchar &&& 0x7FF
  if len ≠ 0 then
    (hctsiz ||| u32 ((u32 (len + mpsiz - 1) / mpsiz) <<< 19)) ||| u32 (len <<< 0)
  else
    (hctsiz ||| (1 <<< 19)) ||| (0 <<< 0)

/-- Function `USBH_STM32_CH_TransferEnqueue`. -/
def USBH_STM32_CH_TransferEnqueue (s : State) (ptrCH tgl_typ buf len : Nat) : State × Bool :=
  if ptrCH = 0 then (s, false)
  else if s.Port_Con = 0 then (s, false)
  else
    let ch_idx := USBH_STM32_CH_GetIndexFromCH ptrCH
    let hcchar := enqueue_hcchar (s.CH ch_idx).HCCHAR tgl_typ
    let hctsiz := enqueue_hctsiz (s.CH ch_idx).HCTSIZ hcchar tgl_typ len
    let hcintmsk := enqueue_hcintmsk tgl_typ
    let s1 := wrHCINTMSK s ch_idx hcintmsk
    let s2 := wrHCTSIZ s1 ch_idx hctsiz
    let load_data : Bool :=
      (decide (tgl_typ &&& 0x0F = USBH_PACKET_OUT) || decide (tgl_typ &&& 0x0F = USBH_PACKET_SETUP))
        && decide (len ≠ 0)
    let s3 := if load_data then (USBH_STM32_DMA_Wait s2).1 else s2
    let s4 := wrHCCHAR s3 ch_idx hcchar
    let s5 := if load_data then (USBH_STM32_DMA_Start s4 (OTG_DFIFO ch_idx) buf len).1 else s4
    (s5, true)

/-- The loop of `USBH_STM32_CH_FindFree`: a pointer to the first channel
whose `HCCHAR` reads 0 (0 when there is none); the scan is at index `i` and
has `n` channels left. -/
def CH_FindFree_loop (s : State) : Nat → Nat → Nat
  | 0, _ => 0
  | n + 1, i =>
    if (s.CH i).HCCHAR = 0 then USBH_STM32_CH_GetCHFromIndex i
    else CH_FindFree_loop s n (i + 1)

/-- Function `USBH_STM32_CH_FindFree`. -/
def USBH_STM32_CH_FindFree (s : State) : Nat := CH_FindFree_loop s OTG_FS_MAX_CH 0

/-- The polling loop of `USBH_STM32_CH_Disable` on channel `ch`: wait for the
halted cause, or for enable and disable both reading as set. -/
def CH_Disable_loop (ch : Nat) : Nat → State → State × Bool
  | tout, s =>
    let r := poll s
    let s1 : State := { r.2 with CH := Function.update r.2.CH ch { r.2.CH ch with HCINT := r.1 } }
    if r.1 &&& USBH_STM32_HCINT_CHH ≠ 0 then (s1, true)
    else
      let r2 := poll s1
      let s2 : State :=
        { r2.2 with CH := Function.update r2.2.CH ch { r2.2.CH ch with HCCHAR := r2.1 } }
      if r2.1 &&& (USBH_STM32_HCCHAR_CHENA ||| USBH_STM32_HCCHAR_CHDIS)
          = (USBH_STM32_HCCHAR_CHENA ||| USBH_STM32_HCCHAR_CHDIS) then (s2, true)
      else
        match tout with
        | 0 => (s2, false)
        | t + 1 => CH_Disable_loop ch t s2

/-- Function `USBH_STM32_CH_Disable`. -/
def USBH_STM32_CH_Disable (s : State) (ptrCH : Nat) : State × Bool :=
  if ptrCH = 0 then (s, false)
  else
    let ch := USBH_STM32_CH_GetIndexFromCH ptrCH
    let s1 := wrHCINTMSK s ch 0
    if (s1.CH ch).HCCHAR &&& USBH_STM32_HCCHAR_CHENA ≠ 0 then
      let r :=
        if (s1.CH ch).HCCHAR &&& USBH_STM32_HCCHAR_EPDIR = 0 ∧ (s1.CH ch).HCTSIZ ≠ 0 then
          USBH_STM32_DMA_Stop s1
        else (s1, true)
      if r.2 = false then (r.1, false)
      else
        let s2 := wrHCINT r.1 ch (not32 USBH_STM32_HCINT_CHH)
        let s3 := wrHCCHAR s2 ch ((s2.CH ch).HCCHAR ||| USBH_STM32_HCCHAR_CHENA)
        let s4 := wrHCCHAR s3 ch
          (((s3.CH ch).HCCHAR &&& not32 USBH_STM32_HCCHAR_CHENA) ||| USBH_STM32_HCCHAR_CHDIS)
        CH_Disable_loop ch 1010 s4
    else (s1, true)

/-! ## Endpoint functions -/

/-- The value `USBH_STM32_EP_Add` and `USBH_STM32_EP_Config` store into
`HCCHAR` first: the static fields of the endpoint. -/
def ep_hcchar (dev_adr ep_spd : Nat) (ptrEPD : USB_ENDPOINT_DESCRIPTOR) : Nat :=
  ((ptrEPD.wMaxPacketSize &&& 0x07FF) <<< 0) |||
  ((ptrEPD.bEndpointAddress &&& 0x000F) <<< 11) |||
  (((ptrEPD.bEndpointAddress >>> 7) &&& 0x0001) <<< 15) |||
  ((if ep_spd = USBH_LS then 1 else 0) <<< 17) |||
  ((ptrEPD.bmAttributes &&& USB_ENDPOINT_TYPE_MASK) <<< 18) |||
  ((dev_adr &&& 0x007F) <<< 22)

/-- Function `USBH_STM32_EP_Add`: returns the handle (0 = fail). -/
def USBH_STM32_EP_Add (s : State) (dev_adr ep_spd : Nat) (ptrEPD : USB_ENDPOINT_DESCRIPTOR) :
    State × Nat :=
  let ptr_CH := USBH_STM32_CH_FindFree s
  if ptr_CH = 0 then (s, 0)
  else
    let ch := USBH_STM32_CH_GetIndexFromCH ptr_CH
    let s1 := wrHCCHAR s ch (ep_hcchar dev_adr ep_spd ptrEPD)
    let typ := ptrEPD.bmAttributes &&& USB_ENDPOINT_TYPE_MASK
    if typ = USB_ENDPOINT_TYPE_CONTROL ∨ typ = USB_ENDPOINT_TYPE_BULK then (s1, ptr_CH)
    else if typ = USB_ENDPOINT_TYPE_ISOCHRONOUS ∨ typ = USB_ENDPOINT_TYPE_INTERRUPT then
      let s2 : State :=
        { s1 with cntIntervalMax := Function.update s1.cntIntervalMax ch (ptrEPD.bInterval % 256) }
      (wrHCCHAR s2 ch ((s2.CH ch).HCCHAR ||| USBH_STM32_HCCHAR_MCNT1), ptr_CH)
    else (s1, ptr_CH)

/-! ## URB functions -/

/-- Function `USBH_STM32_URB_Cancel`. -/
def USBH_STM32_URB_Cancel (s : State) (hndl ptrURB : Nat) : State × Bool :=
  if hndl = 0 then (s, false)
  else if ptrURB = 0 then (s, false)
  else if (s.URB ptrURB).Submitted = false then (s, true)
  else
    let s1 := modURB s ptrURB (fun u => { u with Submitted := false })
    let ptr_CH := hndl
    let r :=
      if (s1.URB ptrURB).InProgress = true then
        let d := USBH_STM32_CH_Disable s1 ptr_CH
        if d.2 = false then (d.1, false)
        else (modURB d.1 ptrURB (fun u => { u with InProgress := false }), true)
      else (s1, true)
    if r.2 = false then (r.1, false)
    else
      let s2 := r.1
      let ch_idx := USBH_STM32_CH_GetIndexFromCH ptr_CH
      let s3 : State :=
        if s2.cntInterval ch_idx = 0 then
          { s2 with cntInterval := Function.update s2.cntInterval ch_idx 0 }
        else s2
      let s4 := setCHURB s3 ch_idx 0
      (modURB s4 ptrURB (fun u => { u with Cancelled := true }), true)

/-- Function `USBH_STM32_EP_Remove`. -/
def USBH_STM32_EP_Remove (s : State) (hndl : Nat) : State × Bool :=
  if hndl = 0 then (s, false)
  else
    let ptr_CH := hndl
    let ch_idx := USBH_STM32_CH_GetIndexFromCH ptr_CH
    let ptr_URB := s.CHURB ch_idx
    let r := if ptr_URB ≠ 0 then USBH_STM32_URB_Cancel s hndl ptr_URB else (s, true)
    if r.2 = false then (r.1, false)
    else
      let s1 := wrHCCHAR r.1 ch_idx 0
      let s2 := wrHCINT s1 ch_idx 0
      let s3 := wrHCINTMSK s2 ch_idx 0
      let s4 := wrHCTSIZ s3 ch_idx 0
      ({ s4 with cntInterval := Function.update s4.cntInterval ch_idx 0 }, true)

/-- Function `USBH_STM32_URB_Submit`.  The local `max_cnt` is declared without an
initial value; `max_cnt0` is the value it happens to hold, which reaches
`cntInterval` only when `Port_Speed` is none of the three speeds. -/
def USBH_STM32_URB_Submit (s : State) (hndl ptrURB max_cnt0 : Nat) : State × Bool :=
  if hndl = 0 then (s, false)
  else if ptrURB = 0 then (s, false)
  else if s.Port_Con = 0 then (s, false)
  else if (s.URB ptrURB).Submitted = true ∨ (s.URB ptrURB).InProgress = true then (s, false)
  else
    let resp_type := (s.URB ptrURB).ResponsePacketType
    let s1 := modURB s ptrURB (fun u => { u with DataTransferred := 0 })
    let s2 := modURB s1 ptrURB USBH_URB.clearStatus
    let s3 := modURB s2 ptrURB (fun u => { u with TimeoutCount := MAX_TIMEOUT_COUNT })
    let ptr_CH := hndl
    let ch_idx := USBH_STM32_CH_GetIndexFromCH ptr_CH
    let s4 := setCHURB s3 ch_idx ptrURB
    if (s4.CH ch_idx).EPTYP = USB_ENDPOINT_TYPE_INTERRUPT then
      let s5 : State :=
        if resp_type = USBH_PACKET_NAK then
          let max_cnt :=
            if s4.Port_Speed = USBH_HS then
              let m := s4.cntIntervalMax ch_idx &&& 0x0F
              let m := if m = 0 then 1 else m
              (1 <<< m) % 65536
            else if s4.Port_Speed = USBH_FS ∨ s4.Port_Speed = USBH_LS then
              let m := s4.cntIntervalMax ch_idx &&& 0xFF
              if m = 0 then 1 else m
            else max_cnt0
          { s4 with cntInterval := Function.update s4.cntInterval ch_idx max_cnt }
        else
          { s4 with cntInterval := Function.update s4.cntInterval ch_idx 1 }
      (modURB s5 ptrURB (fun u => { u with Submitted := true }), true)
    else if (s4.CH ch_idx).EPTYP = USB_ENDPOINT_TYPE_CONTROL ∨
        (s4.CH ch_idx).EPTYP = USB_ENDPOINT_TYPE_BULK then
      if s4.Port_Speed &&& 3 ≠ USBH_LS then
        let s5 : State := { s4 with HW_Accessing := true }
        let s6 := modURB s5 ptrURB (fun u => { u with Submitted := true })
        let s7 := modURB s6 ptrURB (fun u => { u with InProgress := true })
        let s8 := (USBH_STM32_CH_TransferEnqueue s7 ptr_CH ((s7.URB ptrURB).Parameters % 256)
          (s7.URB ptrURB).ptrDataBuffer (s7.URB ptrURB).DataLength).1
        ({ s8 with HW_Accessing := false }, true)
      else
        (modURB s4 ptrURB (fun u => { u with Submitted := true }), true)
    else (s4, true)

/-! ## Interrupt handler -/

/-- The mask the handler stores to re-arm an IN channel (the same seven
causes as for an IN transfer). -/
def hcintmsk_in : Nat :=
  USBH_STM32_HCINTMSK_DTERRM ||| USBH_STM32_HCINTMSK_BBERRM ||| USBH_STM32_HCINTMSK_TXERRM |||
  USBH_STM32_HCINTMSK_ACKM ||| USBH_STM32_HCINTMSK_NAKM ||| USBH_STM32_HCINTMSK_STALLM |||
  USBH_STM32_HCINTMSK_XFRCM

/-- Start of frame, first loop, one channel: count the URB's timeout down and
flag it when it reaches 0. -/
def irq_sof_timeout (s : State) (ch : Nat) : State :=
  if s.CHURB ch ≠ 0 then
    if (s.URB (s.CHURB ch)).TimeoutCount ≠ 0 then
      let s1 := modURB s (s.CHURB ch) (fun u => { u with TimeoutCount := u.TimeoutCount - 1 })
      if (s1.URB (s.CHURB ch)).TimeoutCount = 0 then
        modURB s1 (s.CHURB ch) (fun u => { u with Timeout := true })
      else s1
    else s
  else s

/-- Host port interrupt, the part under "port enable changed": latch the
speed when the port is enabled; detect the loss of the connected status. -/
def irq_penchng (s : State) (hprt : Nat) : State :=
  let s1 : State :=
    if hprt &&& USBH_STM32_HPRT_PENA ≠ 0 then
      let sp := s.Port_Speed &&& not32 3
      { s with Port_Speed :=
          if (hprt >>> 17) &&& 3 = 0 then sp ||| USBH_HS
          else if (hprt >>> 17) &&& 3 = 1 then sp ||| USBH_FS
          else if (hprt >>> 17) &&& 3 = 2 then sp ||| USBH_LS
          else sp }
    else s
  if hprt &&& USBH_STM32_HPRT_PCSTS = 0 ∧ s1.Port_Con ≠ 0 then
    { s1 with Port_Discon_Evt := 1, Port_Con := 0 }
  else s1

/-- Host port interrupt: debounce restart on connect detection, the
enable-changed part, and the store that clears the port interrupt. -/
def irq_hprt (s : State) (gintsts hprt : Nat) : State :=
  if gintsts &&& USBH_STM32_GINTSTS_HPRTINT ≠ 0 then
    let s1 : State :=
      if hprt &&& USBH_STM32_HPRT_PCDET ≠ 0 ∧ s.Port_Con = 0 then
        { s with cntDebounce := DEBOUNCE_500ms }
      else s
    let s2 : State :=
      if hprt &&& USBH_STM32_HPRT_PENCHNG ≠ 0 then irq_penchng s1 hprt else s1
    { s2 with HPRT := hprt &&& not32 USBH_STM32_HPRT_PENA }
  else s

/-- Disconnect interrupt while connected: flag the disconnect. -/
def irq_discint (s : State) (gintsts : Nat) : State :=
  if gintsts &&& USBH_STM32_GINTSTS_DISCINT ≠ 0 ∧ s.Port_Con ≠ 0 then
    { s with Port_Discon_Evt := 1, Port_Con := 0 }
  else s

/-- Host port interrupt and disconnect interrupt, in the handler's order. -/
def irq_port (s : State) (gintsts hprt : Nat) : State :=
  irq_discint (irq_hprt s gintsts hprt) gintsts

/-- Disconnect sweep, one channel: cancel the channel's URB if it has one. -/
def irq_discon_cancel (s : State) (ch : Nat) : State :=
  if s.CHURB ch ≠ 0 then
    (USBH_STM32_URB_Cancel s (USBH_STM32_CH_GetCHFromIndex ch) (s.CHURB ch)).1
  else s

/-- One read of the receive FIFO window. -/
def fifoRead (s : State) : Nat × State :=
  match s.fifo with
  | [] => (0, s)
  | v :: rest => (v, { s with fifo := rest })

/-- Store of one byte into the data memory. -/
def storeByte (s : State) (a v : Nat) : State :=
  { s with mem := Function.update s.mem a (v % 256) }

/-- Receive drain, the word loop `while (len--)`: each word read from the FIFO
is stored at `a` (little-endian) and the URB's count grows by 4.  The pointer
`ptrData32` is a 32-bit value: the byte addresses of the word and the address
of the next word are taken modulo 2^32. -/
def irq_rx_words : Nat → State → Nat → Nat → State × Nat
  | 0, s, _, a => (s, a)
  | n + 1, s, p, a =>
    let r := fifoRead s
    let s1 := storeByte r.2 a r.1
    let s2 := storeByte s1 (u32 (a + 1)) (r.1 >>> 8)
    let s3 := storeByte s2 (u32 (a + 2)) (r.1 >>> 16)
    let s4 := storeByte s3 (u32 (a + 3)) (r.1 >>> 24)
    let s5 := modURB s4 p (fun u => { u with DataTransferred := u32 (u.DataTransferred + 4) })
    irq_rx_words n s5 p (u32 (a + 4))

/-- Receive drain, the byte loop `while (len_rest--)` over the last word; the
pointer `ptrData8` is a 32-bit value and steps modulo 2^32. -/
def irq_rx_bytes : Nat → State → Nat → Nat → Nat → State
  | 0, s, _, _, _ => s
  | n + 1, s, p, a, dat =>
    let s1 := storeByte s a dat
    let s2 := modURB s1 p (fun u => { u with DataTransferred := u32 (u.DataTransferred + 1) })
    irq_rx_bytes n s2 p (u32 (a + 1)) (dat >>> 8)

/-- Receive FIFO interrupt.  The status queue is read twice: `GRXSTSR` peeks,
`GRXSTSP` pops (recorded in the log); both deliver `State.GRXSTS`.  The result
is `none` when the status word names a channel index outside the arrays or a
channel without URB (the handler would go through an invalid pointer). -/
def irq_rx (s : State) : Option State :=
  let s1 : State := { s with GINTMSK := s.GINTMSK &&& not32 USBH_STM32_GINTMSK_RXFLVLM }
  let grxsts := s1.GRXSTS
  if (grxsts >>> 17) &&& 0x0F = 0x02 then
    let s1p : State := { s1 with log := s1.log ++ [HwOp.rdGRXSTSP] }
    let ch := (grxsts >>> 0) &&& 0x00F
    let bcnt := (grxsts >>> 4) &&& 0x7FF
    if OTG_FS_MAX_CH ≤ ch then none
    else
      let ptr_URB := s1p.CHURB ch
      if ptr_URB = 0 then none
      else
        let a := u32 ((s1p.URB ptr_URB).ptrDataBuffer + (s1p.URB ptr_URB).DataTransferred)
        let len := bcnt / 4
        let len_rest := bcnt &&& 3
        let r := irq_rx_words len s1p ptr_URB a
        let s2 :=
          if len_rest ≠ 0 then
            let d := fifoRead r.1
            irq_rx_bytes len_rest d.2 ptr_URB r.2 d.1
          else r.1
        some { s2 with GINTMSK := s2.GINTMSK ||| USBH_STM32_GINTMSK_RXFLVLM }
  else
    let s1p : State := { s1 with log := s1.log ++ [HwOp.rdGRXSTSP] }
    some { s1p with GINTMSK := s1p.GINTMSK ||| USBH_STM32_GINTMSK_RXFLVLM }

/-- The retry test `(EPTYP != INTERRUPT) && (ResponsePacketType == NAK) &&
(NAKRetries--)` of the channel-halted branches: the state after the test
(with `NAKRetries` decremented when the third operand was evaluated) and the
outcome. -/
def irq_retry_test (s : State) (ch p : Nat) : State × Bool :=
  if (s.CH ch).EPTYP ≠ USB_ENDPOINT_TYPE_INTERRUPT ∧
      (s.URB p).ResponsePacketType = USBH_PACKET_NAK then
    (modURB s (s.CHURB ch) (fun u => { u with NAKRetries := sub32 u.NAKRetries 1 }),
      decide ((s.URB (s.CHURB ch)).NAKRetries ≠ 0))
  else (s, false)

/-- The channel-halted branch of OUT, SETUP and PING: retry through
`USBH_STM32_CH_TransferEnqueue` with the rest of the buffer, or finalize. -/
def irq_chh_out (s : State) (ch p : Nat) : State :=
  let t := irq_retry_test s ch p
  if t.2 = true then
    let s1 := t.1
    let u := s1.URB (s1.CHURB ch)
    let s2 := (USBH_STM32_CH_TransferEnqueue s1 (USBH_STM32_CH_GetCHFromIndex ch)
      (u.Parameters % 256) (u32 (u.ptrDataBuffer + u.DataTransferred))
      (sub32 u.DataLength u.DataTransferred)).1
    modURB s2 (s2.CHURB ch) (fun u => { u with TimeoutCount := MAX_TIMEOUT_COUNT })
  else
    let s1 := wrHCINTMSK t.1 ch 0
    let s2 := modURB s1 p (fun u => { u with Submitted := false })
    let s3 := modURB s2 p (fun u => { u with InProgress := false })
    let s4 := modURB s3 p (fun u => { u with Completed := true })
    setCHURB s4 ch 0

/-- Channel interrupt of a channel whose URB is an OUT or SETUP packet. -/
def irq_ch_out (s : State) (ch p hcint : Nat) : State :=
  if hcint &&& USBH_STM32_HCINT_XFRC ≠ 0 then
    let s1 := (USBH_STM32_DMA_Stop s).1
    let s2 := wrHCINTMSK s1 ch 0
    let s3 := modURB s2 p (fun u => { u with DataTransferred := u.DataLength })
    let s4 := modURB s3 p USBH_URB.clearStatus
    let s5 :=
      if hcint &&& USBH_STM32_HCINT_NYET ≠ 0 then
        modURB s4 p (fun u => { u with ResponsePacketType := USBH_PACKET_NYET })
      else modURB s4 p (fun u => { u with ResponsePacketType := USBH_PACKET_ACK })
    let s6 := modURB s5 p (fun u => { u with Completed := true })
    setCHURB s6 ch 0
  else if hcint &&& USBH_STM32_HCINT_STALL ≠ 0 then
    let s1 := (USBH_STM32_DMA_Stop s).1
    let s2 := modURB s1 p (fun u => { u with ResponsePacketType := USBH_PACKET_STALL })
    let s3 := wrHCINTMSK s2 ch USBH_STM32_HCINT_CHH
    wrHCCHAR s3 ch ((s3.CH ch).HCCHAR ||| USBH_STM32_HCCHAR_CHDIS)
  else if hcint &&& USBH_STM32_HCINT_NAK ≠ 0 ∨ hcint &&& USBH_STM32_HCINT_NYET ≠ 0 ∨
      hcint &&& USBH_STM32_HCINT_TXERR ≠ 0 then
    let s1 := (USBH_STM32_DMA_Stop s).1
    let s2 :=
      if hcint &&& USBH_STM32_HCINT_NAK ≠ 0 then
        wrHCINTMSK (modURB s1 p (fun u => { u with ResponsePacketType := USBH_PACKET_NAK }))
          ch USBH_STM32_HCINT_CHH
      else if hcint &&& USBH_STM32_HCINT_NYET ≠ 0 then
        wrHCINTMSK (modURB s1 p (fun u => { u with ResponsePacketType := USBH_PACKET_NYET }))
          ch USBH_STM32_HCINT_CHH
      else
        wrHCINTMSK (modURB s1 p (fun u => { u with Error := USBH_STM32_HCINT_TXERR >>> 7 }))
          ch (USBH_STM32_HCINT_ACK ||| USBH_STM32_HCINT_CHH)
    let s3 :=
      if (s2.URB p).DataLength ≠ 0 then
        let pktcnt := ((s2.CH ch).HCTSIZ >>> 19) &&& 0x3FF
        let mpsiz := ((s2.CH ch).HCCHAR >>> 0) &&& 0x7FF
        modURB s2 p (fun u =>
          { u with DataTransferred :=
                     u32 (sub32 (u32 (u.DataLength + mpsiz - 1) / mpsiz) pktcnt * mpsiz) })
      else s2
    wrHCCHAR s3 ch ((s3.CH ch).HCCHAR ||| (USBH_STM32_HCCHAR_CHENA ||| USBH_STM32_HCCHAR_CHDIS))
  else if hcint &&& USBH_STM32_HCINT_CHH ≠ 0 then
    irq_chh_out s ch p
  else if hcint &&& USBH_STM32_HCINT_ACK ≠ 0 then
    let s1 := modURB s p (fun u => { u with ResponsePacketType := USBH_PACKET_ACK })
    let s2 := modURB s1 p (fun u => { u with Error := 0 })
    wrHCINTMSK s2 ch ((s2.CH ch).HCINTMSK &&& not32 USBH_STM32_HCINT_ACK)
  else s

/-- Channel interrupt of a channel whose URB is a PING packet. -/
def irq_ch_ping (s : State) (ch p hcint : Nat) : State :=
  if hcint &&& USBH_STM32_HCINT_STALL ≠ 0 then
    let s1 := modURB s p (fun u => { u with ResponsePacketType := USBH_PACKET_STALL })
    let s2 := wrHCINTMSK s1 ch USBH_STM32_HCINT_CHH
    wrHCCHAR s2 ch ((s2.CH ch).HCCHAR ||| USBH_STM32_HCCHAR_CHDIS)
  else if hcint &&& USBH_STM32_HCINT_NAK ≠ 0 ∨ hcint &&& USBH_STM32_HCINT_TXERR ≠ 0 then
    let s1 :=
      if hcint &&& USBH_STM32_HCINT_NAK ≠ 0 then
        wrHCINTMSK (modURB s p (fun u => { u with ResponsePacketType := USBH_PACKET_NAK }))
          ch USBH_STM32_HCINT_CHH
      else
        wrHCINTMSK (modURB s p (fun u => { u with Error := USBH_STM32_HCINT_TXERR >>> 7 }))
          ch (USBH_STM32_HCINT_ACK ||| USBH_STM32_HCINT_CHH)
    wrHCCHAR s1 ch ((s1.CH ch).HCCHAR ||| USBH_STM32_HCCHAR_CHDIS)
  else if hcint &&& USBH_STM32_HCINT_CHH ≠ 0 then
    irq_chh_out s ch p
  else if hcint &&& USBH_STM32_HCINT_ACK ≠ 0 then
    let s1 := modURB s p (fun u => { u with ResponsePacketType := USBH_PACKET_ACK })
    let s2 := modURB s1 p (fun u => { u with Error := 0 })
    let s3 := wrHCINTMSK s2 ch ((s2.CH ch).HCINTMSK &&& not32 USBH_STM32_HCINT_ACK)
    let s4 := wrHCINTMSK s3 ch USBH_STM32_HCINT_CHH
    wrHCCHAR s4 ch ((s4.CH ch).HCCHAR ||| USBH_STM32_HCCHAR_CHDIS)
  else s

/-- Channel interrupt of a channel whose URB is an IN packet. -/
def irq_ch_in (s : State) (ch p hcint : Nat) : State :=
  let halt := USBH_STM32_HCCHAR_CHENA ||| USBH_STM32_HCCHAR_CHDIS
  if hcint &&& USBH_STM32_HCINT_XFRC ≠ 0 then
    let s1 := modURB s p (fun u => { u with ResponsePacketType := USBH_PACKET_ACK })
    let s2 := modURB s1 p (fun u => { u with Error := 0 })
    let s3 := wrHCINTMSK s2 ch USBH_STM32_HCINT_CHH
    wrHCCHAR s3 ch ((s3.CH ch).HCCHAR ||| halt)
  else if hcint &&& USBH_STM32_HCINT_NAK ≠ 0 then
    let s1 := modURB s p (fun u => { u with ResponsePacketType := USBH_PACKET_NAK })
    if s1.Port_Con ≠ 0 ∧ (s1.CH ch).EPTYP ≠ USB_ENDPOINT_TYPE_INTERRUPT then
      let q := s1.CHURB ch
      let s2 := modURB s1 q (fun u => { u with NAKRetries := sub32 u.NAKRetries 1 })
      if (s1.URB q).NAKRetries ≠ 0 then
        let s3 := wrHCINTMSK s2 ch hcintmsk_in
        let s4 := wrHCCHAR s3 ch ((s3.CH ch).HCCHAR ||| USBH_STM32_HCCHAR_CHENA)
        modURB s4 (s4.CHURB ch) (fun u => { u with TimeoutCount := MAX_TIMEOUT_COUNT })
      else
        let s3 := wrHCINTMSK s2 ch USBH_STM32_HCINT_CHH
        wrHCCHAR s3 ch ((s3.CH ch).HCCHAR ||| halt)
    else
      let s3 := wrHCINTMSK s1 ch USBH_STM32_HCINT_CHH
      wrHCCHAR s3 ch ((s3.CH ch).HCCHAR ||| halt)
  else if hcint &&& USBH_STM32_HCINT_TXERR ≠ 0 ∨ hcint &&& USBH_STM32_HCINT_BBERR ≠ 0 ∨
      hcint &&& USBH_STM32_HCINT_STALL ≠ 0 then
    let s1 := wrHCINTMSK s ch USBH_STM32_HCINT_CHH
    let s2 :=
      if hcint &&& USBH_STM32_HCINT_TXERR ≠ 0 then
        wrHCINTMSK (modURB s1 p (fun u => { u with Error := USBH_STM32_HCINT_TXERR >>> 7 }))
          ch ((s1.CH ch).HCINTMSK ||| USBH_STM32_HCINT_ACK)
      else if hcint &&& USBH_STM32_HCINT_BBERR ≠ 0 then
        modURB s1 p (fun u => { u with Error := USBH_STM32_HCINT_BBERR >>> 7 })
      else
        modURB s1 p (fun u => { u with ResponsePacketType := USBH_PACKET_STALL })
    wrHCCHAR s2 ch ((s2.CH ch).HCCHAR ||| halt)
  else if hcint &&& USBH_STM32_HCINT_CHH ≠ 0 then
    let s1 := wrHCINTMSK s ch 0
    let s2 := modURB s1 p (fun u => { u with Submitted := false })
    let s3 := modURB s2 p (fun u => { u with InProgress := false })
    let s4 := modURB s3 p (fun u => { u with Completed := true })
    let s5 := setCHURB s4 ch 0
    if (s5.URB p).Completed = true ∧ (s5.URB p).CompletedCallback ≠ 0 then
      { s5 with log := s5.log ++ [HwOp.callback (s5.URB p).CompletedCallback] }
    else s5
  else if hcint &&& USBH_STM32_HCINT_ACK ≠ 0 then
    let s1 := modURB s p (fun u => { u with ResponsePacketType := USBH_PACKET_ACK })
    let s2 := modURB s1 p (fun u => { u with Error := 0 })
    if (s2.CH ch).EPTYP ≠ USB_ENDPOINT_TYPE_INTERRUPT then
      let s3 := wrHCINTMSK s2 ch hcintmsk_in
      let s4 := wrHCCHAR s3 ch ((s3.CH ch).HCCHAR ||| USBH_STM32_HCCHAR_CHENA)
      modURB s4 (s4.CHURB ch) (fun u => { u with TimeoutCount := MAX_TIMEOUT_COUNT })
    else
      let s3 := wrHCINTMSK s2 ch USBH_STM32_HCINT_CHH
      wrHCCHAR s3 ch ((s3.CH ch).HCCHAR ||| halt)
  else if hcint &&& USBH_STM32_HCINT_DTERR ≠ 0 then
    let s1 := wrHCINTMSK s ch USBH_STM32_HCINT_CHH
    wrHCCHAR s1 ch ((s1.CH ch).HCCHAR ||| halt)
  else s

/-- Channel interrupt of one channel, when its bit is set in `haint`.  The
result is `none` when the channel has no URB (the handler would go through a
null pointer). -/
def irq_channel (haint : Nat) (s : State) (ch : Nat) : Option State :=
  if haint &&& (1 <<< ch) ≠ 0 then
    let hcint := (s.CH ch).HCINT &&& (s.CH ch).HCINTMSK
    let ptr_URB := s.CHURB ch
    if ptr_URB = 0 then none
    else
      let s1 := modURB s ptr_URB
        (fun u => { u with Error := (u.Error ||| ((hcint &&& USBH_STM32_HCINT_ERR) >>> 7)) % 256 })
      let pt := (s1.URB ptr_URB).PacketType
      let s2 :=
        if pt = USBH_PACKET_OUT ∨ pt = USBH_PACKET_SETUP then irq_ch_out s1 ch ptr_URB hcint
        else if pt = USBH_PACKET_PING then irq_ch_ping s1 ch ptr_URB hcint
        else if pt = USBH_PACKET_IN then irq_ch_in s1 ch ptr_URB hcint
        else s1
      some (wrHCINT s2 ch 0x7FF)
  else some s

/-- The loop over the channels of the channel interrupt part. -/
def irq_channels (haint : Nat) : List Nat → State → Option State
  | [], s => some s
  | ch :: rest, s =>
    match irq_channel haint s ch with
    | none => none
    | some s1 => irq_channels haint rest s1

/-- Start of frame, the search for bus activity: 1 when some channel's URB
is in progress (the loop with `break`). -/
def irq_bus_active (s : State) : List Nat → Bool
  | [] => false
  | ch :: rest =>
    if s.CHURB ch ≠ 0 ∧ (s.URB (s.CHURB ch)).InProgress = true then true
    else irq_bus_active s rest

/-- Start of frame, scheduling loop, one channel; `act` is carried along. -/
def irq_schedule (sa : State × Bool) (ch : Nat) : State × Bool :=
  let s := sa.1
  let act := sa.2
  let ptr_URB := s.CHURB ch
  if ptr_URB ≠ 0 then
    if (s.URB ptr_URB).Submitted = true ∧ (s.URB ptr_URB).InProgress = false then
      if (s.CH ch).EPTYP = USB_ENDPOINT_TYPE_INTERRUPT then
        let s1 : State :=
          if s.cntInterval ch ≠ 0 then
            if (act = true ∧ s.cntInterval ch > 1) ∨ act = false then
              { s with cntInterval := Function.update s.cntInterval ch (s.cntInterval ch - 1) }
            else s
          else s
        if act = false then
          if s1.cntInterval ch = 0 then
            let s2 := modURB s1 ptr_URB (fun u => { u with InProgress := true })
            let u := s2.URB ptr_URB
            ((USBH_STM32_CH_TransferEnqueue s2 (USBH_STM32_CH_GetCHFromIndex ch)
              (u.Parameters % 256) u.ptrDataBuffer u.DataLength).1, true)
          else (s1, act)
        else (s1, act)
      else if act = false then
        let s2 := modURB s ptr_URB (fun u => { u with InProgress := true })
        let u := s2.URB ptr_URB
        ((USBH_STM32_CH_TransferEnqueue s2 (USBH_STM32_CH_GetCHFromIndex ch)
          (u.Parameters % 256) u.ptrDataBuffer u.DataLength).1, true)
      else (s, act)
    else (s, act)
  else (s, act)

/-- The channel indices 0..7 in the order the handler's loops visit them. -/
def channels : List Nat := [0, 1, 2, 3, 4, 5, 6, 7]

/-- Start of frame, first part: the timeout countdown of every channel. -/
def irq_sof_timeouts (s : State) (gintsts : Nat) : State :=
  if gintsts &&& USBH_STM32_GINTSTS_SOF ≠ 0 then channels.foldl irq_sof_timeout s else s

/-- Disconnect sweep: with the disconnect flag set, cancel every channel's
URB. -/
def irq_discon_sweep (s : State) : State :=
  if s.Port_Discon_Evt ≠ 0 then channels.foldl irq_discon_cancel s else s

/-- Receive FIFO part of the handler. -/
def irq_rxflvl (s : State) (gintsts : Nat) : Option State :=
  if gintsts &&& USBH_STM32_GINTSTS_RXFLVL ≠ 0 then irq_rx s else some s

/-- Host channel part of the handler: the loop over the channels, then the
store to `HAINT`. -/
def irq_hcint (s : State) (gintsts haint : Nat) : Option State :=
  if gintsts &&& USBH_STM32_GINTSTS_HCINT ≠ 0 then
    (irq_channels haint channels s).map (fun t => { t with HAINT := haint })
  else some s

/-- Start of frame, second part: find out whether the bus is active, then run
the scheduling loop. -/
def irq_sof_schedule (s : State) (gintsts : Nat) : State :=
  if gintsts &&& USBH_STM32_GINTSTS_SOF ≠ 0 then
    let act : Bool := if s.HW_Accessing = true then true else irq_bus_active s channels
    (channels.foldl irq_schedule (s, act)).1
  else s

/-- Function `USBH_FS_IRQHandler`.  The result is `none` when the handler
would go through a null or out-of-range URB slot. -/
def USBH_FS_IRQHandler (s : State) : Option State :=
  let gintsts := s.GINTSTS &&& s.GINTMSK
  let hprt := s.HPRT
  let haint := s.HAINT
  (irq_rxflvl (irq_discon_sweep (irq_port (irq_sof_timeouts s gintsts) gintsts hprt))
      gintsts).bind fun s4 =>
    (irq_hcint s4 gintsts haint).map fun s5 =>
      irq_sof_schedule { s5 with GINTSTS := gintsts } gintsts

/-! ## Frames -/

/-- State `t` differs from `s` at most in the channel registers, the DMA
registers, the pending hardware answers and the log. -/
structure HwFrame (s t : State) : Prop where
  acc : t.HW_Accessing = s.HW_Accessing
  churb : t.CHURB = s.CHURB
  cnt : t.cntInterval = s.cntInterval
  cntMax : t.cntIntervalMax = s.cntIntervalMax
  deb : t.cntDebounce = s.cntDebounce
  discon : t.Port_Discon_Evt = s.Port_Discon_Evt
  speed : t.Port_Speed = s.Port_Speed
  con : t.Port_Con = s.Port_Con
  gintsts : t.GINTSTS = s.GINTSTS
  gintmsk : t.GINTMSK = s.GINTMSK
  hprt : t.HPRT = s.HPRT
  haint : t.HAINT = s.HAINT
  grxsts : t.GRXSTS = s.GRXSTS
  urb : t.URB = s.URB
  mem : t.mem = s.mem
  fifo : t.fifo = s.fifo

/-! ## The URB flag invariant -/

/-- The flag invariant of one URB: when `Completed` is set, `InProgress` and
`Submitted` are clear. -/
def USBH_URB.flagsOk (u : USBH_URB) : Prop :=
  u.Completed = true → u.InProgress = false ∧ u.Submitted = false

instance (u : USBH_URB) : Decidable u.flagsOk := by
  unfold USBH_URB.flagsOk
  infer_instance

/-- Every URB of the client memory satisfies the flag invariant. -/
def heapOk (h : Nat → USBH_URB) : Prop := ∀ p, (h p).flagsOk

/-! ## Concrete states -/

/-- A URB with every field 0. -/
def urb0 : USBH_URB :=
  { ptrDataBuffer := 0, DataLength := 0, DataTransferred := 0, Parameters := 0,
    Submitted := false, InProgress := false, Cancelled := false, Completed := false,
    Timeout := false, ResponsePacketType := 0, Error := 0, NAKRetries := 0,
    TimeoutCount := 0, CompletedCallback := 0 }

/-- The state after reset: every register and variable 0, nothing queued. -/
def idle : State :=
  { CH := fun _ => { HCCHAR := 0, HCINT := 0, HCINTMSK := 0, HCTSIZ := 0 },
    HW_Accessing := false, CHURB := fun _ => 0, cntInterval := fun _ => 0,
    cntIntervalMax := fun _ => 0, cntDebounce := 0, Port_Discon_Evt := 0, Port_Speed := 0,
    Port_Con := 0, GINTSTS := 0, GINTMSK := 0, HPRT := 0, HAINT := 0, GRXSTS := 0,
    DMA := { CR := 0, NDTR := 0, PAR := 0, M0AR := 0, M1AR := 0, FCR := 0, LIFCR := 0 },
    URB := fun _ => urb0, mem := fun _ => 0, fifo := [], hw := [], log := [] }

/-- A client URB for an OUT transfer of 200 bytes from address 0x20000000,
with a retry budget of 3. -/
def urbOut : USBH_URB :=
  { urb0 with ptrDataBuffer := 0x20000000, DataLength := 200, Parameters := USBH_PACKET_OUT,
              NAKRetries := 3 }

/-- A client URB for an IN transfer of 8 bytes to address 0x20000100. -/
def urbIn : USBH_URB :=
  { urb0 with ptrDataBuffer := 0x20000100, DataLength := 8, Parameters := USBH_PACKET_IN,
              NAKRetries := 3 }

/-- A full-speed device is connected; no endpoint has been added.  The client
holds an IN URB at address 0x20003000 and OUT URBs elsewhere. -/
def connectedFS : State :=
  { idle with Port_Con := 1, Port_Speed := USBH_FS,
              URB := fun p => if p = 0x20003000 then urbIn else urbOut }

/-- Descriptor of a bulk OUT endpoint, address 0x01, max packet size 64. -/
def epBulkOut : USB_ENDPOINT_DESCRIPTOR :=
  { bEndpointAddress := 0x01, bmAttributes := USB_ENDPOINT_TYPE_BULK, wMaxPacketSize := 64,
    bInterval := 0 }

/-- Descriptor of an interrupt IN endpoint, address 0x81, max packet size 8,
interval 4. -/
def epIntrIn : USB_ENDPOINT_DESCRIPTOR :=
  { bEndpointAddress := 0x81, bmAttributes := USB_ENDPOINT_TYPE_INTERRUPT, wMaxPacketSize := 8,
    bInterval := 4 }

/-- Descriptor of an isochronous IN endpoint, address 0x82, max packet size
64, interval 1. -/
def epIsoIn : USB_ENDPOINT_DESCRIPTOR :=
  { bEndpointAddress := 0x82, bmAttributes := USB_ENDPOINT_TYPE_ISOCHRONOUS,
    wMaxPacketSize := 64, bInterval := 1 }

/-- The isochronous IN endpoint of device 5 has been added on the connected
port (it gets channel 0) and the IN URB at 0x20003000 has been submitted on
it. -/
def submittedIsoIn : State :=
  (USBH_STM32_URB_Submit (USBH_STM32_EP_Add connectedFS 5 USBH_FS epIsoIn).1 HCCHAR0_ADDR
    0x20003000 0).1

/-- The bulk OUT endpoint of device 5 has been added on the connected port
(it gets channel 0). -/
def withBulkOut : State := (USBH_STM32_EP_Add connectedFS 5 USBH_FS epBulkOut).1

/-- The interrupt IN endpoint of device 5 has been added on the connected
port (it gets channel 0). -/
def withIntrIn : State := (USBH_STM32_EP_Add connectedFS 5 USBH_FS epIntrIn).1

/-- A first URB, at address 0x20002000, has been submitted on the bulk OUT
endpoint and is in progress on channel 0. -/
def busyBulkOut : State := (USBH_STM32_URB_Submit withBulkOut HCCHAR0_ADDR 0x20002000 0).1

/-- The IN URB, at address 0x20003000, has been submitted on the interrupt IN
endpoint and waits for its interval on channel 0. -/
def pendingIntrIn : State := (USBH_STM32_URB_Submit withIntrIn HCCHAR0_ADDR 0x20003000 0).1

/-- The URB at 0x20002000 is in progress on the bulk OUT channel and the
hardware reports its transfer complete: channel 0 has the transfer-complete
cause pending and flagged, and the host channel interrupt is pending and
enabled. -/
def xfrcPending : State :=
  { busyBulkOut with
      CH := Function.update busyBulkOut.CH 0
        { busyBulkOut.CH 0 with HCINT := USBH_STM32_HCINT_XFRC },
      GINTSTS := USBH_STM32_GINTSTS_HCINT, GINTMSK := USBH_STM32_GINTSTS_HCINT, HAINT := 1 }

/-! ## Port monitor -/

/-- Function `USBH_STM32_Get_Connect`: returns the port event, bit 0 for a
connect and bit 16 for a disconnect. The one-millisecond delay between two
debounce polls has no effect on the state. -/
def USBH_STM32_Get_Connect (s : State) : State × Nat :=
  let stat := s.HPRT &&& USBH_STM32_HPRT_PCSTS
  let ret := s.Port_Discon_Evt ||| (if stat ^^^ s.Port_Con ≠ 0 ∧ s.Port_Con ≠ 0 then 1 else 0)
  if ret ≠ 0 then
    ({ s with Port_Discon_Evt := s.Port_Discon_Evt &&& not32 ret }, u32 (ret <<< 16))
  else if s.cntDebounce ≠ 0 then
    let s1 : State := { s with cntDebounce := s.cntDebounce - 1 }
    if s1.cntDebounce = 0 then
      let ret1 := if stat ^^^ s1.Port_Con ≠ 0 ∧ s1.Port_Con = 0 then 1 else 0
      ({ s1 with Port_Con := s1.Port_Con ||| ret1 }, ret1)
    else (s1, ret)
  else if stat ^^^ s.Port_Con ≠ 0 ∧ s.Port_Con = 0 then
    ({ s with cntDebounce := DEBOUNCE_500ms }, ret)
  else (s, ret)

/-- A run of `USBH_STM32_Get_Connect` calls with no interrupt in between:
the port register reads the listed value at each call; the result is the
last state and the events returned, in order. -/
def Get_Connect_polls : State → List Nat → State × List Nat
  | s, [] => (s, [])
  | s, h :: hs =>
    let r := USBH_STM32_Get_Connect { s with HPRT := h }
    let rs := Get_Connect_polls r.1 hs
    (rs.1, r.2 :: rs.2)

/-! ## Interrupt scenarios -/

/-- The hardware raises the cause bits `cause` on channel `ch`: the channel's
`HCINT` reads `cause`, the channel is the one flagged in `HAINT`, and the host
channel interrupt is the one pending in the core. -/
def raiseChannel (s : State) (ch cause : Nat) : State :=
  { s with CH := Function.update s.CH ch { s.CH ch with HCINT := cause },
           HAINT := 1 <<< ch, GINTSTS := USBH_STM32_GINTSTS_HCINT }

/-- A run of channel interrupts on channel `ch`: for each listed cause word
the hardware raises it and the handler runs once. -/
def channelIrqs (ch : Nat) : List Nat → State → Option State
  | [], s => some s
  | c :: cs, s => (USBH_FS_IRQHandler (raiseChannel s ch c)).bind (channelIrqs ch cs)

/-- Descriptor of a bulk IN endpoint, address 0x82, max packet size 64. -/
def epBulkIn : USB_ENDPOINT_DESCRIPTOR :=
  { bEndpointAddress := 0x82, bmAttributes := USB_ENDPOINT_TYPE_BULK, wMaxPacketSize := 64,
    bInterval := 0 }

/-- The bulk OUT endpoint has been added (channel 0) and the core has the
host channel and start-of-frame interrupts enabled. -/
def readyBulkOut : State :=
  { withBulkOut with GINTMSK := USBH_STM32_GINTSTS_HCINT ||| USBH_STM32_GINTSTS_SOF }

/-- The bulk IN endpoint has been added (channel 0) and the core has the host
channel and start-of-frame interrupts enabled. -/
def readyBulkIn : State :=
  { (USBH_STM32_EP_Add connectedFS 5 USBH_FS epBulkIn).1 with
      GINTMSK := USBH_STM32_GINTSTS_HCINT ||| USBH_STM32_GINTSTS_SOF }

/-- The interrupt IN endpoint has been added (channel 0) and the core has the
host channel and start-of-frame interrupts enabled. -/
def readyIntrIn : State :=
  { withIntrIn with GINTMSK := USBH_STM32_GINTSTS_HCINT ||| USBH_STM32_GINTSTS_SOF }

/-- The hardware raises the start-of-frame interrupt, the one pending in the
core. -/
def raiseSOF (s : State) : State := { s with GINTSTS := USBH_STM32_GINTSTS_SOF }

/-- A run of `n` start-of-frame interrupts: each time the hardware raises the
interrupt and the handler runs once. -/
def sofIrqs : Nat → State → Option State
  | 0, s => some s
  | n + 1, s => (USBH_FS_IRQHandler (raiseSOF s)).bind (sofIrqs n)

/-- URB `p` is submitted on the interrupt channel `ch` of the connected port
and waits for its interval, with `k` frames to go; no other channel holds a
URB, no disconnect is flagged and the start-of-frame interrupt is enabled. -/
structure IntrWaiting (s : State) (ch p k : Nat) : Prop where
  ch_lt : ch < OTG_FS_MAX_CH
  slot : s.CHURB ch = p
  nonnull : p ≠ 0
  others : ∀ c, c ≠ ch → s.CHURB c = 0
  eptyp : (s.CH ch).EPTYP = USB_ENDPOINT_TYPE_INTERRUPT
  sub : (s.URB p).Submitted = true
  notinp : (s.URB p).InProgress = false
  idle : s.HW_Accessing = false
  con : s.Port_Con ≠ 0
  discon : s.Port_Discon_Evt = 0
  enabled : USBH_STM32_GINTSTS_SOF &&& s.GINTMSK = USBH_STM32_GINTSTS_SOF
  cnt : s.cntInterval ch = k

/-- The state before the submit of URB `p` on the interrupt channel `ch` of
a connected full-speed port, the endpoint added with interval `m`: no
channel holds a URB, the URB is neither submitted nor in progress. -/
structure IntrReady (s : State) (ch p m : Nat) : Prop where
  ch_lt : ch < OTG_FS_MAX_CH
  nonnull : p ≠ 0
  empty : ∀ c, s.CHURB c = 0
  eptyp : (s.CH ch).EPTYP = USB_ENDPOINT_TYPE_INTERRUPT
  interval : s.cntIntervalMax ch = m
  speed : s.Port_Speed = USBH_FS
  idle : s.HW_Accessing = false
  con : s.Port_Con ≠ 0
  discon : s.Port_Discon_Evt = 0
  enabled : USBH_STM32_GINTSTS_SOF &&& s.GINTMSK = USBH_STM32_GINTSTS_SOF
  notsub : (s.URB p).Submitted = false
  notinp : (s.URB p).InProgress = false

/-- The interrupt IN endpoint is ready and the last transfer of the IN URB at
0x20003000 ended with the response NAK. -/
def nakIntrIn : State :=
  modURB readyIntrIn 0x20003000 (fun u => { u with ResponsePacketType := USBH_PACKET_NAK })

/-! ## The frame of a handler loop step -/

/-- What one step of a handler loop on channel `c` may change besides the
hardware: URBs other than the one in the channel's slot are kept, the slots
of the other channels are kept, the slot of the channel is kept or emptied,
and the connection state is kept. -/
structure StepFrame (c : Nat) (s t : State) : Prop where
  urb : ∀ r, r ≠ s.CHURB c → r ≠ 0 → t.URB r = s.URB r
  churb : ∀ d, d ≠ c → t.CHURB d = s.CHURB d
  slot : t.CHURB c = s.CHURB c ∨ t.CHURB c = 0
  con : t.Port_Con = s.Port_Con
  discon : t.Port_Discon_Evt = s.Port_Discon_Evt

/-- The state in which the disconnect sweep reaches channel `ch`: the
channels before it have been visited. -/
def irq_discon_sweep_before (s : State) (ch : Nat) : State :=
  (List.range ch).foldl irq_discon_cancel s

/-- Channel `ch` holds the submitted URB `p`, and no other channel does. -/
structure Held (ch p : Nat) (s : State) : Prop where
  slot : s.CHURB ch = p
  unref : ∀ c, c < OTG_FS_MAX_CH → c ≠ ch → s.CHURB c ≠ p
  sub : (s.URB p).Submitted = true

/-- URB `p` has left channel `ch`: the slot is empty, no channel holds the
URB, and the URB is neither submitted nor in progress. -/
structure Gone (ch p : Nat) (t : State) : Prop where
  slot : t.CHURB ch = 0
  unref : ∀ c, c < OTG_FS_MAX_CH → t.CHURB c ≠ p
  notsub : (t.URB p).Submitted = false
  notinp : (t.URB p).InProgress = false

/-- The URB at 0x20002000 is in progress on the bulk OUT channel, the
disconnect interrupt is pending and enabled, and the polled registers stay
silent: the channel never reports the halt. -/
def stuckBulkOut : State :=
  { busyBulkOut with GINTSTS := USBH_STM32_GINTSTS_DISCINT,
                     GINTMSK := USBH_STM32_GINTSTS_DISCINT }

/-- The URB at 0x20002000 is in progress on the bulk OUT channel, the
disconnect interrupt is pending and enabled, and the hardware answers the
polls of a disable sequence: the DMA stream reads as stopped, then the
channel reports the halt. -/
def haltingBulkOut : State :=
  { busyBulkOut with GINTSTS := USBH_STM32_GINTSTS_DISCINT,
                     GINTMSK := USBH_STM32_GINTSTS_DISCINT, hw := [0, 2] }

/-! ## Port monitor with the connect-detected interrupt -/

/-- Every channel is allocated: each `HCCHAR` holds a non-zero value. -/
def allBusy : State :=
  { connectedFS with CH := fun _ => { HCCHAR := 64, HCINT := 0, HCINTMSK := 0, HCTSIZ := 0 } }

/-! ## Port reset -/

/-- Modelled from the spec: header constant, HPRT bit 8, port reset. -/
def USBH_STM32_HPRT_PRST : Nat := 1 <<< 8

/-- Modelled from the spec: header macro `USBH_STM32_HCFG_FSLSPCS(x)`, the
PHY clock select field, HCFG bits 0..1. -/
def USBH_STM32_HCFG_FSLSPCS (x : Nat) : Nat := (x &&& 3) <<< 0

/-- One recorded access to a port register in `USBH_STM32_Port_Reset`: the
stores, and the reads of `HPRT` in the wait loop with the value read. -/
inductive PortOp where
  | wrHFIR (v : Nat)
  | wrHCFG (v : Nat)
  | wrHPRT (v : Nat)
  | rdHPRT (v : Nat)
deriving DecidableEq, Repr

/-- The registers `USBH_STM32_Port_Reset` uses besides `HPRT`, and the trace
of its port register accesses. -/
structure PortRegs where
  HCFG : Nat
  HFIR : Nat
  trace : List PortOp
deriving DecidableEq, Repr

/-- The store of the frame interval and, when the PHY clock select field of
`hcfg` differs from `sel`, of the host configuration (one `case` of the
`switch` of `USBH_STM32_Port_Reset`). -/
def port_clock (r : PortRegs) (hcfg hfir sel : Nat) : PortRegs :=
  let r1 : PortRegs := { r with HFIR := hfir, trace := r.trace ++ [PortOp.wrHFIR hfir] }
  if hcfg &&& 3 ≠ sel then
    let h := (hcfg &&& not32 (USBH_STM32_HCFG_FSLSPCS 3)) ||| USBH_STM32_HCFG_FSLSPCS sel
    { r1 with HCFG := h, trace := r1.trace ++ [PortOp.wrHCFG h] }
  else r1

/-- The wait loop of `USBH_STM32_Port_Reset`,
`for (tout = 10100; tout >= 0; tout--)`: each pass reads `HPRT`; the loop is
left with success when the port-enabled bit reads as set, and with failure
when it does not in the pass with `tout` = 0. -/
def Port_Reset_loop : Nat → State × PortRegs → (State × PortRegs) × Bool
  | tout, (s, r) =>
    let v := poll s
    let s1 : State := { v.2 with HPRT := v.1 }
    let r1 : PortRegs := { r with trace := r.trace ++ [PortOp.rdHPRT v.1] }
    if v.1 &&& USBH_STM32_HPRT_PENA ≠ 0 then ((s1, r1), true)
    else
      match tout with
      | 0 => ((s1, r1), false)
      | t + 1 => Port_Reset_loop t (s1, r1)

/-- Function `USBH_STM32_Port_Reset`. -/
def USBH_STM32_Port_Reset (s : State) (r : PortRegs) : (State × PortRegs) × Bool :=
  if s.Port_Con = 0 then ((s, r), false)
  else
    let hcfg := r.HCFG
    let hprt := s.HPRT
    let r1 : PortRegs :=
      if (hprt >>> 17) &&& 3 = 0 then port_clock r hcfg 48000 1
      else if (hprt >>> 17) &&& 3 = 1 then port_clock r hcfg 48000 1
      else if (hprt >>> 17) &&& 3 = 2 then port_clock r hcfg 6000 2
      else r
    let s1 : State := { s with HPRT := s.HPRT ||| USBH_STM32_HPRT_PRST }
    let r2 : PortRegs := { r1 with trace := r1.trace ++ [PortOp.wrHPRT s1.HPRT] }
    let s2 : State := { s1 with HPRT := s1.HPRT &&& not32 USBH_STM32_HPRT_PRST }
    let r3 : PortRegs := { r2 with trace := r2.trace ++ [PortOp.wrHPRT s2.HPRT] }
    Port_Reset_loop 10100 (s2, r3)

/-- The reads of `HPRT` recorded in a trace. -/
def hprtReads (l : List PortOp) : List Nat :=
  l.filterMap (fun o => match o with
    | PortOp.rdHPRT v => some v
    | _ => none)

/-- The `i`-th value the polled registers deliver (0 once the list is used
up). -/
def hwAt (s : State) (i : Nat) : Nat := s.hw.getD i 0

/-- The port is connected and the port-enabled bit reads as set for the
first time at the 1011th read of the wait loop. -/
def slowPort : State :=
  { connectedFS with hw := List.replicate 1010 0 ++ [USBH_STM32_HPRT_PENA] }

/-- The port is connected and the port-enabled bit reads as set at the third
read of the wait loop. -/
def quickPort : State := { connectedFS with hw := [0, 0, USBH_STM32_HPRT_PENA] }

/-! ## URB flags that are not raised -/

/-- From URB value `u` to `v` neither `Submitted` nor `InProgress` is
raised. -/
def USBH_URB.calm (u v : USBH_URB) : Prop :=
  (v.Submitted = true → u.Submitted = true) ∧ (v.InProgress = true → u.InProgress = true)

/-- From heap `h1` to heap `h2` no URB has `Submitted` or `InProgress`
raised. -/
def Calm (h1 h2 : Nat → USBH_URB) : Prop := ∀ q, (h1 q).calm (h2 q)

/-! ## The scheduling pass -/

/-- What the scheduling loop has done to the URBs of the state `s0` it
started from: nothing, or one start. -/
def passDone (s0 : State) (sa : State × Bool) : Prop :=
  sa.1.URB = s0.URB ∨
  (sa.2 = true ∧ ∃ r, r ≠ 0 ∧ (s0.URB r).Submitted = true ∧ (s0.URB r).InProgress = false ∧
    sa.1.URB = Function.update s0.URB r { s0.URB r with InProgress := true })

/-- The fresh URB at 0x20003000 has been submitted on the interrupt IN
endpoint, and the hardware raises the start-of-frame interrupt. -/
def sofPending : State :=
  raiseSOF (USBH_STM32_URB_Submit readyIntrIn HCCHAR0_ADDR 0x20003000 0).1

/-! ## The branch a channel interrupt takes -/

/-- The enabled causes `hcint` lead a channel with an OUT or SETUP URB into
its channel-halted branch: the causes tested before it are clear. -/
def chhBranchOut (hcint : Nat) : Prop :=
  hcint &&& USBH_STM32_HCINT_XFRC = 0 ∧ hcint &&& USBH_STM32_HCINT_STALL = 0 ∧
  hcint &&& USBH_STM32_HCINT_NAK = 0 ∧ hcint &&& USBH_STM32_HCINT_NYET = 0 ∧
  hcint &&& USBH_STM32_HCINT_TXERR = 0 ∧ hcint &&& USBH_STM32_HCINT_CHH ≠ 0

/-- The enabled causes `hcint` lead a channel with a PING URB into its
channel-halted branch. -/
def chhBranchPing (hcint : Nat) : Prop :=
  hcint &&& USBH_STM32_HCINT_STALL = 0 ∧ hcint &&& USBH_STM32_HCINT_NAK = 0 ∧
  hcint &&& USBH_STM32_HCINT_TXERR = 0 ∧ hcint &&& USBH_STM32_HCINT_CHH ≠ 0

/-- The enabled causes `hcint` lead a channel with an IN URB into its
channel-halted branch. -/
def chhBranchIn (hcint : Nat) : Prop :=
  hcint &&& USBH_STM32_HCINT_XFRC = 0 ∧ hcint &&& USBH_STM32_HCINT_NAK = 0 ∧
  hcint &&& USBH_STM32_HCINT_TXERR = 0 ∧ hcint &&& USBH_STM32_HCINT_BBERR = 0 ∧
  hcint &&& USBH_STM32_HCINT_STALL = 0 ∧ hcint &&& USBH_STM32_HCINT_CHH ≠ 0

instance (hcint : Nat) : Decidable (chhBranchOut hcint) := by
  unfold chhBranchOut
  infer_instance

instance (hcint : Nat) : Decidable (chhBranchPing hcint) := by
  unfold chhBranchPing
  infer_instance

instance (hcint : Nat) : Decidable (chhBranchIn hcint) := by
  unfold chhBranchIn
  infer_instance

/-- The completion callbacks recorded in a trace. -/
def callbacks (l : List HwOp) : List Nat :=
  l.filterMap (fun o => match o with
    | HwOp.callback fn => some fn
    | _ => none)

/-- An OUT URB of 200 bytes with a completion callback and no retry budget
has been submitted on the bulk OUT channel (channel 0) and is in progress. -/
def stalledBulkOut : State :=
  (USBH_STM32_URB_Submit
    (modURB readyBulkOut 0x20002000
      (fun u => { u with NAKRetries := 0, CompletedCallback := 0x08001000 }))
    HCCHAR0_ADDR 0x20002000 0).1

/-- An IN URB with a completion callback has been submitted on the bulk IN
channel (channel 0); the channel has halted: only the channel-halted cause
is enabled and pending. -/
def haltedBulkIn : State :=
  let s := (USBH_STM32_URB_Submit
    (modURB readyBulkIn 0x20003000 (fun u => { u with CompletedCallback := 0x08001000 }))
    HCCHAR0_ADDR 0x20003000 0).1
  raiseChannel (wrHCINTMSK s 0 USBH_STM32_HCINT_CHH) 0 USBH_STM32_HCINT_CHH

/-- The OUT URB with no retry budget on the bulk OUT channel after the
device answered NAK: the response is recorded, the channel has halted, and
only the channel-halted cause is enabled and pending. -/
def nakHaltedOut : State :=
  raiseChannel
    (wrHCINTMSK (modURB stalledBulkOut 0x20002000
      (fun u => { u with ResponsePacketType := USBH_PACKET_NAK })) 0 USBH_STM32_HCINT_CHH)
    0 USBH_STM32_HCINT_CHH

/-- Descriptor of a bulk OUT endpoint, address 0x01, max packet size 48. -/
def epBulkOut48 : USB_ENDPOINT_DESCRIPTOR :=
  { bEndpointAddress := 0x01, bmAttributes := USB_ENDPOINT_TYPE_BULK, wMaxPacketSize := 48,
    bInterval := 0 }

/-- An OUT URB of 4294967295 bytes is in progress on a bulk OUT channel with
max packet size 48 (channel 0); one packet remains in `HCTSIZ` and the
device has answered NAK. -/
def wrapOut : State :=
  let s0 : State :=
    { (USBH_STM32_EP_Add connectedFS 5 USBH_FS epBulkOut48).1 with
        GINTMSK := USBH_STM32_GINTSTS_HCINT ||| USBH_STM32_GINTSTS_SOF }
  let s1 := (USBH_STM32_URB_Submit s0 HCCHAR0_ADDR 0x20002000 0).1
  let s2 := modURB s1 0x20002000 (fun u => { u with DataLength := 4294967295 })
  raiseChannel (wrHCTSIZ s2 0 (1 <<< 19)) 0 USBH_STM32_HCINT_NAK

/-- The OUT URB of 200 bytes is in progress on the bulk OUT channel (max
packet size 64); two of its four packets remain in `HCTSIZ` and the device
has answered NAK. -/
def nakOutTwoLeft : State :=
  raiseChannel
    (wrHCTSIZ (USBH_STM32_URB_Submit readyBulkOut HCCHAR0_ADDR 0x20002000 0).1 0
      ((2 <<< 19) ||| 72)) 0 USBH_STM32_HCINT_NAK

/-- The state `nakOutTwoLeft` after the handler has answered the NAK, with
the channel halted: the channel-halted cause is raised. -/
def nakOutHalted : State :=
  raiseChannel ((irq_channel 1 nakOutTwoLeft 0).getD nakOutTwoLeft) 0 USBH_STM32_HCINT_CHH

/-! ## Receive drain -/

/-- Byte `i` of the words `f` of the receive FIFO, the least significant
byte of a word first (a word the FIFO does not hold reads 0). -/
def fifoByte (f : List Nat) (i : Nat) : Nat := (f.getD (i / 4) 0 >>> (8 * (i % 4))) % 256

/-- Descriptor of a bulk IN endpoint as `epBulkIn`; the IN URB at 0x20003000
(8 bytes to 0x20000100) has been submitted on channel 0.  The receive
interrupt is pending and enabled; the status queue holds a data entry
(packet status 2) for channel 0 with 6 bytes, and the FIFO three words. -/
def rxBulkIn : State :=
  { (USBH_STM32_URB_Submit readyBulkIn HCCHAR0_ADDR 0x20003000 0).1 with
    GINTSTS := USBH_STM32_GINTSTS_RXFLVL,
    GINTMSK := USBH_STM32_GINTSTS_HCINT ||| USBH_STM32_GINTSTS_SOF |||
      USBH_STM32_GINTMSK_RXFLVLM,
    GRXSTS := (2 <<< 17) ||| (6 <<< 4) ||| 0,
    fifo := [0x44332211, 0x88776655, 0xCCBBAA99] }

/-- The state `rxBulkIn` with a transfer-complete entry (packet status 3)
on top of the status queue. -/
def rxDoneIn : State := { rxBulkIn with GRXSTS := (3 <<< 17) ||| 0 }

/-! ## Disconnect and channel interrupt in one invocation -/

/-- The bulk OUT URB in progress on channel 0, with the disconnect and the
host channel interrupt both pending and enabled, channel 0 flagged in
`HAINT`; the hardware reports the channel halted on the second poll. -/
def sweptBulkOut : State :=
  { busyBulkOut with
    GINTSTS := USBH_STM32_GINTSTS_DISCINT ||| USBH_STM32_GINTSTS_HCINT,
    GINTMSK := USBH_STM32_GINTSTS_DISCINT ||| USBH_STM32_GINTSTS_HCINT,
    HAINT := 1, hw := [0, 2] }

/-- The same channel interrupt without the disconnect. -/
def flaggedBulkOut : State :=
  { busyBulkOut with
    GINTSTS := USBH_STM32_GINTSTS_HCINT, GINTMSK := USBH_STM32_GINTSTS_HCINT, HAINT := 1 }

/-! # Theorems -/

/-! ## Frame lemmas -/

theorem HwFrame.refl (s : State) : HwFrame s s := by
  constructor <;> rfl

theorem HwFrame.trans {s t u : State} (h1 : HwFrame s t) (h2 : HwFrame t u) : HwFrame s u := by
  constructor
  · exact h2.acc.trans h1.acc
  · exact h2.churb.trans h1.churb
  · exact h2.cnt.trans h1.cnt
  · exact h2.cntMax.trans h1.cntMax
  · exact h2.deb.trans h1.deb
  · exact h2.discon.trans h1.discon
  · exact h2.speed.trans h1.speed
  · exact h2.con.trans h1.con
  · exact h2.gintsts.trans h1.gintsts
  · exact h2.gintmsk.trans h1.gintmsk
  · exact h2.hprt.trans h1.hprt
  · exact h2.haint.trans h1.haint
  · exact h2.grxsts.trans h1.grxsts
  · exact h2.urb.trans h1.urb
  · exact h2.mem.trans h1.mem
  · exact h2.fifo.trans h1.fifo

theorem poll_frame (s : State) : HwFrame s (poll s).2 := by
  unfold poll
  cases s.hw <;> (constructor <;> rfl)

theorem poll_CH (s : State) : (poll s).2.CH = s.CH := by
  unfold poll
  cases s.hw <;> rfl

theorem frame_DMA (s : State) (d : DMA_Stream) : HwFrame s { s with DMA := d } := by
  constructor <;> rfl

theorem frame_log (s : State) (l : List HwOp) : HwFrame s { s with log := l } := by
  constructor <;> rfl

theorem frame_CH (s : State) (c : Nat → USBH_STM32_CH) : HwFrame s { s with CH := c } := by
  constructor <;> rfl

theorem frame_wrHCCHAR (s : State) (ch v : Nat) : HwFrame s (wrHCCHAR s ch v) := by
  constructor <;> rfl

theorem frame_wrHCINT (s : State) (ch v : Nat) : HwFrame s (wrHCINT s ch v) := by
  constructor <;> rfl

theorem frame_wrHCINTMSK (s : State) (ch v : Nat) : HwFrame s (wrHCINTMSK s ch v) := by
  constructor <;> rfl

theorem frame_wrHCTSIZ (s : State) (ch v : Nat) : HwFrame s (wrHCTSIZ s ch v) := by
  constructor <;> rfl

theorem DMA_Stop_loop_frame (n : Nat) (s : State) : HwFrame s (DMA_Stop_loop n s).1 := by
  induction n generalizing s with
  | zero =>
    unfold DMA_Stop_loop
    simp only []
    split_ifs <;> exact (poll_frame s).trans (frame_DMA _ _)
  | succ n ih =>
    unfold DMA_Stop_loop
    simp only []
    split_ifs
    · exact (poll_frame s).trans (frame_DMA _ _)
    · exact ((poll_frame s).trans (frame_DMA _ _)).trans (ih _)

theorem DMA_Stop_loop_CH (n : Nat) (s : State) : (DMA_Stop_loop n s).1.CH = s.CH := by
  induction n generalizing s with
  | zero =>
    unfold DMA_Stop_loop
    simp only []
    split_ifs <;> exact poll_CH s
  | succ n ih =>
    unfold DMA_Stop_loop
    simp only []
    split_ifs
    · exact poll_CH s
    · rw [ih]; exact poll_CH s

theorem DMA_Stop_frame (s : State) : HwFrame s (USBH_STM32_DMA_Stop s).1 := by
  unfold USBH_STM32_DMA_Stop
  refine HwFrame.trans ?_ (DMA_Stop_loop_frame 1010 _)
  constructor <;> rfl

theorem DMA_Stop_CH (s : State) : (USBH_STM32_DMA_Stop s).1.CH = s.CH := by
  unfold USBH_STM32_DMA_Stop
  rw [DMA_Stop_loop_CH]

theorem DMA_Wait_loop_frame (n : Nat) (s : State) : HwFrame s (DMA_Wait_loop n s).1 := by
  induction n generalizing s with
  | zero =>
    unfold DMA_Wait_loop
    simp only []
    split_ifs
    · exact (poll_frame s).trans (frame_DMA _ _)
    · exact ((poll_frame s).trans (frame_DMA _ _)).trans ((poll_frame _).trans (frame_DMA _ _))
    · exact ((poll_frame s).trans (frame_DMA _ _)).trans ((poll_frame _).trans (frame_DMA _ _))
  | succ n ih =>
    unfold DMA_Wait_loop
    simp only []
    split_ifs
    · exact (poll_frame s).trans (frame_DMA _ _)
    · exact ((poll_frame s).trans (frame_DMA _ _)).trans ((poll_frame _).trans (frame_DMA _ _))
    · exact (((poll_frame s).trans (frame_DMA _ _)).trans
        ((poll_frame _).trans (frame_DMA _ _))).trans (ih _)

theorem DMA_Wait_loop_CH (n : Nat) (s : State) : (DMA_Wait_loop n s).1.CH = s.CH := by
  induction n generalizing s with
  | zero =>
    unfold DMA_Wait_loop
    simp only []
    split_ifs
    · exact poll_CH s
    · simp only [poll_CH]
    · simp only [poll_CH]
  | succ n ih =>
    unfold DMA_Wait_loop
    simp only []
    split_ifs
    · exact poll_CH s
    · simp only [poll_CH]
    · rw [ih]; simp only [poll_CH]

theorem DMA_Wait_frame (s : State) : HwFrame s (USBH_STM32_DMA_Wait s).1 := by
  unfold USBH_STM32_DMA_Wait
  simp only []
  have h1 : HwFrame s (DMA_Wait_loop 1010 { s with log := s.log ++ [HwOp.dmaWait] }).1 :=
    (frame_log s _).trans (DMA_Wait_loop_frame 1010 _)
  split_ifs
  · exact h1
  · exact h1.trans (DMA_Stop_frame _)
  · exact h1.trans (DMA_Stop_frame _)

theorem DMA_Wait_CH (s : State) : (USBH_STM32_DMA_Wait s).1.CH = s.CH := by
  unfold USBH_STM32_DMA_Wait
  simp only []
  split_ifs
  · rw [DMA_Wait_loop_CH]
  · rw [DMA_Stop_CH, DMA_Wait_loop_CH]
  · rw [DMA_Stop_CH, DMA_Wait_loop_CH]

theorem DMA_Start_frame (s : State) (a b c : Nat) :
    HwFrame s (USBH_STM32_DMA_Start s a b c).1 := by
  unfold USBH_STM32_DMA_Start
  constructor <;> rfl

theorem CH_Disable_loop_frame (ch n : Nat) (s : State) :
    HwFrame s (CH_Disable_loop ch n s).1 := by
  induction n generalizing s with
  | zero =>
    unfold CH_Disable_loop
    simp only []
    split_ifs
    · exact (poll_frame s).trans (frame_CH _ _)
    · exact ((poll_frame s).trans (frame_CH _ _)).trans ((poll_frame _).trans (frame_CH _ _))
    · exact ((poll_frame s).trans (frame_CH _ _)).trans ((poll_frame _).trans (frame_CH _ _))
  | succ n ih =>
    unfold CH_Disable_loop
    simp only []
    split_ifs
    · exact (poll_frame s).trans (frame_CH _ _)
    · exact ((poll_frame s).trans (frame_CH _ _)).trans ((poll_frame _).trans (frame_CH _ _))
    · exact (((poll_frame s).trans (frame_CH _ _)).trans
        ((poll_frame _).trans (frame_CH _ _))).trans (ih _)

theorem CH_Disable_frame (s : State) (ptrCH : Nat) :
    HwFrame s (USBH_STM32_CH_Disable s ptrCH).1 := by
  unfold USBH_STM32_CH_Disable
  simp only []
  split_ifs
  · exact HwFrame.refl s
  · exact (frame_wrHCINTMSK s _ _).trans (DMA_Stop_frame _)
  · exact ((((frame_wrHCINTMSK s _ _).trans (DMA_Stop_frame _)).trans
      (frame_wrHCINT _ _ _)).trans ((frame_wrHCCHAR _ _ _).trans (frame_wrHCCHAR _ _ _))).trans
      (CH_Disable_loop_frame _ _ _)
  · contradiction
  · exact ((((frame_wrHCINTMSK s _ _)).trans
      (frame_wrHCINT _ _ _)).trans ((frame_wrHCCHAR _ _ _).trans (frame_wrHCCHAR _ _ _))).trans
      (CH_Disable_loop_frame _ _ _)
  · exact frame_wrHCINTMSK s _ _

theorem TransferEnqueue_frame (s : State) (ptrCH tgl_typ buf len : Nat) :
    HwFrame s (USBH_STM32_CH_TransferEnqueue s ptrCH tgl_typ buf len).1 := by
  unfold USBH_STM32_CH_TransferEnqueue
  simp only []
  split_ifs
  · exact HwFrame.refl s
  · exact HwFrame.refl s
  · exact ((((frame_wrHCINTMSK s _ _).trans (frame_wrHCTSIZ _ _ _)).trans
      (DMA_Wait_frame _)).trans (frame_wrHCCHAR _ _ _)).trans (DMA_Start_frame _ _ _ _)
  · exact ((frame_wrHCINTMSK s _ _).trans (frame_wrHCTSIZ _ _ _)).trans (frame_wrHCCHAR _ _ _)

/-- A successful call of `USBH_STM32_CH_TransferEnqueue` is one with a
non-null channel on a connected port. -/
theorem TransferEnqueue_ok_iff (s : State) (ptrCH tgl_typ buf len : Nat) :
    (USBH_STM32_CH_TransferEnqueue s ptrCH tgl_typ buf len).2 = true ↔
      ptrCH ≠ 0 ∧ s.Port_Con ≠ 0 := by
  unfold USBH_STM32_CH_TransferEnqueue
  by_cases hp : ptrCH = 0
  · simp [hp]
  · by_cases hc : s.Port_Con = 0
    · simp [hp, hc]
    · simp [hp, hc]

/-- The channel registers after a successful `USBH_STM32_CH_TransferEnqueue`:
only the block of the channel changes, to the three prepared values. -/
theorem TransferEnqueue_CH (s : State) (ptrCH tgl_typ buf len : Nat)
    (hp : ptrCH ≠ 0) (hc : s.Port_Con ≠ 0) :
    (USBH_STM32_CH_TransferEnqueue s ptrCH tgl_typ buf len).1.CH =
      Function.update s.CH (USBH_STM32_CH_GetIndexFromCH ptrCH)
        { HCCHAR := enqueue_hcchar (s.CH (USBH_STM32_CH_GetIndexFromCH ptrCH)).HCCHAR tgl_typ,
          HCINT := (s.CH (USBH_STM32_CH_GetIndexFromCH ptrCH)).HCINT,
          HCINTMSK := enqueue_hcintmsk tgl_typ,
          HCTSIZ := enqueue_hctsiz (s.CH (USBH_STM32_CH_GetIndexFromCH ptrCH)).HCTSIZ
            (enqueue_hcchar (s.CH (USBH_STM32_CH_GetIndexFromCH ptrCH)).HCCHAR tgl_typ)
            tgl_typ len } := by
  unfold USBH_STM32_CH_TransferEnqueue
  simp only [hp, hc, if_false]
  split_ifs
  · simp only [USBH_STM32_DMA_Start, wrHCCHAR, DMA_Wait_CH, wrHCTSIZ, wrHCINTMSK,
      Function.update_same, Function.update_idem]
  · simp only [wrHCCHAR, wrHCTSIZ, wrHCINTMSK, Function.update_same, Function.update_idem]

/-! ## Bit fields -/

theorem enqueue_hcchar_mpsiz (h t : Nat) : enqueue_hcchar h t &&& 0x7FF = h &&& 0x7FF := by
  apply Nat.eq_of_testBit_eq
  intro i
  by_cases hi : i < 11
  · unfold enqueue_hcchar
    simp only []
    split_ifs <;>
    · simp only [Nat.testBit_land, Nat.testBit_lor]
      interval_cases i <;> (generalize h.testBit _ = b; revert b; decide)
  · have : Nat.testBit 0x7FF i = false := by
      apply Nat.testBit_lt_two_pow
      calc 0x7FF < 2 ^ 11 := by norm_num
        _ ≤ 2 ^ i := Nat.pow_le_pow_right (by norm_num) (by omega)
    simp [Nat.testBit_land, this]

theorem enqueue_dpid_low (h t i : Nat) (hi : i < 29) : (enqueue_dpid h t).testBit i = false := by
  have h0 : (h &&& USBH_STM32_HCTSIZ_DPID).testBit i = false := by
    simp only [USBH_STM32_HCTSIZ_DPID, Nat.testBit_land, Nat.testBit_shiftLeft]
    have : ¬ (i ≥ 29) := by omega
    simp [this]
  unfold enqueue_dpid
  simp only []
  split_ifs <;>
    simp only [Nat.testBit_land, Nat.testBit_lor, h0, USBH_STM32_HCTSIZ_DPID_MDATA,
      USBH_STM32_HCTSIZ_DPID_DATA1, USBH_STM32_HCTSIZ_DPID_DATA0, USBH_STM32_HCTSIZ_DOPING,
      Nat.testBit_shiftLeft] <;>
    (have : ¬ (i ≥ 29) := by omega
     have : ¬ (i ≥ 31) := by omega
     simp [*])

theorem field_pktcnt (b pk len : Nat) (hb : ∀ i, i < 29 → b.testBit i = false)
    (hpk : pk < 2 ^ 10) (hlen : len < 2 ^ 19) :
    ((b ||| pk <<< 19 ||| len) >>> 19) &&& 0x3FF = pk := by
  apply Nat.eq_of_testBit_eq
  intro i
  simp only [Nat.testBit_land, Nat.testBit_lor, Nat.testBit_shiftRight, Nat.testBit_shiftLeft]
  by_cases hi : i < 10
  · have h1 : b.testBit (19 + i) = false := hb _ (by omega)
    have h2 : len.testBit (19 + i) = false := by
      apply Nat.testBit_lt_two_pow
      calc len < 2 ^ 19 := hlen
        _ ≤ 2 ^ (19 + i) := Nat.pow_le_pow_right (by norm_num) (by omega)
    have h3 : (0x3FF : Nat).testBit i = true := by
      have := Nat.testBit_two_pow_sub_one 10 i
      simpa [hi] using this
    simp [h1, h2, h3]
  · have h3 : (0x3FF : Nat).testBit i = false := by
      have := Nat.testBit_two_pow_sub_one 10 i
      simpa [hi] using this
    have h4 : pk.testBit i = false := by
      apply Nat.testBit_lt_two_pow
      calc pk < 2 ^ 10 := hpk
        _ ≤ 2 ^ i := Nat.pow_le_pow_right (by norm_num) (by omega)
    simp [h3, h4]

theorem field_xfrsiz (b pk len : Nat) (hb : ∀ i, i < 29 → b.testBit i = false)
    (hlen : len < 2 ^ 19) :
    (b ||| pk <<< 19 ||| len) &&& 0x7FFFF = len := by
  apply Nat.eq_of_testBit_eq
  intro i
  simp only [Nat.testBit_land, Nat.testBit_lor, Nat.testBit_shiftLeft]
  by_cases hi : i < 19
  · have h1 : b.testBit i = false := hb _ (by omega)
    have h3 : (0x7FFFF : Nat).testBit i = true := by
      have := Nat.testBit_two_pow_sub_one 19 i
      simpa [hi] using this
    have : ¬ (i ≥ 19) := by omega
    simp [h1, h3, this]
  · have h3 : (0x7FFFF : Nat).testBit i = false := by
      have := Nat.testBit_two_pow_sub_one 19 i
      simpa [hi] using this
    have h4 : len.testBit i = false := by
      apply Nat.testBit_lt_two_pow
      calc len < 2 ^ 19 := hlen
        _ ≤ 2 ^ i := Nat.pow_le_pow_right (by norm_num) (by omega)
    simp [h3, h4]

/-- The two size fields of the prepared `HCTSIZ` value, for a length that
fits the 19-bit size field and a packet count that fits the 10-bit count
field. -/
theorem enqueue_hctsiz_fields (h0 hc t len : Nat) (hlen0 : 0 < len) (hlen : len < 2 ^ 19)
    (hpk : (len + (hc &&& 0x7FF) - 1) / (hc &&& 0x7FF) < 2 ^ 10) :
    (enqueue_hctsiz h0 hc t len >>> 19) &&& 0x3FF = (len + (hc &&& 0x7FF) - 1) / (hc &&& 0x7FF) ∧
    enqueue_hctsiz h0 hc t len &&& 0x7FFFF = len := by
  have hm : hc &&& 0x7FF < 2 ^ 11 := Nat.and_lt_two_pow _ (by norm_num)
  have e1 : u32 (len + (hc &&& 0x7FF) - 1) = len + (hc &&& 0x7FF) - 1 := by
    unfold u32
    apply Nat.mod_eq_of_lt
    norm_num at hlen hm ⊢
    omega
  have e2 : u32 (((len + (hc &&& 0x7FF) - 1) / (hc &&& 0x7FF)) <<< 19) =
      ((len + (hc &&& 0x7FF) - 1) / (hc &&& 0x7FF)) <<< 19 := by
    unfold u32
    apply Nat.mod_eq_of_lt
    rw [Nat.shiftLeft_eq]
    norm_num at hpk ⊢
    omega
  have e3 : u32 (len <<< 0) = len := by
    unfold u32
    rw [Nat.shiftLeft_eq, Nat.pow_zero, Nat.mul_one]
    apply Nat.mod_eq_of_lt
    norm_num at hlen ⊢
    omega
  unfold enqueue_hctsiz
  simp only [ne_eq, Nat.pos_iff_ne_zero.mp hlen0, not_false_eq_true, if_true, e1, e2, e3]
  exact ⟨field_pktcnt _ _ _ (enqueue_dpid_low _ _) hpk hlen,
    field_xfrsiz _ _ _ (enqueue_dpid_low _ _) hlen⟩

/-- The two size fields of the prepared `HCTSIZ` value for length 0. -/
theorem enqueue_hctsiz_zero (h0 hc t : Nat) :
    (enqueue_hctsiz h0 hc t 0 >>> 19) &&& 0x3FF = 1 ∧ enqueue_hctsiz h0 hc t 0 &&& 0x7FFFF = 0 := by
  unfold enqueue_hctsiz
  simp only [ne_eq, not_true_eq_false, if_false]
  have e : enqueue_dpid h0 t ||| 1 <<< 19 ||| 0 <<< 0 = enqueue_dpid h0 t ||| 1 <<< 19 ||| 0 := by
    simp
  rw [e]
  exact ⟨field_pktcnt _ 1 0 (enqueue_dpid_low _ _) (by norm_num) (by norm_num),
    field_xfrsiz _ 1 0 (enqueue_dpid_low _ _) (by norm_num)⟩

/-! ## The log only grows -/

theorem poll_log (s : State) : (poll s).2.log = s.log := by
  unfold poll
  cases s.hw <;> rfl

theorem DMA_Stop_loop_log (n : Nat) (s : State) : (DMA_Stop_loop n s).1.log = s.log := by
  induction n generalizing s with
  | zero =>
    unfold DMA_Stop_loop
    simp only []
    split_ifs <;> exact poll_log s
  | succ n ih =>
    unfold DMA_Stop_loop
    simp only []
    split_ifs
    · exact poll_log s
    · rw [ih]; exact poll_log s

theorem DMA_Wait_loop_log (n : Nat) (s : State) : (DMA_Wait_loop n s).1.log = s.log := by
  induction n generalizing s with
  | zero =>
    unfold DMA_Wait_loop
    simp only []
    split_ifs
    · exact poll_log s
    · simp only [poll_log]
    · simp only [poll_log]
  | succ n ih =>
    unfold DMA_Wait_loop
    simp only []
    split_ifs
    · exact poll_log s
    · simp only [poll_log]
    · rw [ih]; simp only [poll_log]

theorem DMA_Stop_log (s : State) : (USBH_STM32_DMA_Stop s).1.log = s.log ++ [HwOp.dmaStop] := by
  unfold USBH_STM32_DMA_Stop
  rw [DMA_Stop_loop_log]

theorem DMA_Wait_log (s : State) : ∃ l, (USBH_STM32_DMA_Wait s).1.log = s.log ++ l := by
  unfold USBH_STM32_DMA_Wait
  simp only []
  split_ifs
  · exact ⟨[HwOp.dmaWait], by rw [DMA_Wait_loop_log]⟩
  · exact ⟨[HwOp.dmaWait] ++ [HwOp.dmaStop], by
      rw [DMA_Stop_log, DMA_Wait_loop_log, List.append_assoc]⟩
  · exact ⟨[HwOp.dmaWait] ++ [HwOp.dmaStop], by
      rw [DMA_Stop_log, DMA_Wait_loop_log, List.append_assoc]⟩

/-- The store to `HCINTMSK` of a successful `USBH_STM32_CH_TransferEnqueue` is
in the log. -/
theorem TransferEnqueue_log_mask (s : State) (ptrCH tgl_typ buf len : Nat)
    (hp : ptrCH ≠ 0) (hc : s.Port_Con ≠ 0) :
    HwOp.wrHCINTMSK (USBH_STM32_CH_GetIndexFromCH ptrCH) (enqueue_hcintmsk tgl_typ) ∈
      (USBH_STM32_CH_TransferEnqueue s ptrCH tgl_typ buf len).1.log := by
  unfold USBH_STM32_CH_TransferEnqueue
  simp only [hp, hc, if_false]
  split_ifs
  · obtain ⟨l, hl⟩ := DMA_Wait_log (wrHCTSIZ (wrHCINTMSK s (USBH_STM32_CH_GetIndexFromCH ptrCH)
        (enqueue_hcintmsk tgl_typ)) (USBH_STM32_CH_GetIndexFromCH ptrCH)
        (enqueue_hctsiz (s.CH (USBH_STM32_CH_GetIndexFromCH ptrCH)).HCTSIZ
          (enqueue_hcchar (s.CH (USBH_STM32_CH_GetIndexFromCH ptrCH)).HCCHAR tgl_typ) tgl_typ len))
    simp only [USBH_STM32_DMA_Start, wrHCCHAR]
    rw [hl]
    simp [wrHCTSIZ, wrHCINTMSK]
  · simp only [wrHCCHAR, wrHCTSIZ, wrHCINTMSK]
    simp

/-! ## C1: transfer-size fields -/

/-- C1, as stated, fails: with max packet size 64 (the bulk OUT endpoint on
channel 0) and length 524288 = 2^19, a successful
`USBH_STM32_CH_TransferEnqueue` leaves `HCTSIZ` with transfer-size field 0
(not 524288) and packet-count field 1 (not ceil(524288 / 64) = 8192). -/
theorem C1_counterexample :
    (USBH_STM32_CH_TransferEnqueue withBulkOut HCCHAR0_ADDR USBH_PACKET_OUT 0x20000000 524288).2
      = true ∧
    0 < 524288 ∧ 0 < (withBulkOut.CH 0).HCCHAR &&& 0x7FF ∧
    (524288 + ((withBulkOut.CH 0).HCCHAR &&& 0x7FF) - 1) / ((withBulkOut.CH 0).HCCHAR &&& 0x7FF)
      = 8192 ∧
    ((USBH_STM32_CH_TransferEnqueue withBulkOut HCCHAR0_ADDR USBH_PACKET_OUT 0x20000000
        524288).1.CH 0).HCTSIZ &&& 0x7FFFF = 0 ∧
    (((USBH_STM32_CH_TransferEnqueue withBulkOut HCCHAR0_ADDR USBH_PACKET_OUT 0x20000000
        524288).1.CH 0).HCTSIZ >>> 19) &&& 0x3FF = 1 := by
  decide

/-- C1 (amended): on every successful call of `USBH_STM32_CH_TransferEnqueue`,
with `mps` the max packet size of the channel (HCCHAR bits 0..10) and `k` the
packet count `(len + mps - 1) / mps` (the ceiling of len / mps): if
`0 < len < 2^19`, `0 < mps` and `k < 2^10`, the value left in `HCTSIZ` has
packet-count field (bits 19..28) `k` and transfer-size field (bits 0..18)
`len`; if `len = 0` the packet-count field is 1 and the transfer-size field
is 0. -/
theorem C1_transfer_size_fields (s : State) (ptrCH tgl_typ buf len : Nat)
    (hok : (USBH_STM32_CH_TransferEnqueue s ptrCH tgl_typ buf len).2 = true) :
    (0 < len → len < 2 ^ 19 →
      0 < (s.CH (USBH_STM32_CH_GetIndexFromCH ptrCH)).HCCHAR &&& 0x7FF →
      (len + ((s.CH (USBH_STM32_CH_GetIndexFromCH ptrCH)).HCCHAR &&& 0x7FF) - 1) /
        ((s.CH (USBH_STM32_CH_GetIndexFromCH ptrCH)).HCCHAR &&& 0x7FF) < 2 ^ 10 →
      ((((USBH_STM32_CH_TransferEnqueue s ptrCH tgl_typ buf len).1.CH
          (USBH_STM32_CH_GetIndexFromCH ptrCH)).HCTSIZ >>> 19) &&& 0x3FF =
        (len + ((s.CH (USBH_STM32_CH_GetIndexFromCH ptrCH)).HCCHAR &&& 0x7FF) - 1) /
          ((s.CH (USBH_STM32_CH_GetIndexFromCH ptrCH)).HCCHAR &&& 0x7FF) ∧
       ((USBH_STM32_CH_TransferEnqueue s ptrCH tgl_typ buf len).1.CH
          (USBH_STM32_CH_GetIndexFromCH ptrCH)).HCTSIZ &&& 0x7FFFF = len)) ∧
    (len = 0 →
      ((((USBH_STM32_CH_TransferEnqueue s ptrCH tgl_typ buf len).1.CH
          (USBH_STM32_CH_GetIndexFromCH ptrCH)).HCTSIZ >>> 19) &&& 0x3FF = 1 ∧
       ((USBH_STM32_CH_TransferEnqueue s ptrCH tgl_typ buf len).1.CH
          (USBH_STM32_CH_GetIndexFromCH ptrCH)).HCTSIZ &&& 0x7FFFF = 0)) := by
  obtain ⟨hp, hc⟩ := (TransferEnqueue_ok_iff s ptrCH tgl_typ buf len).mp hok
  rw [TransferEnqueue_CH s ptrCH tgl_typ buf len hp hc]
  simp only [Function.update_same]
  constructor
  · intro h1 h2 h3 h4
    have := enqueue_hctsiz_fields (s.CH (USBH_STM32_CH_GetIndexFromCH ptrCH)).HCTSIZ
      (enqueue_hcchar (s.CH (USBH_STM32_CH_GetIndexFromCH ptrCH)).HCCHAR tgl_typ) tgl_typ len h1 h2
    rw [enqueue_hcchar_mpsiz] at this
    exact this h4
  · intro h0
    subst h0
    exact enqueue_hctsiz_zero _ _ _

/-- C1, witness: the bulk OUT endpoint with max packet size 64 and a length
of 523 bytes gives packet count 9 and transfer size 523. -/
theorem C1_transfer_size_fields_witness :
    (((USBH_STM32_CH_TransferEnqueue withBulkOut HCCHAR0_ADDR USBH_PACKET_OUT 0x20000000
        523).1.CH 0).HCTSIZ >>> 19) &&& 0x3FF = 9 ∧
    ((USBH_STM32_CH_TransferEnqueue withBulkOut HCCHAR0_ADDR USBH_PACKET_OUT 0x20000000
        523).1.CH 0).HCTSIZ &&& 0x7FFFF = 523 :=
  (C1_transfer_size_fields withBulkOut HCCHAR0_ADDR USBH_PACKET_OUT 0x20000000 523
    (by decide)).1 (by decide) (by decide) (by decide) (by decide)

/-! ## C2: interrupt mask per packet kind -/

/-- C2: on every successful call of `USBH_STM32_CH_TransferEnqueue` the value
left in the channel's `HCINTMSK` is the one selected by the packet kind in the
low nibble of `tgl_typ` (and the store is in the log): for IN the causes
data-toggle error, babble, transaction error, ACK, NAK, STALL and transfer
complete; for OUT transaction error, NYET, NAK, STALL and transfer complete;
for SETUP transaction error, NAK, STALL and transfer complete; for PING
transaction error, ACK, NAK, STALL and transfer complete.  The four masks are
pairwise different. -/
theorem C2_interrupt_mask (s : State) (ptrCH tgl_typ buf len : Nat)
    (hok : (USBH_STM32_CH_TransferEnqueue s ptrCH tgl_typ buf len).2 = true) :
    (tgl_typ &&& 0x0F = USBH_PACKET_IN →
      ((USBH_STM32_CH_TransferEnqueue s ptrCH tgl_typ buf len).1.CH
        (USBH_STM32_CH_GetIndexFromCH ptrCH)).HCINTMSK =
      USBH_STM32_HCINTMSK_DTERRM ||| USBH_STM32_HCINTMSK_BBERRM ||| USBH_STM32_HCINTMSK_TXERRM |||
      USBH_STM32_HCINTMSK_ACKM ||| USBH_STM32_HCINTMSK_NAKM ||| USBH_STM32_HCINTMSK_STALLM |||
      USBH_STM32_HCINTMSK_XFRCM) ∧
    (tgl_typ &&& 0x0F = USBH_PACKET_OUT →
      ((USBH_STM32_CH_TransferEnqueue s ptrCH tgl_typ buf len).1.CH
        (USBH_STM32_CH_GetIndexFromCH ptrCH)).HCINTMSK =
      USBH_STM32_HCINTMSK_TXERRM ||| USBH_STM32_HCINTMSK_NYET ||| USBH_STM32_HCINTMSK_NAKM |||
      USBH_STM32_HCINTMSK_STALLM ||| USBH_STM32_HCINTMSK_XFRCM) ∧
    (tgl_typ &&& 0x0F = USBH_PACKET_SETUP →
      ((USBH_STM32_CH_TransferEnqueue s ptrCH tgl_typ buf len).1.CH
        (USBH_STM32_CH_GetIndexFromCH ptrCH)).HCINTMSK =
      USBH_STM32_HCINTMSK_TXERRM ||| USBH_STM32_HCINTMSK_NAKM ||| USBH_STM32_HCINTMSK_STALLM |||
      USBH_STM32_HCINTMSK_XFRCM) ∧
    (tgl_typ &&& 0x0F = USBH_PACKET_PING →
      ((USBH_STM32_CH_TransferEnqueue s ptrCH tgl_typ buf len).1.CH
        (USBH_STM32_CH_GetIndexFromCH ptrCH)).HCINTMSK =
      USBH_STM32_HCINTMSK_TXERRM ||| USBH_STM32_HCINTMSK_ACKM ||| USBH_STM32_HCINTMSK_NAKM |||
      USBH_STM32_HCINTMSK_STALLM ||| USBH_STM32_HCINTMSK_XFRCM) ∧
    HwOp.wrHCINTMSK (USBH_STM32_CH_GetIndexFromCH ptrCH)
        ((USBH_STM32_CH_TransferEnqueue s ptrCH tgl_typ buf len).1.CH
          (USBH_STM32_CH_GetIndexFromCH ptrCH)).HCINTMSK ∈
      (USBH_STM32_CH_TransferEnqueue s ptrCH tgl_typ buf len).1.log ∧
    [enqueue_hcintmsk USBH_PACKET_IN, enqueue_hcintmsk USBH_PACKET_OUT,
      enqueue_hcintmsk USBH_PACKET_SETUP, enqueue_hcintmsk USBH_PACKET_PING].Nodup := by
  obtain ⟨hp, hc⟩ := (TransferEnqueue_ok_iff s ptrCH tgl_typ buf len).mp hok
  rw [TransferEnqueue_CH s ptrCH tgl_typ buf len hp hc]
  simp only [Function.update_same]
  refine ⟨?_, ?_, ?_, ?_, ?_, by decide⟩
  · intro h
    simp only [enqueue_hcintmsk, h, if_true]
  · intro h
    simp only [enqueue_hcintmsk, h, if_true]
    rfl
  · intro h
    simp only [enqueue_hcintmsk, h, if_true]
    rfl
  · intro h
    simp only [enqueue_hcintmsk, h, if_true]
    rfl
  · exact TransferEnqueue_log_mask s ptrCH tgl_typ buf len hp hc

/-- C2, witness: a SETUP packet on the bulk endpoint's channel. -/
theorem C2_interrupt_mask_witness :
    ((USBH_STM32_CH_TransferEnqueue withBulkOut HCCHAR0_ADDR USBH_PACKET_SETUP 0x20000000
        8).1.CH 0).HCINTMSK =
      USBH_STM32_HCINTMSK_TXERRM ||| USBH_STM32_HCINTMSK_NAKM ||| USBH_STM32_HCINTMSK_STALLM |||
      USBH_STM32_HCINTMSK_XFRCM :=
  (C2_interrupt_mask withBulkOut HCCHAR0_ADDR USBH_PACKET_SETUP 0x20000000 8
    (by decide)).2.2.1 (by decide)

/-! ## C3: submit rejections -/

/-- C3: for every non-null handle and URB, `USBH_STM32_URB_Submit` returns
failure when the URB has `Submitted = 1` or `InProgress = 1`, or when the port
is not connected; the whole state (the URB, the channel's URB slot, the
interval counters, the channel registers) is left as it was. -/
theorem C3_submit_rejected (s : State) (hndl ptrURB max_cnt0 : Nat)
    (_hh : hndl ≠ 0) (_hu : ptrURB ≠ 0)
    (h : (s.URB ptrURB).Submitted = true ∨ (s.URB ptrURB).InProgress = true ∨ s.Port_Con = 0) :
    USBH_STM32_URB_Submit s hndl ptrURB max_cnt0 = (s, false) := by
  unfold USBH_STM32_URB_Submit
  by_cases hc : s.Port_Con = 0
  · simp [hc]
  · have h2 : (s.URB ptrURB).Submitted = true ∨ (s.URB ptrURB).InProgress = true := by
      rcases h with h | h | h
      · exact Or.inl h
      · exact Or.inr h
      · exact absurd h hc
    simp only [hc, h2, if_true, if_false]
    split_ifs <;> rfl

/-- C3, witness: a URB already in progress on the bulk endpoint. -/
theorem C3_submit_rejected_witness :
    USBH_STM32_URB_Submit (USBH_STM32_URB_Submit withBulkOut HCCHAR0_ADDR 0x20001000 0).1
        HCCHAR0_ADDR 0x20001000 0 =
      ((USBH_STM32_URB_Submit withBulkOut HCCHAR0_ADDR 0x20001000 0).1, false) :=
  C3_submit_rejected (USBH_STM32_URB_Submit withBulkOut HCCHAR0_ADDR 0x20001000 0).1
    HCCHAR0_ADDR 0x20001000 0 (by decide) (by decide) (Or.inl (by decide))

/-! ## C4: submit on a control or bulk endpoint -/

/-- C4: on a control or bulk endpoint, with the port connected and the URB
neither submitted nor in progress, `USBH_STM32_URB_Submit` succeeds.  At full
or high speed the state it returns is the one
`USBH_STM32_CH_TransferEnqueue` (called with the URB's `Parameters`, buffer
and `DataLength`, and succeeding) produces from the state with the URB marked
submitted and in progress, with `HW_Accessing` false again; the URB has
`Submitted = 1` and `InProgress = 1`.  At low speed no channel register is
written (registers and log unchanged) and the URB has `Submitted = 1`,
`InProgress = 0`.  In both cases `DataTransferred = 0`, `TimeoutCount = 100`
and the channel's slot holds the URB. -/
theorem C4_submit_control_bulk (s : State) (hndl ptrURB max_cnt0 : Nat)
    (hh : hndl ≠ 0) (hu : ptrURB ≠ 0) (hc : s.Port_Con ≠ 0)
    (hs : (s.URB ptrURB).Submitted = false) (hi : (s.URB ptrURB).InProgress = false)
    (ht : (s.CH (USBH_STM32_CH_GetIndexFromCH hndl)).EPTYP = USB_ENDPOINT_TYPE_CONTROL ∨
          (s.CH (USBH_STM32_CH_GetIndexFromCH hndl)).EPTYP = USB_ENDPOINT_TYPE_BULK) :
    (USBH_STM32_URB_Submit s hndl ptrURB max_cnt0).2 = true ∧
    ((USBH_STM32_URB_Submit s hndl ptrURB max_cnt0).1.URB ptrURB).DataTransferred = 0 ∧
    ((USBH_STM32_URB_Submit s hndl ptrURB max_cnt0).1.URB ptrURB).TimeoutCount = 100 ∧
    (USBH_STM32_URB_Submit s hndl ptrURB max_cnt0).1.CHURB (USBH_STM32_CH_GetIndexFromCH hndl)
      = ptrURB ∧
    ((s.Port_Speed = USBH_FS ∨ s.Port_Speed = USBH_HS) →
      (USBH_STM32_CH_TransferEnqueue
          { s with HW_Accessing := true,
                   CHURB := Function.update s.CHURB (USBH_STM32_CH_GetIndexFromCH hndl) ptrURB,
                   URB := Function.update s.URB ptrURB
                     { (s.URB ptrURB).clearStatus with
                         DataTransferred := 0, TimeoutCount := MAX_TIMEOUT_COUNT,
                         Submitted := true, InProgress := true } }
          hndl ((s.URB ptrURB).Parameters % 256) (s.URB ptrURB).ptrDataBuffer
          (s.URB ptrURB).DataLength).2 = true ∧
      (USBH_STM32_URB_Submit s hndl ptrURB max_cnt0).1 =
        { (USBH_STM32_CH_TransferEnqueue
            { s with HW_Accessing := true,
                     CHURB := Function.update s.CHURB (USBH_STM32_CH_GetIndexFromCH hndl) ptrURB,
                     URB := Function.update s.URB ptrURB
                       { (s.URB ptrURB).clearStatus with
                           DataTransferred := 0, TimeoutCount := MAX_TIMEOUT_COUNT,
                           Submitted := true, InProgress := true } }
            hndl ((s.URB ptrURB).Parameters % 256) (s.URB ptrURB).ptrDataBuffer
            (s.URB ptrURB).DataLength).1 with HW_Accessing := false } ∧
      ((USBH_STM32_URB_Submit s hndl ptrURB max_cnt0).1.URB ptrURB).Submitted = true ∧
      ((USBH_STM32_URB_Submit s hndl ptrURB max_cnt0).1.URB ptrURB).InProgress = true ∧
      (USBH_STM32_URB_Submit s hndl ptrURB max_cnt0).1.HW_Accessing = false) ∧
    (s.Port_Speed = USBH_LS →
      (USBH_STM32_URB_Submit s hndl ptrURB max_cnt0).1.CH = s.CH ∧
      (USBH_STM32_URB_Submit s hndl ptrURB max_cnt0).1.log = s.log ∧
      ((USBH_STM32_URB_Submit s hndl ptrURB max_cnt0).1.URB ptrURB).Submitted = true ∧
      ((USBH_STM32_URB_Submit s hndl ptrURB max_cnt0).1.URB ptrURB).InProgress = false) := by
  have hnI : (s.CH (USBH_STM32_CH_GetIndexFromCH hndl)).EPTYP ≠ USB_ENDPOINT_TYPE_INTERRUPT := by
    rcases ht with ht | ht <;> (rw [ht]; decide)
  have hflags : ¬ ((s.URB ptrURB).Submitted = true ∨ (s.URB ptrURB).InProgress = true) := by
    simp [hs, hi]
  by_cases hsp : s.Port_Speed &&& 3 ≠ USBH_LS
  · -- the transfer is started at once
    have hnLS : s.Port_Speed ≠ USBH_LS := by
      intro h; apply hsp; rw [h]; decide
    have e : USBH_STM32_URB_Submit s hndl ptrURB max_cnt0 =
        ({ (USBH_STM32_CH_TransferEnqueue
            { s with HW_Accessing := true,
                     CHURB := Function.update s.CHURB (USBH_STM32_CH_GetIndexFromCH hndl) ptrURB,
                     URB := Function.update s.URB ptrURB
                       { (s.URB ptrURB).clearStatus with
                           DataTransferred := 0, TimeoutCount := MAX_TIMEOUT_COUNT,
                           Submitted := true, InProgress := true } }
            hndl ((s.URB ptrURB).Parameters % 256) (s.URB ptrURB).ptrDataBuffer
            (s.URB ptrURB).DataLength).1 with HW_Accessing := false }, true) := by
      unfold USBH_STM32_URB_Submit
      simp only [hh, hu, hc, hflags, if_false, modURB, setCHURB, hnI, ht, hsp, if_true,
        Function.update_same, Function.update_idem, USBH_URB.clearStatus, ne_eq,
        not_false_eq_true]
    have fr := TransferEnqueue_frame
          { s with HW_Accessing := true,
                   CHURB := Function.update s.CHURB (USBH_STM32_CH_GetIndexFromCH hndl) ptrURB,
                   URB := Function.update s.URB ptrURB
                     { (s.URB ptrURB).clearStatus with
                         DataTransferred := 0, TimeoutCount := MAX_TIMEOUT_COUNT,
                         Submitted := true, InProgress := true } }
          hndl ((s.URB ptrURB).Parameters % 256) (s.URB ptrURB).ptrDataBuffer
          (s.URB ptrURB).DataLength
    rw [e]
    simp only [fr.urb, fr.churb, Function.update_same]
    refine ⟨trivial, trivial, rfl, trivial, ?_, ?_⟩
    · intro _
      exact ⟨(TransferEnqueue_ok_iff _ _ _ _ _).mpr ⟨hh, hc⟩, trivial, trivial, trivial, trivial⟩
    · intro h; exact absurd h hnLS
  · -- low speed: submitted only
    have hsp2 : s.Port_Speed &&& 3 = USBH_LS := not_not.mp hsp
    have e : USBH_STM32_URB_Submit s hndl ptrURB max_cnt0 =
        ({ s with CHURB := Function.update s.CHURB (USBH_STM32_CH_GetIndexFromCH hndl) ptrURB,
                  URB := Function.update s.URB ptrURB
                    { (s.URB ptrURB).clearStatus with
                        DataTransferred := 0, TimeoutCount := MAX_TIMEOUT_COUNT,
                        Submitted := true } }, true) := by
      unfold USBH_STM32_URB_Submit
      simp only [hh, hu, hc, hflags, if_false, modURB, setCHURB, hnI, ht, hsp2, if_true,
        Function.update_same, Function.update_idem, USBH_URB.clearStatus, ne_eq, not_true_eq_false]
    rw [e]
    simp only [Function.update_same, MAX_TIMEOUT_COUNT, USBH_URB.clearStatus]
    refine ⟨trivial, trivial, trivial, trivial, ?_, ?_⟩
    · intro h
      exfalso
      rcases h with h | h <;> (rw [h] at hsp2; revert hsp2; decide)
    · intro _
      exact ⟨trivial, trivial, trivial, trivial⟩

/-- C4, witness: a fresh URB on the bulk OUT endpoint of a full-speed
device. -/
theorem C4_submit_control_bulk_witness :
    (USBH_STM32_URB_Submit withBulkOut HCCHAR0_ADDR 0x20001000 0).2 = true ∧
    ((USBH_STM32_URB_Submit withBulkOut HCCHAR0_ADDR 0x20001000 0).1.URB 0x20001000).TimeoutCount
      = 100 :=
  ⟨(C4_submit_control_bulk withBulkOut HCCHAR0_ADDR 0x20001000 0 (by decide) (by decide)
      (by decide) (by decide) (by decide) (Or.inr (by decide))).1,
   (C4_submit_control_bulk withBulkOut HCCHAR0_ADDR 0x20001000 0 (by decide) (by decide)
      (by decide) (by decide) (by decide) (Or.inr (by decide))).2.2.1⟩

/-! ## C5: submit on an interrupt endpoint -/

/-- C5: on an interrupt endpoint, with the port connected and the URB neither
submitted nor in progress, `USBH_STM32_URB_Submit` succeeds, writes no channel
register (registers and log unchanged), leaves the URB with `Submitted = 1`
and `InProgress = 0`, and arms `cntInterval[ch]`: when the URB's previous
response was NAK, to `2^k` at high speed with `k = cntIntervalMax[ch] & 0x0F`
(0 taken as 1), and to `cntIntervalMax[ch]` (0 taken as 1) at full or low
speed; when it was not NAK, to 1. -/
theorem C5_submit_interrupt (s : State) (hndl ptrURB max_cnt0 : Nat)
    (hh : hndl ≠ 0) (hu : ptrURB ≠ 0) (hc : s.Port_Con ≠ 0)
    (hs : (s.URB ptrURB).Submitted = false) (hi : (s.URB ptrURB).InProgress = false)
    (ht : (s.CH (USBH_STM32_CH_GetIndexFromCH hndl)).EPTYP = USB_ENDPOINT_TYPE_INTERRUPT)
    (hmax : s.cntIntervalMax (USBH_STM32_CH_GetIndexFromCH hndl) < 256) :
    (USBH_STM32_URB_Submit s hndl ptrURB max_cnt0).2 = true ∧
    (USBH_STM32_URB_Submit s hndl ptrURB max_cnt0).1.CH = s.CH ∧
    (USBH_STM32_URB_Submit s hndl ptrURB max_cnt0).1.log = s.log ∧
    ((USBH_STM32_URB_Submit s hndl ptrURB max_cnt0).1.URB ptrURB).Submitted = true ∧
    ((USBH_STM32_URB_Submit s hndl ptrURB max_cnt0).1.URB ptrURB).InProgress = false ∧
    ((s.URB ptrURB).ResponsePacketType = USBH_PACKET_NAK → s.Port_Speed = USBH_HS →
      (USBH_STM32_URB_Submit s hndl ptrURB max_cnt0).1.cntInterval
          (USBH_STM32_CH_GetIndexFromCH hndl) =
        2 ^ (if s.cntIntervalMax (USBH_STM32_CH_GetIndexFromCH hndl) &&& 0x0F = 0 then 1
             else s.cntIntervalMax (USBH_STM32_CH_GetIndexFromCH hndl) &&& 0x0F)) ∧
    ((s.URB ptrURB).ResponsePacketType = USBH_PACKET_NAK →
      (s.Port_Speed = USBH_FS ∨ s.Port_Speed = USBH_LS) →
      (USBH_STM32_URB_Submit s hndl ptrURB max_cnt0).1.cntInterval
          (USBH_STM32_CH_GetIndexFromCH hndl) =
        (if s.cntIntervalMax (USBH_STM32_CH_GetIndexFromCH hndl) = 0 then 1
         else s.cntIntervalMax (USBH_STM32_CH_GetIndexFromCH hndl))) ∧
    ((s.URB ptrURB).ResponsePacketType ≠ USBH_PACKET_NAK →
      (USBH_STM32_URB_Submit s hndl ptrURB max_cnt0).1.cntInterval
          (USBH_STM32_CH_GetIndexFromCH hndl) = 1) := by
  have hflags : ¬ ((s.URB ptrURB).Submitted = true ∨ (s.URB ptrURB).InProgress = true) := by
    simp [hs, hi]
  have hff : s.cntIntervalMax (USBH_STM32_CH_GetIndexFromCH hndl) &&& 0xFF =
      s.cntIntervalMax (USBH_STM32_CH_GetIndexFromCH hndl) := by
    have := Nat.and_pow_two_sub_one_eq_mod (s.cntIntervalMax (USBH_STM32_CH_GetIndexFromCH hndl)) 8
    norm_num at this
    rw [this]
    exact Nat.mod_eq_of_lt hmax
  unfold USBH_STM32_URB_Submit
  simp only [hh, hu, hc, hflags, if_false, modURB, setCHURB, ht, if_true,
    Function.update_same, Function.update_idem, USBH_URB.clearStatus]
  refine ⟨trivial, ?_, ?_, ?_, ?_, ?_, ?_, ?_⟩
  · split_ifs <;> rfl
  · split_ifs <;> rfl
  · trivial
  · split_ifs <;> simp
  · intro hr hsp
    simp only [hr, hsp, if_true, Function.update_same]
    have hk : (if s.cntIntervalMax (USBH_STM32_CH_GetIndexFromCH hndl) &&& 0x0F = 0 then 1
        else s.cntIntervalMax (USBH_STM32_CH_GetIndexFromCH hndl) &&& 0x0F) < 16 := by
      have : s.cntIntervalMax (USBH_STM32_CH_GetIndexFromCH hndl) &&& 0x0F < 2 ^ 4 :=
        Nat.and_lt_two_pow _ (by norm_num)
      split_ifs <;> omega
    rw [Nat.shiftLeft_eq, Nat.one_mul]
    apply Nat.mod_eq_of_lt
    calc 2 ^ _ < 2 ^ 16 := Nat.pow_lt_pow_right (by norm_num) hk
      _ = 65536 := by norm_num
  · intro hr hsp
    have hnHS : s.Port_Speed ≠ USBH_HS := by
      rcases hsp with h | h <;> (rw [h]; decide)
    simp only [hr, hsp, hnHS, if_true, if_false, Function.update_same, hff]
  · intro hr
    simp only [hr, if_false, Function.update_same]

/-- C5, witness: the interrupt endpoint with interval 4 on a full-speed
port, a URB whose previous response was NAK. -/
theorem C5_submit_interrupt_witness :
    (USBH_STM32_URB_Submit
        { withIntrIn with URB := fun _ => { urbIn with ResponsePacketType := USBH_PACKET_NAK } }
        HCCHAR0_ADDR 0x20003000 0).1.cntInterval (USBH_STM32_CH_GetIndexFromCH HCCHAR0_ADDR) =
      (if withIntrIn.cntIntervalMax (USBH_STM32_CH_GetIndexFromCH HCCHAR0_ADDR) = 0 then 1
       else withIntrIn.cntIntervalMax (USBH_STM32_CH_GetIndexFromCH HCCHAR0_ADDR)) :=
  (C5_submit_interrupt
    { withIntrIn with URB := fun _ => { urbIn with ResponsePacketType := USBH_PACKET_NAK } }
    HCCHAR0_ADDR 0x20003000 0 (by decide) (by decide) (by decide) (by decide) (by decide)
    (by decide) (by decide)).2.2.2.2.2.2.1 (by decide) (Or.inl (by decide))

/-! ## C6: cancel of a URB that is not submitted -/

/-- C6: for every non-null handle and every URB with `Submitted = 0`,
`USBH_STM32_URB_Cancel` returns success and leaves the whole state as it was;
so after any number of such calls the state is still the same and the next
call succeeds again. -/
theorem C6_cancel_not_submitted (s : State) (hndl ptrURB : Nat)
    (hh : hndl ≠ 0) (hu : ptrURB ≠ 0) (hs : (s.URB ptrURB).Submitted = false) :
    USBH_STM32_URB_Cancel s hndl ptrURB = (s, true) ∧
    ∀ n : Nat,
      (fun t => (USBH_STM32_URB_Cancel t hndl ptrURB).1)^[n] s = s ∧
      (USBH_STM32_URB_Cancel ((fun t => (USBH_STM32_URB_Cancel t hndl ptrURB).1)^[n] s)
        hndl ptrURB).2 = true := by
  have h1 : USBH_STM32_URB_Cancel s hndl ptrURB = (s, true) := by
    unfold USBH_STM32_URB_Cancel
    simp only [hh, hu, hs, if_false, if_true]
  refine ⟨h1, ?_⟩
  intro n
  have h2 : (fun t => (USBH_STM32_URB_Cancel t hndl ptrURB).1)^[n] s = s := by
    induction n with
    | zero => rfl
    | succ n ih =>
      rw [Function.iterate_succ_apply']
      rw [ih, h1]
  rw [h2, h1]
  exact ⟨rfl, rfl⟩

/-- C6, witness: a fresh URB, never submitted, cancelled on the bulk
endpoint. -/
theorem C6_cancel_not_submitted_witness :
    USBH_STM32_URB_Cancel withBulkOut HCCHAR0_ADDR 0x20001000 = (withBulkOut, true) :=
  (C6_cancel_not_submitted withBulkOut HCCHAR0_ADDR 0x20001000 (by decide) (by decide)
    (by decide)).1

/-! ## The runs of cancel -/

/-- The store `cntInterval[ch] = 0` guarded by `!cntInterval[ch]` changes
nothing. -/
theorem cancel_cnt_nop (s : State) (ch : Nat) :
    (if s.cntInterval ch = 0 then
        { s with cntInterval := Function.update s.cntInterval ch 0 }
      else s) = s := by
  split_ifs with h
  · have : Function.update s.cntInterval ch 0 = s.cntInterval := by
      rw [← h]; exact Function.update_eq_self ch s.cntInterval
    rw [this]
  · rfl

/-- Cancel of a URB that is not submitted. -/
theorem Cancel_not_submitted (s : State) (hndl ptrURB : Nat) (hh : hndl ≠ 0) (hu : ptrURB ≠ 0)
    (hs : (s.URB ptrURB).Submitted = false) :
    USBH_STM32_URB_Cancel s hndl ptrURB = (s, true) := by
  unfold USBH_STM32_URB_Cancel
  simp only [hh, hu, hs, if_false, if_true]

/-- Cancel of a URB that is submitted but not in progress. -/
theorem Cancel_pending (s : State) (hndl ptrURB : Nat) (hh : hndl ≠ 0) (hu : ptrURB ≠ 0)
    (hs : (s.URB ptrURB).Submitted = true) (hi : (s.URB ptrURB).InProgress = false) :
    USBH_STM32_URB_Cancel s hndl ptrURB =
      (modURB (setCHURB (modURB s ptrURB (fun u => { u with Submitted := false }))
          (USBH_STM32_CH_GetIndexFromCH hndl) 0) ptrURB (fun u => { u with Cancelled := true }),
        true) := by
  have hs' : ¬ ((s.URB ptrURB).Submitted = false) := by simp [hs]
  have hip1 : ¬ (((modURB s ptrURB (fun u => { u with Submitted := false })).URB
      ptrURB).InProgress = true) := by
    simp [modURB, hi]
  unfold USBH_STM32_URB_Cancel
  simp only [hh, hu, hs', hip1, if_true, if_false, Bool.true_eq_false, Bool.false_eq_true,
    cancel_cnt_nop]

/-- Cancel of a URB in progress when the disable sequence fails. -/
theorem Cancel_disable_fails (s : State) (hndl ptrURB : Nat) (hh : hndl ≠ 0) (hu : ptrURB ≠ 0)
    (hs : (s.URB ptrURB).Submitted = true) (hi : (s.URB ptrURB).InProgress = true)
    (hd : (USBH_STM32_CH_Disable (modURB s ptrURB (fun u => { u with Submitted := false }))
        hndl).2 = false) :
    USBH_STM32_URB_Cancel s hndl ptrURB =
      ((USBH_STM32_CH_Disable (modURB s ptrURB (fun u => { u with Submitted := false }))
        hndl).1, false) := by
  have hs' : ¬ ((s.URB ptrURB).Submitted = false) := by simp [hs]
  have hip1 : ((modURB s ptrURB (fun u => { u with Submitted := false })).URB
      ptrURB).InProgress = true := by
    simp [modURB, hi]
  unfold USBH_STM32_URB_Cancel
  simp only [hh, hu, hs', hip1, hd, if_true, if_false, Bool.true_eq_false, Bool.false_eq_true]

/-- Cancel of a URB in progress when the disable sequence succeeds. -/
theorem Cancel_disable_ok (s : State) (hndl ptrURB : Nat) (hh : hndl ≠ 0) (hu : ptrURB ≠ 0)
    (hs : (s.URB ptrURB).Submitted = true) (hi : (s.URB ptrURB).InProgress = true)
    (hd : (USBH_STM32_CH_Disable (modURB s ptrURB (fun u => { u with Submitted := false }))
        hndl).2 = true) :
    USBH_STM32_URB_Cancel s hndl ptrURB =
      (modURB (setCHURB (modURB
          (USBH_STM32_CH_Disable (modURB s ptrURB (fun u => { u with Submitted := false }))
            hndl).1 ptrURB (fun u => { u with InProgress := false }))
          (USBH_STM32_CH_GetIndexFromCH hndl) 0) ptrURB (fun u => { u with Cancelled := true }),
        true) := by
  have hs' : ¬ ((s.URB ptrURB).Submitted = false) := by simp [hs]
  have hip1 : ((modURB s ptrURB (fun u => { u with Submitted := false })).URB
      ptrURB).InProgress = true := by
    simp [modURB, hi]
  unfold USBH_STM32_URB_Cancel
  simp only [hh, hu, hs', hip1, hd, if_true, if_false, Bool.true_eq_false, Bool.false_eq_true,
    cancel_cnt_nop]

/-- Cancel never changes `cntIntervalMax`. -/
theorem Cancel_cntIntervalMax (s : State) (hndl ptrURB : Nat) :
    (USBH_STM32_URB_Cancel s hndl ptrURB).1.cntIntervalMax = s.cntIntervalMax := by
  by_cases hh : hndl = 0
  · unfold USBH_STM32_URB_Cancel; simp only [hh, if_true]
  by_cases hu : ptrURB = 0
  · unfold USBH_STM32_URB_Cancel; simp only [hh, hu, if_true, if_false]
  by_cases hs : (s.URB ptrURB).Submitted = false
  · rw [Cancel_not_submitted s hndl ptrURB hh hu hs]
  have hs1 : (s.URB ptrURB).Submitted = true := by simpa using hs
  by_cases hi : (s.URB ptrURB).InProgress = true
  · by_cases hd : (USBH_STM32_CH_Disable (modURB s ptrURB (fun u => { u with Submitted := false }))
        hndl).2 = true
    · rw [Cancel_disable_ok s hndl ptrURB hh hu hs1 hi hd]
      exact (CH_Disable_frame _ _).cntMax
    · rw [Cancel_disable_fails s hndl ptrURB hh hu hs1 hi (by simpa using hd)]
      exact (CH_Disable_frame _ _).cntMax
  · rw [Cancel_pending s hndl ptrURB hh hu hs1 (by simpa using hi)]
    rfl

/-! ## C7: cancel and the channel's URB slot -/

/-- C7, as stated, fails: a URB submitted on an isochronous endpoint sits in
the slot of channel 0 with `Submitted = 0`; cancelling it on that handle
returns success and leaves it in the slot. -/
theorem C7_counterexample :
    submittedIsoIn.CHURB (USBH_STM32_CH_GetIndexFromCH HCCHAR0_ADDR) = 0x20003000 ∧
    (USBH_STM32_URB_Cancel submittedIsoIn HCCHAR0_ADDR 0x20003000).2 = true ∧
    (USBH_STM32_URB_Cancel submittedIsoIn HCCHAR0_ADDR 0x20003000).1.CHURB
      (USBH_STM32_CH_GetIndexFromCH HCCHAR0_ADDR) = 0x20003000 := by
  decide

/-- C7 (amended): for every non-null handle and URB, `USBH_STM32_URB_Cancel`
empties the channel's slot and returns success when the URB is submitted and
either is not in progress or the channel disable sequence succeeds.  When the
URB is not submitted it returns success with the slot as it was; when the URB
is submitted and in progress and the disable sequence fails it returns failure
with the slot as it was. -/
theorem C7_cancel_clears_slot (s : State) (hndl ptrURB : Nat) (hh : hndl ≠ 0)
    (hu : ptrURB ≠ 0) :
    ((s.URB ptrURB).Submitted = true →
      ((s.URB ptrURB).InProgress = false ∨
        (USBH_STM32_CH_Disable (modURB s ptrURB (fun u => { u with Submitted := false }))
          hndl).2 = true) →
      (USBH_STM32_URB_Cancel s hndl ptrURB).2 = true ∧
      (USBH_STM32_URB_Cancel s hndl ptrURB).1.CHURB (USBH_STM32_CH_GetIndexFromCH hndl) = 0) ∧
    ((s.URB ptrURB).Submitted = false →
      (USBH_STM32_URB_Cancel s hndl ptrURB).2 = true ∧
      (USBH_STM32_URB_Cancel s hndl ptrURB).1.CHURB = s.CHURB) ∧
    ((s.URB ptrURB).Submitted = true → (s.URB ptrURB).InProgress = true →
      (USBH_STM32_CH_Disable (modURB s ptrURB (fun u => { u with Submitted := false }))
        hndl).2 = false →
      (USBH_STM32_URB_Cancel s hndl ptrURB).2 = false ∧
      (USBH_STM32_URB_Cancel s hndl ptrURB).1.CHURB = s.CHURB) := by
  refine ⟨?_, ?_, ?_⟩
  · intro hs hor
    by_cases hip : (s.URB ptrURB).InProgress = true
    · have hd : (USBH_STM32_CH_Disable (modURB s ptrURB (fun u => { u with Submitted := false }))
          hndl).2 = true := by
        rcases hor with h | h
        · rw [hip] at h; exact absurd h (by decide)
        · exact h
      rw [Cancel_disable_ok s hndl ptrURB hh hu hs hip hd]
      exact ⟨rfl, by simp [modURB, setCHURB]⟩
    · rw [Cancel_pending s hndl ptrURB hh hu hs (by simpa using hip)]
      exact ⟨rfl, by simp [modURB, setCHURB]⟩
  · intro hs
    rw [Cancel_not_submitted s hndl ptrURB hh hu hs]
    exact ⟨rfl, rfl⟩
  · intro hs hip hd
    rw [Cancel_disable_fails s hndl ptrURB hh hu hs hip hd]
    exact ⟨rfl, (CH_Disable_frame _ _).churb⟩

/-- C7, witness: cancelling the URB that waits for its interval on the
interrupt endpoint's channel. -/
theorem C7_cancel_clears_slot_witness :
    (USBH_STM32_URB_Cancel pendingIntrIn HCCHAR0_ADDR 0x20003000).2 = true ∧
    (USBH_STM32_URB_Cancel pendingIntrIn HCCHAR0_ADDR 0x20003000).1.CHURB
      (USBH_STM32_CH_GetIndexFromCH HCCHAR0_ADDR) = 0 :=
  (C7_cancel_clears_slot pendingIntrIn HCCHAR0_ADDR 0x20003000 (by decide) (by decide)).1
    (by decide) (Or.inl (by decide))

/-! ## C8: endpoint removal -/

/-- C8, as stated, fails: removing the interrupt endpoint added with
interval 4 succeeds and leaves `cntIntervalMax[0] = 4`, not 0. -/
theorem C8_counterexample :
    (USBH_STM32_EP_Remove withIntrIn HCCHAR0_ADDR).2 = true ∧
    (USBH_STM32_EP_Remove withIntrIn HCCHAR0_ADDR).1.cntIntervalMax
      (USBH_STM32_CH_GetIndexFromCH HCCHAR0_ADDR) = 4 := by
  decide

/-- C8 (amended): for every non-zero handle, `USBH_STM32_EP_Remove` succeeds
exactly when the channel's slot is empty or the cancel of the slot's URB
succeeds, which is the case whenever that URB is not both submitted and in
progress; whenever it succeeds the channel's `HCCHAR`, `HCINT`, `HCINTMSK` and
`HCTSIZ` are all 0 and `cntInterval[ch]` is 0.  `cntIntervalMax` is never
changed.  When the cancel fails, remove returns failure in the state the
cancel left. -/
theorem C8_remove_zeroes_channel (s : State) (hndl : Nat) (hh : hndl ≠ 0) :
    ((USBH_STM32_EP_Remove s hndl).2 = true ↔
      (s.CHURB (USBH_STM32_CH_GetIndexFromCH hndl) = 0 ∨
        (USBH_STM32_URB_Cancel s hndl (s.CHURB (USBH_STM32_CH_GetIndexFromCH hndl))).2 = true)) ∧
    ((s.CHURB (USBH_STM32_CH_GetIndexFromCH hndl) = 0 ∨
        (s.URB (s.CHURB (USBH_STM32_CH_GetIndexFromCH hndl))).Submitted = false ∨
        (s.URB (s.CHURB (USBH_STM32_CH_GetIndexFromCH hndl))).InProgress = false) →
      (USBH_STM32_EP_Remove s hndl).2 = true) ∧
    ((USBH_STM32_EP_Remove s hndl).2 = true →
      (USBH_STM32_EP_Remove s hndl).1.CH (USBH_STM32_CH_GetIndexFromCH hndl) =
        { HCCHAR := 0, HCINT := 0, HCINTMSK := 0, HCTSIZ := 0 } ∧
      (USBH_STM32_EP_Remove s hndl).1.cntInterval (USBH_STM32_CH_GetIndexFromCH hndl) = 0) ∧
    (USBH_STM32_EP_Remove s hndl).1.cntIntervalMax = s.cntIntervalMax ∧
    ((USBH_STM32_EP_Remove s hndl).2 = false →
      (USBH_STM32_EP_Remove s hndl).1 =
        (USBH_STM32_URB_Cancel s hndl (s.CHURB (USBH_STM32_CH_GetIndexFromCH hndl))).1) := by
  by_cases hslot : s.CHURB (USBH_STM32_CH_GetIndexFromCH hndl) = 0
  · have e : USBH_STM32_EP_Remove s hndl =
        ({ (wrHCTSIZ (wrHCINTMSK (wrHCINT (wrHCCHAR s (USBH_STM32_CH_GetIndexFromCH hndl) 0)
              (USBH_STM32_CH_GetIndexFromCH hndl) 0) (USBH_STM32_CH_GetIndexFromCH hndl) 0)
              (USBH_STM32_CH_GetIndexFromCH hndl) 0) with
            cntInterval := Function.update s.cntInterval (USBH_STM32_CH_GetIndexFromCH hndl) 0 },
          true) := by
      unfold USBH_STM32_EP_Remove
      simp only [hh, hslot, if_false, ne_eq, not_true_eq_false, Bool.true_eq_false]
      rfl
    rw [e]
    refine ⟨⟨fun _ => Or.inl hslot, fun _ => rfl⟩, fun _ => rfl, fun _ => ⟨?_, ?_⟩, rfl, ?_⟩
    · simp [wrHCTSIZ, wrHCINTMSK, wrHCINT, wrHCCHAR]
    · simp
    · intro h; exact Bool.noConfusion h
  · by_cases hcan : (USBH_STM32_URB_Cancel s hndl
        (s.CHURB (USBH_STM32_CH_GetIndexFromCH hndl))).2 = true
    · have e : USBH_STM32_EP_Remove s hndl =
          ({ (wrHCTSIZ (wrHCINTMSK (wrHCINT (wrHCCHAR
                (USBH_STM32_URB_Cancel s hndl (s.CHURB (USBH_STM32_CH_GetIndexFromCH hndl))).1
                (USBH_STM32_CH_GetIndexFromCH hndl) 0)
                (USBH_STM32_CH_GetIndexFromCH hndl) 0) (USBH_STM32_CH_GetIndexFromCH hndl) 0)
                (USBH_STM32_CH_GetIndexFromCH hndl) 0) with
              cntInterval := Function.update
                (USBH_STM32_URB_Cancel s hndl
                  (s.CHURB (USBH_STM32_CH_GetIndexFromCH hndl))).1.cntInterval
                (USBH_STM32_CH_GetIndexFromCH hndl) 0 },
            true) := by
        unfold USBH_STM32_EP_Remove
        simp only [hh, hslot, if_false, ne_eq, not_false_eq_true, if_true, hcan,
          Bool.true_eq_false]
        rfl
      rw [e]
      refine ⟨⟨fun _ => Or.inr hcan, fun _ => rfl⟩, fun _ => rfl, fun _ => ⟨?_, ?_⟩, ?_, ?_⟩
      · simp [wrHCTSIZ, wrHCINTMSK, wrHCINT, wrHCCHAR]
      · simp
      · exact Cancel_cntIntervalMax s hndl _
      · intro h; exact Bool.noConfusion h
    · have hcan' : (USBH_STM32_URB_Cancel s hndl
          (s.CHURB (USBH_STM32_CH_GetIndexFromCH hndl))).2 = false := by simpa using hcan
      have e : USBH_STM32_EP_Remove s hndl =
          ((USBH_STM32_URB_Cancel s hndl (s.CHURB (USBH_STM32_CH_GetIndexFromCH hndl))).1,
            false) := by
        unfold USBH_STM32_EP_Remove
        simp only [hh, hslot, if_false, ne_eq, not_false_eq_true, if_true, hcan']
      rw [e]
      refine ⟨⟨fun h => Bool.noConfusion h, fun h => ?_⟩, fun h => ?_, fun h => Bool.noConfusion h,
        Cancel_cntIntervalMax s hndl _, fun _ => rfl⟩
      · rcases h with h | h
        · exact absurd h hslot
        · exact absurd h hcan
      · exfalso
        rcases h with h | h | h
        · exact hslot h
        · rw [Cancel_not_submitted s hndl _ hh hslot h] at hcan
          exact hcan rfl
        · by_cases hsub : (s.URB (s.CHURB (USBH_STM32_CH_GetIndexFromCH hndl))).Submitted = true
          · rw [Cancel_pending s hndl _ hh hslot hsub h] at hcan
            exact hcan rfl
          · rw [Cancel_not_submitted s hndl _ hh hslot (by simpa using hsub)] at hcan
            exact hcan rfl

/-- C8, witness: removing the bulk endpoint while its URB is not submitted
(channel 0 of the state with the endpoint just added). -/
theorem C8_remove_zeroes_channel_witness :
    (USBH_STM32_EP_Remove withBulkOut HCCHAR0_ADDR).1.CH
        (USBH_STM32_CH_GetIndexFromCH HCCHAR0_ADDR) =
      { HCCHAR := 0, HCINT := 0, HCINTMSK := 0, HCTSIZ := 0 } ∧
    (USBH_STM32_EP_Remove withBulkOut HCCHAR0_ADDR).1.cntInterval
        (USBH_STM32_CH_GetIndexFromCH HCCHAR0_ADDR) = 0 :=
  (C8_remove_zeroes_channel withBulkOut HCCHAR0_ADDR (by decide)).2.2.1
    ((C8_remove_zeroes_channel withBulkOut HCCHAR0_ADDR (by decide)).2.1 (Or.inl (by decide)))

/-! ## The run of an accepted submit -/

/-- An accepted submit succeeds, puts the URB into the channel's slot and
changes no other slot and no other URB. -/
theorem Submit_accepted (s : State) (hndl q max_cnt0 : Nat) (hh : hndl ≠ 0) (hq : q ≠ 0)
    (hc : s.Port_Con ≠ 0) (hs : (s.URB q).Submitted = false)
    (hi : (s.URB q).InProgress = false) :
    (USBH_STM32_URB_Submit s hndl q max_cnt0).2 = true ∧
    (USBH_STM32_URB_Submit s hndl q max_cnt0).1.CHURB =
      Function.update s.CHURB (USBH_STM32_CH_GetIndexFromCH hndl) q ∧
    ∀ p, p ≠ q → (USBH_STM32_URB_Submit s hndl q max_cnt0).1.URB p = s.URB p := by
  have hflags : ¬ ((s.URB q).Submitted = true ∨ (s.URB q).InProgress = true) := by
    simp [hs, hi]
  unfold USBH_STM32_URB_Submit
  simp only [hh, hq, hc, hflags, if_false]
  split_ifs <;> refine ⟨rfl, ?_, fun p hp => ?_⟩
  all_goals first
    | rfl
    | exact (TransferEnqueue_frame _ _ _ _ _).churb
    | (simp [modURB, setCHURB, Function.update_noteq hp]; done)
    | (show (USBH_STM32_CH_TransferEnqueue _ _ _ _ _).1.URB p = _
       rw [(TransferEnqueue_frame _ _ _ _ _).urb]
       simp [modURB, setCHURB, Function.update_noteq hp])

/-! ## C9: one URB in progress per channel -/

/-- C9, as stated, fails: in the state reached by adding the bulk OUT endpoint
and submitting the URB at 0x20002000 (in progress in the slot of channel 0),
submitting the different URB at 0x20001000 on the same handle is accepted;
afterwards both URBs have `InProgress = 1` and the slot holds the second. -/
theorem C9_counterexample :
    busyBulkOut.CHURB (USBH_STM32_CH_GetIndexFromCH HCCHAR0_ADDR) = 0x20002000 ∧
    (busyBulkOut.URB 0x20002000).InProgress = true ∧
    (USBH_STM32_URB_Submit busyBulkOut HCCHAR0_ADDR 0x20001000 0).2 = true ∧
    ((USBH_STM32_URB_Submit busyBulkOut HCCHAR0_ADDR 0x20001000 0).1.URB 0x20002000).InProgress
      = true ∧
    ((USBH_STM32_URB_Submit busyBulkOut HCCHAR0_ADDR 0x20001000 0).1.URB 0x20001000).InProgress
      = true ∧
    (USBH_STM32_URB_Submit busyBulkOut HCCHAR0_ADDR 0x20001000 0).1.CHURB
      (USBH_STM32_CH_GetIndexFromCH HCCHAR0_ADDR) = 0x20001000 := by
  decide

/-- C9 (amended): `USBH_STM32_URB_Submit` rejects, on any handle, a URB whose
own `Submitted` or `InProgress` flag is set, so one URB is never started
twice; it does not look at the channel's slot: on a connected port a different
URB that is neither submitted nor in progress is accepted on a handle whose
slot holds an in-progress URB, takes over the slot, and the earlier URB is
left as it was (still in progress). -/
theorem C9_submit_checks_urb_only (s : State) (hndl p q max_cnt0 : Nat) (hh : hndl ≠ 0)
    (hq : q ≠ 0) :
    (((s.URB q).Submitted = true ∨ (s.URB q).InProgress = true) →
      USBH_STM32_URB_Submit s hndl q max_cnt0 = (s, false)) ∧
    (s.Port_Con ≠ 0 → p ≠ q → s.CHURB (USBH_STM32_CH_GetIndexFromCH hndl) = p →
      (s.URB p).InProgress = true →
      (s.URB q).Submitted = false → (s.URB q).InProgress = false →
      (USBH_STM32_URB_Submit s hndl q max_cnt0).2 = true ∧
      (USBH_STM32_URB_Submit s hndl q max_cnt0).1.CHURB (USBH_STM32_CH_GetIndexFromCH hndl) = q ∧
      (USBH_STM32_URB_Submit s hndl q max_cnt0).1.URB p = s.URB p ∧
      ((USBH_STM32_URB_Submit s hndl q max_cnt0).1.URB p).InProgress = true) := by
  constructor
  · intro h
    unfold USBH_STM32_URB_Submit
    simp only [hh, hq, h, if_false, if_true]
    split_ifs <;> rfl
  · intro hc hpq _ hpi hs hi
    obtain ⟨h1, h2, h3⟩ := Submit_accepted s hndl q max_cnt0 hh hq hc hs hi
    refine ⟨h1, ?_, h3 p hpq, ?_⟩
    · rw [h2]; simp
    · rw [h3 p hpq]; exact hpi

/-- C9, witness: the second submit on the busy bulk endpoint. -/
theorem C9_submit_checks_urb_only_witness :
    (USBH_STM32_URB_Submit busyBulkOut HCCHAR0_ADDR 0x20001000 0).2 = true ∧
    (USBH_STM32_URB_Submit busyBulkOut HCCHAR0_ADDR 0x20001000 0).1.CHURB
      (USBH_STM32_CH_GetIndexFromCH HCCHAR0_ADDR) = 0x20001000 ∧
    (USBH_STM32_URB_Submit busyBulkOut HCCHAR0_ADDR 0x20001000 0).1.URB 0x20002000 =
      busyBulkOut.URB 0x20002000 ∧
    ((USBH_STM32_URB_Submit busyBulkOut HCCHAR0_ADDR 0x20001000 0).1.URB 0x20002000).InProgress
      = true :=
  (C9_submit_checks_urb_only busyBulkOut HCCHAR0_ADDR 0x20002000 0x20001000 0 (by decide)
    (by decide)).2 (by decide) (by decide) (by decide) (by decide) (by decide) (by decide)

/-! ## The URB memory through the driver's steps -/

theorem modURB_URB (s : State) (p : Nat) (f : USBH_URB → USBH_URB) :
    (modURB s p f).URB = Function.update s.URB p (f (s.URB p)) := rfl

theorem setCHURB_URB (s : State) (ch p : Nat) : (setCHURB s ch p).URB = s.URB := rfl

theorem wrHCCHAR_URB (s : State) (ch v : Nat) : (wrHCCHAR s ch v).URB = s.URB := rfl

theorem wrHCINT_URB (s : State) (ch v : Nat) : (wrHCINT s ch v).URB = s.URB := rfl

theorem wrHCINTMSK_URB (s : State) (ch v : Nat) : (wrHCINTMSK s ch v).URB = s.URB := rfl

theorem wrHCTSIZ_URB (s : State) (ch v : Nat) : (wrHCTSIZ s ch v).URB = s.URB := rfl

theorem DMA_Stop_URB (s : State) : (USBH_STM32_DMA_Stop s).1.URB = s.URB :=
  (DMA_Stop_frame s).urb

theorem CH_Disable_URB (s : State) (ptrCH : Nat) :
    (USBH_STM32_CH_Disable s ptrCH).1.URB = s.URB :=
  (CH_Disable_frame s ptrCH).urb

theorem TransferEnqueue_URB (s : State) (ptrCH tgl_typ buf len : Nat) :
    (USBH_STM32_CH_TransferEnqueue s ptrCH tgl_typ buf len).1.URB = s.URB :=
  (TransferEnqueue_frame s ptrCH tgl_typ buf len).urb

theorem heapOk_update {h : Nat → USBH_URB} {p : Nat} {v : USBH_URB} (hh : heapOk h)
    (hv : v.flagsOk) : heapOk (Function.update h p v) := by
  intro r
  by_cases hr : r = p
  · subst hr; rw [Function.update_same]; exact hv
  · rw [Function.update_noteq hr]; exact hh r

theorem foldl_preserves {α β : Type} (P : α → Prop) (f : α → β → α)
    (hf : ∀ a b, P a → P (f a b)) (l : List β) (a : α) (ha : P a) : P (l.foldl f a) := by
  induction l generalizing a with
  | nil => exact ha
  | cons b rest ih => exact ih (f a b) (hf a b ha)

/-- The flag invariant survives `USBH_STM32_URB_Cancel`. -/
theorem Cancel_heapOk (s : State) (hndl ptrURB : Nat) (hinv : heapOk s.URB) :
    heapOk (USBH_STM32_URB_Cancel s hndl ptrURB).1.URB := by
  by_cases hh : hndl = 0
  · unfold USBH_STM32_URB_Cancel; simp only [hh, if_true]; exact hinv
  by_cases hu : ptrURB = 0
  · unfold USBH_STM32_URB_Cancel; simp only [hh, hu, if_true, if_false]; exact hinv
  by_cases hs : (s.URB ptrURB).Submitted = false
  · rw [Cancel_not_submitted s hndl ptrURB hh hu hs]; exact hinv
  have hs1 : (s.URB ptrURB).Submitted = true := by simpa using hs
  have hp := hinv ptrURB
  unfold USBH_URB.flagsOk at hp
  by_cases hi : (s.URB ptrURB).InProgress = true
  · by_cases hd : (USBH_STM32_CH_Disable (modURB s ptrURB (fun u => { u with Submitted := false }))
        hndl).2 = true
    · rw [Cancel_disable_ok s hndl ptrURB hh hu hs1 hi hd]
      simp only [modURB_URB, setCHURB_URB, CH_Disable_URB, Function.update_same,
        Function.update_idem]
      refine heapOk_update hinv ?_
      unfold USBH_URB.flagsOk
      intro _
      exact ⟨rfl, rfl⟩
    · rw [Cancel_disable_fails s hndl ptrURB hh hu hs1 hi (by simpa using hd)]
      simp only [modURB_URB, CH_Disable_URB]
      refine heapOk_update hinv ?_
      unfold USBH_URB.flagsOk
      intro hC
      exact ⟨(hp hC).1, rfl⟩
  · rw [Cancel_pending s hndl ptrURB hh hu hs1 (by simpa using hi)]
    simp only [modURB_URB, setCHURB_URB, Function.update_same, Function.update_idem]
    refine heapOk_update hinv ?_
    unfold USBH_URB.flagsOk
    intro hC
    exact ⟨(hp hC).1, rfl⟩

/-- A rejected or ill-formed submit changes nothing. -/
theorem Submit_rejected (s : State) (hndl ptrURB max_cnt0 : Nat)
    (h : hndl = 0 ∨ ptrURB = 0 ∨ s.Port_Con = 0 ∨ (s.URB ptrURB).Submitted = true ∨
      (s.URB ptrURB).InProgress = true) :
    USBH_STM32_URB_Submit s hndl ptrURB max_cnt0 = (s, false) := by
  unfold USBH_STM32_URB_Submit
  by_cases hh : hndl = 0
  · simp only [hh, if_true]
  by_cases hu : ptrURB = 0
  · simp only [hh, hu, if_true, if_false]
  by_cases hc : s.Port_Con = 0
  · simp only [hh, hu, hc, if_true, if_false]
  have h2 : (s.URB ptrURB).Submitted = true ∨ (s.URB ptrURB).InProgress = true := by
    rcases h with h | h | h | h | h
    · exact absurd h hh
    · exact absurd h hu
    · exact absurd h hc
    · exact Or.inl h
    · exact Or.inr h
  simp only [hh, hu, hc, h2, if_true, if_false]

/-- After an accepted submit the URB is not completed. -/
theorem Submit_accepted_flags (s : State) (hndl q max_cnt0 : Nat) (hh : hndl ≠ 0) (hq : q ≠ 0)
    (hc : s.Port_Con ≠ 0) (hs : (s.URB q).Submitted = false)
    (hi : (s.URB q).InProgress = false) :
    ((USBH_STM32_URB_Submit s hndl q max_cnt0).1.URB q).Completed = false := by
  have hflags : ¬ ((s.URB q).Submitted = true ∨ (s.URB q).InProgress = true) := by
    simp [hs, hi]
  unfold USBH_STM32_URB_Submit
  simp only [hh, hq, hc, hflags, if_false]
  split_ifs
  all_goals first
    | (simp [modURB, setCHURB, USBH_URB.clearStatus]; done)
    | (show ((USBH_STM32_CH_TransferEnqueue _ _ _ _ _).1.URB q).Completed = false
       rw [TransferEnqueue_URB]
       simp [modURB, setCHURB, USBH_URB.clearStatus])

/-- The flag invariant survives `USBH_STM32_URB_Submit`. -/
theorem Submit_heapOk (s : State) (hndl ptrURB max_cnt0 : Nat) (hinv : heapOk s.URB) :
    heapOk (USBH_STM32_URB_Submit s hndl ptrURB max_cnt0).1.URB := by
  by_cases h : hndl = 0 ∨ ptrURB = 0 ∨ s.Port_Con = 0 ∨ (s.URB ptrURB).Submitted = true ∨
      (s.URB ptrURB).InProgress = true
  · rw [Submit_rejected s hndl ptrURB max_cnt0 h]; exact hinv
  · simp only [not_or] at h
    obtain ⟨hh, hu, hc, hs, hi⟩ := h
    have hs' : (s.URB ptrURB).Submitted = false := by simpa using hs
    have hi' : (s.URB ptrURB).InProgress = false := by simpa using hi
    obtain ⟨_, _, h3⟩ := Submit_accepted s hndl ptrURB max_cnt0 hh hu hc hs' hi'
    have h4 := Submit_accepted_flags s hndl ptrURB max_cnt0 hh hu hc hs' hi'
    intro r
    by_cases hr : r = ptrURB
    · subst hr
      unfold USBH_URB.flagsOk
      intro hC
      rw [h4] at hC
      exact Bool.noConfusion hC
    · rw [h3 r hr]; exact hinv r

/-- The URB memory after `USBH_STM32_EP_Remove` is the one the cancel of the
slot's URB leaves, or the old one. -/
theorem Remove_URB (s : State) (hndl : Nat) :
    (USBH_STM32_EP_Remove s hndl).1.URB = s.URB ∨
    (USBH_STM32_EP_Remove s hndl).1.URB =
      (USBH_STM32_URB_Cancel s hndl (s.CHURB (USBH_STM32_CH_GetIndexFromCH hndl))).1.URB := by
  unfold USBH_STM32_EP_Remove
  by_cases hh : hndl = 0
  · left; simp only [hh, if_true]
  by_cases hslot : s.CHURB (USBH_STM32_CH_GetIndexFromCH hndl) = 0
  · left
    simp only [hh, hslot, if_false, ne_eq, not_true_eq_false, Bool.true_eq_false]
    rfl
  · right
    by_cases hcan : (USBH_STM32_URB_Cancel s hndl
        (s.CHURB (USBH_STM32_CH_GetIndexFromCH hndl))).2 = true
    · simp only [hh, hslot, if_false, ne_eq, not_false_eq_true, if_true, hcan,
        Bool.true_eq_false]
      rfl
    · have hcan' : (USBH_STM32_URB_Cancel s hndl
          (s.CHURB (USBH_STM32_CH_GetIndexFromCH hndl))).2 = false := by simpa using hcan
      simp only [hh, hslot, if_false, ne_eq, not_false_eq_true, if_true, hcan']

/-- The flag invariant survives `USBH_STM32_EP_Remove`. -/
theorem Remove_heapOk (s : State) (hndl : Nat) (hinv : heapOk s.URB) :
    heapOk (USBH_STM32_EP_Remove s hndl).1.URB := by
  rcases Remove_URB s hndl with h | h
  · rw [h]; exact hinv
  · rw [h]; exact Cancel_heapOk s hndl _ hinv

/-! ## The flag invariant through the interrupt handler -/

theorem heapOk_modify {h : Nat → USBH_URB} {p : Nat} {v : USBH_URB} (hh : heapOk h)
    (hv : (h p).flagsOk → v.flagsOk) : heapOk (Function.update h p v) :=
  heapOk_update hh (hv (hh p))

theorem flagsOk_congr {u v : USBH_URB} (hc : v.Completed = u.Completed)
    (hi : v.InProgress = u.InProgress) (hs : v.Submitted = u.Submitted) (h : u.flagsOk) :
    v.flagsOk := by
  unfold USBH_URB.flagsOk at h ⊢
  rw [hc, hi, hs]
  exact h

theorem irq_sof_timeout_heapOk (s : State) (ch : Nat) (hinv : heapOk s.URB) :
    heapOk (irq_sof_timeout s ch).URB := by
  unfold irq_sof_timeout
  simp only []
  split_ifs
  · simp only [modURB_URB, Function.update_same, Function.update_idem]
    exact heapOk_modify hinv (flagsOk_congr rfl rfl rfl)
  · simp only [modURB_URB]
    exact heapOk_modify hinv (flagsOk_congr rfl rfl rfl)
  · exact hinv
  · exact hinv

theorem irq_penchng_URB (s : State) (hprt : Nat) : (irq_penchng s hprt).URB = s.URB := by
  unfold irq_penchng
  simp only []
  split_ifs <;> rfl

theorem irq_hprt_URB (s : State) (gintsts hprt : Nat) : (irq_hprt s gintsts hprt).URB = s.URB := by
  unfold irq_hprt
  simp only []
  split_ifs <;> first | rfl | exact irq_penchng_URB _ _

theorem irq_discint_URB (s : State) (gintsts : Nat) : (irq_discint s gintsts).URB = s.URB := by
  unfold irq_discint
  split_ifs <;> rfl

theorem irq_port_URB (s : State) (gintsts hprt : Nat) : (irq_port s gintsts hprt).URB = s.URB := by
  unfold irq_port
  rw [irq_discint_URB, irq_hprt_URB]

theorem irq_discon_cancel_heapOk (s : State) (ch : Nat) (hinv : heapOk s.URB) :
    heapOk (irq_discon_cancel s ch).URB := by
  unfold irq_discon_cancel
  split_ifs
  · exact Cancel_heapOk s _ _ hinv
  · exact hinv

theorem fifoRead_URB (s : State) : (fifoRead s).2.URB = s.URB := by
  unfold fifoRead
  cases s.fifo <;> rfl

theorem storeByte_URB (s : State) (a v : Nat) : (storeByte s a v).URB = s.URB := rfl

theorem irq_rx_words_heapOk (n : Nat) (s : State) (p a : Nat) (hinv : heapOk s.URB) :
    heapOk (irq_rx_words n s p a).1.URB := by
  induction n generalizing s a with
  | zero => exact hinv
  | succ n ih =>
    unfold irq_rx_words
    apply ih
    simp only [modURB_URB, storeByte_URB, fifoRead_URB]
    exact heapOk_modify hinv (flagsOk_congr rfl rfl rfl)

theorem irq_rx_bytes_heapOk (n : Nat) (s : State) (p a dat : Nat) (hinv : heapOk s.URB) :
    heapOk (irq_rx_bytes n s p a dat).URB := by
  induction n generalizing s a dat with
  | zero => exact hinv
  | succ n ih =>
    unfold irq_rx_bytes
    apply ih
    simp only [modURB_URB, storeByte_URB]
    exact heapOk_modify hinv (flagsOk_congr rfl rfl rfl)

theorem irq_rx_heapOk (s t : State) (h : irq_rx s = some t) (hinv : heapOk s.URB) :
    heapOk t.URB := by
  unfold irq_rx at h
  simp only [] at h
  split_ifs at h
  · injection h with h
    rw [← h]
    show heapOk (irq_rx_bytes _ _ _ _ _).URB
    apply irq_rx_bytes_heapOk
    rw [fifoRead_URB]
    apply irq_rx_words_heapOk
    exact hinv
  · injection h with h
    rw [← h]
    show heapOk (irq_rx_words _ _ _ _).1.URB
    apply irq_rx_words_heapOk
    exact hinv
  · injection h with h
    rw [← h]
    exact hinv

theorem irq_retry_test_heapOk (s : State) (ch p : Nat) (hinv : heapOk s.URB) :
    heapOk (irq_retry_test s ch p).1.URB := by
  unfold irq_retry_test
  split_ifs
  · simp only [modURB_URB]
    exact heapOk_modify hinv (flagsOk_congr rfl rfl rfl)
  · exact hinv

theorem irq_chh_out_heapOk (s : State) (ch p : Nat) (hinv : heapOk s.URB) :
    heapOk (irq_chh_out s ch p).URB := by
  have h1 := irq_retry_test_heapOk s ch p hinv
  unfold irq_chh_out
  simp only []
  split_ifs
  · simp only [modURB_URB, TransferEnqueue_URB]
    exact heapOk_modify h1 (flagsOk_congr rfl rfl rfl)
  · simp only [modURB_URB, setCHURB_URB, wrHCINTMSK_URB, Function.update_same,
      Function.update_idem]
    refine heapOk_update h1 ?_
    unfold USBH_URB.flagsOk
    intro _
    exact ⟨rfl, rfl⟩

theorem irq_ch_out_heapOk (s : State) (ch p hcint : Nat) (hinv : heapOk s.URB) :
    heapOk (irq_ch_out s ch p hcint).URB := by
  unfold irq_ch_out
  simp only []
  split_ifs
  all_goals first
    | exact irq_chh_out_heapOk s ch p hinv
    | exact hinv
    | (simp only [modURB_URB, setCHURB_URB, wrHCINTMSK_URB, wrHCCHAR_URB, DMA_Stop_URB,
         Function.update_same, Function.update_idem]
       first
         | exact heapOk_modify hinv (flagsOk_congr rfl rfl rfl)
         | (refine heapOk_update hinv ?_
            unfold USBH_URB.flagsOk USBH_URB.clearStatus
            intro _
            exact ⟨rfl, rfl⟩))

theorem irq_ch_ping_heapOk (s : State) (ch p hcint : Nat) (hinv : heapOk s.URB) :
    heapOk (irq_ch_ping s ch p hcint).URB := by
  unfold irq_ch_ping
  simp only []
  split_ifs
  all_goals first
    | exact irq_chh_out_heapOk s ch p hinv
    | exact hinv
    | (simp only [modURB_URB, setCHURB_URB, wrHCINTMSK_URB, wrHCCHAR_URB,
         Function.update_same, Function.update_idem]
       exact heapOk_modify hinv (flagsOk_congr rfl rfl rfl))

theorem irq_ch_in_heapOk (s : State) (ch p hcint : Nat) (hinv : heapOk s.URB) :
    heapOk (irq_ch_in s ch p hcint).URB := by
  unfold irq_ch_in
  simp only []
  split_ifs
  all_goals first
    | exact hinv
    | (simp only [modURB_URB, setCHURB_URB, wrHCINTMSK_URB, wrHCCHAR_URB,
         Function.update_same, Function.update_idem]
       first
         | exact heapOk_modify hinv (flagsOk_congr rfl rfl rfl)
         | exact heapOk_modify (heapOk_modify hinv (flagsOk_congr rfl rfl rfl))
             (flagsOk_congr rfl rfl rfl)
         | exact heapOk_modify (heapOk_modify (heapOk_modify hinv (flagsOk_congr rfl rfl rfl))
             (flagsOk_congr rfl rfl rfl)) (flagsOk_congr rfl rfl rfl)
         | (refine heapOk_update hinv ?_
            unfold USBH_URB.flagsOk
            intro _
            exact ⟨rfl, rfl⟩))

theorem irq_channel_heapOk (haint : Nat) (s t : State) (ch : Nat)
    (h : irq_channel haint s ch = some t) (hinv : heapOk s.URB) : heapOk t.URB := by
  unfold irq_channel at h
  simp only [] at h
  have h1 : heapOk (modURB s (s.CHURB ch) (fun u => { u with Error :=
      (u.Error ||| (((s.CH ch).HCINT &&& (s.CH ch).HCINTMSK &&& USBH_STM32_HCINT_ERR) >>> 7))
        % 256 })).URB := by
    simp only [modURB_URB]
    exact heapOk_modify hinv (flagsOk_congr rfl rfl rfl)
  split_ifs at h
  all_goals injection h with h
  all_goals rw [← h]
  all_goals first
    | exact hinv
    | (rw [wrHCINT_URB]
       first
         | exact irq_ch_out_heapOk _ _ _ _ h1
         | exact irq_ch_ping_heapOk _ _ _ _ h1
         | exact irq_ch_in_heapOk _ _ _ _ h1
         | exact h1)

theorem irq_channels_heapOk (haint : Nat) (l : List Nat) (s t : State)
    (h : irq_channels haint l s = some t) (hinv : heapOk s.URB) : heapOk t.URB := by
  induction l generalizing s with
  | nil =>
    unfold irq_channels at h
    injection h with h
    rw [← h]; exact hinv
  | cons ch rest ih =>
    unfold irq_channels at h
    cases hc : irq_channel haint s ch with
    | none => rw [hc] at h; exact Option.noConfusion h
    | some s1 =>
      rw [hc] at h
      exact ih s1 h (irq_channel_heapOk haint s s1 ch hc hinv)

theorem irq_schedule_heapOk (sa : State × Bool) (ch : Nat) (hinv : heapOk sa.1.URB) :
    heapOk (irq_schedule sa ch).1.URB := by
  unfold irq_schedule
  simp only []
  have hstart : ∀ t : State, t.URB = sa.1.URB →
      (sa.1.URB (sa.1.CHURB ch)).Submitted = true →
      heapOk (modURB t (sa.1.CHURB ch) (fun u => { u with InProgress := true })).URB := by
    intro t ht hsub
    simp only [modURB_URB, ht]
    refine heapOk_modify hinv ?_
    unfold USBH_URB.flagsOk
    intro h0 hC
    have := (h0 hC).2
    rw [hsub] at this
    exact Bool.noConfusion this
  split_ifs with h1 h2 h3 h4 h5 h6 h7 h8 h9
  all_goals first
    | exact hinv
    | (rw [TransferEnqueue_URB]; exact hstart _ rfl h2.1)

theorem irq_sof_timeouts_heapOk (s : State) (g : Nat) (hinv : heapOk s.URB) :
    heapOk (irq_sof_timeouts s g).URB := by
  unfold irq_sof_timeouts
  generalize channels = l
  split_ifs
  · exact foldl_preserves (fun a => heapOk a.URB) irq_sof_timeout
      (fun a b ha => irq_sof_timeout_heapOk a b ha) l s hinv
  · exact hinv

theorem irq_discon_sweep_heapOk (s : State) (hinv : heapOk s.URB) :
    heapOk (irq_discon_sweep s).URB := by
  unfold irq_discon_sweep
  generalize channels = l
  split_ifs
  · exact foldl_preserves (fun a => heapOk a.URB) irq_discon_cancel
      (fun a b ha => irq_discon_cancel_heapOk a b ha) l s hinv
  · exact hinv

theorem irq_rxflvl_heapOk (s t : State) (g : Nat) (h : irq_rxflvl s g = some t)
    (hinv : heapOk s.URB) : heapOk t.URB := by
  unfold irq_rxflvl at h
  split_ifs at h
  · exact irq_rx_heapOk s t h hinv
  · injection h with e; rw [← e]; exact hinv

theorem irq_hcint_heapOk (s t : State) (g haint : Nat) (h : irq_hcint s g haint = some t)
    (hinv : heapOk s.URB) : heapOk t.URB := by
  unfold irq_hcint at h
  split_ifs at h
  · cases hc : irq_channels haint channels s with
    | none => rw [hc] at h; exact Option.noConfusion h
    | some s1 =>
      rw [hc] at h
      injection h with e
      rw [← e]
      exact irq_channels_heapOk haint channels s s1 hc hinv
  · injection h with e; rw [← e]; exact hinv

theorem irq_sof_schedule_heapOk (s : State) (g : Nat) (hinv : heapOk s.URB) :
    heapOk (irq_sof_schedule s g).URB := by
  unfold irq_sof_schedule
  generalize channels = l
  split_ifs
  · exact foldl_preserves (fun a => heapOk a.1.URB) irq_schedule
      (fun a b ha => irq_schedule_heapOk a b ha) l (s, true) hinv
  · exact foldl_preserves (fun a => heapOk a.1.URB) irq_schedule
      (fun a b ha => irq_schedule_heapOk a b ha) l (s, irq_bus_active s l) hinv
  · exact hinv

/-- The flag invariant survives one invocation of the interrupt handler. -/
theorem IRQHandler_heapOk (s t : State) (h : USBH_FS_IRQHandler s = some t)
    (hinv : heapOk s.URB) : heapOk t.URB := by
  unfold USBH_FS_IRQHandler at h
  simp only [Option.bind_eq_some, Option.map_eq_some'] at h
  obtain ⟨s4, h4, s5, h5, e⟩ := h
  rw [← e]
  apply irq_sof_schedule_heapOk
  show heapOk s5.URB
  apply irq_hcint_heapOk s4 s5 _ _ h5
  apply irq_rxflvl_heapOk _ s4 _ h4
  apply irq_discon_sweep_heapOk
  rw [irq_port_URB]
  exact irq_sof_timeouts_heapOk s _ hinv

/-! ## C10: the URB flag invariant -/

theorem EP_Add_URB (s : State) (dev_adr ep_spd : Nat) (ptrEPD : USB_ENDPOINT_DESCRIPTOR) :
    (USBH_STM32_EP_Add s dev_adr ep_spd ptrEPD).1.URB = s.URB := by
  unfold USBH_STM32_EP_Add
  simp only []
  split_ifs <;> rfl

theorem connectedFS_heapOk : heapOk connectedFS.URB := by
  intro p
  unfold USBH_URB.flagsOk
  show (if p = 0x20003000 then urbIn else urbOut).Completed = true → _
  split_ifs <;> (intro h; exact Bool.noConfusion h)

theorem xfrcPending_heapOk : heapOk xfrcPending.URB := by
  show heapOk (USBH_STM32_URB_Submit withBulkOut HCCHAR0_ADDR 0x20002000 0).1.URB
  apply Submit_heapOk
  show heapOk (USBH_STM32_EP_Add connectedFS 5 USBH_FS epBulkOut).1.URB
  rw [EP_Add_URB]
  exact connectedFS_heapOk

/-- C10: the flag invariant "Completed = 1 implies InProgress = 0 and
Submitted = 0", when it holds for every URB before, holds for every URB after
`USBH_STM32_URB_Submit`, after `USBH_STM32_URB_Cancel`, after each of the
handler's per-channel dispatch functions (which contain the completion
paths: transfer complete and channel halted on OUT/SETUP, channel halted on
PING and on IN), and after a whole invocation of `USBH_FS_IRQHandler`.  On
the transfer-complete path of OUT/SETUP the URB ends with `Completed = 1`,
`InProgress = 0` and `Submitted = 0`. -/
theorem C10_urb_flag_invariant (s : State) (hinv : heapOk s.URB) :
    (∀ hndl ptrURB max_cnt0, heapOk (USBH_STM32_URB_Submit s hndl ptrURB max_cnt0).1.URB) ∧
    (∀ hndl ptrURB, heapOk (USBH_STM32_URB_Cancel s hndl ptrURB).1.URB) ∧
    (∀ ch p hcint, heapOk (irq_ch_out s ch p hcint).URB) ∧
    (∀ ch p hcint, heapOk (irq_ch_ping s ch p hcint).URB) ∧
    (∀ ch p hcint, heapOk (irq_ch_in s ch p hcint).URB) ∧
    (∀ t, USBH_FS_IRQHandler s = some t → heapOk t.URB) ∧
    (∀ ch p hcint, hcint &&& USBH_STM32_HCINT_XFRC ≠ 0 →
      ((irq_ch_out s ch p hcint).URB p).Completed = true ∧
      ((irq_ch_out s ch p hcint).URB p).InProgress = false ∧
      ((irq_ch_out s ch p hcint).URB p).Submitted = false) := by
  refine ⟨fun hndl p m => Submit_heapOk s hndl p m hinv, fun hndl p => Cancel_heapOk s hndl p hinv,
    fun ch p hc => irq_ch_out_heapOk s ch p hc hinv, fun ch p hc => irq_ch_ping_heapOk s ch p hc hinv,
    fun ch p hc => irq_ch_in_heapOk s ch p hc hinv, fun t h => IRQHandler_heapOk s t h hinv, ?_⟩
  intro ch p hcint hx
  unfold irq_ch_out
  simp only [hx, ne_eq, not_false_eq_true, if_true]
  split_ifs <;>
    simp [modURB_URB, setCHURB_URB, wrHCINTMSK_URB, DMA_Stop_URB, USBH_URB.clearStatus]

/-- C10, witness: the transfer-complete interrupt of the URB in progress on
the bulk OUT channel; the handler runs to its end there. -/
theorem C10_urb_flag_invariant_witness :
    heapOk (irq_ch_out xfrcPending 0 0x20002000 USBH_STM32_HCINT_XFRC).URB ∧
    ((irq_ch_out xfrcPending 0 0x20002000 USBH_STM32_HCINT_XFRC).URB 0x20002000).Completed
      = true ∧
    ((irq_ch_out xfrcPending 0 0x20002000 USBH_STM32_HCINT_XFRC).URB 0x20002000).Submitted
      = false ∧
    (USBH_FS_IRQHandler xfrcPending).isSome = true :=
  ⟨(C10_urb_flag_invariant xfrcPending xfrcPending_heapOk).2.2.1 0 0x20002000
      USBH_STM32_HCINT_XFRC,
   ((C10_urb_flag_invariant xfrcPending xfrcPending_heapOk).2.2.2.2.2.2 0 0x20002000
      USBH_STM32_HCINT_XFRC (by decide)).1,
   ((C10_urb_flag_invariant xfrcPending xfrcPending_heapOk).2.2.2.2.2.2 0 0x20002000
      USBH_STM32_HCINT_XFRC (by decide)).2.2,
   by decide⟩

/-! ## Endpoint allocation -/

theorem GetCHFromIndex_ne_zero (i : Nat) : USBH_STM32_CH_GetCHFromIndex i ≠ 0 := by
  unfold USBH_STM32_CH_GetCHFromIndex HCCHAR0_ADDR SIZEOF_CH
  omega

theorem GetIndexFromCH_GetCHFromIndex (i : Nat) :
    USBH_STM32_CH_GetIndexFromCH (USBH_STM32_CH_GetCHFromIndex i) = i := by
  unfold USBH_STM32_CH_GetIndexFromCH USBH_STM32_CH_GetCHFromIndex HCCHAR0_ADDR SIZEOF_CH
  omega

theorem GetCHFromIndex_inj {i j : Nat}
    (h : USBH_STM32_CH_GetCHFromIndex i = USBH_STM32_CH_GetCHFromIndex j) : i = j := by
  unfold USBH_STM32_CH_GetCHFromIndex HCCHAR0_ADDR SIZEOF_CH at h
  omega

/-- The scan returns 0 exactly when every scanned channel is in use. -/
theorem CH_FindFree_loop_eq_zero (s : State) (n i : Nat) :
    CH_FindFree_loop s n i = 0 ↔ ∀ j, i ≤ j → j < i + n → (s.CH j).HCCHAR ≠ 0 := by
  induction n generalizing i with
  | zero =>
    simp only [CH_FindFree_loop, true_iff]
    intro j h1 h2
    omega
  | succ n ih =>
    simp only [CH_FindFree_loop]
    by_cases h : (s.CH i).HCCHAR = 0
    · rw [if_pos h]
      constructor
      · intro h0
        exact absurd h0 (GetCHFromIndex_ne_zero i)
      · intro hall
        exact absurd h (hall i (Nat.le_refl i) (by omega))
    · rw [if_neg h, ih]
      constructor
      · intro hall j h1 h2
        by_cases e : j = i
        · rw [e]
          exact h
        · exact hall j (by omega) (by omega)
      · intro hall j h1 h2
        exact hall j (by omega) (by omega)

/-- A non-zero result of the scan is the pointer to the first free channel. -/
theorem CH_FindFree_loop_ne_zero (s : State) (n i : Nat) (h : CH_FindFree_loop s n i ≠ 0) :
    ∃ j, i ≤ j ∧ j < i + n ∧ (s.CH j).HCCHAR = 0 ∧
      (∀ k, i ≤ k → k < j → (s.CH k).HCCHAR ≠ 0) ∧
      CH_FindFree_loop s n i = USBH_STM32_CH_GetCHFromIndex j := by
  induction n generalizing i with
  | zero => exact absurd rfl h
  | succ n ih =>
    simp only [CH_FindFree_loop] at h ⊢
    by_cases h0 : (s.CH i).HCCHAR = 0
    · rw [if_pos h0]
      exact ⟨i, Nat.le_refl i, by omega, h0, fun k h1 h2 => by omega, rfl⟩
    · rw [if_neg h0] at h ⊢
      obtain ⟨j, h1, h2, h3, h4, h5⟩ := ih (i + 1) h
      refine ⟨j, by omega, by omega, h3, fun k hk1 hk2 => ?_, h5⟩
      by_cases e : k = i
      · rw [e]
        exact h0
      · exact h4 k (by omega) hk2

/-- What `USBH_STM32_EP_Add` does on the channel it found: the state after
a successful call, as an update of the state before. -/
theorem EP_Add_state (s : State) (dev_adr ep_spd : Nat) (e : USB_ENDPOINT_DESCRIPTOR) (c : Nat)
    (h : USBH_STM32_CH_FindFree s = USBH_STM32_CH_GetCHFromIndex c) :
    (USBH_STM32_EP_Add s dev_adr ep_spd e).2 = USBH_STM32_CH_GetCHFromIndex c ∧
    ∃ v m l, (v = ep_hcchar dev_adr ep_spd e ∨
        v = ep_hcchar dev_adr ep_spd e ||| USBH_STM32_HCCHAR_MCNT1) ∧
      (USBH_STM32_EP_Add s dev_adr ep_spd e).1 =
      { s with
        CH := Function.update s.CH c { s.CH c with HCCHAR := v }
        cntIntervalMax := Function.update s.cntIntervalMax c m
        log := l } := by
  unfold USBH_STM32_EP_Add
  simp only [h, if_neg (GetCHFromIndex_ne_zero c), GetIndexFromCH_GetCHFromIndex]
  split_ifs
  · refine ⟨rfl, ep_hcchar dev_adr ep_spd e, s.cntIntervalMax c,
      s.log ++ [HwOp.wrHCCHAR c (ep_hcchar dev_adr ep_spd e)], Or.inl rfl, ?_⟩
    simp [wrHCCHAR]
  · refine ⟨rfl, ep_hcchar dev_adr ep_spd e ||| USBH_STM32_HCCHAR_MCNT1, e.bInterval % 256,
      s.log ++ [HwOp.wrHCCHAR c (ep_hcchar dev_adr ep_spd e),
        HwOp.wrHCCHAR c (ep_hcchar dev_adr ep_spd e ||| USBH_STM32_HCCHAR_MCNT1)], Or.inr rfl, ?_⟩
    simp [wrHCCHAR]
  · refine ⟨rfl, ep_hcchar dev_adr ep_spd e, s.cntIntervalMax c,
      s.log ++ [HwOp.wrHCCHAR c (ep_hcchar dev_adr ep_spd e)], Or.inl rfl, ?_⟩
    simp [wrHCCHAR]

theorem EP_Add_fail (s : State) (dev_adr ep_spd : Nat) (e : USB_ENDPOINT_DESCRIPTOR)
    (h : USBH_STM32_CH_FindFree s = 0) : USBH_STM32_EP_Add s dev_adr ep_spd e = (s, 0) := by
  unfold USBH_STM32_EP_Add
  simp only [h, if_true]

theorem FindFree_eq_zero (s : State) :
    USBH_STM32_CH_FindFree s = 0 ↔ ∀ j, j < OTG_FS_MAX_CH → (s.CH j).HCCHAR ≠ 0 := by
  unfold USBH_STM32_CH_FindFree
  rw [CH_FindFree_loop_eq_zero]
  constructor
  · intro h j hj
    exact h j (Nat.zero_le j) (by omega)
  · intro h j _ hj
    exact h j (by omega)

theorem FindFree_ne_zero (s : State) (h : USBH_STM32_CH_FindFree s ≠ 0) :
    ∃ j, j < OTG_FS_MAX_CH ∧ (s.CH j).HCCHAR = 0 ∧ (∀ k, k < j → (s.CH k).HCCHAR ≠ 0) ∧
      USBH_STM32_CH_FindFree s = USBH_STM32_CH_GetCHFromIndex j := by
  obtain ⟨j, _, h2, h3, h4, h5⟩ := CH_FindFree_loop_ne_zero s OTG_FS_MAX_CH 0 h
  exact ⟨j, by omega, h3, fun k hk => h4 k (Nat.zero_le k) hk, h5⟩

/-- The state and handle a successful `USBH_STM32_EP_Add` returns, by
endpoint type: the stores to the found channel and nothing else. -/
theorem EP_Add_exact (s : State) (d sp : Nat) (e : USB_ENDPOINT_DESCRIPTOR) (j : Nat)
    (h : USBH_STM32_CH_FindFree s = USBH_STM32_CH_GetCHFromIndex j) :
    USBH_STM32_EP_Add s d sp e =
      (if e.bmAttributes &&& USB_ENDPOINT_TYPE_MASK = USB_ENDPOINT_TYPE_ISOCHRONOUS ∨
          e.bmAttributes &&& USB_ENDPOINT_TYPE_MASK = USB_ENDPOINT_TYPE_INTERRUPT then
        { s with
          CH := Function.update s.CH j
            { s.CH j with HCCHAR := ep_hcchar d sp e ||| USBH_STM32_HCCHAR_MCNT1 }
          cntIntervalMax := Function.update s.cntIntervalMax j (e.bInterval % 256)
          log := s.log ++ [HwOp.wrHCCHAR j (ep_hcchar d sp e),
            HwOp.wrHCCHAR j (ep_hcchar d sp e ||| USBH_STM32_HCCHAR_MCNT1)] }
      else
        { s with
          CH := Function.update s.CH j { s.CH j with HCCHAR := ep_hcchar d sp e }
          log := s.log ++ [HwOp.wrHCCHAR j (ep_hcchar d sp e)] },
        USBH_STM32_CH_GetCHFromIndex j) := by
  unfold USBH_STM32_EP_Add
  simp only [h, if_neg (GetCHFromIndex_ne_zero j), GetIndexFromCH_GetCHFromIndex]
  split_ifs with h1 h2 h3
  · exfalso
    revert h1 h2
    unfold USB_ENDPOINT_TYPE_CONTROL USB_ENDPOINT_TYPE_BULK USB_ENDPOINT_TYPE_ISOCHRONOUS
      USB_ENDPOINT_TYPE_INTERRUPT
    omega
  · simp [wrHCCHAR]
  · simp [wrHCCHAR]
  · simp [wrHCCHAR]

/-- C11: `USBH_STM32_EP_Add` returns 0 exactly when all eight channels have a
non-zero `HCCHAR`, and then it changes nothing.  Otherwise it returns the
handle of the lowest-index channel j whose `HCCHAR` is 0 and programs that
channel only: for a control or bulk endpoint the state after the call is the
state before with the encoded endpoint fields stored into `HCCHAR` of
channel j; for an isochronous or interrupt endpoint it is the state before
with the encoded fields and the multi-count 1 stored into `HCCHAR` of
channel j and `bInterval` stored into `cntIntervalMax[j]`.  Every other
channel's registers, every other counter and every variable are as before,
and the register stores are those to `HCCHAR` of channel j. -/
theorem C11_ep_add_allocation (s : State) (dev_adr ep_spd : Nat) (e : USB_ENDPOINT_DESCRIPTOR) :
    ((USBH_STM32_EP_Add s dev_adr ep_spd e).2 = 0 ↔
      ∀ j, j < OTG_FS_MAX_CH → (s.CH j).HCCHAR ≠ 0) ∧
    ((USBH_STM32_EP_Add s dev_adr ep_spd e).2 = 0 →
      (USBH_STM32_EP_Add s dev_adr ep_spd e).1 = s) ∧
    ((USBH_STM32_EP_Add s dev_adr ep_spd e).2 ≠ 0 →
      ∃ j, j < OTG_FS_MAX_CH ∧ (s.CH j).HCCHAR = 0 ∧ (∀ k, k < j → (s.CH k).HCCHAR ≠ 0) ∧
        (USBH_STM32_EP_Add s dev_adr ep_spd e).2 = USBH_STM32_CH_GetCHFromIndex j ∧
        (e.bmAttributes &&& USB_ENDPOINT_TYPE_MASK = USB_ENDPOINT_TYPE_CONTROL ∨
            e.bmAttributes &&& USB_ENDPOINT_TYPE_MASK = USB_ENDPOINT_TYPE_BULK →
          (USBH_STM32_EP_Add s dev_adr ep_spd e).1 =
            { s with
              CH := Function.update s.CH j
                { s.CH j with HCCHAR := ep_hcchar dev_adr ep_spd e }
              log := s.log ++ [HwOp.wrHCCHAR j (ep_hcchar dev_adr ep_spd e)] }) ∧
        (e.bmAttributes &&& USB_ENDPOINT_TYPE_MASK = USB_ENDPOINT_TYPE_ISOCHRONOUS ∨
            e.bmAttributes &&& USB_ENDPOINT_TYPE_MASK = USB_ENDPOINT_TYPE_INTERRUPT →
          (USBH_STM32_EP_Add s dev_adr ep_spd e).1 =
            { s with
              CH := Function.update s.CH j
                { s.CH j with
                  HCCHAR := ep_hcchar dev_adr ep_spd e ||| USBH_STM32_HCCHAR_MCNT1 }
              cntIntervalMax := Function.update s.cntIntervalMax j (e.bInterval % 256)
              log := s.log ++ [HwOp.wrHCCHAR j (ep_hcchar dev_adr ep_spd e),
                HwOp.wrHCCHAR j (ep_hcchar dev_adr ep_spd e ||| USBH_STM32_HCCHAR_MCNT1)] }) ∧
        (∀ k, k ≠ j → (USBH_STM32_EP_Add s dev_adr ep_spd e).1.CH k = s.CH k) ∧
        (∀ k, k ≠ j →
          (USBH_STM32_EP_Add s dev_adr ep_spd e).1.cntIntervalMax k = s.cntIntervalMax k) ∧
        ((USBH_STM32_EP_Add s dev_adr ep_spd e).1.CH j).HCINT = (s.CH j).HCINT ∧
        ((USBH_STM32_EP_Add s dev_adr ep_spd e).1.CH j).HCINTMSK = (s.CH j).HCINTMSK ∧
        ((USBH_STM32_EP_Add s dev_adr ep_spd e).1.CH j).HCTSIZ = (s.CH j).HCTSIZ) := by
  by_cases h : USBH_STM32_CH_FindFree s = 0
  · have e0 := EP_Add_fail s dev_adr ep_spd e h
    refine ⟨?_, ?_, ?_⟩
    · rw [e0]
      exact ⟨fun _ => (FindFree_eq_zero s).1 h, fun _ => rfl⟩
    · intro _
      rw [e0]
    · intro hne
      rw [e0] at hne
      exact absurd rfl hne
  · obtain ⟨j, hj, hz, hlow, hp⟩ := FindFree_ne_zero s h
    have hx := EP_Add_exact s dev_adr ep_spd e j hp
    have hr : (USBH_STM32_EP_Add s dev_adr ep_spd e).2 = USBH_STM32_CH_GetCHFromIndex j := by
      rw [hx]
    refine ⟨?_, ?_, ?_⟩
    · rw [hr]
      constructor
      · intro h0
        exact absurd h0 (GetCHFromIndex_ne_zero j)
      · intro hall
        exact absurd hz (hall j hj)
    · intro h0
      rw [hr] at h0
      exact absurd h0 (GetCHFromIndex_ne_zero j)
    · intro _
      refine ⟨j, hj, hz, hlow, hr, ?_, ?_, ?_, ?_, ?_, ?_, ?_⟩
      · intro ht
        rw [hx, if_neg]
        revert ht
        unfold USB_ENDPOINT_TYPE_CONTROL USB_ENDPOINT_TYPE_BULK USB_ENDPOINT_TYPE_ISOCHRONOUS
          USB_ENDPOINT_TYPE_INTERRUPT
        omega
      · intro ht
        rw [hx, if_pos ht]
      · intro k hk
        rw [hx]
        split_ifs <;> exact Function.update_noteq hk _ _
      · intro k hk
        rw [hx]
        split_ifs
        · exact Function.update_noteq hk _ _
        · rfl
      · rw [hx]
        split_ifs <;> simp
      · rw [hx]
        split_ifs <;> simp
      · rw [hx]
        split_ifs <;> simp

/-- C11, witness: with all eight channels allocated the add returns 0 and
changes nothing; with channel 0 allocated the add of the interrupt IN
endpoint returns the handle of channel 1 and stores the encoded fields with
multi-count 1 into its `HCCHAR` and the interval 4 into `cntIntervalMax[1]`. -/
theorem C11_ep_add_allocation_witness :
    ((USBH_STM32_EP_Add allBusy 5 USBH_FS epBulkOut).2 = 0 ∧
      (USBH_STM32_EP_Add allBusy 5 USBH_FS epBulkOut).1 = allBusy) ∧
    ∃ j, (withBulkOut.CH j).HCCHAR = 0 ∧ (∀ k, k < j → (withBulkOut.CH k).HCCHAR ≠ 0) ∧
      (USBH_STM32_EP_Add withBulkOut 5 USBH_FS epIntrIn).2 = USBH_STM32_CH_GetCHFromIndex j ∧
      (USBH_STM32_EP_Add withBulkOut 5 USBH_FS epIntrIn).1 =
        { withBulkOut with
          CH := Function.update withBulkOut.CH j
            { withBulkOut.CH j with
              HCCHAR := ep_hcchar 5 USBH_FS epIntrIn ||| USBH_STM32_HCCHAR_MCNT1 }
          cntIntervalMax :=
            Function.update withBulkOut.cntIntervalMax j (epIntrIn.bInterval % 256)
          log := withBulkOut.log ++ [HwOp.wrHCCHAR j (ep_hcchar 5 USBH_FS epIntrIn),
            HwOp.wrHCCHAR j (ep_hcchar 5 USBH_FS epIntrIn ||| USBH_STM32_HCCHAR_MCNT1)] } :=
  have H0 := C11_ep_add_allocation allBusy 5 USBH_FS epBulkOut
  have h0 := H0.1.2 (by decide)
  ⟨⟨h0, H0.2.1 h0⟩,
    ((C11_ep_add_allocation withBulkOut 5 USBH_FS epIntrIn).2.2 (by decide)).imp
      (fun _ h => ⟨h.2.1, h.2.2.1, h.2.2.2.1, h.2.2.2.2.2.1 (by decide)⟩)⟩

/-- On the port with one bulk endpoint added, the next add takes channel 1
and leaves channel 0 as it was. -/
theorem ep_add_second_channel :
    (USBH_STM32_EP_Add withBulkOut 5 USBH_FS epIntrIn).2 = USBH_STM32_CH_GetCHFromIndex 1 ∧
    ((USBH_STM32_EP_Add withBulkOut 5 USBH_FS epIntrIn).1.CH 0) = withBulkOut.CH 0 ∧
    ((USBH_STM32_EP_Add withBulkOut 5 USBH_FS epIntrIn).1.CH 1).HCCHAR ≠ 0 := by
  decide

theorem lor_ne_zero_left {a : Nat} (b : Nat) (h : a ≠ 0) : a ||| b ≠ 0 := by
  intro h0
  apply h
  apply Nat.eq_of_testBit_eq
  intro i
  have hi := congrArg (fun x => x.testBit i) h0
  simp only [Nat.testBit_lor, Nat.zero_testBit, Bool.or_eq_false_iff] at hi
  rw [hi.1, Nat.zero_testBit]

/-- C12 as stated fails: the control endpoint 0 of device address 0 with a
zero maximum packet size encodes to `HCCHAR = 0`, so the channel still reads
as free and the next add returns the same handle. -/
theorem C12_counterexample :
    (USBH_STM32_EP_Add connectedFS 0 USBH_FS ⟨0, USB_ENDPOINT_TYPE_CONTROL, 0, 0⟩).2 ≠ 0 ∧
    (USBH_STM32_EP_Add
      (USBH_STM32_EP_Add connectedFS 0 USBH_FS ⟨0, USB_ENDPOINT_TYPE_CONTROL, 0, 0⟩).1
      5 USBH_FS epBulkOut).2 ≠ 0 ∧
    (USBH_STM32_EP_Add
      (USBH_STM32_EP_Add connectedFS 0 USBH_FS ⟨0, USB_ENDPOINT_TYPE_CONTROL, 0, 0⟩).1
      5 USBH_FS epBulkOut).2 =
    (USBH_STM32_EP_Add connectedFS 0 USBH_FS ⟨0, USB_ENDPOINT_TYPE_CONTROL, 0, 0⟩).2 := by
  decide

/-- C12 (amended): two successful `USBH_STM32_EP_Add` calls with no
`USBH_STM32_EP_Remove` in between return two different handles whenever the
static fields of the first endpoint encode to a non-zero `HCCHAR`. -/
theorem C12_distinct_handles (s : State) (d1 sp1 d2 sp2 : Nat)
    (e1 e2 : USB_ENDPOINT_DESCRIPTOR)
    (h1 : (USBH_STM32_EP_Add s d1 sp1 e1).2 ≠ 0)
    (h2 : (USBH_STM32_EP_Add (USBH_STM32_EP_Add s d1 sp1 e1).1 d2 sp2 e2).2 ≠ 0)
    (hnz : ep_hcchar d1 sp1 e1 ≠ 0) :
    (USBH_STM32_EP_Add (USBH_STM32_EP_Add s d1 sp1 e1).1 d2 sp2 e2).2 ≠
      (USBH_STM32_EP_Add s d1 sp1 e1).2 := by
  have f1 : USBH_STM32_CH_FindFree s ≠ 0 := by
    intro h0
    rw [EP_Add_fail s d1 sp1 e1 h0] at h1
    exact h1 rfl
  obtain ⟨j, _, _, _, hp⟩ := FindFree_ne_zero s f1
  obtain ⟨hr, v, m, l, hv, hst⟩ := EP_Add_state s d1 sp1 e1 j hp
  have f2 : USBH_STM32_CH_FindFree (USBH_STM32_EP_Add s d1 sp1 e1).1 ≠ 0 := by
    intro h0
    rw [EP_Add_fail _ d2 sp2 e2 h0] at h2
    exact h2 rfl
  obtain ⟨k, _, hk, _, hq⟩ := FindFree_ne_zero _ f2
  obtain ⟨hr2, _⟩ := EP_Add_state _ d2 sp2 e2 k hq
  rw [hr, hr2]
  intro e
  have ekj : k = j := GetCHFromIndex_inj e
  rw [ekj, hst] at hk
  simp only [Function.update_same] at hk
  rcases hv with hv | hv
  · exact hnz (hv ▸ hk)
  · exact lor_ne_zero_left _ hnz (hv ▸ hk)

theorem C12_distinct_handles_witness :
    (USBH_STM32_EP_Add (USBH_STM32_EP_Add connectedFS 5 USBH_FS epBulkOut).1
        5 USBH_FS epIntrIn).2 ≠
      (USBH_STM32_EP_Add connectedFS 5 USBH_FS epBulkOut).2 :=
  C12_distinct_handles connectedFS 5 USBH_FS 5 USBH_FS epBulkOut epIntrIn
    (by decide) (by decide) (by decide)

theorem testBit_mask (x w j : Nat) :
    (x &&& (2 ^ w - 1)).testBit j = (decide (j < w) && x.testBit j) := by
  rw [Nat.testBit_land, Nat.testBit_two_pow_sub_one, Bool.and_comm]

/-- The static fields of `ep_hcchar`, with the masks written as powers of
two. -/
theorem ep_hcchar_eq (d sp : Nat) (e : USB_ENDPOINT_DESCRIPTOR) :
    ep_hcchar d sp e =
      ((e.wMaxPacketSize &&& (2 ^ 11 - 1)) <<< 0) |||
      ((e.bEndpointAddress &&& (2 ^ 4 - 1)) <<< 11) |||
      (((e.bEndpointAddress >>> 7) &&& (2 ^ 1 - 1)) <<< 15) |||
      (((if sp = USBH_LS then 1 else 0) &&& (2 ^ 1 - 1)) <<< 17) |||
      ((e.bmAttributes &&& (2 ^ 2 - 1)) <<< 18) |||
      ((d &&& (2 ^ 7 - 1)) <<< 22) := by
  unfold ep_hcchar USB_ENDPOINT_TYPE_MASK
  split_ifs <;> rfl

/-- Bit `j` of the channel characteristics with multi-count field `m`. -/
theorem ep_hcchar_testBit (d sp : Nat) (e : USB_ENDPOINT_DESCRIPTOR) (m j : Nat) :
    (ep_hcchar d sp e ||| ((m &&& (2 ^ 2 - 1)) <<< 20)).testBit j =
      ((decide (j < 11) && e.wMaxPacketSize.testBit j) ||
       (decide (11 ≤ j) && (decide (j - 11 < 4) && e.bEndpointAddress.testBit (j - 11))) ||
       (decide (15 ≤ j) && (decide (j - 15 < 1) && e.bEndpointAddress.testBit (7 + (j - 15)))) ||
       (decide (17 ≤ j) && (decide (j - 17 < 1) && decide (sp = USBH_LS))) ||
       (decide (18 ≤ j) && (decide (j - 18 < 2) && e.bmAttributes.testBit (j - 18))) ||
       (decide (22 ≤ j) && (decide (j - 22 < 7) && d.testBit (j - 22))) ||
       (decide (20 ≤ j) && (decide (j - 20 < 2) && m.testBit (j - 20)))) := by
  rw [ep_hcchar_eq]
  simp only [Nat.testBit_lor, Nat.testBit_shiftLeft, testBit_mask, Nat.testBit_shiftRight,
    ge_iff_le, Nat.zero_le, decide_True, Bool.true_and, Nat.sub_zero]
  congr 3
  by_cases h : sp = USBH_LS
  · simp only [h, if_true, decide_True]
    by_cases h1 : j - 17 < 1
    · have : j - 17 = 0 := by omega
      rw [this]
      rfl
    · simp [h1]
  · simp [h]

theorem ep_field_mps (d sp : Nat) (e : USB_ENDPOINT_DESCRIPTOR) (m : Nat) :
    (ep_hcchar d sp e ||| ((m &&& (2 ^ 2 - 1)) <<< 20)) &&& (2 ^ 11 - 1) =
      e.wMaxPacketSize &&& (2 ^ 11 - 1) := by
  apply Nat.eq_of_testBit_eq
  intro i
  rw [testBit_mask, testBit_mask, ep_hcchar_testBit]
  by_cases hi : i < 11
  · interval_cases i <;> simp
  · simp [hi]

theorem ep_field_epnum (d sp : Nat) (e : USB_ENDPOINT_DESCRIPTOR) (m : Nat) :
    ((ep_hcchar d sp e ||| ((m &&& (2 ^ 2 - 1)) <<< 20)) >>> 11) &&& (2 ^ 4 - 1) =
      e.bEndpointAddress &&& (2 ^ 4 - 1) := by
  apply Nat.eq_of_testBit_eq
  intro i
  rw [testBit_mask, testBit_mask, Nat.testBit_shiftRight, ep_hcchar_testBit]
  by_cases hi : i < 4
  · interval_cases i <;> simp
  · simp [hi]

theorem ep_field_epdir (d sp : Nat) (e : USB_ENDPOINT_DESCRIPTOR) (m : Nat) :
    ((ep_hcchar d sp e ||| ((m &&& (2 ^ 2 - 1)) <<< 20)) >>> 15) &&& (2 ^ 1 - 1) =
      (e.bEndpointAddress >>> 7) &&& (2 ^ 1 - 1) := by
  apply Nat.eq_of_testBit_eq
  intro i
  rw [testBit_mask, testBit_mask, Nat.testBit_shiftRight, Nat.testBit_shiftRight,
    ep_hcchar_testBit]
  by_cases hi : i < 1
  · interval_cases i <;> simp
  · simp [hi]

theorem ep_field_lsdev (d sp : Nat) (e : USB_ENDPOINT_DESCRIPTOR) (m : Nat) :
    ((ep_hcchar d sp e ||| ((m &&& (2 ^ 2 - 1)) <<< 20)) >>> 17) &&& (2 ^ 1 - 1) =
      if sp = USBH_LS then 1 else 0 := by
  apply Nat.eq_of_testBit_eq
  intro i
  rw [testBit_mask, Nat.testBit_shiftRight, ep_hcchar_testBit]
  by_cases hi : i < 1
  · interval_cases i
    by_cases h : sp = USBH_LS
    · simp [h]
    · simp [h]
  · have : (if sp = USBH_LS then 1 else 0 : Nat) < 2 ^ i := by
      have : 2 ^ 1 ≤ 2 ^ i := Nat.pow_le_pow_right (by decide) (by omega)
      split_ifs <;> omega
    rw [Nat.testBit_lt_two_pow this]
    simp [hi]

theorem ep_field_eptyp (d sp : Nat) (e : USB_ENDPOINT_DESCRIPTOR) (m : Nat) :
    ((ep_hcchar d sp e ||| ((m &&& (2 ^ 2 - 1)) <<< 20)) >>> 18) &&& (2 ^ 2 - 1) =
      e.bmAttributes &&& (2 ^ 2 - 1) := by
  apply Nat.eq_of_testBit_eq
  intro i
  rw [testBit_mask, testBit_mask, Nat.testBit_shiftRight, ep_hcchar_testBit]
  by_cases hi : i < 2
  · interval_cases i <;> simp
  · simp [hi]

theorem ep_field_mcnt (d sp : Nat) (e : USB_ENDPOINT_DESCRIPTOR) (m : Nat) :
    ((ep_hcchar d sp e ||| ((m &&& (2 ^ 2 - 1)) <<< 20)) >>> 20) &&& (2 ^ 2 - 1) =
      m &&& (2 ^ 2 - 1) := by
  apply Nat.eq_of_testBit_eq
  intro i
  rw [testBit_mask, testBit_mask, Nat.testBit_shiftRight, ep_hcchar_testBit]
  by_cases hi : i < 2
  · interval_cases i <;> simp
  · simp [hi]

theorem ep_field_dad (d sp : Nat) (e : USB_ENDPOINT_DESCRIPTOR) (m : Nat) :
    ((ep_hcchar d sp e ||| ((m &&& (2 ^ 2 - 1)) <<< 20)) >>> 22) &&& (2 ^ 7 - 1) =
      d &&& (2 ^ 7 - 1) := by
  apply Nat.eq_of_testBit_eq
  intro i
  rw [testBit_mask, testBit_mask, Nat.testBit_shiftRight, ep_hcchar_testBit]
  by_cases hi : i < 7
  · interval_cases i <;> simp
  · simp [hi]

theorem ep_field_high (d sp : Nat) (e : USB_ENDPOINT_DESCRIPTOR) (m : Nat) :
    (ep_hcchar d sp e ||| ((m &&& (2 ^ 2 - 1)) <<< 20)) < 2 ^ 29 := by
  apply Nat.lt_pow_two_of_testBit
  intro i hi
  rw [ep_hcchar_testBit]
  have h1 : ¬ i < 11 := by omega
  have h2 : ¬ i - 11 < 4 := by omega
  have h3 : ¬ i - 15 < 1 := by omega
  have h4 : ¬ i - 17 < 1 := by omega
  have h5 : ¬ i - 18 < 2 := by omega
  have h6 : ¬ i - 22 < 7 := by omega
  have h7 : ¬ i - 20 < 2 := by omega
  simp [h1, h2, h3, h4, h5, h6, h7]

theorem and_shiftLeft_one_of_lt {x k n : Nat} (h : x < 2 ^ k) (hn : k ≤ n) :
    x &&& (1 <<< n) = 0 := by
  apply Nat.eq_of_testBit_eq
  intro i
  rw [Nat.testBit_land, Nat.zero_testBit, Nat.testBit_shiftLeft]
  by_cases hi : n ≤ i
  · have : x < 2 ^ i := Nat.lt_of_lt_of_le h (Nat.pow_le_pow_right (by decide) (by omega))
    rw [Nat.testBit_lt_two_pow this]
    rfl
  · simp [hi]

/-- The result of a successful `USBH_STM32_EP_Add` on channel `j`, with the
multi-count field written as a number. -/
theorem EP_Add_result (s : State) (d sp : Nat) (e : USB_ENDPOINT_DESCRIPTOR) (j : Nat)
    (h : USBH_STM32_CH_FindFree s = USBH_STM32_CH_GetCHFromIndex j) :
    ∃ m l, (m = 0 ∨ m = 1) ∧
      (e.bmAttributes &&& USB_ENDPOINT_TYPE_MASK = USB_ENDPOINT_TYPE_ISOCHRONOUS ∨
        e.bmAttributes &&& USB_ENDPOINT_TYPE_MASK = USB_ENDPOINT_TYPE_INTERRUPT → m = 1) ∧
      (e.bmAttributes &&& USB_ENDPOINT_TYPE_MASK = USB_ENDPOINT_TYPE_CONTROL ∨
        e.bmAttributes &&& USB_ENDPOINT_TYPE_MASK = USB_ENDPOINT_TYPE_BULK → m = 0) ∧
      USBH_STM32_EP_Add s d sp e =
        ({ s with
            CH := Function.update s.CH j
              { s.CH j with HCCHAR := ep_hcchar d sp e ||| ((m &&& (2 ^ 2 - 1)) <<< 20) }
            cntIntervalMax :=
              if m = 1 then Function.update s.cntIntervalMax j (e.bInterval % 256)
              else s.cntIntervalMax
            log := l }, USBH_STM32_CH_GetCHFromIndex j) := by
  unfold USBH_STM32_EP_Add
  simp only [h, if_neg (GetCHFromIndex_ne_zero j), GetIndexFromCH_GetCHFromIndex]
  split_ifs with h1 h2
  · refine ⟨0, s.log ++ [HwOp.wrHCCHAR j (ep_hcchar d sp e)], Or.inl rfl, ?_, fun _ => rfl, ?_⟩
    · intro h3
      exfalso
      revert h1 h3
      unfold USB_ENDPOINT_TYPE_CONTROL USB_ENDPOINT_TYPE_BULK USB_ENDPOINT_TYPE_ISOCHRONOUS
        USB_ENDPOINT_TYPE_INTERRUPT
      omega
    · simp [wrHCCHAR]
  · refine ⟨1, s.log ++ [HwOp.wrHCCHAR j (ep_hcchar d sp e),
        HwOp.wrHCCHAR j (ep_hcchar d sp e ||| USBH_STM32_HCCHAR_MCNT1)], Or.inr rfl,
        fun _ => rfl, fun h3 => absurd h3 h1, ?_⟩
    simp [wrHCCHAR, USBH_STM32_HCCHAR_MCNT1]
  · refine ⟨0, s.log ++ [HwOp.wrHCCHAR j (ep_hcchar d sp e)], Or.inl rfl,
      fun h3 => absurd h3 h2, fun _ => rfl, ?_⟩
    simp [wrHCCHAR]

/-- C13: after a successful `USBH_STM32_EP_Add` the channel's `HCCHAR`
decodes field by field to the inputs: maximum packet size (bits 0..10),
endpoint number (bits 11..14), direction (bit 15), low-speed flag (bit 17),
endpoint type (bits 18..19), device address (bits 22..28), with the enable
and disable bits clear; for interrupt and isochronous endpoints the
multi-count field (bits 20..21) is 1 and the channel's interval maximum is
`bInterval`, for control and bulk the interval maximum is unchanged; the
field masks are pairwise disjoint. -/
theorem C13_ep_add_encoding (s t : State) (dev_adr ep_spd hndl H : Nat)
    (e : USB_ENDPOINT_DESCRIPTOR) (hb : e.bInterval < 256)
    (hr : USBH_STM32_EP_Add s dev_adr ep_spd e = (t, hndl)) (hok : hndl ≠ 0)
    (hH : H = (t.CH (USBH_STM32_CH_GetIndexFromCH hndl)).HCCHAR) :
    H &&& 0x7FF = e.wMaxPacketSize &&& 0x7FF ∧
    (H >>> 11) &&& 0xF = e.bEndpointAddress &&& 0xF ∧
    (H >>> 15) &&& 1 = (e.bEndpointAddress >>> 7) &&& 1 ∧
    (H >>> 17) &&& 1 = (if ep_spd = USBH_LS then 1 else 0) ∧
    (H >>> 18) &&& 3 = e.bmAttributes &&& USB_ENDPOINT_TYPE_MASK ∧
    (H >>> 22) &&& 0x7F = dev_adr &&& 0x7F ∧
    H &&& USBH_STM32_HCCHAR_CHENA = 0 ∧
    H &&& USBH_STM32_HCCHAR_CHDIS = 0 ∧
    (e.bmAttributes &&& USB_ENDPOINT_TYPE_MASK = USB_ENDPOINT_TYPE_INTERRUPT ∨
      e.bmAttributes &&& USB_ENDPOINT_TYPE_MASK = USB_ENDPOINT_TYPE_ISOCHRONOUS →
        (H >>> 20) &&& 3 = 1 ∧
        t.cntIntervalMax (USBH_STM32_CH_GetIndexFromCH hndl) = e.bInterval) ∧
    (e.bmAttributes &&& USB_ENDPOINT_TYPE_MASK = USB_ENDPOINT_TYPE_CONTROL ∨
      e.bmAttributes &&& USB_ENDPOINT_TYPE_MASK = USB_ENDPOINT_TYPE_BULK →
        t.cntIntervalMax (USBH_STM32_CH_GetIndexFromCH hndl) =
          s.cntIntervalMax (USBH_STM32_CH_GetIndexFromCH hndl)) ∧
    List.Pairwise (fun a b => a &&& b = 0)
      [USBH_STM32_HCCHAR_MPSIZ, USBH_STM32_HCCHAR_EPNUM, USBH_STM32_HCCHAR_EPDIR,
        USBH_STM32_HCCHAR_LSDEV, USBH_STM32_HCCHAR_EPTYP, USBH_STM32_HCCHAR_MCNT,
        USBH_STM32_HCCHAR_DAD, USBH_STM32_HCCHAR_CHDIS, USBH_STM32_HCCHAR_CHENA] := by
  have f1 : USBH_STM32_CH_FindFree s ≠ 0 := by
    intro h0
    rw [EP_Add_fail s dev_adr ep_spd e h0] at hr
    exact hok (congrArg Prod.snd hr).symm
  obtain ⟨j, _, _, _, hp⟩ := FindFree_ne_zero s f1
  obtain ⟨m, l, hm, hper, hnon, hst⟩ := EP_Add_result s dev_adr ep_spd e j hp
  rw [hst] at hr
  have ht := (congrArg Prod.fst hr).symm
  have hh := (congrArg Prod.snd hr).symm
  simp only at ht hh
  subst hh
  have eH : H = ep_hcchar dev_adr ep_spd e ||| ((m &&& (2 ^ 2 - 1)) <<< 20) := by
    rw [hH, ht, GetIndexFromCH_GetCHFromIndex]
    simp only [Function.update_same]
  have hlt := ep_field_high dev_adr ep_spd e m
  rw [← eH] at hlt
  refine ⟨?_, ?_, ?_, ?_, ?_, ?_, ?_, ?_, ?_, ?_, by decide⟩
  · rw [eH]
    exact ep_field_mps dev_adr ep_spd e m
  · rw [eH]
    exact ep_field_epnum dev_adr ep_spd e m
  · rw [eH]
    exact ep_field_epdir dev_adr ep_spd e m
  · rw [eH]
    exact ep_field_lsdev dev_adr ep_spd e m
  · rw [eH]
    exact ep_field_eptyp dev_adr ep_spd e m
  · rw [eH]
    exact ep_field_dad dev_adr ep_spd e m
  · exact and_shiftLeft_one_of_lt hlt (by decide)
  · exact and_shiftLeft_one_of_lt hlt (by decide)
  · intro hty
    have hm1 : m = 1 := hper (Or.comm.1 hty)
    constructor
    · rw [eH, hm1]
      exact ep_field_mcnt dev_adr ep_spd e 1
    · rw [ht, GetIndexFromCH_GetCHFromIndex, hm1]
      simp only [if_true, Function.update_same]
      exact Nat.mod_eq_of_lt hb
  · intro hty
    have hm0 : m = 0 := hnon hty
    rw [ht, hm0]
    simp

theorem C13_ep_add_encoding_witness :
    ((withIntrIn.CH 0).HCCHAR >>> 18) &&& 3 = USB_ENDPOINT_TYPE_INTERRUPT ∧
    ((withIntrIn.CH 0).HCCHAR >>> 20) &&& 3 = 1 ∧
    ((withIntrIn.CH 0).HCCHAR >>> 22) &&& 0x7F = 5 ∧
    withIntrIn.cntIntervalMax 0 = 4 :=
  have h := C13_ep_add_encoding connectedFS withIntrIn 5 USBH_FS HCCHAR0_ADDR
    (withIntrIn.CH 0).HCCHAR epIntrIn (by decide) (Prod.ext rfl (by decide)) (by decide) rfl
  ⟨h.2.2.2.2.1, (h.2.2.2.2.2.2.2.2.1 (Or.inl (by decide))).1, h.2.2.2.2.2.1,
    (h.2.2.2.2.2.2.2.2.1 (Or.inl (by decide))).2⟩

/-! ## Port monitor -/

theorem pcsts_cases (h : Nat) :
    h &&& USBH_STM32_HPRT_PCSTS = 0 ∨ h &&& USBH_STM32_HPRT_PCSTS = 1 := by
  have e : USBH_STM32_HPRT_PCSTS = 1 := rfl
  rw [e, Nat.and_one_is_mod]
  omega

/-- A poll while the countdown is above 1: one tick, no event, the raw
status is not looked at. -/
theorem Get_Connect_counting (s : State) (c : Nat) (hc : s.Port_Con = 0)
    (hd : s.Port_Discon_Evt = 0) (hn : s.cntDebounce = c + 2) :
    USBH_STM32_Get_Connect s = ({ s with cntDebounce := c + 1 }, 0) := by
  unfold USBH_STM32_Get_Connect
  simp [hc, hd, hn]

/-- The poll on which the countdown reaches zero: the connect event exactly
when the raw status reads asserted. -/
theorem Get_Connect_expire (s : State) (hc : s.Port_Con = 0)
    (hd : s.Port_Discon_Evt = 0) (hn : s.cntDebounce = 1) :
    USBH_STM32_Get_Connect s =
      ({ s with cntDebounce := 0,
                Port_Con := if s.HPRT &&& USBH_STM32_HPRT_PCSTS ≠ 0 then 1 else 0 },
        if s.HPRT &&& USBH_STM32_HPRT_PCSTS ≠ 0 then 1 else 0) := by
  unfold USBH_STM32_Get_Connect
  simp [hc, hd, hn]

/-- A poll with no countdown running and nothing connected: an asserted raw
status starts the countdown. -/
theorem Get_Connect_arm (s : State) (hc : s.Port_Con = 0)
    (hd : s.Port_Discon_Evt = 0) (hn : s.cntDebounce = 0) :
    USBH_STM32_Get_Connect s =
      (if s.HPRT &&& USBH_STM32_HPRT_PCSTS ≠ 0 then { s with cntDebounce := DEBOUNCE_500ms }
        else s, 0) := by
  unfold USBH_STM32_Get_Connect
  by_cases h : s.HPRT &&& USBH_STM32_HPRT_PCSTS = 0
  · simp [hc, hd, hn, h]
  · simp [hc, hd, hn, h]

/-- A poll on the connected port with the raw status asserted: nothing. -/
theorem Get_Connect_connected (s : State) (hc : s.Port_Con = 1)
    (hd : s.Port_Discon_Evt = 0) (hn : s.cntDebounce = 0)
    (hs : s.HPRT &&& USBH_STM32_HPRT_PCSTS ≠ 0) :
    USBH_STM32_Get_Connect s = (s, 0) := by
  have e : s.HPRT &&& USBH_STM32_HPRT_PCSTS = 1 := by
    rcases pcsts_cases s.HPRT with h | h
    · exact absurd h hs
    · exact h
  unfold USBH_STM32_Get_Connect
  simp [hc, hd, hn, e]

/-- Polls on the connected port with the raw status asserted return no
event and leave the port connected. -/
theorem polls_connected (hs : List Nat) (s : State) (hc : s.Port_Con = 1)
    (hd : s.Port_Discon_Evt = 0) (hn : s.cntDebounce = 0)
    (hall : ∀ h ∈ hs, h &&& USBH_STM32_HPRT_PCSTS ≠ 0) :
    (Get_Connect_polls s hs).2 = List.replicate hs.length 0 ∧
    (Get_Connect_polls s hs).1.Port_Con = 1 := by
  induction hs generalizing s with
  | nil => exact ⟨rfl, hc⟩
  | cons h hs ih =>
    have e := Get_Connect_connected { s with HPRT := h } hc hd hn
      (hall h (List.mem_cons_self h hs))
    simp only [Get_Connect_polls, e, List.length_cons, List.replicate_succ]
    have r := ih { s with HPRT := h } hc hd hn (fun x hx => hall x (List.mem_cons_of_mem h hx))
    exact ⟨by rw [r.1], r.2⟩

/-- Polls during the countdown, whatever the raw status reads: as long as the
countdown does not reach zero there is no event and nothing but the
countdown changes. -/
theorem polls_counting (hs : List Nat) (s : State) (c : Nat) (hc : s.Port_Con = 0)
    (hd : s.Port_Discon_Evt = 0) (hn : s.cntDebounce = hs.length + c + 1) :
    (Get_Connect_polls s hs).2 = List.replicate hs.length 0 ∧
    (Get_Connect_polls s hs).1.Port_Con = 0 ∧
    (Get_Connect_polls s hs).1.Port_Discon_Evt = 0 ∧
    (Get_Connect_polls s hs).1.cntDebounce = c + 1 := by
  induction hs generalizing s with
  | nil =>
    refine ⟨rfl, hc, hd, ?_⟩
    simpa using hn
  | cons h hs ih =>
    have e := Get_Connect_counting { s with HPRT := h } (hs.length + c) hc hd
      (by simp only [hn, List.length_cons]; omega)
    simp only [Get_Connect_polls, e, List.length_cons, List.replicate_succ]
    have r := ih { s with HPRT := h, cntDebounce := hs.length + c + 1 } hc hd rfl
    exact ⟨by rw [r.1], r.2⟩

theorem polls_append (hs ks : List Nat) (s : State) :
    Get_Connect_polls s (hs ++ ks) =
      ((Get_Connect_polls (Get_Connect_polls s hs).1 ks).1,
        (Get_Connect_polls s hs).2 ++ (Get_Connect_polls (Get_Connect_polls s hs).1 ks).2) := by
  induction hs generalizing s with
  | nil => rfl
  | cons h hs ih =>
    rw [List.cons_append]
    simp only [Get_Connect_polls]
    rw [ih]
    rfl

/-- The whole countdown: with the countdown at `c` + 1, the first `c` polls
return nothing whatever the raw status reads, and the next poll returns the
connect event exactly when the raw status reads asserted on it. -/
theorem polls_window (hs : List Nat) (h : Nat) (s : State) (hc : s.Port_Con = 0)
    (hd : s.Port_Discon_Evt = 0) (hn : s.cntDebounce = hs.length + 1) :
    (Get_Connect_polls s (hs ++ [h])).2 =
      List.replicate hs.length 0 ++ [if h &&& USBH_STM32_HPRT_PCSTS ≠ 0 then 1 else 0] ∧
    (Get_Connect_polls s (hs ++ [h])).1.Port_Con =
      (if h &&& USBH_STM32_HPRT_PCSTS ≠ 0 then 1 else 0) ∧
    (Get_Connect_polls s (hs ++ [h])).1.Port_Discon_Evt = 0 ∧
    (Get_Connect_polls s (hs ++ [h])).1.cntDebounce = 0 := by
  obtain ⟨r1, r2, r3, r4⟩ := polls_counting hs s 0 hc hd (by omega)
  have e := Get_Connect_expire { (Get_Connect_polls s hs).1 with HPRT := h } r2 r3
    (by simpa using r4)
  rw [polls_append]
  simp only [Get_Connect_polls, e, r1]
  exact ⟨trivial, trivial, r3, trivial⟩

/-- Polls with the raw status asserted throughout, from a running countdown:
the connect event on the poll on which the countdown reaches zero and on no
other. -/
theorem polls_asserted_countdown (hs : List Nat) (s : State) (c : Nat) (hc : s.Port_Con = 0)
    (hd : s.Port_Discon_Evt = 0) (hn : s.cntDebounce = c + 1)
    (hall : ∀ h ∈ hs, h &&& USBH_STM32_HPRT_PCSTS ≠ 0) :
    (Get_Connect_polls s hs).2 =
      (List.range hs.length).map (fun i => if i + 1 = c + 1 then 1 else 0) ∧
    (Get_Connect_polls s hs).1.Port_Con = (if c + 1 ≤ hs.length then 1 else 0) := by
  induction hs generalizing s c with
  | nil => exact ⟨rfl, hc⟩
  | cons h hs ih =>
    have hh := hall h (List.mem_cons_self h hs)
    have hall2 : ∀ x ∈ hs, x &&& USBH_STM32_HPRT_PCSTS ≠ 0 :=
      fun x hx => hall x (List.mem_cons_of_mem h hx)
    simp only [List.length_cons, List.range_succ_eq_map, List.map_cons, List.map_map]
    cases c with
    | zero =>
      have e := Get_Connect_expire { s with HPRT := h } hc hd hn
      simp only [Get_Connect_polls, e, hh, ne_eq, not_false_eq_true, if_true]
      have r := polls_connected hs
        { s with HPRT := h, cntDebounce := 0, Port_Con := 1 } rfl hd rfl hall2
      refine ⟨?_, ?_⟩
      · rw [r.1]
        simp only [Nat.zero_add, if_true, List.cons.injEq, true_and]
        apply List.ext_getElem
        · simp
        · intro i h1 h2
          simp
      · rw [r.2]
        simp
    | succ c =>
      have e := Get_Connect_counting { s with HPRT := h } c hc hd hn
      simp only [Get_Connect_polls, e]
      have r := ih { s with HPRT := h, cntDebounce := c + 1 } c hc hd rfl hall2
      refine ⟨?_, ?_⟩
      · rw [r.1]
        simp only [Nat.zero_add, List.cons.injEq]
        refine ⟨by simp, ?_⟩
        apply List.map_congr_left
        intro i _
        simp [Function.comp]
      · rw [r.2]
        simp

/-- C14: from a port that is not connected and has no disconnect pending,
with the raw status asserted on every poll and no interrupt in between, the
connect event is returned on exactly one poll, the one on which the
countdown reaches zero (poll 501 when no countdown was running, since the
first poll starts the 500-tick countdown); every other poll returns 0, and
`Port_Con` is 1 from that poll on. -/
theorem C14_debounce_full_window (s : State) (hs : List Nat) (hc : s.Port_Con = 0)
    (hd : s.Port_Discon_Evt = 0) (hall : ∀ h ∈ hs, h &&& USBH_STM32_HPRT_PCSTS ≠ 0) :
    (Get_Connect_polls s hs).2 =
      (List.range hs.length).map (fun i =>
        if i + 1 = (if s.cntDebounce = 0 then DEBOUNCE_500ms + 1 else s.cntDebounce)
        then 1 else 0) ∧
    (Get_Connect_polls s hs).1.Port_Con =
      (if (if s.cntDebounce = 0 then DEBOUNCE_500ms + 1 else s.cntDebounce) ≤ hs.length
        then 1 else 0) := by
  by_cases hn : s.cntDebounce = 0
  · simp only [hn, if_true]
    cases hs with
    | nil => exact ⟨rfl, hc⟩
    | cons h hs =>
      have hh := hall h (List.mem_cons_self h hs)
      have hall2 : ∀ x ∈ hs, x &&& USBH_STM32_HPRT_PCSTS ≠ 0 :=
        fun x hx => hall x (List.mem_cons_of_mem h hx)
      have e := Get_Connect_arm { s with HPRT := h } hc hd hn
      simp only [hh, ne_eq, not_false_eq_true, if_true] at e
      have r := polls_asserted_countdown hs
        { s with HPRT := h, cntDebounce := DEBOUNCE_500ms } 499 hc hd rfl hall2
      simp only [Get_Connect_polls, e, List.length_cons, List.range_succ_eq_map, List.map_cons,
        List.map_map]
      refine ⟨?_, ?_⟩
      · rw [r.1]
        simp only [List.cons.injEq]
        refine ⟨by simp [DEBOUNCE_500ms], ?_⟩
        apply List.map_congr_left
        intro i _
        simp [Function.comp, DEBOUNCE_500ms]
      · rw [r.2]
        simp [DEBOUNCE_500ms]
  · obtain ⟨c, hcnt⟩ : ∃ c, s.cntDebounce = c + 1 := ⟨s.cntDebounce - 1, by omega⟩
    simp only [hn, if_false]
    rw [hcnt]
    exact polls_asserted_countdown hs s c hc hd hcnt hall

theorem C14_debounce_full_window_witness :
    (Get_Connect_polls idle (List.replicate 503 1)).2 =
      (List.range (List.replicate 503 1).length).map (fun i =>
        if i + 1 = (if idle.cntDebounce = 0 then DEBOUNCE_500ms + 1 else idle.cntDebounce)
        then 1 else 0) ∧
    (Get_Connect_polls idle (List.replicate 503 1)).1.Port_Con =
      (if (if idle.cntDebounce = 0 then DEBOUNCE_500ms + 1 else idle.cntDebounce) ≤
        (List.replicate 503 1).length then 1 else 0) :=
  C14_debounce_full_window idle (List.replicate 503 1) rfl rfl
    (fun h hm => by rw [List.eq_of_mem_replicate hm]; decide)

theorem irq_penchng_cntDebounce (s : State) (hprt : Nat) :
    (irq_penchng s hprt).cntDebounce = s.cntDebounce := by
  unfold irq_penchng
  simp only []
  split_ifs <;> rfl

/-- The host port interrupt with connect-detected pending on a port that is
not connected reloads the debounce countdown. -/
theorem irq_hprt_restart (s : State) (gintsts hprt : Nat) (hc : s.Port_Con = 0)
    (h1 : gintsts &&& USBH_STM32_GINTSTS_HPRTINT ≠ 0)
    (h2 : hprt &&& USBH_STM32_HPRT_PCDET ≠ 0) :
    (irq_hprt s gintsts hprt).cntDebounce = DEBOUNCE_500ms := by
  unfold irq_hprt
  simp only [h1, h2, hc, ne_eq, not_false_eq_true, and_self, if_true]
  split_ifs
  · rfl
  · rw [irq_penchng_cntDebounce]

/-- A glitch inside the debounce window: from the idle port the first poll
starts the countdown, one later poll of the window reads the raw status
de-asserted, and the poll on which the countdown reaches zero still returns
the connect event. -/
theorem polls_glitch (a b : List Nat) (hlen : a.length + b.length + 2 = DEBOUNCE_500ms) :
    (Get_Connect_polls idle (1 :: ((a ++ 0 :: b) ++ [1]))).2 =
      0 :: (List.replicate (a.length + b.length + 1) 0 ++ [1]) ∧
    (Get_Connect_polls idle (1 :: ((a ++ 0 :: b) ++ [1]))).1.Port_Con = 1 := by
  have e := Get_Connect_arm { idle with HPRT := 1 } rfl rfl rfl
  have e2 : (a ++ 0 :: b).length = a.length + b.length + 1 := by
    rw [List.length_append, List.length_cons]
    omega
  have r := polls_window (a ++ 0 :: b) 1
    { idle with HPRT := 1, cntDebounce := DEBOUNCE_500ms } rfl rfl
    (by rw [e2]; exact hlen.symm)
  have e1 : (1 &&& USBH_STM32_HPRT_PCSTS ≠ 0) = True := by decide
  simp only [e1, if_true, e2] at e r
  simp only [Get_Connect_polls, e]
  exact ⟨by rw [r.1], r.2.1⟩

/-- The polls alone, with no interrupt in between: from the idle port the
first poll starts the countdown, poll 251 reads the raw status de-asserted,
and poll 501, on which the countdown reaches zero, returns the connect event
and sets `Port_Con`.  The countdown is restarted by the interrupt handler
only. -/
theorem polls_glitch_idle :
    (Get_Connect_polls idle
      (1 :: ((List.replicate 249 1 ++ 0 :: List.replicate 249 1) ++ [1]))).2 =
        0 :: (List.replicate 499 0 ++ [1]) ∧
    (Get_Connect_polls idle
      (1 :: ((List.replicate 249 1 ++ 0 :: List.replicate 249 1) ++ [1]))).1.Port_Con = 1 := by
  have h := polls_glitch (List.replicate 249 1) (List.replicate 249 1)
    (by rw [List.length_replicate]; rfl)
  rw [List.length_replicate] at h
  exact h

/-- The polls alone: `USBH_STM32_Get_Connect` reads the raw status only on the
poll that starts the countdown and on the poll on which the countdown
reaches zero. With `Port_Con` = 0, no disconnect pending and the countdown at
`c` + 1, the first `c` polls return 0 whatever the raw status reads, and the
next poll returns the connect event and sets `Port_Con` exactly when the raw
status reads asserted on that poll; otherwise it returns 0 and `Port_Con`
stays 0. The countdown is restarted by the interrupt handler only: the host
port interrupt with connect-detected pending reloads it with 500. -/
theorem polls_sample_last_poll (s : State) (hs : List Nat) (h : Nat)
    (hc : s.Port_Con = 0) (hd : s.Port_Discon_Evt = 0)
    (hn : s.cntDebounce = hs.length + 1) :
    (Get_Connect_polls s (hs ++ [h])).2 =
      List.replicate hs.length 0 ++ [if h &&& USBH_STM32_HPRT_PCSTS ≠ 0 then 1 else 0] ∧
    (Get_Connect_polls s (hs ++ [h])).1.Port_Con =
      (if h &&& USBH_STM32_HPRT_PCSTS ≠ 0 then 1 else 0) ∧
    (Get_Connect_polls s (hs ++ [h])).1.cntDebounce = 0 ∧
    (∀ gintsts hprt, gintsts &&& USBH_STM32_GINTSTS_HPRTINT ≠ 0 →
      hprt &&& USBH_STM32_HPRT_PCDET ≠ 0 →
      (irq_hprt s gintsts hprt).cntDebounce = DEBOUNCE_500ms) := by
  obtain ⟨r1, r2, _, r4⟩ := polls_window hs h s hc hd hn
  exact ⟨r1, r2, r4, fun g p h1 h2 => irq_hprt_restart s g p hc h1 h2⟩

theorem polls_sample_last_poll_idle :
    (Get_Connect_polls { idle with cntDebounce := 3 } ([1, 0] ++ [0])).2 =
      List.replicate [1, 0].length 0 ++ [if 0 &&& USBH_STM32_HPRT_PCSTS ≠ 0 then 1 else 0] ∧
    (irq_hprt { idle with cntDebounce := 3 } USBH_STM32_GINTSTS_HPRTINT
      USBH_STM32_HPRT_PCDET).cntDebounce = DEBOUNCE_500ms :=
  have h := polls_sample_last_poll { idle with cntDebounce := 3 } [1, 0] 0 rfl rfl rfl
  ⟨h.1, h.2.2.2 USBH_STM32_GINTSTS_HPRTINT USBH_STM32_HPRT_PCDET (by decide) (by decide)⟩

theorem and_not32_self (d : Nat) (hd : d < 4294967296) : d &&& not32 d = 0 := by
  have e : not32 d = 2 ^ 32 - (d + 1) := by
    unfold not32
    rw [Nat.mod_eq_of_lt hd]
    omega
  rw [e]
  apply Nat.eq_of_testBit_eq
  intro i
  rw [Nat.testBit_land, Nat.testBit_two_pow_sub_succ (by simpa using hd), Nat.zero_testBit]
  cases d.testBit i <;> simp

/-- A call with a disconnect pending on a port that is not connected: the
event is returned in the high half and the flag is consumed. -/
theorem Get_Connect_discon (s : State) (hc : s.Port_Con = 0)
    (hd : s.Port_Discon_Evt < 4294967296) (hev : s.Port_Discon_Evt ≠ 0) :
    USBH_STM32_Get_Connect s =
      ({ s with Port_Discon_Evt := 0 }, u32 (s.Port_Discon_Evt <<< 16)) := by
  unfold USBH_STM32_Get_Connect
  simp [hc, hev, and_not32_self _ hd]

/-- A call with no disconnect pending on a port that is not connected
returns 0 or the connect event. -/
theorem Get_Connect_no_discon (s : State) (hc : s.Port_Con = 0)
    (hd : s.Port_Discon_Evt = 0) : (USBH_STM32_Get_Connect s).2 ≤ 1 := by
  unfold USBH_STM32_Get_Connect
  simp only [hc, hd]
  split_ifs <;> simp_all

/-- A call on a connected port whose raw status differs from `Port_Con`,
with no disconnect pending: the disconnect event, and no change of state. -/
theorem Get_Connect_level (s : State) (hc : s.Port_Con ≠ 0) (hd : s.Port_Discon_Evt = 0)
    (hx : (s.HPRT &&& USBH_STM32_HPRT_PCSTS) ^^^ s.Port_Con ≠ 0) :
    USBH_STM32_Get_Connect s = (s, 65536) := by
  unfold USBH_STM32_Get_Connect
  simp only [hc, hd, hx, ne_eq, not_false_eq_true, and_self, if_true, Nat.zero_or,
    Nat.zero_and]
  have e : s = { s with Port_Discon_Evt := 0 } := by
    cases s
    simp only at hd
    subst hd
    rfl
  rw [← e]
  rfl

/-- C16 as stated fails: on a connected port whose raw status reads
de-asserted, with no disconnect pending, the call returns the disconnect
event and leaves the state as it was, so the next call with the same raw
status returns it again. -/
theorem C16_counterexample :
    (USBH_STM32_Get_Connect { connectedFS with HPRT := 0 }).2 = 1 <<< 16 ∧
    (USBH_STM32_Get_Connect { connectedFS with HPRT := 0 }).1.HPRT = 0 ∧
    (USBH_STM32_Get_Connect (USBH_STM32_Get_Connect { connectedFS with HPRT := 0 }).1).2 =
      1 <<< 16 := by
  decide

/-- C16 (amended): on a port with `Port_Con` = 0, the state in which the
interrupt handler leaves the port when it flags a disconnect, a pending
disconnect is returned once (in the high half of the result) and the next
call returns no disconnect event. On a port with `Port_Con` still set whose
raw status differs from it, with no disconnect pending, the call returns the
disconnect event and changes nothing, so that every further call returns it
again until the interrupt handler clears `Port_Con`. -/
theorem C16_disconnect_event (s : State) (hd : s.Port_Discon_Evt < 4294967296) :
    (s.Port_Con = 0 → s.Port_Discon_Evt ≠ 0 →
      (USBH_STM32_Get_Connect s).2 = u32 (s.Port_Discon_Evt <<< 16) ∧
      (USBH_STM32_Get_Connect s).1.HPRT = s.HPRT ∧
      (USBH_STM32_Get_Connect (USBH_STM32_Get_Connect s).1).2 ≤ 1) ∧
    (s.Port_Con ≠ 0 → s.Port_Discon_Evt = 0 →
      (s.HPRT &&& USBH_STM32_HPRT_PCSTS) ^^^ s.Port_Con ≠ 0 →
      USBH_STM32_Get_Connect s = (s, 1 <<< 16)) := by
  constructor
  · intro hc hev
    rw [Get_Connect_discon s hc hd hev]
    exact ⟨rfl, rfl, Get_Connect_no_discon _ hc rfl⟩
  · intro hc h0 hx
    exact Get_Connect_level s hc h0 hx

theorem C16_disconnect_event_witness :
    ((USBH_STM32_Get_Connect { idle with Port_Discon_Evt := 1 }).2 = u32 (1 <<< 16) ∧
      (USBH_STM32_Get_Connect { idle with Port_Discon_Evt := 1 }).1.HPRT = 0 ∧
      (USBH_STM32_Get_Connect
        (USBH_STM32_Get_Connect { idle with Port_Discon_Evt := 1 }).1).2 ≤ 1) ∧
    USBH_STM32_Get_Connect { connectedFS with HPRT := 0 } =
      ({ connectedFS with HPRT := 0 }, 1 <<< 16) :=
  ⟨(C16_disconnect_event { idle with Port_Discon_Evt := 1 } (by decide)).1 rfl (by decide),
   (C16_disconnect_event { connectedFS with HPRT := 0 } (by decide)).2
     (by decide) rfl (by decide)⟩

/-! ## Single interrupts -/

theorem shiftLeft_one_and_ne {a b : Nat} (h : a ≠ b) : (1 <<< a) &&& (1 <<< b) = 0 := by
  apply Nat.eq_of_testBit_eq
  intro i
  rw [Nat.testBit_land, Nat.one_shiftLeft, Nat.one_shiftLeft, Nat.testBit_two_pow,
    Nat.testBit_two_pow, Nat.zero_testBit]
  by_cases h1 : a = i
  · have h2 : ¬ b = i := fun e => h (h1.trans e.symm)
    simp [h2]
  · simp [h1]

theorem shiftLeft_one_and_self (a : Nat) : (1 <<< a) &&& (1 <<< a) ≠ 0 := by
  rw [Nat.and_self, Nat.one_shiftLeft]
  exact Nat.pos_iff_ne_zero.1 (Nat.two_pow_pos a)

theorem irq_channels_cons (haint c : Nat) (l : List Nat) (s : State) :
    irq_channels haint (c :: l) s = (irq_channel haint s c).bind (irq_channels haint l) := by
  simp only [irq_channels]
  cases irq_channel haint s c <;> rfl

theorem irq_channels_skip (haint : Nat) (l : List Nat) (s : State)
    (h : ∀ c ∈ l, haint &&& (1 <<< c) = 0) : irq_channels haint l s = some s := by
  induction l with
  | nil => rfl
  | cons c l ih =>
    have e : irq_channel haint s c = some s := by
      unfold irq_channel
      simp [h c (List.mem_cons_self c l)]
    rw [irq_channels_cons, e]
    exact ih (fun x hx => h x (List.mem_cons_of_mem c hx))

theorem irq_channels_append (haint : Nat) (l1 l2 : List Nat) (s : State) :
    irq_channels haint (l1 ++ l2) s =
      (irq_channels haint l1 s).bind (irq_channels haint l2) := by
  induction l1 generalizing s with
  | nil => rfl
  | cons c l ih =>
    rw [List.cons_append, irq_channels_cons, irq_channels_cons]
    cases irq_channel haint s c with
    | none => rfl
    | some t => exact ih t

theorem channels_split (ch : Nat) (h : ch < OTG_FS_MAX_CH) :
    ∃ l1 l2, channels = l1 ++ ch :: l2 ∧ ch ∉ l1 ∧ ch ∉ l2 := by
  unfold OTG_FS_MAX_CH at h
  interval_cases ch
  · exact ⟨[], [1, 2, 3, 4, 5, 6, 7], rfl, by decide, by decide⟩
  · exact ⟨[0], [2, 3, 4, 5, 6, 7], rfl, by decide, by decide⟩
  · exact ⟨[0, 1], [3, 4, 5, 6, 7], rfl, by decide, by decide⟩
  · exact ⟨[0, 1, 2], [4, 5, 6, 7], rfl, by decide, by decide⟩
  · exact ⟨[0, 1, 2, 3], [5, 6, 7], rfl, by decide, by decide⟩
  · exact ⟨[0, 1, 2, 3, 4], [6, 7], rfl, by decide, by decide⟩
  · exact ⟨[0, 1, 2, 3, 4, 5], [7], rfl, by decide, by decide⟩
  · exact ⟨[0, 1, 2, 3, 4, 5, 6], [], rfl, by decide, by decide⟩

/-- With one channel flagged, the channel loop is the interrupt of that
channel. -/
theorem irq_channels_single (s : State) (ch : Nat) (h : ch < OTG_FS_MAX_CH) :
    irq_channels (1 <<< ch) channels s = irq_channel (1 <<< ch) s ch := by
  obtain ⟨l1, l2, e, h1, h2⟩ := channels_split ch h
  have s1 : ∀ t, irq_channels (1 <<< ch) l1 t = some t := fun t =>
    irq_channels_skip _ l1 t (fun c hc => shiftLeft_one_and_ne (fun e => h1 (e ▸ hc)))
  have s2 : ∀ t, irq_channels (1 <<< ch) l2 t = some t := fun t =>
    irq_channels_skip _ l2 t (fun c hc => shiftLeft_one_and_ne (fun e => h2 (e ▸ hc)))
  rw [e, irq_channels_append, s1, Option.some_bind, irq_channels_cons]
  cases irq_channel (1 <<< ch) s ch with
  | none => rfl
  | some t => exact s2 t

/-- An invocation with the host channel interrupt the only pending and
enabled one, and no disconnect flagged: the handler is the channel loop. -/
theorem IRQHandler_hcint (s : State)
    (hg : s.GINTSTS &&& s.GINTMSK = USBH_STM32_GINTSTS_HCINT) (hd : s.Port_Discon_Evt = 0) :
    USBH_FS_IRQHandler s =
      (irq_channels s.HAINT channels s).map
        (fun t => { t with HAINT := s.HAINT, GINTSTS := USBH_STM32_GINTSTS_HCINT }) := by
  have e1 : irq_sof_timeouts s USBH_STM32_GINTSTS_HCINT = s := by
    unfold irq_sof_timeouts
    rw [if_neg (by decide)]
  have e2 : irq_port s USBH_STM32_GINTSTS_HCINT s.HPRT = s := by
    have a : irq_hprt s USBH_STM32_GINTSTS_HCINT s.HPRT = s := by
      unfold irq_hprt
      rw [if_neg (by decide)]
    have b : irq_discint s USBH_STM32_GINTSTS_HCINT = s := by
      unfold irq_discint
      rw [if_neg]
      intro h
      exact absurd h.1 (by decide)
    unfold irq_port
    rw [a, b]
  have e3 : irq_discon_sweep s = s := by
    unfold irq_discon_sweep
    rw [if_neg (by simp [hd])]
  have e4 : irq_rxflvl s USBH_STM32_GINTSTS_HCINT = some s := by
    unfold irq_rxflvl
    rw [if_neg (by decide)]
  have e5 : ∀ t, irq_sof_schedule t USBH_STM32_GINTSTS_HCINT = t := by
    intro t
    unfold irq_sof_schedule
    rw [if_neg (by decide)]
  unfold USBH_FS_IRQHandler
  simp only [hg, e1, e2, e3, e4, e5, Option.some_bind]
  unfold irq_hcint
  rw [if_pos (by decide), Option.map_map]
  rfl

/-- The channel interrupt of a flagged channel whose URB is an OUT or SETUP
packet, with the transfer-complete cause pending and enabled. -/
theorem irq_channel_out_xfrc (haint : Nat) (s : State) (ch p : Nat)
    (hfl : haint &&& (1 <<< ch) ≠ 0) (hp : s.CHURB ch = p) (hp0 : p ≠ 0)
    (hpt : (s.URB p).PacketType = USBH_PACKET_OUT ∨ (s.URB p).PacketType = USBH_PACKET_SETUP)
    (hx : ((s.CH ch).HCINT &&& (s.CH ch).HCINTMSK) &&& USBH_STM32_HCINT_XFRC ≠ 0) :
    ∃ t, irq_channel haint s ch = some t ∧
      (t.URB p).DataTransferred = (s.URB p).DataLength ∧
      (t.URB p).Completed = true ∧
      (t.URB p).ResponsePacketType =
        (if ((s.CH ch).HCINT &&& (s.CH ch).HCINTMSK) &&& USBH_STM32_HCINT_NYET ≠ 0
          then USBH_PACKET_NYET else USBH_PACKET_ACK) ∧
      (t.CH ch).HCINTMSK = 0 ∧
      t.CHURB ch = 0 := by
  have hpt2 : ((modURB s p (fun u => { u with Error :=
      (u.Error ||| ((((s.CH ch).HCINT &&& (s.CH ch).HCINTMSK) &&& USBH_STM32_HCINT_ERR) >>> 7))
        % 256 })).URB p).PacketType = USBH_PACKET_OUT ∨
      ((modURB s p (fun u => { u with Error :=
      (u.Error ||| ((((s.CH ch).HCINT &&& (s.CH ch).HCINTMSK) &&& USBH_STM32_HCINT_ERR) >>> 7))
        % 256 })).URB p).PacketType = USBH_PACKET_SETUP := by
    simpa [modURB, USBH_URB.PacketType] using hpt
  unfold irq_channel
  simp only [hfl, hp, hp0, hpt2, ne_eq, not_false_eq_true, if_true, if_false]
  unfold irq_ch_out
  simp only [hx, ne_eq, not_false_eq_true, if_true]
  refine ⟨_, rfl, ?_, ?_, ?_, ?_, ?_⟩
  · split_ifs <;>
      simp [wrHCINT, setCHURB, modURB, wrHCINTMSK, DMA_Stop_URB, USBH_URB.clearStatus]
  · split_ifs <;>
      simp [wrHCINT, setCHURB, modURB, wrHCINTMSK, DMA_Stop_URB, USBH_URB.clearStatus]
  · split_ifs <;>
      simp [wrHCINT, setCHURB, modURB, wrHCINTMSK, DMA_Stop_URB, USBH_URB.clearStatus]
  · split_ifs <;>
      simp [wrHCINT, setCHURB, modURB, wrHCINTMSK, DMA_Stop_CH]
  · split_ifs <;>
      simp [wrHCINT, setCHURB, modURB, wrHCINTMSK]

/-- C20: for every channel whose URB is an OUT or SETUP packet, when the
handler's channel dispatch sees the enabled transfer-complete cause, the URB
ends with `DataTransferred` = `DataLength`, `Completed` = 1 and response NYET
if the enabled NYET cause is also set, ACK otherwise; the channel's interrupt
mask is 0 and its URB slot is empty. The same holds for the whole handler
invocation when this channel's interrupt is the only pending one. -/
theorem C20_xfrc_out_setup (haint : Nat) (s : State) (ch p : Nat)
    (hfl : haint &&& (1 <<< ch) ≠ 0) (hp : s.CHURB ch = p) (hp0 : p ≠ 0)
    (hpt : (s.URB p).PacketType = USBH_PACKET_OUT ∨ (s.URB p).PacketType = USBH_PACKET_SETUP)
    (hx : ((s.CH ch).HCINT &&& (s.CH ch).HCINTMSK) &&& USBH_STM32_HCINT_XFRC ≠ 0) :
    (∃ t, irq_channel haint s ch = some t ∧
      (t.URB p).DataTransferred = (s.URB p).DataLength ∧
      (t.URB p).Completed = true ∧
      (t.URB p).ResponsePacketType =
        (if ((s.CH ch).HCINT &&& (s.CH ch).HCINTMSK) &&& USBH_STM32_HCINT_NYET ≠ 0
          then USBH_PACKET_NYET else USBH_PACKET_ACK) ∧
      (t.CH ch).HCINTMSK = 0 ∧
      t.CHURB ch = 0) ∧
    (ch < OTG_FS_MAX_CH → s.HAINT = 1 <<< ch →
      s.GINTSTS &&& s.GINTMSK = USBH_STM32_GINTSTS_HCINT → s.Port_Discon_Evt = 0 →
      ∃ t, USBH_FS_IRQHandler s = some t ∧
        (t.URB p).DataTransferred = (s.URB p).DataLength ∧
        (t.URB p).Completed = true ∧
        (t.URB p).ResponsePacketType =
          (if ((s.CH ch).HCINT &&& (s.CH ch).HCINTMSK) &&& USBH_STM32_HCINT_NYET ≠ 0
            then USBH_PACKET_NYET else USBH_PACKET_ACK) ∧
        (t.CH ch).HCINTMSK = 0 ∧
        t.CHURB ch = 0) := by
  refine ⟨irq_channel_out_xfrc haint s ch p hfl hp hp0 hpt hx, ?_⟩
  intro hch hha hg hd
  obtain ⟨t, ht, f⟩ :=
    irq_channel_out_xfrc (1 <<< ch) s ch p (shiftLeft_one_and_self ch) hp hp0 hpt hx
  rw [IRQHandler_hcint s hg hd, hha, irq_channels_single s ch hch, ht]
  exact ⟨_, rfl, f⟩

/-- The end-to-end scenario of C20: the bulk OUT endpoint 0x01 of device 5
with maximum packet size 64 and a URB of 200 bytes. At submit the mask is the
OUT set and the packet count field is 4; after the transfer-complete
interrupt the URB has `DataTransferred` = 200, `Completed` = 1 and response
ACK, the mask is 0 and the slot is empty. -/
theorem C20_xfrc_out_setup_witness :
    (busyBulkOut.CH 0).HCINTMSK = enqueue_hcintmsk USBH_PACKET_OUT ∧
    ((busyBulkOut.CH 0).HCTSIZ >>> 19) &&& 0x3FF = 4 ∧
    ∃ t, USBH_FS_IRQHandler xfrcPending = some t ∧
      (t.URB 0x20002000).DataTransferred = 200 ∧
      (t.URB 0x20002000).Completed = true ∧
      (t.URB 0x20002000).ResponsePacketType = USBH_PACKET_ACK ∧
      (t.CH 0).HCINTMSK = 0 ∧
      t.CHURB 0 = 0 :=
  ⟨by decide, by decide,
    ((C20_xfrc_out_setup 1 xfrcPending 0 0x20002000 (by decide) (by decide) (by decide)
      (by decide) (by decide)).2 (by decide) (by decide) (by decide) (by decide)).imp
      (fun _ h => ⟨h.1, h.2.1.trans (by decide), h.2.2.1, h.2.2.2.1.trans (by decide),
        h.2.2.2.2⟩)⟩

theorem lor_ne_zero_right (a : Nat) {b : Nat} (h : b ≠ 0) : a ||| b ≠ 0 := by
  rw [Nat.lor_comm]
  exact lor_ne_zero_left a h

/-! ## NAK retries -/

theorem or_and_distrib (a b c : Nat) : (a ||| b) &&& c = (a &&& c) ||| (b &&& c) := by
  apply Nat.eq_of_testBit_eq
  intro i
  simp only [Nat.testBit_land, Nat.testBit_lor]
  cases a.testBit i <;> cases b.testBit i <;> cases c.testBit i <;> rfl

theorem or_shiftRight (a b n : Nat) : (a ||| b) >>> n = (a >>> n) ||| (b >>> n) := by
  apply Nat.eq_of_testBit_eq
  intro i
  simp only [Nat.testBit_shiftRight, Nat.testBit_lor]

/-- Setting bits outside the endpoint type field keeps the endpoint type. -/
theorem EPTYP_or (c : USBH_STM32_CH) (m : Nat) (hm : (m >>> 18) &&& 3 = 0) :
    USBH_STM32_CH.EPTYP { c with HCCHAR := c.HCCHAR ||| m } = c.EPTYP := by
  unfold USBH_STM32_CH.EPTYP
  simp only [or_shiftRight, or_and_distrib, hm, Nat.or_zero]

theorem lor_and_self_right (a b : Nat) : (a ||| b) &&& b = b := by
  apply Nat.eq_of_testBit_eq
  intro i
  rw [Nat.testBit_land, Nat.testBit_lor]
  cases a.testBit i <;> cases b.testBit i <;> rfl

theorem enqueue_hcchar_CHENA (h t : Nat) : enqueue_hcchar h t &&& USBH_STM32_HCCHAR_CHENA ≠ 0 := by
  unfold enqueue_hcchar
  simp only []
  rw [lor_and_self_right]
  decide

/-- The timeout countdown of one channel changes the URB heap only, and of
the URBs neither `Submitted` nor `InProgress`. -/
theorem irq_sof_timeout_flags (s : State) (c : Nat) :
    ∃ h, irq_sof_timeout s c = { s with URB := h } ∧
      ∀ q, (h q).Submitted = (s.URB q).Submitted ∧ (h q).InProgress = (s.URB q).InProgress := by
  unfold irq_sof_timeout
  simp only []
  split_ifs
  · refine ⟨_, rfl, fun q => ?_⟩
    by_cases hq : q = s.CHURB c
    · subst hq
      simp [modURB]
    · simp [modURB, Function.update_noteq hq]
  · refine ⟨_, rfl, fun q => ?_⟩
    by_cases hq : q = s.CHURB c
    · subst hq
      simp [modURB]
    · simp [modURB, Function.update_noteq hq]
  · exact ⟨s.URB, rfl, fun q => ⟨rfl, rfl⟩⟩
  · exact ⟨s.URB, rfl, fun q => ⟨rfl, rfl⟩⟩

theorem sof_timeouts_flags (l : List Nat) (s : State) :
    ∃ h, l.foldl irq_sof_timeout s = { s with URB := h } ∧
      ∀ q, (h q).Submitted = (s.URB q).Submitted ∧ (h q).InProgress = (s.URB q).InProgress := by
  induction l generalizing s with
  | nil => exact ⟨s.URB, rfl, fun q => ⟨rfl, rfl⟩⟩
  | cons c l ih =>
    obtain ⟨h1, e1, f1⟩ := irq_sof_timeout_flags s c
    obtain ⟨h2, e2, f2⟩ := ih { s with URB := h1 }
    rw [List.foldl_cons, e1, e2]
    exact ⟨h2, rfl, fun q => ⟨(f2 q).1.trans (f1 q).1, (f2 q).2.trans (f1 q).2⟩⟩

/-- An invocation with the start-of-frame interrupt the only pending and
enabled one, and no disconnect flagged: the timeout countdown, then the
scheduling pass. -/
theorem IRQHandler_sof (s : State)
    (hg : s.GINTSTS &&& s.GINTMSK = USBH_STM32_GINTSTS_SOF) (hd : s.Port_Discon_Evt = 0) :
    ∃ h, (∀ q, (h q).Submitted = (s.URB q).Submitted ∧
        (h q).InProgress = (s.URB q).InProgress) ∧
      USBH_FS_IRQHandler s =
        some (irq_sof_schedule { s with URB := h, GINTSTS := USBH_STM32_GINTSTS_SOF }
          USBH_STM32_GINTSTS_SOF) := by
  obtain ⟨h, e0, f0⟩ := sof_timeouts_flags channels s
  have e1 : irq_sof_timeouts s USBH_STM32_GINTSTS_SOF = { s with URB := h } := by
    unfold irq_sof_timeouts
    rw [if_pos (by decide), e0]
  have e2 : ∀ t : State, irq_port t USBH_STM32_GINTSTS_SOF s.HPRT = t := by
    intro t
    have a : irq_hprt t USBH_STM32_GINTSTS_SOF s.HPRT = t := by
      unfold irq_hprt
      rw [if_neg (by decide)]
    have b : irq_discint t USBH_STM32_GINTSTS_SOF = t := by
      unfold irq_discint
      rw [if_neg]
      intro h
      exact absurd h.1 (by decide)
    unfold irq_port
    rw [a, b]
  have e3 : irq_discon_sweep { s with URB := h } = { s with URB := h } := by
    unfold irq_discon_sweep
    rw [if_neg]
    simp [hd]
  have e4 : ∀ t : State, irq_rxflvl t USBH_STM32_GINTSTS_SOF = some t := by
    intro t
    unfold irq_rxflvl
    rw [if_neg (by decide)]
  have e5 : ∀ t : State, irq_hcint t USBH_STM32_GINTSTS_SOF s.HAINT = some t := by
    intro t
    unfold irq_hcint
    rw [if_neg (by decide)]
  refine ⟨h, f0, ?_⟩
  unfold USBH_FS_IRQHandler
  simp only [hg, e1, e2, e3, e4, e5, Option.some_bind, Option.map_some']

theorem irq_bus_active_false (s : State) (l : List Nat)
    (h : ∀ c ∈ l, s.CHURB c ≠ 0 → (s.URB (s.CHURB c)).InProgress = false) :
    irq_bus_active s l = false := by
  induction l with
  | nil => rfl
  | cons c l ih =>
    unfold irq_bus_active
    rw [if_neg, ih (fun x hx => h x (List.mem_cons_of_mem c hx))]
    intro hc
    have := h c (List.mem_cons_self c l) hc.1
    rw [this] at hc
    exact Bool.noConfusion hc.2

theorem irq_schedule_empty (s : State) (act : Bool) (c : Nat) (h : s.CHURB c = 0) :
    irq_schedule (s, act) c = (s, act) := by
  unfold irq_schedule
  simp [h]

/-- A fold in which every step but the one of `ch` does nothing. -/
theorem foldl_single {α : Type} (f : α → Nat → α) (P : α → Prop) (ch : Nat)
    (hid : ∀ a c, P a → c ≠ ch → f a c = a) (l1 l2 : List Nat) (h1 : ch ∉ l1) (h2 : ch ∉ l2)
    (a : α) (ha : P a) (hb : P (f a ch)) : (l1 ++ ch :: l2).foldl f a = f a ch := by
  have skip : ∀ (l : List Nat), ch ∉ l → ∀ b, P b → l.foldl f b = b := by
    intro l
    induction l with
    | nil => intro _ b _; rfl
    | cons c l ih =>
      intro hm b hb'
      rw [List.foldl_cons, hid b c hb' (fun e => hm (e ▸ List.mem_cons_self c l))]
      exact ih (fun hx => hm (List.mem_cons_of_mem c hx)) b hb'
  rw [List.foldl_append, List.foldl_cons, skip l1 h1 a ha, skip l2 h2 _ hb]

/-- The scheduling step of a waiting interrupt URB with more than one frame
to go and no bus activity: the interval counter goes down by one. -/
theorem irq_schedule_wait (s : State) (ch p k : Nat) (hsl : s.CHURB ch = p) (hp0 : p ≠ 0)
    (hty : (s.CH ch).EPTYP = USB_ENDPOINT_TYPE_INTERRUPT)
    (hsub : (s.URB p).Submitted = true) (hinp : (s.URB p).InProgress = false)
    (hcnt : s.cntInterval ch = k + 2) :
    irq_schedule (s, false) ch =
      ({ s with cntInterval := Function.update s.cntInterval ch (k + 1) }, false) := by
  unfold irq_schedule
  simp only [hsl, hp0, hty, hsub, hinp, hcnt, ne_eq, not_false_eq_true, and_self, if_true,
    Nat.add_eq_zero, OfNat.ofNat_ne_zero, and_false, or_true, Function.update_same,
    Nat.add_sub_cancel, Nat.succ_ne_zero, if_false, Bool.false_eq_true, false_and, or_self]
  simp

/-- The scheduling step of a waiting interrupt URB with one frame to go and
no bus activity: the counter reaches 0 and the transfer is enqueued. -/
theorem irq_schedule_start (s : State) (ch p : Nat) (hsl : s.CHURB ch = p) (hp0 : p ≠ 0)
    (hty : (s.CH ch).EPTYP = USB_ENDPOINT_TYPE_INTERRUPT)
    (hsub : (s.URB p).Submitted = true) (hinp : (s.URB p).InProgress = false)
    (hcnt : s.cntInterval ch = 1) :
    irq_schedule (s, false) ch =
      ((USBH_STM32_CH_TransferEnqueue
        (modURB { s with cntInterval := Function.update s.cntInterval ch 0 } p
          (fun u => { u with InProgress := true }))
        (USBH_STM32_CH_GetCHFromIndex ch) ((s.URB p).Parameters % 256)
        (s.URB p).ptrDataBuffer (s.URB p).DataLength).1, true) := by
  unfold irq_schedule
  simp only [hsl, hp0, hty, hsub, hinp, hcnt, ne_eq, not_false_eq_true, and_self, if_true,
    Function.update_same, if_false, Bool.false_eq_true, false_and, or_self]
  simp [modURB]

/-- The scheduling pass when one channel only holds a URB, which is not in
progress, and software is not accessing the hardware: the pass is the
scheduling step of that channel with no bus activity. -/
theorem irq_sof_schedule_single (s : State) (ch p : Nat) (hch : ch < OTG_FS_MAX_CH)
    (hsl : s.CHURB ch = p) (hoth : ∀ c, c ≠ ch → s.CHURB c = 0)
    (hinp : (s.URB p).InProgress = false) (hidle : s.HW_Accessing = false)
    (hkeep : ∀ c, c ≠ ch → (irq_schedule (s, false) ch).1.CHURB c = 0) :
    irq_sof_schedule s USBH_STM32_GINTSTS_SOF = (irq_schedule (s, false) ch).1 := by
  have hact : irq_bus_active s channels = false := by
    apply irq_bus_active_false
    intro c _ hc
    by_cases e : c = ch
    · rw [e, hsl]
      exact hinp
    · exact absurd (hoth c e) hc
  obtain ⟨l1, l2, e, h1, h2⟩ := channels_split ch hch
  unfold irq_sof_schedule
  rw [if_pos (by decide)]
  simp only [hidle, hact, Bool.false_eq_true, if_false]
  rw [e, foldl_single irq_schedule (fun a => ∀ c, c ≠ ch → a.1.CHURB c = 0) ch
    (fun a c ha hc => irq_schedule_empty a.1 a.2 c (ha c hc)) l1 l2 h1 h2 (s, false) hoth hkeep]

/-- A start-of-frame interrupt while an interrupt URB waits with more than
one frame to go: the counter goes down by one, the URB is not started and no
register is written. -/
theorem sof_wait_step (s : State) (ch p k : Nat) (h : IntrWaiting s ch p (k + 2)) :
    ∃ t, USBH_FS_IRQHandler (raiseSOF s) = some t ∧ IntrWaiting t ch p (k + 1) ∧
      t.CH = s.CH ∧ t.log = s.log := by
  obtain ⟨hch, hsl, hp0, hoth, hty, hsub, hinp, hidle, hcon, hdis, hen, hcnt⟩ := h
  obtain ⟨hp, hf, e⟩ := IRQHandler_sof (raiseSOF s) hen hdis
  have hs2 : (hp p).Submitted = true := ((hf p).1).trans hsub
  have hi2 : (hp p).InProgress = false := ((hf p).2).trans hinp
  have ew := irq_schedule_wait
    { raiseSOF s with URB := hp, GINTSTS := USBH_STM32_GINTSTS_SOF } ch p k hsl hp0 hty hs2 hi2
    hcnt
  have es := irq_sof_schedule_single
    { raiseSOF s with URB := hp, GINTSTS := USBH_STM32_GINTSTS_SOF } ch p hch hsl hoth hi2
    hidle (by rw [ew]; exact hoth)
  rw [e, es, ew]
  refine ⟨_, rfl, ⟨hch, hsl, hp0, hoth, hty, hs2, hi2, hidle, hcon, hdis, hen, ?_⟩, rfl, rfl⟩
  simp only [Function.update_same]

/-- A start-of-frame interrupt while an interrupt URB waits with one frame
to go: the URB is started, `InProgress` is set and the channel enabled. -/
theorem sof_start_step (s : State) (ch p : Nat) (h : IntrWaiting s ch p 1) :
    ∃ t, USBH_FS_IRQHandler (raiseSOF s) = some t ∧ (t.URB p).InProgress = true ∧
      (t.CH ch).HCCHAR &&& USBH_STM32_HCCHAR_CHENA ≠ 0 ∧
      ∃ tgl, HwOp.wrHCINTMSK ch (enqueue_hcintmsk tgl) ∈ t.log := by
  obtain ⟨hch, hsl, hp0, hoth, hty, hsub, hinp, hidle, hcon, hdis, hen, hcnt⟩ := h
  obtain ⟨hp, hf, e⟩ := IRQHandler_sof (raiseSOF s) hen hdis
  have hs2 : (hp p).Submitted = true := ((hf p).1).trans hsub
  have hi2 : (hp p).InProgress = false := ((hf p).2).trans hinp
  generalize hd2 : ({ raiseSOF s with URB := hp, GINTSTS := USBH_STM32_GINTSTS_SOF } : State)
    = s2 at e
  have a1 : s2.CHURB ch = p := by rw [← hd2]; exact hsl
  have a2 : ∀ c, c ≠ ch → s2.CHURB c = 0 := by rw [← hd2]; exact hoth
  have a3 : (s2.CH ch).EPTYP = USB_ENDPOINT_TYPE_INTERRUPT := by rw [← hd2]; exact hty
  have a4 : (s2.URB p).Submitted = true := by rw [← hd2]; exact hs2
  have a5 : (s2.URB p).InProgress = false := by rw [← hd2]; exact hi2
  have a6 : s2.HW_Accessing = false := by rw [← hd2]; exact hidle
  have a7 : s2.Port_Con ≠ 0 := by rw [← hd2]; exact hcon
  have a8 : s2.cntInterval ch = 1 := by rw [← hd2]; exact hcnt
  have ew := irq_schedule_start s2 ch p a1 hp0 a3 a4 a5 a8
  generalize hd3 : modURB { s2 with cntInterval := Function.update s2.cntInterval ch 0 } p
    (fun u => { u with InProgress := true }) = s3 at ew
  have b1 : s3.CHURB = s2.CHURB := by rw [← hd3]; rfl
  have b2 : (s3.URB p).InProgress = true := by rw [← hd3]; simp [modURB]
  have b3 : s3.Port_Con ≠ 0 := by rw [← hd3]; exact a7
  have fr := TransferEnqueue_frame s3 (USBH_STM32_CH_GetCHFromIndex ch)
    ((s2.URB p).Parameters % 256) (s2.URB p).ptrDataBuffer (s2.URB p).DataLength
  have hCH := TransferEnqueue_CH s3 (USBH_STM32_CH_GetCHFromIndex ch)
    ((s2.URB p).Parameters % 256) (s2.URB p).ptrDataBuffer (s2.URB p).DataLength
    (GetCHFromIndex_ne_zero ch) b3
  have hlog := TransferEnqueue_log_mask s3 (USBH_STM32_CH_GetCHFromIndex ch)
    ((s2.URB p).Parameters % 256) (s2.URB p).ptrDataBuffer (s2.URB p).DataLength
    (GetCHFromIndex_ne_zero ch) b3
  rw [GetIndexFromCH_GetCHFromIndex] at hCH hlog
  have es := irq_sof_schedule_single s2 ch p hch a1 a2 a5 a6 (by
      rw [ew]
      intro c hc
      show (USBH_STM32_CH_TransferEnqueue _ _ _ _ _).1.CHURB c = 0
      rw [fr.churb, b1]
      exact a2 c hc)
  rw [e, es, ew]
  refine ⟨_, rfl, ?_, ?_, _, hlog⟩
  · show ((USBH_STM32_CH_TransferEnqueue _ _ _ _ _).1.URB p).InProgress = true
    rw [fr.urb]
    exact b2
  · show (((USBH_STM32_CH_TransferEnqueue _ _ _ _ _).1.CH ch).HCCHAR &&& _) ≠ 0
    rw [hCH]
    simp only [Function.update_same]
    unfold enqueue_hcchar
    simp only []
    rw [or_and_distrib]
    exact lor_ne_zero_right _ (by decide)

theorem sofIrqs_succ (n : Nat) (s t : State) (h : USBH_FS_IRQHandler (raiseSOF s) = some t) :
    sofIrqs (n + 1) s = sofIrqs n t := by
  simp only [sofIrqs, h, Option.some_bind]

/-- While more frames are to go than interrupts arrive, the URB is not
started and no register is written. -/
theorem sof_wait_run (n : Nat) (s : State) (ch p k : Nat)
    (h : IntrWaiting s ch p (k + n + 1)) :
    ∃ t, sofIrqs n s = some t ∧ IntrWaiting t ch p (k + 1) ∧ t.CH = s.CH ∧ t.log = s.log := by
  induction n generalizing s with
  | zero => exact ⟨s, rfl, h, rfl, rfl⟩
  | succ n ih =>
    obtain ⟨t1, e1, w1, c1, l1⟩ := sof_wait_step s ch p (k + n) h
    obtain ⟨t, e, w, c, l⟩ := ih t1 w1
    exact ⟨t, (sofIrqs_succ n s t1 e1).trans e, w, c.trans c1, l.trans l1⟩

/-- The URB is started by the interrupt of the frame on which its interval
counter reaches 0. -/
theorem sof_start_run (n : Nat) (s : State) (ch p : Nat) (h : IntrWaiting s ch p (n + 1)) :
    ∃ t, sofIrqs (n + 1) s = some t ∧ (t.URB p).InProgress = true ∧
      (t.CH ch).HCCHAR &&& USBH_STM32_HCCHAR_CHENA ≠ 0 ∧
      ∃ tgl, HwOp.wrHCINTMSK ch (enqueue_hcintmsk tgl) ∈ t.log := by
  induction n generalizing s with
  | zero =>
    obtain ⟨t, e, r⟩ := sof_start_step s ch p h
    exact ⟨t, (sofIrqs_succ 0 s t e).trans rfl, r⟩
  | succ n ih =>
    obtain ⟨t1, e1, w1, _, _⟩ := sof_wait_step s ch p n h
    obtain ⟨t, e, r⟩ := ih t1 w1
    exact ⟨t, (sofIrqs_succ (n + 1) s t1 e1).trans e, r⟩

/-- The submit of a URB on an interrupt channel of the connected full-speed
port, as an update of the state before. -/
theorem Submit_intr_eq (s : State) (ch p mc m : Nat) (h : IntrReady s ch p m)
    (hm : m &&& 0xFF ≠ 0) :
    USBH_STM32_URB_Submit s (USBH_STM32_CH_GetCHFromIndex ch) p mc =
      (modURB { setCHURB (modURB (modURB (modURB s p
          (fun u => { u with DataTransferred := 0 })) p USBH_URB.clearStatus) p
          (fun u => { u with TimeoutCount := MAX_TIMEOUT_COUNT })) ch p with
          cntInterval := Function.update s.cntInterval ch
            (if (s.URB p).ResponsePacketType = USBH_PACKET_NAK then m &&& 0xFF else 1) } p
        (fun u => { u with Submitted := true }), true) := by
  obtain ⟨hch, hp0, hemp, hty, hint, hsp, hidle, hcon, hdis, hen, hns, hni⟩ := h
  have hfl : ¬ ((s.URB p).Submitted = true ∨ (s.URB p).InProgress = true) := by
    simp [hns, hni]
  have c1 : ((setCHURB (modURB (modURB (modURB s p
      (fun u => { u with DataTransferred := 0 })) p USBH_URB.clearStatus) p
      (fun u => { u with TimeoutCount := MAX_TIMEOUT_COUNT })) ch p).CH ch).EPTYP =
        USB_ENDPOINT_TYPE_INTERRUPT := hty
  have c2 : ¬ ((setCHURB (modURB (modURB (modURB s p
      (fun u => { u with DataTransferred := 0 })) p USBH_URB.clearStatus) p
      (fun u => { u with TimeoutCount := MAX_TIMEOUT_COUNT })) ch p).Port_Speed = USBH_HS) := by
    show ¬ (s.Port_Speed = USBH_HS)
    rw [hsp]
    decide
  have c3 : (setCHURB (modURB (modURB (modURB s p
      (fun u => { u with DataTransferred := 0 })) p USBH_URB.clearStatus) p
      (fun u => { u with TimeoutCount := MAX_TIMEOUT_COUNT })) ch p).Port_Speed = USBH_FS ∨
      (setCHURB (modURB (modURB (modURB s p
      (fun u => { u with DataTransferred := 0 })) p USBH_URB.clearStatus) p
      (fun u => { u with TimeoutCount := MAX_TIMEOUT_COUNT })) ch p).Port_Speed = USBH_LS :=
    Or.inl hsp
  have c4 : (setCHURB (modURB (modURB (modURB s p
      (fun u => { u with DataTransferred := 0 })) p USBH_URB.clearStatus) p
      (fun u => { u with TimeoutCount := MAX_TIMEOUT_COUNT })) ch p).cntIntervalMax ch = m :=
    hint
  unfold USBH_STM32_URB_Submit
  simp only [GetCHFromIndex_ne_zero, hp0, hcon, hfl, if_false, GetIndexFromCH_GetCHFromIndex]
  rw [if_pos c1]
  by_cases hr : (s.URB p).ResponsePacketType = USBH_PACKET_NAK
  · simp only [hr, c2, c3, c4, hm, if_true, if_false]
    rfl
  · simp only [hr, if_false]
    rfl

/-- The submit of a URB on an interrupt channel of the connected full-speed
port: the URB waits, for the interval of the endpoint when its last response
was NAK and for one frame otherwise. -/
theorem Submit_intr_waiting (s : State) (ch p mc m : Nat) (h : IntrReady s ch p m)
    (hm : m &&& 0xFF ≠ 0) :
    (USBH_STM32_URB_Submit s (USBH_STM32_CH_GetCHFromIndex ch) p mc).2 = true ∧
    IntrWaiting (USBH_STM32_URB_Submit s (USBH_STM32_CH_GetCHFromIndex ch) p mc).1 ch p
      (if (s.URB p).ResponsePacketType = USBH_PACKET_NAK then m &&& 0xFF else 1) := by
  rw [Submit_intr_eq s ch p mc m h hm]
  obtain ⟨hch, hp0, hemp, hty, hint, hsp, hidle, hcon, hdis, hen, hns, hni⟩ := h
  refine ⟨rfl, hch, ?_, hp0, ?_, hty, ?_, ?_, hidle, hcon, hdis, hen, ?_⟩
  · simp only [modURB, setCHURB, Function.update_same]
  · intro c hc
    simp only [modURB, setCHURB, Function.update_noteq hc]
    exact hemp c
  · simp only [modURB, setCHURB, Function.update_same]
  · simp only [modURB, setCHURB, Function.update_same, USBH_URB.clearStatus]
  · simp only [modURB, setCHURB, Function.update_same]

theorem readyIntrIn_ready : IntrReady readyIntrIn 0 0x20003000 4 :=
  ⟨by decide, by decide, fun _ => rfl, by decide, by decide, by decide, by decide, by decide,
    by decide, by decide, by decide, by decide⟩

theorem nakIntrIn_ready : IntrReady nakIntrIn 0 0x20003000 4 :=
  ⟨by decide, by decide, fun _ => rfl, by decide, by decide, by decide, by decide, by decide,
    by decide, by decide, by decide, by decide⟩

/-- C18 as stated fails: the interrupt IN endpoint is added with `bInterval`
= 4 on the full-speed port and a fresh URB is submitted while no other URB is
active; the submit sets the interval counter to 1, and the first
start-of-frame interrupt after the submit starts the transfer: `InProgress`
is set and `USBH_STM32_CH_TransferEnqueue` stores the mask, the transfer size
and the channel characteristics with the enable bit. -/
theorem C18_counterexample :
    readyIntrIn.cntIntervalMax 0 = 4 ∧
    (USBH_STM32_URB_Submit readyIntrIn HCCHAR0_ADDR 0x20003000 0).2 = true ∧
    (USBH_STM32_URB_Submit readyIntrIn HCCHAR0_ADDR 0x20003000 0).1.cntInterval 0 = 1 ∧
    (sofIrqs 1 (USBH_STM32_URB_Submit readyIntrIn HCCHAR0_ADDR 0x20003000 0).1).map
      (fun t => ((t.URB 0x20003000).InProgress, t.log.drop
        (USBH_STM32_URB_Submit readyIntrIn HCCHAR0_ADDR 0x20003000 0).1.log.length)) =
      some (true, [HwOp.wrHCINTMSK 0 (enqueue_hcintmsk USBH_PACKET_IN),
        HwOp.wrHCTSIZ 0 0x80008, HwOp.wrHCCHAR 0 0x815C8808]) := by
  decide

/-- C18 (amended): an interrupt endpoint is added with `bInterval` = 4 on a
full-speed port and a URB is submitted while no other URB is active. When the
URB's response field holds NAK at the submit (the URB is submitted again
after a NAK), the scheduling pass does not start it during the first 3
start-of-frame invocations (`InProgress` stays 0, no register is written) and
starts it on the 4th. Otherwise the submit sets the counter to 1 and the
first start-of-frame invocation starts the transfer. -/
theorem C18_periodic_delay (s0 s : State) (ch p mc : Nat) (h : IntrReady s0 ch p 4)
    (hs : s = (USBH_STM32_URB_Submit s0 (USBH_STM32_CH_GetCHFromIndex ch) p mc).1) :
    (USBH_STM32_URB_Submit s0 (USBH_STM32_CH_GetCHFromIndex ch) p mc).2 = true ∧
    ((s0.URB p).ResponsePacketType = USBH_PACKET_NAK →
      (∀ n, n ≤ 3 → ∃ t, sofIrqs n s = some t ∧ (t.URB p).InProgress = false ∧
        t.CH = s.CH ∧ t.log = s.log) ∧
      ∃ t, sofIrqs 4 s = some t ∧ (t.URB p).InProgress = true ∧
        (t.CH ch).HCCHAR &&& USBH_STM32_HCCHAR_CHENA ≠ 0 ∧
        ∃ tgl, HwOp.wrHCINTMSK ch (enqueue_hcintmsk tgl) ∈ t.log) ∧
    ((s0.URB p).ResponsePacketType ≠ USBH_PACKET_NAK →
      ∃ t, sofIrqs 1 s = some t ∧ (t.URB p).InProgress = true ∧
        (t.CH ch).HCCHAR &&& USBH_STM32_HCCHAR_CHENA ≠ 0 ∧
        ∃ tgl, HwOp.wrHCINTMSK ch (enqueue_hcintmsk tgl) ∈ t.log) := by
  obtain ⟨ok, w⟩ := Submit_intr_waiting s0 ch p mc 4 h (by decide)
  rw [← hs] at w
  refine ⟨ok, ?_, ?_⟩
  · intro hr
    rw [if_pos hr] at w
    have w4 : IntrWaiting s ch p 4 := w
    refine ⟨?_, sof_start_run 3 s ch p w4⟩
    intro n hn
    obtain ⟨t, e, wt, c, l⟩ := sof_wait_run n s ch p (3 - n)
      (by rw [show 3 - n + n + 1 = 4 by omega]; exact w4)
    exact ⟨t, e, wt.notinp, c, l⟩
  · intro hr
    rw [if_neg hr] at w
    exact sof_start_run 0 s ch p w

theorem C18_periodic_delay_witness :
    ((∀ n, n ≤ 3 → ∃ t,
        sofIrqs n (USBH_STM32_URB_Submit nakIntrIn (USBH_STM32_CH_GetCHFromIndex 0)
          0x20003000 0).1 = some t ∧
        (t.URB 0x20003000).InProgress = false ∧
        t.CH = (USBH_STM32_URB_Submit nakIntrIn (USBH_STM32_CH_GetCHFromIndex 0)
          0x20003000 0).1.CH ∧
        t.log = (USBH_STM32_URB_Submit nakIntrIn (USBH_STM32_CH_GetCHFromIndex 0)
          0x20003000 0).1.log) ∧
      ∃ t, sofIrqs 4 (USBH_STM32_URB_Submit nakIntrIn (USBH_STM32_CH_GetCHFromIndex 0)
          0x20003000 0).1 = some t ∧
        (t.URB 0x20003000).InProgress = true ∧
        (t.CH 0).HCCHAR &&& USBH_STM32_HCCHAR_CHENA ≠ 0 ∧
        ∃ tgl, HwOp.wrHCINTMSK 0 (enqueue_hcintmsk tgl) ∈ t.log) ∧
    ∃ t, sofIrqs 1 (USBH_STM32_URB_Submit readyIntrIn (USBH_STM32_CH_GetCHFromIndex 0)
        0x20003000 0).1 = some t ∧
      (t.URB 0x20003000).InProgress = true ∧
      (t.CH 0).HCCHAR &&& USBH_STM32_HCCHAR_CHENA ≠ 0 ∧
      ∃ tgl, HwOp.wrHCINTMSK 0 (enqueue_hcintmsk tgl) ∈ t.log :=
  ⟨(C18_periodic_delay nakIntrIn _ 0 0x20003000 0 nakIntrIn_ready rfl).2.1 (by decide),
    (C18_periodic_delay readyIntrIn _ 0 0x20003000 0 readyIntrIn_ready rfl).2.2 (by decide)⟩

/-! ## Disconnect -/

theorem sf_refl (c : Nat) (s : State) : StepFrame c s s :=
  ⟨fun _ _ _ => rfl, fun _ _ => rfl, Or.inl rfl, rfl, rfl⟩

theorem sf_trans {c : Nat} {s t u : State} (h1 : StepFrame c s t)
    (h2 : StepFrame c t u) : StepFrame c s u := by
  refine ⟨fun r hr h0 => ?_, fun d hd => (h2.churb d hd).trans (h1.churb d hd), ?_,
    h2.con.trans h1.con, h2.discon.trans h1.discon⟩
  · have hr2 : r ≠ t.CHURB c := by
      rcases h1.slot with e | e
      · rw [e]; exact hr
      · rw [e]; exact h0
    exact (h2.urb r hr2 h0).trans (h1.urb r hr h0)
  · rcases h2.slot with e | e
    · rw [e]; exact h1.slot
    · exact Or.inr e

theorem sf_hw {c : Nat} {s t u : State} (f : HwFrame t u) (h : StepFrame c s t) :
    StepFrame c s u :=
  ⟨fun r hr h0 => by rw [f.urb]; exact h.urb r hr h0,
    fun d hd => by rw [f.churb]; exact h.churb d hd,
    by rw [f.churb]; exact h.slot, f.con.trans h.con, f.discon.trans h.discon⟩

theorem sf_modURB {c p : Nat} {s t : State} (f : USBH_URB → USBH_URB) (hp : p = s.CHURB c)
    (h : StepFrame c s t) : StepFrame c s (modURB t p f) := by
  refine ⟨fun r hr h0 => ?_, h.churb, h.slot, h.con, h.discon⟩
  have hrp : r ≠ p := by
    rw [hp]
    exact hr
  simp only [modURB, Function.update_noteq hrp]
  exact h.urb r hr h0

theorem sf_modURB_slot {c : Nat} {s t : State} (f : USBH_URB → USBH_URB)
    (h : StepFrame c s t) : StepFrame c s (modURB t (t.CHURB c) f) := by
  refine ⟨fun r hr h0 => ?_, h.churb, h.slot, h.con, h.discon⟩
  have hrp : r ≠ t.CHURB c := by
    rcases h.slot with e | e
    · rw [e]; exact hr
    · rw [e]; exact h0
  simp only [modURB, Function.update_noteq hrp]
  exact h.urb r hr h0

theorem sf_setCHURB {c : Nat} {s t : State} (h : StepFrame c s t) :
    StepFrame c s (setCHURB t c 0) := by
  refine ⟨h.urb, fun d hd => ?_, Or.inr ?_, h.con, h.discon⟩
  · simp only [setCHURB, Function.update_noteq hd]
    exact h.churb d hd
  · simp only [setCHURB, Function.update_same]

theorem sf_wrHCCHAR {c : Nat} {s t : State} (ch v : Nat) (h : StepFrame c s t) :
    StepFrame c s (wrHCCHAR t ch v) := sf_hw (frame_wrHCCHAR t ch v) h

theorem sf_wrHCINT {c : Nat} {s t : State} (ch v : Nat) (h : StepFrame c s t) :
    StepFrame c s (wrHCINT t ch v) := sf_hw (frame_wrHCINT t ch v) h

theorem sf_wrHCINTMSK {c : Nat} {s t : State} (ch v : Nat) (h : StepFrame c s t) :
    StepFrame c s (wrHCINTMSK t ch v) := sf_hw (frame_wrHCINTMSK t ch v) h

theorem sf_DMA_Stop {c : Nat} {s t : State} (h : StepFrame c s t) :
    StepFrame c s (USBH_STM32_DMA_Stop t).1 := sf_hw (DMA_Stop_frame t) h

theorem sf_TransferEnqueue {c : Nat} {s t : State} (ptrCH tgl buf len : Nat)
    (h : StepFrame c s t) :
    StepFrame c s (USBH_STM32_CH_TransferEnqueue t ptrCH tgl buf len).1 :=
  sf_hw (TransferEnqueue_frame t ptrCH tgl buf len) h

theorem sf_CH_Disable {c : Nat} {s t : State} (ptrCH : Nat) (h : StepFrame c s t) :
    StepFrame c s (USBH_STM32_CH_Disable t ptrCH).1 := sf_hw (CH_Disable_frame t ptrCH) h

theorem sf_log {c : Nat} {s t : State} (l : List HwOp) (h : StepFrame c s t) :
    StepFrame c s { t with log := l } := sf_hw (frame_log t l) h

theorem sf_cntInterval {c : Nat} {s t : State} (v : Nat → Nat) (h : StepFrame c s t) :
    StepFrame c s { t with cntInterval := v } :=
  ⟨h.urb, h.churb, h.slot, h.con, h.discon⟩

theorem irq_retry_test_sf (s : State) (ch p : Nat) :
    StepFrame ch s (irq_retry_test s ch p).1 := by
  unfold irq_retry_test
  split_ifs
  · exact sf_modURB_slot (fun u => { u with NAKRetries := sub32 u.NAKRetries 1 })
      (sf_refl ch s)
  · exact sf_refl ch s

theorem irq_chh_out_sf (s : State) (ch p : Nat) (hp : p = s.CHURB ch) :
    StepFrame ch s (irq_chh_out s ch p) := by
  have h1 := irq_retry_test_sf s ch p
  unfold irq_chh_out
  simp only []
  split_ifs
  · exact sf_modURB_slot _ (sf_TransferEnqueue _ _ _ _ h1)
  · exact sf_setCHURB (sf_modURB _ hp (sf_modURB _ hp (sf_modURB _ hp (sf_wrHCINTMSK _ _ h1))))

theorem irq_ch_out_sf (s : State) (ch p hcint : Nat) (hp : p = s.CHURB ch) :
    StepFrame ch s (irq_ch_out s ch p hcint) := by
  unfold irq_ch_out
  simp only []
  split_ifs
  all_goals first
    | exact irq_chh_out_sf s ch p hp
    | exact sf_refl ch s
    | (repeat first
        | exact sf_DMA_Stop (sf_refl ch s)
        | exact sf_refl ch s
        | apply sf_setCHURB
        | apply sf_modURB _ hp
        | apply sf_wrHCINTMSK
        | apply sf_wrHCCHAR)

theorem irq_ch_ping_sf (s : State) (ch p hcint : Nat) (hp : p = s.CHURB ch) :
    StepFrame ch s (irq_ch_ping s ch p hcint) := by
  unfold irq_ch_ping
  simp only []
  split_ifs
  all_goals first
    | exact irq_chh_out_sf s ch p hp
    | exact sf_refl ch s
    | (repeat first
        | exact sf_refl ch s
        | apply sf_modURB _ hp
        | apply sf_wrHCINTMSK
        | apply sf_wrHCCHAR)

theorem irq_ch_in_sf (s : State) (ch p hcint : Nat) (hp : p = s.CHURB ch) :
    StepFrame ch s (irq_ch_in s ch p hcint) := by
  unfold irq_ch_in
  simp only []
  split_ifs
  all_goals first
    | exact sf_refl ch s
    | (repeat first
        | exact sf_refl ch s
        | apply sf_log
        | apply sf_setCHURB
        | apply sf_modURB _ hp
        | apply sf_modURB_slot
        | apply sf_wrHCINTMSK
        | apply sf_wrHCCHAR)

theorem irq_channel_sf (haint : Nat) (s t : State) (ch : Nat)
    (h : irq_channel haint s ch = some t) : StepFrame ch s t := by
  unfold irq_channel at h
  simp only [] at h
  have h1 : StepFrame ch s (modURB s (s.CHURB ch) (fun u => { u with Error :=
      (u.Error ||| (((s.CH ch).HCINT &&& (s.CH ch).HCINTMSK &&& USBH_STM32_HCINT_ERR) >>> 7))
        % 256 })) := sf_modURB _ rfl (sf_refl ch s)
  split_ifs at h
  all_goals injection h with h
  all_goals rw [← h]
  all_goals first
    | exact sf_refl ch s
    | (apply sf_wrHCINT
       first
         | exact sf_trans h1 (irq_ch_out_sf _ _ _ _ rfl)
         | exact sf_trans h1 (irq_ch_ping_sf _ _ _ _ rfl)
         | exact sf_trans h1 (irq_ch_in_sf _ _ _ _ rfl)
         | exact h1)

theorem Gone_step {ch p c : Nat} {s t : State} (hp0 : p ≠ 0) (hc : c < OTG_FS_MAX_CH)
    (f : StepFrame c s t) (g : Gone ch p s) : Gone ch p t := by
  have hu : t.URB p = s.URB p := f.urb p (Ne.symm (g.unref c hc)) hp0
  refine ⟨?_, fun d hd => ?_, by rw [hu]; exact g.notsub, by rw [hu]; exact g.notinp⟩
  · by_cases e : ch = c
    · subst e
      rcases f.slot with e1 | e1
      · rw [e1]; exact g.slot
      · exact e1
    · rw [f.churb ch e]
      exact g.slot
  · by_cases e : d = c
    · subst e
      rcases f.slot with e1 | e1
      · rw [e1]; exact g.unref d hd
      · rw [e1]; exact Ne.symm hp0
    · rw [f.churb d e]
      exact g.unref d hd

theorem Held_step {ch p c : Nat} {s t : State} (hp0 : p ≠ 0) (hc : c < OTG_FS_MAX_CH)
    (hne : c ≠ ch) (f : StepFrame c s t) (g : Held ch p s) :
    Held ch p t ∧ t.URB p = s.URB p := by
  have hu : t.URB p = s.URB p := f.urb p (Ne.symm (g.unref c hc hne)) hp0
  refine ⟨⟨?_, fun d hd hdc => ?_, by rw [hu]; exact g.sub⟩, hu⟩
  · rw [f.churb ch (Ne.symm hne)]
    exact g.slot
  · by_cases e : d = c
    · subst e
      rcases f.slot with e1 | e1
      · rw [e1]; exact g.unref d hd hdc
      · rw [e1]; exact Ne.symm hp0
    · rw [f.churb d e]
      exact g.unref d hd hdc

/-- The cancel of the URB in the slot of channel `c` is a step on `c`. -/
theorem irq_discon_cancel_sf (s : State) (c : Nat) : StepFrame c s (irq_discon_cancel s c) := by
  unfold irq_discon_cancel
  split_ifs with h0
  · have hh := GetCHFromIndex_ne_zero c
    by_cases hs : (s.URB (s.CHURB c)).Submitted = false
    · rw [Cancel_not_submitted s _ _ hh h0 hs]
      exact sf_refl c s
    have hs1 : (s.URB (s.CHURB c)).Submitted = true := by simpa using hs
    by_cases hi : (s.URB (s.CHURB c)).InProgress = true
    · by_cases hd : (USBH_STM32_CH_Disable (modURB s (s.CHURB c)
          (fun u => { u with Submitted := false })) (USBH_STM32_CH_GetCHFromIndex c)).2 = true
      · rw [Cancel_disable_ok s _ _ hh h0 hs1 hi hd, GetIndexFromCH_GetCHFromIndex]
        dsimp only
        exact sf_modURB _ rfl (sf_setCHURB (sf_modURB _ rfl (sf_CH_Disable _
          (sf_modURB _ rfl (sf_refl c s)))))
      · rw [Cancel_disable_fails s _ _ hh h0 hs1 hi (by simpa using hd)]
        dsimp only
        exact sf_CH_Disable _ (sf_modURB _ rfl (sf_refl c s))
    · rw [Cancel_pending s _ _ hh h0 hs1 (by simpa using hi), GetIndexFromCH_GetCHFromIndex]
      dsimp only
      exact sf_modURB _ rfl (sf_setCHURB (sf_modURB _ rfl (sf_refl c s)))
  · exact sf_refl c s

/-- The cancel of the disconnect sweep on the channel that holds URB `p`:
when the URB is not in progress, or the channel disable sequence succeeds,
the URB leaves the channel. -/
theorem irq_discon_cancel_gone (s : State) (ch p : Nat) (hp0 : p ≠ 0) (g : Held ch p s)
    (hd : (s.URB p).InProgress = true →
      (USBH_STM32_CH_Disable (modURB s p (fun u => { u with Submitted := false }))
        (USBH_STM32_CH_GetCHFromIndex ch)).2 = true) :
    Gone ch p (irq_discon_cancel s ch) := by
  obtain ⟨hsl, hun, hsub⟩ := g
  have hh := GetCHFromIndex_ne_zero ch
  have h0 : s.CHURB ch ≠ 0 := by rw [hsl]; exact hp0
  unfold irq_discon_cancel
  rw [if_pos h0, hsl]
  by_cases hi : (s.URB p).InProgress = true
  · rw [Cancel_disable_ok s _ _ hh hp0 hsub hi (hd hi), GetIndexFromCH_GetCHFromIndex]
    refine ⟨?_, fun c hc => ?_, ?_, ?_⟩
    · simp only [modURB, setCHURB, Function.update_same]
    · by_cases e : c = ch
      · subst e
        simp only [modURB, setCHURB, Function.update_same]
        exact Ne.symm hp0
      · simp only [modURB, setCHURB, Function.update_noteq e]
        rw [(CH_Disable_frame _ _).churb]
        exact hun c hc e
    · simp only [modURB, setCHURB, Function.update_same]
      rw [CH_Disable_URB]
      simp only [Function.update_same]
    · simp only [modURB, setCHURB, Function.update_same]
  · have hi' : (s.URB p).InProgress = false := by simpa using hi
    rw [Cancel_pending s _ _ hh hp0 hsub hi', GetIndexFromCH_GetCHFromIndex]
    refine ⟨?_, fun c hc => ?_, ?_, ?_⟩
    · simp only [modURB, setCHURB, Function.update_same]
    · by_cases e : c = ch
      · subst e
        simp only [modURB, setCHURB, Function.update_same]
        exact Ne.symm hp0
      · simp only [modURB, setCHURB, Function.update_noteq e]
        exact hun c hc e
    · simp only [modURB, setCHURB, Function.update_same]
    · simp only [modURB, setCHURB, Function.update_same]
      exact hi'

theorem sf_record {c : Nat} {s t u : State} (h : StepFrame c s t) (e1 : u.URB = t.URB)
    (e2 : u.CHURB = t.CHURB) (e3 : u.Port_Con = t.Port_Con)
    (e4 : u.Port_Discon_Evt = t.Port_Discon_Evt) : StepFrame c s u :=
  ⟨fun r hr h0 => by rw [e1]; exact h.urb r hr h0, fun d hd => by rw [e2]; exact h.churb d hd,
    by rw [e2]; exact h.slot, e3.trans h.con, e4.trans h.discon⟩

theorem sf_fifoRead {c : Nat} {s t : State} (h : StepFrame c s t) :
    StepFrame c s (fifoRead t).2 := by
  unfold fifoRead
  cases t.fifo with
  | nil => exact h
  | cons v rest => exact sf_record h rfl rfl rfl rfl

theorem sf_storeByte {c : Nat} {s t : State} (a v : Nat) (h : StepFrame c s t) :
    StepFrame c s (storeByte t a v) := sf_record h rfl rfl rfl rfl

theorem irq_rx_words_sf (n : Nat) (c : Nat) (s0 s : State) (p a : Nat) (hp : p = s0.CHURB c)
    (h : StepFrame c s0 s) : StepFrame c s0 (irq_rx_words n s p a).1 := by
  induction n generalizing s a with
  | zero => exact h
  | succ n ih =>
    unfold irq_rx_words
    apply ih
    exact sf_modURB _ hp (sf_storeByte _ _ (sf_storeByte _ _ (sf_storeByte _ _
      (sf_storeByte _ _ (sf_fifoRead h)))))

theorem irq_rx_bytes_sf (n : Nat) (c : Nat) (s0 s : State) (p a dat : Nat)
    (hp : p = s0.CHURB c) (h : StepFrame c s0 s) :
    StepFrame c s0 (irq_rx_bytes n s p a dat) := by
  induction n generalizing s a dat with
  | zero => exact h
  | succ n ih =>
    unfold irq_rx_bytes
    apply ih
    exact sf_modURB _ hp (sf_storeByte _ _ h)

theorem sf_GINTMSK {c : Nat} {s t : State} (v : Nat) (h : StepFrame c s t) :
    StepFrame c s { t with GINTMSK := v } := sf_record h rfl rfl rfl rfl

/-- The receive part is a step on the channel named by the status word. -/
theorem irq_rx_sf (s t : State) (h : irq_rx s = some t) :
    ∃ c, c < OTG_FS_MAX_CH ∧ StepFrame c s t := by
  unfold irq_rx at h
  simp only [] at h
  split_ifs at h with h1 h2 h3 h4
  · injection h with h
    refine ⟨(s.GRXSTS >>> 0) &&& 0x00F, Nat.lt_of_not_le h2, ?_⟩
    rw [← h]
    apply sf_GINTMSK
    apply irq_rx_bytes_sf _ _ s _ _ _ _ rfl
    apply sf_fifoRead
    apply irq_rx_words_sf _ _ s _ _ _ rfl
    exact sf_record (sf_refl _ s) rfl rfl rfl rfl
  · injection h with h
    refine ⟨(s.GRXSTS >>> 0) &&& 0x00F, Nat.lt_of_not_le h2, ?_⟩
    rw [← h]
    apply sf_GINTMSK
    apply irq_rx_words_sf _ _ s _ _ _ rfl
    exact sf_record (sf_refl _ s) rfl rfl rfl rfl
  · injection h with h
    refine ⟨0, by decide, ?_⟩
    rw [← h]
    exact sf_record (sf_refl 0 s) rfl rfl rfl rfl

/-- The scheduling step of channel `c` is a step on `c`. -/
theorem irq_schedule_sf (sa : State × Bool) (c : Nat) :
    StepFrame c sa.1 (irq_schedule sa c).1 := by
  unfold irq_schedule
  simp only []
  split_ifs
  all_goals first
    | exact sf_refl c sa.1
    | exact sf_record (sf_refl c sa.1) rfl rfl rfl rfl
    | exact sf_TransferEnqueue _ _ _ _ (sf_modURB _ rfl (sf_refl c sa.1))
    | exact sf_TransferEnqueue _ _ _ _ (sf_modURB _ rfl
        (sf_record (sf_refl c sa.1) rfl rfl rfl rfl))

/-- A property kept by every step on a channel below the channel count is
kept by a fold of such steps. -/
theorem foldl_sf (P : State → Prop)
    (hP : ∀ c s t, c < OTG_FS_MAX_CH → StepFrame c s t → P s → P t)
    (f : State → Nat → State) (hf : ∀ s c, StepFrame c s (f s c)) (l : List Nat)
    (hl : ∀ c ∈ l, c < OTG_FS_MAX_CH) (s : State) (h : P s) : P (l.foldl f s) := by
  induction l generalizing s with
  | nil => exact h
  | cons c l ih =>
    exact ih (fun x hx => hl x (List.mem_cons_of_mem c hx)) (f s c)
      (hP c s (f s c) (hl c (List.mem_cons_self c l)) (hf s c) h)

theorem irq_channels_sf (P : State → Prop)
    (hP : ∀ c s t, c < OTG_FS_MAX_CH → StepFrame c s t → P s → P t) (haint : Nat)
    (l : List Nat) (hl : ∀ c ∈ l, c < OTG_FS_MAX_CH) (s t : State)
    (h : irq_channels haint l s = some t) (hs : P s) : P t := by
  induction l generalizing s with
  | nil =>
    unfold irq_channels at h
    injection h with h
    rw [← h]
    exact hs
  | cons c l ih =>
    rw [irq_channels_cons] at h
    cases e : irq_channel haint s c with
    | none =>
      rw [e] at h
      exact Option.noConfusion h
    | some s1 =>
      rw [e, Option.some_bind] at h
      exact ih (fun x hx => hl x (List.mem_cons_of_mem c hx)) s1 h
        (hP c s s1 (hl c (List.mem_cons_self c l)) (irq_channel_sf haint s s1 c e) hs)

theorem irq_schedules_sf (P : State → Prop)
    (hP : ∀ c s t, c < OTG_FS_MAX_CH → StepFrame c s t → P s → P t)
    (l : List Nat) (hl : ∀ c ∈ l, c < OTG_FS_MAX_CH) (sa : State × Bool) (h : P sa.1) :
    P (l.foldl irq_schedule sa).1 := by
  induction l generalizing sa with
  | nil => exact h
  | cons c l ih =>
    exact ih (fun x hx => hl x (List.mem_cons_of_mem c hx)) (irq_schedule sa c)
      (hP c sa.1 _ (hl c (List.mem_cons_self c l)) (irq_schedule_sf sa c) h)

theorem channels_lt : ∀ c ∈ channels, c < OTG_FS_MAX_CH := by decide

/-- The part of the handler after the disconnect sweep keeps every property
that the steps on the channels keep and that does not depend on `GINTSTS`
and `HAINT`. -/
theorem after_sweep_sf (P : State → Prop)
    (hP : ∀ c s t, c < OTG_FS_MAX_CH → StepFrame c s t → P s → P t)
    (s3 t : State) (g haint : Nat)
    (h : ((irq_rxflvl s3 g).bind fun s4 =>
      (irq_hcint s4 g haint).map fun s5 =>
        irq_sof_schedule { s5 with GINTSTS := g } g) = some t)
    (hs : P s3) : P t := by
  simp only [Option.bind_eq_some, Option.map_eq_some'] at h
  obtain ⟨s4, h4, s5, h5, e⟩ := h
  have p4 : P s4 := by
    unfold irq_rxflvl at h4
    split_ifs at h4
    · obtain ⟨c, hc, f⟩ := irq_rx_sf s3 s4 h4
      exact hP c s3 s4 hc f hs
    · injection h4 with h4
      rw [← h4]
      exact hs
  have p5 : P s5 := by
    unfold irq_hcint at h5
    split_ifs at h5
    · simp only [Option.map_eq_some'] at h5
      obtain ⟨u, hu, e5⟩ := h5
      have pu : P u := irq_channels_sf P hP haint channels channels_lt s4 u hu p4
      rw [← e5]
      exact hP 0 u _ (by decide) (sf_record (sf_refl 0 u) rfl rfl rfl rfl) pu
    · injection h5 with h5
      rw [← h5]
      exact p4
  have p6 : P { s5 with GINTSTS := g } :=
    hP 0 s5 _ (by decide) (sf_record (sf_refl 0 s5) rfl rfl rfl rfl) p5
  rw [← e]
  unfold irq_sof_schedule
  split_ifs
  · exact irq_schedules_sf P hP channels channels_lt _ p6
  · exact irq_schedules_sf P hP channels channels_lt _ p6
  · exact p6

/-- The speed latch of the enable-changed part changes `Port_Speed` only. -/
theorem penchng_speed_keep (s : State) (sp : Nat) (b : Prop) [Decidable b] :
    (if b then { s with Port_Speed := sp } else s).CHURB = s.CHURB ∧
    (if b then { s with Port_Speed := sp } else s).URB = s.URB ∧
    (if b then { s with Port_Speed := sp } else s).Port_Con = s.Port_Con ∧
    (if b then { s with Port_Speed := sp } else s).Port_Discon_Evt = s.Port_Discon_Evt := by
  split_ifs
  · exact ⟨rfl, rfl, rfl, rfl⟩
  · exact ⟨rfl, rfl, rfl, rfl⟩

/-- The enable-changed part keeps the URBs and the slots; the connection
pair is kept or becomes "disconnected, event pending". -/
theorem irq_penchng_port (s : State) (hprt : Nat) :
    (irq_penchng s hprt).CHURB = s.CHURB ∧ (irq_penchng s hprt).URB = s.URB ∧
    (((irq_penchng s hprt).Port_Con = s.Port_Con ∧
        (irq_penchng s hprt).Port_Discon_Evt = s.Port_Discon_Evt) ∨
      ((irq_penchng s hprt).Port_Con = 0 ∧ (irq_penchng s hprt).Port_Discon_Evt = 1)) := by
  unfold irq_penchng
  simp only []
  obtain ⟨k1, k2, k3, k4⟩ := penchng_speed_keep s
    (if (hprt >>> 17) &&& 3 = 0 then s.Port_Speed &&& not32 3 ||| USBH_HS
      else if (hprt >>> 17) &&& 3 = 1 then s.Port_Speed &&& not32 3 ||| USBH_FS
      else if (hprt >>> 17) &&& 3 = 2 then s.Port_Speed &&& not32 3 ||| USBH_LS
      else s.Port_Speed &&& not32 3) (hprt &&& USBH_STM32_HPRT_PENA ≠ 0)
  generalize (if hprt &&& USBH_STM32_HPRT_PENA ≠ 0 then _ else s : State) = s1 at k1 k2 k3 k4 ⊢
  by_cases h : hprt &&& USBH_STM32_HPRT_PCSTS = 0 ∧ s1.Port_Con ≠ 0
  · rw [if_pos h]
    exact ⟨k1, k2, Or.inr ⟨rfl, rfl⟩⟩
  · rw [if_neg h]
    exact ⟨k1, k2, Or.inl ⟨k3, k4⟩⟩

theorem irq_penchng_discon (s : State) (hprt : Nat) (hc : s.Port_Con ≠ 0)
    (hs : hprt &&& USBH_STM32_HPRT_PCSTS = 0) :
    (irq_penchng s hprt).Port_Con = 0 ∧ (irq_penchng s hprt).Port_Discon_Evt = 1 := by
  unfold irq_penchng
  simp only []
  obtain ⟨_, _, k3, _⟩ := penchng_speed_keep s
    (if (hprt >>> 17) &&& 3 = 0 then s.Port_Speed &&& not32 3 ||| USBH_HS
      else if (hprt >>> 17) &&& 3 = 1 then s.Port_Speed &&& not32 3 ||| USBH_FS
      else if (hprt >>> 17) &&& 3 = 2 then s.Port_Speed &&& not32 3 ||| USBH_LS
      else s.Port_Speed &&& not32 3) (hprt &&& USBH_STM32_HPRT_PENA ≠ 0)
  generalize (if hprt &&& USBH_STM32_HPRT_PENA ≠ 0 then _ else s : State) = s1 at k3 ⊢
  rw [if_pos ⟨hs, by rw [k3]; exact hc⟩]
  exact ⟨rfl, rfl⟩

/-- The host port part of the handler keeps the URBs and the slots; the
connection pair is kept or becomes "disconnected, event pending". -/
theorem irq_hprt_port (s : State) (g hprt : Nat) :
    (irq_hprt s g hprt).CHURB = s.CHURB ∧ (irq_hprt s g hprt).URB = s.URB ∧
    (((irq_hprt s g hprt).Port_Con = s.Port_Con ∧
        (irq_hprt s g hprt).Port_Discon_Evt = s.Port_Discon_Evt) ∨
      ((irq_hprt s g hprt).Port_Con = 0 ∧ (irq_hprt s g hprt).Port_Discon_Evt = 1)) := by
  unfold irq_hprt
  simp only []
  by_cases hg : g &&& USBH_STM32_GINTSTS_HPRTINT ≠ 0
  · rw [if_pos hg]
    by_cases hp : hprt &&& USBH_STM32_HPRT_PENCHNG ≠ 0
    · rw [if_pos hp]
      split_ifs
      · exact irq_penchng_port _ hprt
      · exact irq_penchng_port _ hprt
    · rw [if_neg hp]
      split_ifs
      · exact ⟨rfl, rfl, Or.inl ⟨rfl, rfl⟩⟩
      · exact ⟨rfl, rfl, Or.inl ⟨rfl, rfl⟩⟩
  · rw [if_neg hg]
    exact ⟨rfl, rfl, Or.inl ⟨rfl, rfl⟩⟩

/-- With the port connected, a pending port-enable change with the raw
connected status clear makes the host port part flag the disconnect. -/
theorem irq_hprt_discon (s : State) (g hprt : Nat) (hc : s.Port_Con ≠ 0)
    (hg : g &&& USBH_STM32_GINTSTS_HPRTINT ≠ 0) (hp : hprt &&& USBH_STM32_HPRT_PENCHNG ≠ 0)
    (hs : hprt &&& USBH_STM32_HPRT_PCSTS = 0) :
    (irq_hprt s g hprt).Port_Con = 0 ∧ (irq_hprt s g hprt).Port_Discon_Evt = 1 := by
  unfold irq_hprt
  simp only []
  rw [if_pos hg, if_pos hp, if_neg (fun h => hc h.2)]
  exact irq_penchng_discon s hprt hc hs

/-- The port part of the handler on a connected port with a disconnect
trigger: the port reads as disconnected, the event is pending, and the URBs
and slots are untouched. -/
theorem irq_port_discon (s : State) (g hprt : Nat) (hc : s.Port_Con ≠ 0)
    (htr : g &&& USBH_STM32_GINTSTS_DISCINT ≠ 0 ∨
      (g &&& USBH_STM32_GINTSTS_HPRTINT ≠ 0 ∧ hprt &&& USBH_STM32_HPRT_PENCHNG ≠ 0 ∧
        hprt &&& USBH_STM32_HPRT_PCSTS = 0)) :
    (irq_port s g hprt).Port_Con = 0 ∧ (irq_port s g hprt).Port_Discon_Evt = 1 ∧
    (irq_port s g hprt).CHURB = s.CHURB ∧ (irq_port s g hprt).URB = s.URB := by
  obtain ⟨hcu, hu, hpair⟩ := irq_hprt_port s g hprt
  have key : ((irq_hprt s g hprt).Port_Con = 0 ∧ (irq_hprt s g hprt).Port_Discon_Evt = 1) ∨
      (g &&& USBH_STM32_GINTSTS_DISCINT ≠ 0 ∧ (irq_hprt s g hprt).Port_Con ≠ 0) := by
    rcases htr with h | ⟨h1, h2, h3⟩
    · rcases hpair with ⟨e1, _⟩ | e
      · exact Or.inr ⟨h, by rw [e1]; exact hc⟩
      · exact Or.inl e
    · exact Or.inl (irq_hprt_discon s g hprt hc h1 h2 h3)
  unfold irq_port irq_discint
  rcases key with ⟨e1, e2⟩ | k
  · rw [if_neg (fun h => h.2 e1)]
    exact ⟨e1, e2, hcu, hu⟩
  · rw [if_pos k]
    exact ⟨rfl, rfl, hcu, hu⟩

/-- The timeout countdown keeps the slots, the connection state, and of the
URBs `Submitted` and `InProgress`. -/
theorem irq_sof_timeouts_keep (s : State) (g : Nat) :
    (irq_sof_timeouts s g).CHURB = s.CHURB ∧ (irq_sof_timeouts s g).Port_Con = s.Port_Con ∧
    ∀ q, ((irq_sof_timeouts s g).URB q).Submitted = (s.URB q).Submitted ∧
      ((irq_sof_timeouts s g).URB q).InProgress = (s.URB q).InProgress := by
  unfold irq_sof_timeouts
  split_ifs
  · obtain ⟨h, e, f⟩ := sof_timeouts_flags channels s
    rw [e]
    exact ⟨rfl, rfl, f⟩
  · exact ⟨rfl, rfl, fun q => ⟨rfl, rfl⟩⟩

theorem channels_split_range (ch : Nat) (h : ch < OTG_FS_MAX_CH) :
    channels = List.range ch ++ ch :: List.drop (ch + 1) channels := by
  have h8 : ch < 8 := h
  interval_cases ch <;> decide

/-- The sweep over the channels before `ch` keeps the URB of channel `ch` in
its slot and does not touch it. -/
theorem sweep_prefix_held (ch p : Nat) (hp0 : p ≠ 0) (l : List Nat)
    (hl : ∀ c ∈ l, c < OTG_FS_MAX_CH ∧ c ≠ ch) (s : State) (g : Held ch p s) :
    Held ch p (l.foldl irq_discon_cancel s) ∧ (l.foldl irq_discon_cancel s).URB p = s.URB p := by
  induction l generalizing s with
  | nil => exact ⟨g, rfl⟩
  | cons c l ih =>
    have hc := hl c (List.mem_cons_self c l)
    obtain ⟨g1, e1⟩ := Held_step hp0 hc.1 hc.2 (irq_discon_cancel_sf s c) g
    obtain ⟨g2, e2⟩ := ih (fun x hx => hl x (List.mem_cons_of_mem c hx)) _ g1
    exact ⟨g2, e2.trans e1⟩

theorem Disc_step (c : Nat) (s t : State) (_ : c < OTG_FS_MAX_CH) (f : StepFrame c s t)
    (h : s.Port_Con = 0 ∧ s.Port_Discon_Evt = 1) : t.Port_Con = 0 ∧ t.Port_Discon_Evt = 1 :=
  ⟨f.con.trans h.1, f.discon.trans h.2⟩

/-- The disconnect sweep over all channels, seen from channel `ch` that holds
the submitted URB `p`: when the URB is not in progress, or the disable
sequence the sweep starts for it succeeds, the URB has left the channel. -/
theorem sweep_gone (s : State) (ch p : Nat) (hch : ch < OTG_FS_MAX_CH) (hp0 : p ≠ 0)
    (g : Held ch p s)
    (hd : (s.URB p).InProgress = true →
      (USBH_STM32_CH_Disable (modURB (irq_discon_sweep_before s ch) p
        (fun u => { u with Submitted := false })) (USBH_STM32_CH_GetCHFromIndex ch)).2 = true) :
    Gone ch p (channels.foldl irq_discon_cancel s) := by
  rw [channels_split_range ch hch, List.foldl_append, List.foldl_cons]
  have hpre : ∀ c ∈ List.range ch, c < OTG_FS_MAX_CH ∧ c ≠ ch := fun c hc =>
    ⟨lt_trans (List.mem_range.mp hc) hch, ne_of_lt (List.mem_range.mp hc)⟩
  obtain ⟨g1, e1⟩ := sweep_prefix_held ch p hp0 (List.range ch) hpre s g
  have g2 : Gone ch p (irq_discon_cancel ((List.range ch).foldl irq_discon_cancel s) ch) :=
    irq_discon_cancel_gone _ ch p hp0 g1 (fun hi => hd (by rw [← e1]; exact hi))
  refine foldl_sf (Gone ch p) (fun c a b hc f ga => Gone_step hp0 hc f ga) irq_discon_cancel
    irq_discon_cancel_sf _ (fun c hc => ?_) _ g2
  exact channels_lt c (List.mem_of_mem_drop hc)

/-- The handler with neither the receive nor the channel interrupt pending
and enabled returns. -/
theorem IRQHandler_total (s : State)
    (hrx : s.GINTSTS &&& s.GINTMSK &&& USBH_STM32_GINTSTS_RXFLVL = 0)
    (hhc : s.GINTSTS &&& s.GINTMSK &&& USBH_STM32_GINTSTS_HCINT = 0) :
    ∃ t, USBH_FS_IRQHandler s = some t := by
  unfold USBH_FS_IRQHandler irq_rxflvl irq_hcint
  simp only [hrx, hhc, ne_eq, not_true_eq_false, if_false, Option.some_bind, Option.map_some']
  exact ⟨_, rfl⟩

/-- On silent hardware the halt poll of the disable sequence runs out. -/
theorem CH_Disable_loop_silent (ch n : Nat) (s : State) (h : s.hw = []) :
    (CH_Disable_loop ch n s).2 = false := by
  induction n generalizing s with
  | zero =>
    unfold CH_Disable_loop
    simp [poll, h, USBH_STM32_HCINT_CHH, USBH_STM32_HCCHAR_CHENA, USBH_STM32_HCCHAR_CHDIS]
  | succ n ih =>
    unfold CH_Disable_loop
    simp [poll, h, USBH_STM32_HCINT_CHH, USBH_STM32_HCCHAR_CHENA, USBH_STM32_HCCHAR_CHDIS]
    exact ih _ rfl

/-- On silent hardware the DMA stream reads as stopped at the first poll. -/
theorem DMA_Stop_silent (s : State) (h : s.hw = []) :
    (USBH_STM32_DMA_Stop s).2 = true ∧ (USBH_STM32_DMA_Stop s).1.hw = [] := by
  unfold USBH_STM32_DMA_Stop DMA_Stop_loop
  simp [poll, h]

/-- On silent hardware the disable sequence of an enabled channel fails:
the channel never reports the halt. -/
theorem CH_Disable_silent (s : State) (ptrCH : Nat) (h0 : ptrCH ≠ 0) (h : s.hw = [])
    (hen : (s.CH (USBH_STM32_CH_GetIndexFromCH ptrCH)).HCCHAR &&& USBH_STM32_HCCHAR_CHENA ≠ 0) :
    (USBH_STM32_CH_Disable s ptrCH).2 = false := by
  have hen1 : ((wrHCINTMSK s (USBH_STM32_CH_GetIndexFromCH ptrCH) 0).CH
      (USBH_STM32_CH_GetIndexFromCH ptrCH)).HCCHAR &&& USBH_STM32_HCCHAR_CHENA ≠ 0 := by
    simpa [wrHCINTMSK] using hen
  obtain ⟨d1, d2⟩ := DMA_Stop_silent (wrHCINTMSK s (USBH_STM32_CH_GetIndexFromCH ptrCH) 0) h
  unfold USBH_STM32_CH_Disable
  simp only []
  rw [if_neg h0, if_pos hen1]
  split_ifs <;>
    first
    | rfl
    | exact CH_Disable_loop_silent _ _ _ d2
    | exact CH_Disable_loop_silent _ _ _ h

/-- The sweep over channels with empty slots does nothing. -/
theorem sweep_idle (l : List Nat) (s : State) (h : ∀ c ∈ l, s.CHURB c = 0) :
    l.foldl irq_discon_cancel s = s := by
  induction l with
  | nil => rfl
  | cons c l ih =>
    have e : irq_discon_cancel s c = s := by
      unfold irq_discon_cancel
      rw [if_neg (fun k => k (h c (List.mem_cons_self c l)))]
    rw [List.foldl_cons, e]
    exact ih (fun x hx => h x (List.mem_cons_of_mem c hx))

/-- An invocation on a connected port with the disconnect interrupt the only
pending and enabled one: the disconnect is flagged and the sweep runs. -/
theorem IRQHandler_discint (s : State)
    (hg : s.GINTSTS &&& s.GINTMSK = USBH_STM32_GINTSTS_DISCINT) (hc : s.Port_Con ≠ 0) :
    USBH_FS_IRQHandler s =
      some { channels.foldl irq_discon_cancel { s with Port_Discon_Evt := 1, Port_Con := 0 }
        with GINTSTS := USBH_STM32_GINTSTS_DISCINT } := by
  have e1 : irq_sof_timeouts s USBH_STM32_GINTSTS_DISCINT = s := by
    unfold irq_sof_timeouts
    rw [if_neg (by decide)]
  have e2 : irq_hprt s USBH_STM32_GINTSTS_DISCINT s.HPRT = s := by
    unfold irq_hprt
    rw [if_neg (by decide)]
  have e3 : irq_discint s USBH_STM32_GINTSTS_DISCINT =
      { s with Port_Discon_Evt := 1, Port_Con := 0 } := by
    unfold irq_discint
    rw [if_pos ⟨by decide, hc⟩]
  have e4 : irq_discon_sweep { s with Port_Discon_Evt := 1, Port_Con := 0 } =
      channels.foldl irq_discon_cancel { s with Port_Discon_Evt := 1, Port_Con := 0 } := by
    unfold irq_discon_sweep
    rw [if_pos (show (1 : Nat) ≠ 0 by decide)]
  unfold USBH_FS_IRQHandler
  simp only []
  rw [hg, e1]
  unfold irq_port
  rw [e2, e3, e4]
  generalize channels.foldl irq_discon_cancel { s with Port_Discon_Evt := 1, Port_Con := 0 } = s3
  unfold irq_rxflvl irq_hcint irq_sof_schedule
  rw [if_neg (by decide), Option.some_bind, if_neg (by decide), Option.map_some',
    if_neg (by decide)]

/-- The disconnect handling on `stuckBulkOut`: the handler returns the state
in which the disable sequence of channel 0 gave up. -/
theorem stuck_handler :
    USBH_FS_IRQHandler stuckBulkOut =
      some { (USBH_STM32_CH_Disable
          (modURB { stuckBulkOut with Port_Discon_Evt := 1, Port_Con := 0 } 0x20002000
            (fun u => { u with Submitted := false })) HCCHAR0_ADDR).1
        with GINTSTS := USBH_STM32_GINTSTS_DISCINT } := by
  have hd : (USBH_STM32_CH_Disable
      (modURB { stuckBulkOut with Port_Discon_Evt := 1, Port_Con := 0 } 0x20002000
        (fun u => { u with Submitted := false })) HCCHAR0_ADDR).2 = false :=
    CH_Disable_silent _ _ (by decide) rfl (by decide)
  have e0 : irq_discon_cancel { stuckBulkOut with Port_Discon_Evt := 1, Port_Con := 0 } 0 =
      (USBH_STM32_CH_Disable
        (modURB { stuckBulkOut with Port_Discon_Evt := 1, Port_Con := 0 } 0x20002000
          (fun u => { u with Submitted := false })) HCCHAR0_ADDR).1 := by
    unfold irq_discon_cancel
    rw [if_pos (by decide)]
    have hp : ({ stuckBulkOut with Port_Discon_Evt := 1, Port_Con := 0 } : State).CHURB 0 =
        0x20002000 := by decide
    have hc : USBH_STM32_CH_GetCHFromIndex 0 = HCCHAR0_ADDR := by decide
    rw [hp, hc, Cancel_disable_fails _ _ _ (by decide) (by decide) (by decide) (by decide) hd]
  rw [IRQHandler_discint stuckBulkOut (by decide) (by decide)]
  have hch : channels = 0 :: [1, 2, 3, 4, 5, 6, 7] := rfl
  rw [hch, List.foldl_cons, e0, sweep_idle]
  intro c hc
  rw [(CH_Disable_frame _ _).churb]
  revert c
  decide

/-- What a cancel that gave up in the disable sequence leaves behind: the
connection state and the slots as they were, the URB still in progress. -/
theorem disable_gave_up (s : State) (p ptrCH g : Nat) (t : State)
    (ht : t = { (USBH_STM32_CH_Disable (modURB s p (fun u => { u with Submitted := false }))
      ptrCH).1 with GINTSTS := g }) :
    t.Port_Con = s.Port_Con ∧ t.Port_Discon_Evt = s.Port_Discon_Evt ∧ t.CHURB = s.CHURB ∧
    (t.URB p).InProgress = (s.URB p).InProgress := by
  subst ht
  have fr := CH_Disable_frame (modURB s p (fun u => { u with Submitted := false })) ptrCH
  refine ⟨fr.con, fr.discon, fr.churb, ?_⟩
  show ((USBH_STM32_CH_Disable _ _).1.URB p).InProgress = _
  rw [fr.urb]
  simp only [modURB, Function.update_same]

/-- C17, as stated, fails: the URB at 0x20002000 is submitted and in progress
on channel 0, the port is connected, the disconnect interrupt is pending and
enabled, and the hardware never reports the channel as halted.  The handler
flags the disconnect, but the cancel gives up: the URB stays in the slot of
channel 0 and stays in progress. -/
theorem C17_counterexample :
    stuckBulkOut.Port_Con = 1 ∧
    stuckBulkOut.GINTSTS &&& stuckBulkOut.GINTMSK &&& USBH_STM32_GINTSTS_DISCINT ≠ 0 ∧
    stuckBulkOut.CHURB 0 = 0x20002000 ∧
    (stuckBulkOut.URB 0x20002000).Submitted = true ∧
    (stuckBulkOut.URB 0x20002000).InProgress = true ∧
    ∃ t, USBH_FS_IRQHandler stuckBulkOut = some t ∧ t.Port_Con = 0 ∧ t.Port_Discon_Evt = 1 ∧
      t.CHURB 0 = 0x20002000 ∧ (t.URB 0x20002000).InProgress = true := by
  obtain ⟨k1, k2, k3, k4⟩ := disable_gave_up
    { stuckBulkOut with Port_Discon_Evt := 1, Port_Con := 0 } 0x20002000 HCCHAR0_ADDR
    USBH_STM32_GINTSTS_DISCINT _ rfl
  exact ⟨by decide, by decide, by decide, by decide, by decide, _, stuck_handler,
    k1.trans (by decide), k2.trans (by decide), (congrFun k3 0).trans (by decide),
    k4.trans (by decide)⟩

/-- C17, amended: one invocation of the handler on a connected port, with the
disconnect interrupt pending and enabled, or with the host port interrupt
pending and enabled while the port reports an enable change and a clear
connected status.  The handler returns when neither the receive nor the
channel interrupt is pending and enabled.  Whenever it returns, the port
reads as disconnected and the disconnect event is pending; and every
channel whose slot held a submitted URB that no other channel held has an
empty slot and the URB is neither submitted nor in progress, provided that
for a URB in progress the disable sequence the sweep starts on that channel
succeeds. -/
theorem C17_disconnect_cancels (s : State) (hc : s.Port_Con ≠ 0)
    (htr : s.GINTSTS &&& s.GINTMSK &&& USBH_STM32_GINTSTS_DISCINT ≠ 0 ∨
      (s.GINTSTS &&& s.GINTMSK &&& USBH_STM32_GINTSTS_HPRTINT ≠ 0 ∧
        s.HPRT &&& USBH_STM32_HPRT_PENCHNG ≠ 0 ∧ s.HPRT &&& USBH_STM32_HPRT_PCSTS = 0)) :
    (s.GINTSTS &&& s.GINTMSK &&& USBH_STM32_GINTSTS_RXFLVL = 0 →
      s.GINTSTS &&& s.GINTMSK &&& USBH_STM32_GINTSTS_HCINT = 0 →
      ∃ t, USBH_FS_IRQHandler s = some t) ∧
    ∀ t, USBH_FS_IRQHandler s = some t →
      t.Port_Con = 0 ∧ t.Port_Discon_Evt = 1 ∧
      ∀ ch p, ch < OTG_FS_MAX_CH → s.CHURB ch = p → p ≠ 0 →
        (s.URB p).Submitted = true →
        (∀ c, c < OTG_FS_MAX_CH → c ≠ ch → s.CHURB c ≠ p) →
        ((s.URB p).InProgress = true →
          (USBH_STM32_CH_Disable (modURB (irq_discon_sweep_before
            (irq_port (irq_sof_timeouts s (s.GINTSTS &&& s.GINTMSK)) (s.GINTSTS &&& s.GINTMSK)
              s.HPRT) ch) p (fun u => { u with Submitted := false }))
            (USBH_STM32_CH_GetCHFromIndex ch)).2 = true) →
        t.CHURB ch = 0 ∧ (t.URB p).Submitted = false ∧ (t.URB p).InProgress = false := by
  refine ⟨IRQHandler_total s, fun t ht => ?_⟩
  obtain ⟨k1, k2, k3⟩ := irq_sof_timeouts_keep s (s.GINTSTS &&& s.GINTMSK)
  obtain ⟨p1, p2, p3, p4⟩ := irq_port_discon (irq_sof_timeouts s (s.GINTSTS &&& s.GINTMSK))
    (s.GINTSTS &&& s.GINTMSK) s.HPRT (by rw [k2]; exact hc) htr
  unfold USBH_FS_IRQHandler at ht
  simp only [] at ht
  generalize hs2 : irq_port (irq_sof_timeouts s (s.GINTSTS &&& s.GINTMSK))
    (s.GINTSTS &&& s.GINTMSK) s.HPRT = s2 at ht p1 p2 p3 p4
  have hsw : irq_discon_sweep s2 = channels.foldl irq_discon_cancel s2 := by
    unfold irq_discon_sweep
    rw [if_pos (by rw [p2]; decide)]
  rw [hsw] at ht
  have d3 : (channels.foldl irq_discon_cancel s2).Port_Con = 0 ∧
      (channels.foldl irq_discon_cancel s2).Port_Discon_Evt = 1 :=
    foldl_sf (fun a => a.Port_Con = 0 ∧ a.Port_Discon_Evt = 1) Disc_step irq_discon_cancel
      irq_discon_cancel_sf channels channels_lt s2 ⟨p1, p2⟩
  have dt := after_sweep_sf (fun a => a.Port_Con = 0 ∧ a.Port_Discon_Evt = 1) Disc_step _ t _ _
    ht d3
  refine ⟨dt.1, dt.2, fun ch p hch hsl hp0 hsub hun hd => ?_⟩
  have held : Held ch p s2 := by
    refine ⟨by rw [p3, k1]; exact hsl, fun c hc1 hc2 => by rw [p3, k1]; exact hun c hc1 hc2, ?_⟩
    rw [p4, (k3 p).1]
    exact hsub
  have g3 : Gone ch p (channels.foldl irq_discon_cancel s2) :=
    sweep_gone s2 ch p hch hp0 held (fun hi => hd (by rw [← (k3 p).2, ← p4]; exact hi))
  have gt := after_sweep_sf (Gone ch p) (fun c a b hc1 f ga => Gone_step hp0 hc1 f ga) _ t _ _
    ht g3
  exact ⟨gt.slot, gt.notsub, gt.notinp⟩

/-- C17, witness: the URB at 0x20002000 is in progress on channel 0, the
disconnect interrupt is pending and enabled, and the channel reports the
halt at the first poll of the disable sequence. -/
theorem C17_disconnect_cancels_witness :
    haltingBulkOut.Port_Con = 1 ∧ haltingBulkOut.CHURB 0 = 0x20002000 ∧
    (haltingBulkOut.URB 0x20002000).Submitted = true ∧
    (haltingBulkOut.URB 0x20002000).InProgress = true ∧
    ∃ t, USBH_FS_IRQHandler haltingBulkOut = some t ∧ t.Port_Con = 0 ∧
      t.Port_Discon_Evt = 1 ∧ t.CHURB 0 = 0 ∧ (t.URB 0x20002000).Submitted = false ∧
      (t.URB 0x20002000).InProgress = false := by
  have h := C17_disconnect_cancels haltingBulkOut (by decide) (Or.inl (by decide))
  obtain ⟨t, ht⟩ := h.1 (by decide) (by decide)
  obtain ⟨a, b, c⟩ := h.2 t ht
  exact ⟨by decide, by decide, by decide, by decide, t, ht, a, b,
    c 0 0x20002000 (by decide) (by decide) (by decide) (by decide) (by decide)
      (fun _ => by decide)⟩

/-! ## Port reset -/

theorem hwAt_zero (s : State) : hwAt s 0 = (poll s).1 := by
  unfold hwAt poll
  split <;> rename_i hh <;> simp [hh]

theorem hwAt_succ (s : State) (h : Nat) (i : Nat) :
    hwAt { (poll s).2 with HPRT := h } i = hwAt s (i + 1) := by
  unfold hwAt poll
  split <;> rename_i hh <;> simp [hh]

theorem hprtReads_append (a b : List PortOp) : hprtReads (a ++ b) = hprtReads a ++ hprtReads b := by
  unfold hprtReads
  exact List.filterMap_append a b _

/-- The wait loop with the port-enabled bit first set at poll `k` (counted
from 0), within the budget: success, after exactly `k` + 1 reads. -/
theorem Port_Reset_loop_enabled (k tout : Nat) (s : State) (r : PortRegs) (hk : k ≤ tout)
    (h0 : ∀ i, i < k → hwAt s i &&& USBH_STM32_HPRT_PENA = 0)
    (h1 : hwAt s k &&& USBH_STM32_HPRT_PENA ≠ 0) :
    (Port_Reset_loop tout (s, r)).2 = true ∧
    (Port_Reset_loop tout (s, r)).1.2.trace =
      r.trace ++ (List.range (k + 1)).map (fun i => PortOp.rdHPRT (hwAt s i)) ∧
    (Port_Reset_loop tout (s, r)).1.2.HCFG = r.HCFG ∧
    (Port_Reset_loop tout (s, r)).1.2.HFIR = r.HFIR := by
  induction k generalizing tout s r with
  | zero =>
    rw [hwAt_zero] at h1
    unfold Port_Reset_loop
    simp only []
    rw [if_pos h1]
    refine ⟨rfl, ?_, rfl, rfl⟩
    show _ = r.trace ++ [PortOp.rdHPRT (hwAt s 0)]
    rw [hwAt_zero]
  | succ k ih =>
    have hz := h0 0 (Nat.succ_pos k)
    rw [hwAt_zero] at hz
    obtain ⟨t, rfl⟩ : ∃ t, tout = t + 1 := ⟨tout - 1, by omega⟩
    unfold Port_Reset_loop
    simp only []
    rw [if_neg (fun h => h hz)]
    obtain ⟨a, b, c, d⟩ := ih t { (poll s).2 with HPRT := (poll s).1 }
      { r with trace := r.trace ++ [PortOp.rdHPRT (poll s).1] } (by omega)
      (fun i hi => by rw [hwAt_succ]; exact h0 (i + 1) (by omega))
      (by rw [hwAt_succ]; exact h1)
    refine ⟨a, ?_, c, d⟩
    rw [b, List.range_succ_eq_map (k + 1), List.map_cons, List.map_map, ← hwAt_zero]
    simp only [List.append_assoc, List.singleton_append, List.cons.injEq, true_and,
      List.append_cancel_left_eq]
    apply List.map_congr_left
    intro i _
    simp only [Function.comp, hwAt_succ]

/-- The wait loop with the port-enabled bit clear on each of its
`tout` + 1 reads: failure. -/
theorem Port_Reset_loop_timeout (tout : Nat) (s : State) (r : PortRegs)
    (h0 : ∀ i, i ≤ tout → hwAt s i &&& USBH_STM32_HPRT_PENA = 0) :
    (Port_Reset_loop tout (s, r)).2 = false ∧
    (Port_Reset_loop tout (s, r)).1.2.trace =
      r.trace ++ (List.range (tout + 1)).map (fun i => PortOp.rdHPRT (hwAt s i)) := by
  induction tout generalizing s r with
  | zero =>
    have hz := h0 0 (Nat.le_refl 0)
    rw [hwAt_zero] at hz
    unfold Port_Reset_loop
    simp only []
    rw [if_neg (fun h => h hz)]
    refine ⟨rfl, ?_⟩
    show _ = r.trace ++ [PortOp.rdHPRT (hwAt s 0)]
    rw [hwAt_zero]
  | succ t ih =>
    have hz := h0 0 (Nat.zero_le _)
    rw [hwAt_zero] at hz
    unfold Port_Reset_loop
    simp only []
    rw [if_neg (fun h => h hz)]
    obtain ⟨a, b⟩ := ih { (poll s).2 with HPRT := (poll s).1 }
      { r with trace := r.trace ++ [PortOp.rdHPRT (poll s).1] }
      (fun i hi => by rw [hwAt_succ]; exact h0 (i + 1) (by omega))
    refine ⟨a, ?_⟩
    rw [b, List.range_succ_eq_map (t + 1), List.map_cons, List.map_map, ← hwAt_zero]
    simp only [List.append_assoc, List.singleton_append, List.cons.injEq, true_and,
      List.append_cancel_left_eq]
    apply List.map_congr_left
    intro i _
    simp only [Function.comp, hwAt_succ]

theorem hprtReads_port_clock (r : PortRegs) (hcfg hfir sel : Nat) :
    hprtReads (port_clock r hcfg hfir sel).trace = hprtReads r.trace := by
  unfold port_clock
  simp only []
  split_ifs
  · show hprtReads ((r.trace ++ [PortOp.wrHFIR hfir]) ++ [PortOp.wrHCFG _]) = _
    rw [hprtReads_append, hprtReads_append]
    simp [hprtReads]
  · show hprtReads (r.trace ++ [PortOp.wrHFIR hfir]) = _
    rw [hprtReads_append]
    simp [hprtReads]

theorem hprtReads_reads (l : List Nat) : hprtReads (l.map PortOp.rdHPRT) = l := by
  induction l with
  | nil => rfl
  | cons a l ih =>
    show a :: hprtReads (l.map PortOp.rdHPRT) = a :: l
    rw [ih]

/-- On a connected port `USBH_STM32_Port_Reset` reaches its wait loop with
the budget 10100, the polled values untouched and no read of `HPRT`
recorded. -/
theorem Port_Reset_reaches_loop (s : State) (r : PortRegs) (hc : s.Port_Con ≠ 0) :
    ∃ s2 r3, USBH_STM32_Port_Reset s r = Port_Reset_loop 10100 (s2, r3) ∧
      (∀ i, hwAt s2 i = hwAt s i) ∧ hprtReads r3.trace = hprtReads r.trace := by
  unfold USBH_STM32_Port_Reset
  rw [if_neg hc]
  refine ⟨_, _, rfl, fun i => rfl, ?_⟩
  simp only []
  rw [hprtReads_append, hprtReads_append]
  have e : ∀ v, hprtReads [PortOp.wrHPRT v] = [] := fun v => rfl
  rw [e, e, List.append_nil, List.append_nil]
  split_ifs
  · exact hprtReads_port_clock _ _ _ _
  · exact hprtReads_port_clock _ _ _ _
  · exact hprtReads_port_clock _ _ _ _
  · rfl

/-- Port reset on a connected port when the port-enabled bit reads as set
for the first time at poll `k` ≤ 10100 (counted from 0): success after
`k` + 1 reads of `HPRT`. -/
theorem Port_Reset_enabled (s : State) (r : PortRegs) (hc : s.Port_Con ≠ 0) (k : Nat)
    (hk : k ≤ 10100) (h0 : ∀ i, i < k → hwAt s i &&& USBH_STM32_HPRT_PENA = 0)
    (h1 : hwAt s k &&& USBH_STM32_HPRT_PENA ≠ 0) :
    (USBH_STM32_Port_Reset s r).2 = true ∧
    hprtReads (USBH_STM32_Port_Reset s r).1.2.trace =
      hprtReads r.trace ++ (List.range (k + 1)).map (hwAt s) := by
  obtain ⟨s2, r3, e, hw, ht⟩ := Port_Reset_reaches_loop s r hc
  obtain ⟨a, b, _, _⟩ := Port_Reset_loop_enabled k 10100 s2 r3 hk
    (fun i hi => by rw [hw]; exact h0 i hi) (by rw [hw]; exact h1)
  rw [e]
  refine ⟨a, ?_⟩
  rw [b, hprtReads_append, ht]
  have e2 : (List.range (k + 1)).map (fun i => PortOp.rdHPRT (hwAt s2 i)) =
      ((List.range (k + 1)).map (hwAt s)).map PortOp.rdHPRT := by
    rw [List.map_map]
    apply List.map_congr_left
    intro i _
    simp only [Function.comp, hw]
  rw [e2, hprtReads_reads]

/-- Port reset on a connected port when the port-enabled bit reads as clear
on all 10101 reads of the wait loop: failure. -/
theorem Port_Reset_timeout (s : State) (r : PortRegs) (hc : s.Port_Con ≠ 0)
    (h0 : ∀ i, i ≤ 10100 → hwAt s i &&& USBH_STM32_HPRT_PENA = 0) :
    (USBH_STM32_Port_Reset s r).2 = false ∧
    hprtReads (USBH_STM32_Port_Reset s r).1.2.trace =
      hprtReads r.trace ++ (List.range 10101).map (hwAt s) := by
  obtain ⟨s2, r3, e, hw, ht⟩ := Port_Reset_reaches_loop s r hc
  obtain ⟨a, b⟩ := Port_Reset_loop_timeout 10100 s2 r3 (fun i hi => by rw [hw]; exact h0 i hi)
  rw [e]
  refine ⟨a, ?_⟩
  rw [b, hprtReads_append, ht]
  have e2 : (List.range (10100 + 1)).map (fun i => PortOp.rdHPRT (hwAt s2 i)) =
      ((List.range 10101).map (hwAt s)).map PortOp.rdHPRT := by
    rw [List.map_map]
    apply List.map_congr_left
    intro i _
    simp only [Function.comp, hw]
  rw [e2, hprtReads_reads]

theorem hwAt_slowPort_lt (i : Nat) (hi : i < 1010) : hwAt slowPort i = 0 := by
  show (List.replicate 1010 0 ++ [USBH_STM32_HPRT_PENA]).getD i 0 = 0
  rw [List.getD_append _ _ _ _ (by rw [List.length_replicate]; exact hi)]
  rw [List.getD_eq_getElem _ _ (by rw [List.length_replicate]; exact hi)]
  exact List.getElem_replicate _ _

theorem hwAt_slowPort_last : hwAt slowPort 1010 = USBH_STM32_HPRT_PENA := by
  show (List.replicate 1010 0 ++ [USBH_STM32_HPRT_PENA]).getD 1010 0 = _
  rw [List.getD_append_right _ _ _ _ (by rw [List.length_replicate]), List.length_replicate]
  rfl

/-- C21, as stated, fails: the port is connected and the port-enabled bit
reads as clear on the first 1010 reads of the wait loop and as set on the
1011th.  The reset does not fail after 1010 reads: it reads `HPRT` 1011
times and returns success. -/
theorem C21_counterexample :
    slowPort.Port_Con = 1 ∧
    (∀ i, i < 1010 → hwAt slowPort i &&& USBH_STM32_HPRT_PENA = 0) ∧
    (USBH_STM32_Port_Reset slowPort ⟨0, 0, []⟩).2 = true ∧
    (hprtReads (USBH_STM32_Port_Reset slowPort ⟨0, 0, []⟩).1.2.trace).length = 1011 := by
  have h0 : ∀ i, i < 1010 → hwAt slowPort i &&& USBH_STM32_HPRT_PENA = 0 := fun i hi => by
    rw [hwAt_slowPort_lt i hi]
    rfl
  obtain ⟨a, b⟩ := Port_Reset_enabled slowPort ⟨0, 0, []⟩ (by decide) 1010 (by decide) h0
    (by rw [hwAt_slowPort_last]; decide)
  refine ⟨rfl, h0, a, ?_⟩
  rw [b]
  simp [hprtReads]

/-- C21, amended: with `Port_Con` = 0 `USBH_STM32_Port_Reset` returns failure
and changes nothing.  On a connected port, after the reset pulse it reads the
port-enabled bit at most 10101 times (`tout` runs from 10100 down to 0): it
returns success at the first read that shows the bit set, after exactly that
many reads, and returns failure when none of the 10101 reads shows it. -/
theorem C21_port_reset_timeout (s : State) (r : PortRegs) :
    (s.Port_Con = 0 → USBH_STM32_Port_Reset s r = ((s, r), false)) ∧
    (s.Port_Con ≠ 0 →
      (∀ k, k ≤ 10100 → (∀ i, i < k → hwAt s i &&& USBH_STM32_HPRT_PENA = 0) →
        hwAt s k &&& USBH_STM32_HPRT_PENA ≠ 0 →
        (USBH_STM32_Port_Reset s r).2 = true ∧
        hprtReads (USBH_STM32_Port_Reset s r).1.2.trace =
          hprtReads r.trace ++ (List.range (k + 1)).map (hwAt s)) ∧
      ((∀ i, i ≤ 10100 → hwAt s i &&& USBH_STM32_HPRT_PENA = 0) →
        (USBH_STM32_Port_Reset s r).2 = false ∧
        hprtReads (USBH_STM32_Port_Reset s r).1.2.trace =
          hprtReads r.trace ++ (List.range 10101).map (hwAt s)) ∧
      (hprtReads (USBH_STM32_Port_Reset s r).1.2.trace).length ≤
        (hprtReads r.trace).length + 10101) := by
  refine ⟨fun hc => ?_, fun hc => ⟨fun k hk h0 h1 => Port_Reset_enabled s r hc k hk h0 h1,
    fun h0 => Port_Reset_timeout s r hc h0, ?_⟩⟩
  · unfold USBH_STM32_Port_Reset
    rw [if_pos hc]
  · by_cases hall : ∀ i, i ≤ 10100 → hwAt s i &&& USBH_STM32_HPRT_PENA = 0
    · rw [(Port_Reset_timeout s r hc hall).2]
      simp
    · have hex : ∃ k, k ≤ 10100 ∧ hwAt s k &&& USBH_STM32_HPRT_PENA ≠ 0 := by
        by_contra hne
        exact hall (fun i hi => by
          by_contra h
          exact hne ⟨i, hi, h⟩)
      have hk := Nat.find_spec hex
      have hmin : ∀ i, i < Nat.find hex → hwAt s i &&& USBH_STM32_HPRT_PENA = 0 := fun i hi => by
        by_contra h
        exact Nat.find_min hex hi ⟨by omega, h⟩
      rw [(Port_Reset_enabled s r hc (Nat.find hex) hk.1 hmin hk.2).2]
      simp only [List.length_append, List.length_map, List.length_range]
      omega

/-- C21, witness: a connected port whose port-enabled bit reads as set at the
third read; and a port that is not connected. -/
theorem C21_port_reset_timeout_witness :
    USBH_STM32_Port_Reset idle ⟨0, 0, []⟩ = ((idle, ⟨0, 0, []⟩), false) ∧
    (USBH_STM32_Port_Reset quickPort ⟨0, 0, []⟩).2 = true ∧
    hprtReads (USBH_STM32_Port_Reset quickPort ⟨0, 0, []⟩).1.2.trace =
      hprtReads [] ++ (List.range (2 + 1)).map (hwAt quickPort) :=
  ⟨(C21_port_reset_timeout idle ⟨0, 0, []⟩).1 rfl,
    ((C21_port_reset_timeout quickPort ⟨0, 0, []⟩).2 (by decide)).1 2 (by decide) (by decide)
      (by decide)⟩

/-! ## Order of the hardware accesses of a transfer enqueue -/

/-- The log of `USBH_STM32_DMA_Wait`: the wait, then the stop of the stream
when the wait did not run out. -/
theorem DMA_Wait_log_cases (s : State) :
    (USBH_STM32_DMA_Wait s).1.log = s.log ++ [HwOp.dmaWait] ∨
    (USBH_STM32_DMA_Wait s).1.log = s.log ++ [HwOp.dmaWait, HwOp.dmaStop] := by
  unfold USBH_STM32_DMA_Wait
  simp only []
  split_ifs
  · exact Or.inl (by rw [DMA_Wait_loop_log])
  · exact Or.inr (by rw [DMA_Stop_log, DMA_Wait_loop_log, List.append_assoc]; rfl)
  · exact Or.inr (by rw [DMA_Stop_log, DMA_Wait_loop_log, List.append_assoc]; rfl)

/-- C22, as stated, fails: an enqueue of 200 bytes for an OUT packet on the
bulk OUT channel.  The hardware accesses are: the stores to `HCINTMSK` and
`HCTSIZ`, the wait for the prior DMA operation and its stop, the store to
`HCCHAR` with the channel-enable bit, and only then the start of the DMA
load. -/
theorem C22_counterexample :
    (USBH_STM32_CH_TransferEnqueue withBulkOut HCCHAR0_ADDR USBH_PACKET_OUT 0x20000000 200).2
      = true ∧
    (USBH_STM32_CH_TransferEnqueue withBulkOut HCCHAR0_ADDR USBH_PACKET_OUT 0x20000000
      200).1.log.drop withBulkOut.log.length =
      [HwOp.wrHCINTMSK 0 (enqueue_hcintmsk USBH_PACKET_OUT), HwOp.wrHCTSIZ 0 0x2000C8,
        HwOp.dmaWait, HwOp.dmaStop, HwOp.wrHCCHAR 0 0x81480840,
        HwOp.dmaStart (OTG_DFIFO 0) 0x20000000 200] ∧
    0x81480840 &&& USBH_STM32_HCCHAR_CHENA ≠ 0 := by
  decide

/-- C22, amended: a call of `USBH_STM32_CH_TransferEnqueue` that fails makes
no hardware access.  A call that succeeds starts a DMA load into the
channel's transmit FIFO if and only if the packet kind is OUT or SETUP and
`len` is non-zero.  When it does, the accesses are, in this order: the stores
to `HCINTMSK` and `HCTSIZ`, the wait for the prior DMA operation (with the
stop of the stream unless the wait ran out), the store to `HCCHAR` with the
channel-enable bit set, and last the start of the DMA load: the channel
enable precedes the DMA start.  Otherwise the accesses are the three stores
alone. -/
theorem C22_enqueue_access_order (s : State) (ptrCH tgl_typ buf len : Nat) :
    ((USBH_STM32_CH_TransferEnqueue s ptrCH tgl_typ buf len).2 = false →
      (USBH_STM32_CH_TransferEnqueue s ptrCH tgl_typ buf len).1 = s) ∧
    ((USBH_STM32_CH_TransferEnqueue s ptrCH tgl_typ buf len).2 = true →
      ∃ v, v &&& USBH_STM32_HCCHAR_CHENA ≠ 0 ∧
        (((tgl_typ &&& 0x0F = USBH_PACKET_OUT ∨ tgl_typ &&& 0x0F = USBH_PACKET_SETUP) ∧
            len ≠ 0) →
          ∃ w, (w = [HwOp.dmaWait] ∨ w = [HwOp.dmaWait, HwOp.dmaStop]) ∧
            (USBH_STM32_CH_TransferEnqueue s ptrCH tgl_typ buf len).1.log =
              s.log ++
                ([HwOp.wrHCINTMSK (USBH_STM32_CH_GetIndexFromCH ptrCH) (enqueue_hcintmsk tgl_typ),
                  HwOp.wrHCTSIZ (USBH_STM32_CH_GetIndexFromCH ptrCH)
                    (enqueue_hctsiz (s.CH (USBH_STM32_CH_GetIndexFromCH ptrCH)).HCTSIZ v
                      tgl_typ len)] ++ w ++
                [HwOp.wrHCCHAR (USBH_STM32_CH_GetIndexFromCH ptrCH) v,
                  HwOp.dmaStart (OTG_DFIFO (USBH_STM32_CH_GetIndexFromCH ptrCH)) buf
                    (len % 65536)])) ∧
        (¬ ((tgl_typ &&& 0x0F = USBH_PACKET_OUT ∨ tgl_typ &&& 0x0F = USBH_PACKET_SETUP) ∧
            len ≠ 0) →
          (USBH_STM32_CH_TransferEnqueue s ptrCH tgl_typ buf len).1.log =
            s.log ++
              [HwOp.wrHCINTMSK (USBH_STM32_CH_GetIndexFromCH ptrCH) (enqueue_hcintmsk tgl_typ),
                HwOp.wrHCTSIZ (USBH_STM32_CH_GetIndexFromCH ptrCH)
                  (enqueue_hctsiz (s.CH (USBH_STM32_CH_GetIndexFromCH ptrCH)).HCTSIZ v
                    tgl_typ len),
                HwOp.wrHCCHAR (USBH_STM32_CH_GetIndexFromCH ptrCH) v])) := by
  unfold USBH_STM32_CH_TransferEnqueue
  by_cases hp : ptrCH = 0
  · rw [if_pos hp]
    exact ⟨fun _ => rfl, fun h => Bool.noConfusion h⟩
  rw [if_neg hp]
  by_cases hc : s.Port_Con = 0
  · rw [if_pos hc]
    exact ⟨fun _ => rfl, fun h => Bool.noConfusion h⟩
  rw [if_neg hc]
  refine ⟨fun h => Bool.noConfusion h, fun _ =>
    ⟨enqueue_hcchar (s.CH (USBH_STM32_CH_GetIndexFromCH ptrCH)).HCCHAR tgl_typ,
      enqueue_hcchar_CHENA _ tgl_typ, ?_, ?_⟩⟩
  · intro hl
    have hb : ((decide (tgl_typ &&& 0x0F = USBH_PACKET_OUT) ||
        decide (tgl_typ &&& 0x0F = USBH_PACKET_SETUP)) && decide (len ≠ 0)) = true := by
      simpa using hl
    simp only [hb, if_true]
    rcases DMA_Wait_log_cases (wrHCTSIZ (wrHCINTMSK s (USBH_STM32_CH_GetIndexFromCH ptrCH)
        (enqueue_hcintmsk tgl_typ)) (USBH_STM32_CH_GetIndexFromCH ptrCH)
        (enqueue_hctsiz (s.CH (USBH_STM32_CH_GetIndexFromCH ptrCH)).HCTSIZ
          (enqueue_hcchar (s.CH (USBH_STM32_CH_GetIndexFromCH ptrCH)).HCCHAR tgl_typ)
          tgl_typ len)) with e | e
    · refine ⟨_, Or.inl rfl, ?_⟩
      simp only [USBH_STM32_DMA_Start, wrHCCHAR]
      rw [e]
      simp [wrHCTSIZ, wrHCINTMSK]
    · refine ⟨_, Or.inr rfl, ?_⟩
      simp only [USBH_STM32_DMA_Start, wrHCCHAR]
      rw [e]
      simp [wrHCTSIZ, wrHCINTMSK]
  · intro hl
    have hb : ((decide (tgl_typ &&& 0x0F = USBH_PACKET_OUT) ||
        decide (tgl_typ &&& 0x0F = USBH_PACKET_SETUP)) && decide (len ≠ 0)) = false := by
      rw [Bool.eq_false_iff]
      intro hb
      exact hl (by simpa using hb)
    simp only [hb, if_false, Bool.false_eq_true]
    simp [wrHCCHAR, wrHCTSIZ, wrHCINTMSK]

/-- C22, witness: the enqueue of 200 bytes for an OUT packet on the bulk OUT
channel. -/
theorem C22_enqueue_access_order_witness :
    ∃ v, v &&& USBH_STM32_HCCHAR_CHENA ≠ 0 ∧
      ∃ w, (w = [HwOp.dmaWait] ∨ w = [HwOp.dmaWait, HwOp.dmaStop]) ∧
        (USBH_STM32_CH_TransferEnqueue withBulkOut HCCHAR0_ADDR USBH_PACKET_OUT 0x20000000
          200).1.log =
          withBulkOut.log ++
            ([HwOp.wrHCINTMSK (USBH_STM32_CH_GetIndexFromCH HCCHAR0_ADDR)
                (enqueue_hcintmsk USBH_PACKET_OUT),
              HwOp.wrHCTSIZ (USBH_STM32_CH_GetIndexFromCH HCCHAR0_ADDR)
                (enqueue_hctsiz (withBulkOut.CH (USBH_STM32_CH_GetIndexFromCH HCCHAR0_ADDR)).HCTSIZ
                  v USBH_PACKET_OUT 200)] ++ w ++
            [HwOp.wrHCCHAR (USBH_STM32_CH_GetIndexFromCH HCCHAR0_ADDR) v,
              HwOp.dmaStart (OTG_DFIFO (USBH_STM32_CH_GetIndexFromCH HCCHAR0_ADDR)) 0x20000000
                (200 % 65536)]) :=
  ((C22_enqueue_access_order withBulkOut HCCHAR0_ADDR USBH_PACKET_OUT 0x20000000 200).2
    (by decide)).imp (fun _ h => ⟨h.1, h.2.1 (by decide)⟩)

/-! ## Cancel when the channel does not halt -/

/-- C30: for a URB that is submitted and in progress, when the channel
disable sequence fails `USBH_STM32_URB_Cancel` returns failure with
`Submitted` already cleared while `InProgress` is still set, `Cancelled` as
it was and every URB slot as it was (the channel's slot still references the
URB); a second cancel of the same URB returns success and changes nothing,
so the URB stays in progress and in the slot. -/
theorem C30_cancel_not_atomic (s : State) (hndl p : Nat) (hh : hndl ≠ 0) (hp : p ≠ 0)
    (hs : (s.URB p).Submitted = true) (hi : (s.URB p).InProgress = true)
    (hd : (USBH_STM32_CH_Disable (modURB s p (fun u => { u with Submitted := false }))
      hndl).2 = false) :
    (USBH_STM32_URB_Cancel s hndl p).2 = false ∧
    ((USBH_STM32_URB_Cancel s hndl p).1.URB p).Submitted = false ∧
    ((USBH_STM32_URB_Cancel s hndl p).1.URB p).InProgress = true ∧
    ((USBH_STM32_URB_Cancel s hndl p).1.URB p).Cancelled = (s.URB p).Cancelled ∧
    (USBH_STM32_URB_Cancel s hndl p).1.CHURB = s.CHURB ∧
    USBH_STM32_URB_Cancel (USBH_STM32_URB_Cancel s hndl p).1 hndl p =
      ((USBH_STM32_URB_Cancel s hndl p).1, true) := by
  have fr := CH_Disable_frame (modURB s p (fun u => { u with Submitted := false })) hndl
  have e := Cancel_disable_fails s hndl p hh hp hs hi hd
  have h1 : ((USBH_STM32_URB_Cancel s hndl p).1.URB p).Submitted = false := by
    rw [e]
    show ((USBH_STM32_CH_Disable _ _).1.URB p).Submitted = false
    rw [fr.urb]
    simp only [modURB, Function.update_same]
  refine ⟨by rw [e], h1, ?_, ?_, ?_, Cancel_not_submitted _ hndl p hh hp h1⟩
  · rw [e]
    show ((USBH_STM32_CH_Disable _ _).1.URB p).InProgress = true
    rw [fr.urb]
    simp only [modURB, Function.update_same]
    exact hi
  · rw [e]
    show ((USBH_STM32_CH_Disable _ _).1.URB p).Cancelled = _
    rw [fr.urb]
    simp only [modURB, Function.update_same]
  · rw [e]
    exact fr.churb

/-- C30, witness: the URB at 0x20002000 is in progress on channel 0 and the
hardware never reports the channel as halted. -/
theorem C30_cancel_not_atomic_witness :
    (USBH_STM32_URB_Cancel busyBulkOut HCCHAR0_ADDR 0x20002000).2 = false ∧
    ((USBH_STM32_URB_Cancel busyBulkOut HCCHAR0_ADDR 0x20002000).1.URB 0x20002000).Submitted
      = false ∧
    ((USBH_STM32_URB_Cancel busyBulkOut HCCHAR0_ADDR 0x20002000).1.URB 0x20002000).InProgress
      = true ∧
    (USBH_STM32_URB_Cancel busyBulkOut HCCHAR0_ADDR 0x20002000).1.CHURB = busyBulkOut.CHURB ∧
    busyBulkOut.CHURB 0 = 0x20002000 ∧
    USBH_STM32_URB_Cancel (USBH_STM32_URB_Cancel busyBulkOut HCCHAR0_ADDR 0x20002000).1
      HCCHAR0_ADDR 0x20002000 =
      ((USBH_STM32_URB_Cancel busyBulkOut HCCHAR0_ADDR 0x20002000).1, true) :=
  have h := C30_cancel_not_atomic busyBulkOut HCCHAR0_ADDR 0x20002000 (by decide) (by decide)
    (by decide) (by decide) (CH_Disable_silent _ _ (by decide) rfl (by decide))
  ⟨h.1, h.2.1, h.2.2.1, h.2.2.2.2.1, by decide, h.2.2.2.2.2⟩

/-! ## Flags are raised by the scheduling pass only -/

theorem Calm_refl (h : Nat → USBH_URB) : Calm h h := fun _ => ⟨id, id⟩

theorem Calm_trans {h1 h2 h3 : Nat → USBH_URB} (a : Calm h1 h2) (b : Calm h2 h3) : Calm h1 h3 :=
  fun q => ⟨fun h => (a q).1 ((b q).1 h), fun h => (a q).2 ((b q).2 h)⟩

theorem calm_modify {h0 h : Nat → USBH_URB} {p : Nat} {v : USBH_URB} (hh : Calm h0 h)
    (hv : (h p).calm v) : Calm h0 (Function.update h p v) := by
  intro r
  by_cases hr : r = p
  · subst hr
    rw [Function.update_same]
    exact ⟨fun x => (hh r).1 (hv.1 x), fun x => (hh r).2 (hv.2 x)⟩
  · rw [Function.update_noteq hr]
    exact hh r

theorem calm_congr {u v : USBH_URB} (hs : v.Submitted = u.Submitted)
    (hi : v.InProgress = u.InProgress) : u.calm v :=
  ⟨fun h => hs ▸ h, fun h => hi ▸ h⟩

theorem Cancel_calm (h0 : Nat → USBH_URB) (s : State) (hndl ptrURB : Nat)
    (hinv : Calm h0 s.URB) : Calm h0 (USBH_STM32_URB_Cancel s hndl ptrURB).1.URB := by
  by_cases hh : hndl = 0
  · unfold USBH_STM32_URB_Cancel; simp only [hh, if_true]; exact hinv
  by_cases hu : ptrURB = 0
  · unfold USBH_STM32_URB_Cancel; simp only [hh, hu, if_true, if_false]; exact hinv
  by_cases hs : (s.URB ptrURB).Submitted = false
  · rw [Cancel_not_submitted s hndl ptrURB hh hu hs]; exact hinv
  have hs1 : (s.URB ptrURB).Submitted = true := by simpa using hs
  by_cases hi : (s.URB ptrURB).InProgress = true
  · by_cases hd : (USBH_STM32_CH_Disable (modURB s ptrURB (fun u => { u with Submitted := false }))
        hndl).2 = true
    · rw [Cancel_disable_ok s hndl ptrURB hh hu hs1 hi hd]
      simp only [modURB_URB, setCHURB_URB, CH_Disable_URB, Function.update_same,
        Function.update_idem]
      refine calm_modify hinv ⟨fun h => ?_, fun h => ?_⟩ <;>
        first | exact h | exact Bool.noConfusion h
    · rw [Cancel_disable_fails s hndl ptrURB hh hu hs1 hi (by simpa using hd)]
      simp only [modURB_URB, CH_Disable_URB]
      refine calm_modify hinv ⟨fun h => ?_, fun h => ?_⟩ <;>
        first | exact h | exact Bool.noConfusion h
  · rw [Cancel_pending s hndl ptrURB hh hu hs1 (by simpa using hi)]
    simp only [modURB_URB, setCHURB_URB, Function.update_same, Function.update_idem]
    refine calm_modify hinv ⟨fun h => ?_, fun h => ?_⟩ <;>
      first | exact h | exact Bool.noConfusion h

theorem irq_sof_timeout_calm (h0 : Nat → USBH_URB) (s : State) (ch : Nat)
    (hinv : Calm h0 s.URB) : Calm h0 (irq_sof_timeout s ch).URB := by
  unfold irq_sof_timeout
  simp only []
  split_ifs
  · simp only [modURB_URB, Function.update_same, Function.update_idem]
    exact calm_modify hinv (calm_congr rfl rfl)
  · simp only [modURB_URB]
    exact calm_modify hinv (calm_congr rfl rfl)
  · exact hinv
  · exact hinv

theorem irq_discon_cancel_calm (h0 : Nat → USBH_URB) (s : State) (ch : Nat)
    (hinv : Calm h0 s.URB) : Calm h0 (irq_discon_cancel s ch).URB := by
  unfold irq_discon_cancel
  split_ifs
  · exact Cancel_calm h0 s _ _ hinv
  · exact hinv

theorem irq_rx_words_calm (h0 : Nat → USBH_URB) (n : Nat) (s : State) (p a : Nat)
    (hinv : Calm h0 s.URB) : Calm h0 (irq_rx_words n s p a).1.URB := by
  induction n generalizing s a with
  | zero => exact hinv
  | succ n ih =>
    unfold irq_rx_words
    apply ih
    simp only [modURB_URB, storeByte_URB, fifoRead_URB]
    exact calm_modify hinv (calm_congr rfl rfl)

theorem irq_rx_bytes_calm (h0 : Nat → USBH_URB) (n : Nat) (s : State) (p a dat : Nat)
    (hinv : Calm h0 s.URB) : Calm h0 (irq_rx_bytes n s p a dat).URB := by
  induction n generalizing s a dat with
  | zero => exact hinv
  | succ n ih =>
    unfold irq_rx_bytes
    apply ih
    simp only [modURB_URB, storeByte_URB]
    exact calm_modify hinv (calm_congr rfl rfl)

theorem irq_rx_calm (h0 : Nat → USBH_URB) (s t : State) (h : irq_rx s = some t)
    (hinv : Calm h0 s.URB) : Calm h0 t.URB := by
  unfold irq_rx at h
  simp only [] at h
  split_ifs at h
  · injection h with h
    rw [← h]
    show Calm h0 (irq_rx_bytes _ _ _ _ _).URB
    apply irq_rx_bytes_calm
    rw [fifoRead_URB]
    apply irq_rx_words_calm
    exact hinv
  · injection h with h
    rw [← h]
    show Calm h0 (irq_rx_words _ _ _ _).1.URB
    apply irq_rx_words_calm
    exact hinv
  · injection h with h
    rw [← h]
    exact hinv

theorem irq_retry_test_calm (h0 : Nat → USBH_URB) (s : State) (ch p : Nat)
    (hinv : Calm h0 s.URB) : Calm h0 (irq_retry_test s ch p).1.URB := by
  unfold irq_retry_test
  split_ifs
  · simp only [modURB_URB]
    exact calm_modify hinv (calm_congr rfl rfl)
  · exact hinv

theorem irq_chh_out_calm (h0 : Nat → USBH_URB) (s : State) (ch p : Nat)
    (hinv : Calm h0 s.URB) : Calm h0 (irq_chh_out s ch p).URB := by
  have h1 := irq_retry_test_calm h0 s ch p hinv
  unfold irq_chh_out
  simp only []
  split_ifs
  · simp only [modURB_URB, TransferEnqueue_URB]
    exact calm_modify h1 (calm_congr rfl rfl)
  · simp only [modURB_URB, setCHURB_URB, wrHCINTMSK_URB, Function.update_same,
      Function.update_idem]
    refine calm_modify h1 ⟨fun h => ?_, fun h => ?_⟩ <;>
      first | exact h | exact Bool.noConfusion h

theorem irq_ch_out_calm (h0 : Nat → USBH_URB) (s : State) (ch p hcint : Nat)
    (hinv : Calm h0 s.URB) : Calm h0 (irq_ch_out s ch p hcint).URB := by
  unfold irq_ch_out
  simp only []
  split_ifs
  all_goals first
    | exact irq_chh_out_calm h0 s ch p hinv
    | exact hinv
    | (simp only [modURB_URB, setCHURB_URB, wrHCINTMSK_URB, wrHCCHAR_URB, DMA_Stop_URB,
         Function.update_same, Function.update_idem]
       first
         | exact calm_modify hinv (calm_congr rfl rfl)
         | (refine calm_modify hinv ⟨fun h => ?_, fun h => ?_⟩ <;>
              first | exact h | exact Bool.noConfusion h))

theorem irq_ch_ping_calm (h0 : Nat → USBH_URB) (s : State) (ch p hcint : Nat)
    (hinv : Calm h0 s.URB) : Calm h0 (irq_ch_ping s ch p hcint).URB := by
  unfold irq_ch_ping
  simp only []
  split_ifs
  all_goals first
    | exact irq_chh_out_calm h0 s ch p hinv
    | exact hinv
    | (simp only [modURB_URB, setCHURB_URB, wrHCINTMSK_URB, wrHCCHAR_URB,
         Function.update_same, Function.update_idem]
       exact calm_modify hinv (calm_congr rfl rfl))

theorem irq_ch_in_calm (h0 : Nat → USBH_URB) (s : State) (ch p hcint : Nat)
    (hinv : Calm h0 s.URB) : Calm h0 (irq_ch_in s ch p hcint).URB := by
  unfold irq_ch_in
  simp only []
  split_ifs
  all_goals first
    | exact hinv
    | (simp only [modURB_URB, setCHURB_URB, wrHCINTMSK_URB, wrHCCHAR_URB,
         Function.update_same, Function.update_idem]
       first
         | exact calm_modify hinv (calm_congr rfl rfl)
         | exact calm_modify (calm_modify hinv (calm_congr rfl rfl)) (calm_congr rfl rfl)
         | exact calm_modify (calm_modify (calm_modify hinv (calm_congr rfl rfl))
             (calm_congr rfl rfl)) (calm_congr rfl rfl)
         | (refine calm_modify hinv ⟨fun h => ?_, fun h => ?_⟩ <;>
              first | exact h | exact Bool.noConfusion h))

theorem irq_channel_calm (h0 : Nat → USBH_URB) (haint : Nat) (s t : State) (ch : Nat)
    (h : irq_channel haint s ch = some t) (hinv : Calm h0 s.URB) : Calm h0 t.URB := by
  unfold irq_channel at h
  simp only [] at h
  have h1 : Calm h0 (modURB s (s.CHURB ch) (fun u => { u with Error :=
      (u.Error ||| (((s.CH ch).HCINT &&& (s.CH ch).HCINTMSK &&& USBH_STM32_HCINT_ERR) >>> 7))
        % 256 })).URB := by
    simp only [modURB_URB]
    exact calm_modify hinv (calm_congr rfl rfl)
  split_ifs at h
  all_goals injection h with h
  all_goals rw [← h]
  all_goals first
    | exact hinv
    | (rw [wrHCINT_URB]
       first
         | exact irq_ch_out_calm h0 _ _ _ _ h1
         | exact irq_ch_ping_calm h0 _ _ _ _ h1
         | exact irq_ch_in_calm h0 _ _ _ _ h1
         | exact h1)

theorem irq_channels_calm (h0 : Nat → USBH_URB) (haint : Nat) (l : List Nat) (s t : State)
    (h : irq_channels haint l s = some t) (hinv : Calm h0 s.URB) : Calm h0 t.URB := by
  induction l generalizing s with
  | nil =>
    unfold irq_channels at h
    injection h with h
    rw [← h]; exact hinv
  | cons ch rest ih =>
    unfold irq_channels at h
    cases hc : irq_channel haint s ch with
    | none => rw [hc] at h; exact Option.noConfusion h
    | some s1 =>
      rw [hc] at h
      exact ih s1 h (irq_channel_calm h0 haint s s1 ch hc hinv)

/-- Up to the scheduling pass an invocation of the handler raises neither
`Submitted` nor `InProgress` of any URB. -/
theorem before_schedule_calm (s s5 : State) (g haint : Nat)
    (h : ((irq_rxflvl (irq_discon_sweep (irq_port (irq_sof_timeouts s g) g s.HPRT)) g).bind
      fun s4 => irq_hcint s4 g haint) = some s5) : Calm s.URB s5.URB := by
  simp only [Option.bind_eq_some] at h
  obtain ⟨s4, h4, h5⟩ := h
  have c1 : Calm s.URB (irq_sof_timeouts s g).URB := by
    unfold irq_sof_timeouts
    generalize channels = l
    split_ifs
    · exact foldl_preserves (fun a => Calm s.URB a.URB) irq_sof_timeout
        (fun a b ha => irq_sof_timeout_calm s.URB a b ha) l s (Calm_refl _)
    · exact Calm_refl _
  have c1p : Calm s.URB (irq_port (irq_sof_timeouts s g) g s.HPRT).URB := by
    rw [irq_port_URB]
    exact c1
  have c2 : Calm s.URB (irq_discon_sweep (irq_port (irq_sof_timeouts s g) g s.HPRT)).URB := by
    unfold irq_discon_sweep
    generalize channels = l
    split_ifs
    · exact foldl_preserves (fun a => Calm s.URB a.URB) irq_discon_cancel
        (fun a b ha => irq_discon_cancel_calm s.URB a b ha) l _ c1p
    · exact c1p
  have c4 : Calm s.URB s4.URB := by
    unfold irq_rxflvl at h4
    split_ifs at h4
    · exact irq_rx_calm s.URB _ s4 h4 c2
    · injection h4 with e; rw [← e]; exact c2
  unfold irq_hcint at h5
  split_ifs at h5
  · cases hc : irq_channels haint channels s4 with
    | none => rw [hc] at h5; exact Option.noConfusion h5
    | some s1 =>
      rw [hc] at h5
      injection h5 with e
      rw [← e]
      exact irq_channels_calm s.URB haint channels s4 s1 hc c4
  · injection h5 with e; rw [← e]; exact c4

/-! ## The scheduling pass -/

/-- One step of the scheduling loop either leaves every URB as it is (and an
active bus active), or, on an inactive bus, starts the URB of the channel:
that URB was submitted and not in progress, it gets `InProgress`, and the bus
is active from then on. -/
theorem irq_schedule_cases (sa : State × Bool) (ch : Nat) :
    ((irq_schedule sa ch).1.URB = sa.1.URB ∧ (irq_schedule sa ch).2 = sa.2) ∨
    (sa.2 = false ∧ (irq_schedule sa ch).2 = true ∧ sa.1.CHURB ch ≠ 0 ∧
      (sa.1.URB (sa.1.CHURB ch)).Submitted = true ∧
      (sa.1.URB (sa.1.CHURB ch)).InProgress = false ∧
      (irq_schedule sa ch).1.URB = Function.update sa.1.URB (sa.1.CHURB ch)
        { sa.1.URB (sa.1.CHURB ch) with InProgress := true }) := by
  unfold irq_schedule
  simp only []
  split_ifs with h1 h2 h3 h4 h5 h6 h7 h8 h9
  all_goals first
    | exact Or.inl ⟨rfl, rfl⟩
    | (refine Or.inr ⟨by assumption, rfl, h1, h2.1, h2.2, ?_⟩
       rw [TransferEnqueue_URB]
       rfl)

theorem passDone_step (s0 : State) (sa : State × Bool) (ch : Nat) (h : passDone s0 sa) :
    passDone s0 (irq_schedule sa ch) := by
  rcases irq_schedule_cases sa ch with ⟨e1, e2⟩ | ⟨a, b, c, d, e, f⟩
  · rcases h with h | ⟨h1, h2⟩
    · exact Or.inl (e1.trans h)
    · exact Or.inr ⟨e2.trans h1, by rw [e1]; exact h2⟩
  · rcases h with h | ⟨h1, _⟩
    · refine Or.inr ⟨b, sa.1.CHURB ch, c, by rw [← h]; exact d, by rw [← h]; exact e, ?_⟩
      rw [f, h]
    · rw [a] at h1
      exact Bool.noConfusion h1

/-- The scheduling pass changes the URBs in at most one place: nothing, or
one URB that was submitted and not in progress gets `InProgress`. -/
theorem irq_sof_schedule_done (s : State) (g : Nat) :
    (irq_sof_schedule s g).URB = s.URB ∨
    ∃ r, r ≠ 0 ∧ (s.URB r).Submitted = true ∧ (s.URB r).InProgress = false ∧
      (irq_sof_schedule s g).URB = Function.update s.URB r { s.URB r with InProgress := true } := by
  have key : ∀ act, passDone s (channels.foldl irq_schedule (s, act)) := fun act => by
    generalize channels = l
    exact foldl_preserves (passDone s) irq_schedule (fun a b ha => passDone_step s a b ha) l
      (s, act) (Or.inl rfl)
  unfold irq_sof_schedule
  simp only []
  split_ifs
  · rcases key true with h | ⟨_, h⟩
    · exact Or.inl h
    · exact Or.inr h
  · rcases key (irq_bus_active s channels) with h | ⟨_, h⟩
    · exact Or.inl h
    · exact Or.inr h
  · exact Or.inl rfl

theorem schedule_active_step (s0 : State) (sa : State × Bool) (ch : Nat)
    (h : sa.2 = true ∧ sa.1.URB = s0.URB) :
    (irq_schedule sa ch).2 = true ∧ (irq_schedule sa ch).1.URB = s0.URB := by
  rcases irq_schedule_cases sa ch with ⟨e1, e2⟩ | ⟨a, _⟩
  · exact ⟨e2.trans h.1, e1.trans h.2⟩
  · rw [h.1] at a
    exact Bool.noConfusion a

theorem irq_bus_active_of_mem (s : State) (l : List Nat) (ch : Nat) (hm : ch ∈ l)
    (h0 : s.CHURB ch ≠ 0) (hi : (s.URB (s.CHURB ch)).InProgress = true) :
    irq_bus_active s l = true := by
  induction l with
  | nil => exact absurd hm (List.not_mem_nil ch)
  | cons c l ih =>
    unfold irq_bus_active
    by_cases hc : s.CHURB c ≠ 0 ∧ (s.URB (s.CHURB c)).InProgress = true
    · rw [if_pos hc]
    · rw [if_neg hc]
      rcases List.mem_cons.mp hm with e | e
      · exact absurd ⟨e ▸ h0, e ▸ hi⟩ hc
      · exact ih e

/-- With the bus active at the start of the scheduling pass (`HW_Accessing`
set, or the URB of some channel in progress) the pass changes no URB. -/
theorem irq_sof_schedule_active (s : State) (g : Nat)
    (h : s.HW_Accessing = true ∨ ∃ ch, ch < OTG_FS_MAX_CH ∧ s.CHURB ch ≠ 0 ∧
      (s.URB (s.CHURB ch)).InProgress = true) :
    (irq_sof_schedule s g).URB = s.URB := by
  have key : (channels.foldl irq_schedule (s, true)).1.URB = s.URB := by
    generalize channels = l
    exact (foldl_preserves (fun a => a.2 = true ∧ a.1.URB = s.URB) irq_schedule
      (fun a b ha => schedule_active_step s a b ha) l (s, true) ⟨rfl, rfl⟩).2
  unfold irq_sof_schedule
  simp only []
  split_ifs with h1 h2
  · exact key
  · rcases h with h | ⟨ch, hch, h0, hi⟩
    · exact absurd h h2
    · have hm : ch ∈ channels := by
        have h8 : ch < 8 := hch
        interval_cases ch <;> decide
      rw [irq_bus_active_of_mem s channels ch hm h0 hi]
      exact key
  · rfl

/-- One invocation of the handler: `Submitted` is raised for no URB, and
`InProgress` is raised for at most one URB, which was submitted. -/
theorem IRQHandler_starts (s t : State) (h : USBH_FS_IRQHandler s = some t) :
    (∀ q, (t.URB q).Submitted = true → (s.URB q).Submitted = true) ∧
    (∀ q, (t.URB q).InProgress = true →
      (s.URB q).InProgress = true ∨ (s.URB q).Submitted = true) ∧
    ∃ r, ∀ q, q ≠ r → (t.URB q).InProgress = true → (s.URB q).InProgress = true := by
  unfold USBH_FS_IRQHandler at h
  simp only [Option.bind_eq_some, Option.map_eq_some'] at h
  obtain ⟨s4, h4, s5, h5, e⟩ := h
  have c : Calm s.URB s5.URB :=
    before_schedule_calm s s5 (s.GINTSTS &&& s.GINTMSK) s.HAINT (by rw [h4]; exact h5)
  rcases irq_sof_schedule_done { s5 with GINTSTS := s.GINTSTS &&& s.GINTMSK }
    (s.GINTSTS &&& s.GINTMSK) with d | ⟨r, _, d1, _, d3⟩
  · rw [e] at d
    have d' : t.URB = s5.URB := d
    rw [d']
    exact ⟨fun q => (c q).1, fun q hq => Or.inl ((c q).2 hq), 0, fun q _ => (c q).2⟩
  · rw [e] at d3
    have d' : t.URB = Function.update s5.URB r { s5.URB r with InProgress := true } := d3
    have dsub : (s5.URB r).Submitted = true := d1
    rw [d']
    refine ⟨fun q hq => ?_, fun q hq => ?_, r, fun q hne hq => ?_⟩
    · by_cases hr : q = r
      · subst hr
        rw [Function.update_same] at hq
        exact (c q).1 hq
      · rw [Function.update_noteq hr] at hq
        exact (c q).1 hq
    · by_cases hr : q = r
      · subst hr
        exact Or.inr ((c q).1 dsub)
      · rw [Function.update_noteq hr] at hq
        exact Or.inl ((c q).2 hq)
    · rw [Function.update_noteq hne] at hq
      exact (c q).2 hq

/-- The countdown of a pending interrupt-endpoint URB in one step of the
scheduling loop. -/
theorem irq_schedule_countdown (sa : State × Bool) (ch p : Nat) (hsl : sa.1.CHURB ch = p)
    (hp0 : p ≠ 0) (hsub : (sa.1.URB p).Submitted = true)
    (hinp : (sa.1.URB p).InProgress = false)
    (hty : (sa.1.CH ch).EPTYP = USB_ENDPOINT_TYPE_INTERRUPT) :
    (irq_schedule sa ch).1.cntInterval ch =
      (if sa.1.cntInterval ch = 0 then 0
        else if sa.2 = true ∧ sa.1.cntInterval ch = 1 then 1
        else sa.1.cntInterval ch - 1) ∧
    (((irq_schedule sa ch).1.URB p).InProgress = true ↔
      (sa.2 = false ∧ (irq_schedule sa ch).1.cntInterval ch = 0)) := by
  obtain ⟨s, act⟩ := sa
  simp only [] at hsl hsub hinp hty
  unfold irq_schedule
  simp only [hsl, hp0, hsub, hinp, hty, ne_eq, not_false_eq_true, and_self, if_true]
  cases act
  · by_cases h0 : s.cntInterval ch = 0
    · simp [h0, modURB, (TransferEnqueue_frame _ _ _ _ _).cnt, TransferEnqueue_URB]
    · by_cases h1 : s.cntInterval ch = 1
      · simp [h0, h1, modURB, (TransferEnqueue_frame _ _ _ _ _).cnt, TransferEnqueue_URB]
      · have h2 : s.cntInterval ch - 1 ≠ 0 := by omega
        simp [h0, h1, h2, hinp]
  · by_cases h0 : s.cntInterval ch = 0
    · simp [h0, hinp]
    · by_cases h1 : s.cntInterval ch = 1
      · simp [h0, h1, hinp]
      · have h2 : s.cntInterval ch > 1 := by omega
        simp [h0, h1, h2, hinp]

theorem some_getD_of_isSome {α : Type} (o : Option α) (d : α) (h : o.isSome = true) :
    o = some (o.getD d) := by
  cases o with
  | none => exact Bool.noConfusion h
  | some a => rfl

/-- C24: in one invocation of the handler at most one URB goes from not in
progress to in progress, and that URB was submitted.  The scheduling pass
changes the URBs in at most one place (one submitted URB that is not in
progress gets `InProgress`), and in none when at its start `HW_Accessing` is
set or the URB of some channel is in progress.  For a pending URB of an
interrupt endpoint one step of the scheduling loop decrements a non-zero
`cntInterval[ch]` by one, except that it holds it at 1 while the bus is
active, and starts the URB exactly when the bus is inactive and the
countdown is zero. -/
theorem C24_schedule_pass (s t u : State) (g : Nat) (sa : State × Bool) (ch p : Nat)
    (h : USBH_FS_IRQHandler s = some t) :
    (∀ q1 q2, (s.URB q1).InProgress = false → (t.URB q1).InProgress = true →
      (s.URB q2).InProgress = false → (t.URB q2).InProgress = true → q1 = q2) ∧
    (∀ q, (s.URB q).InProgress = false → (t.URB q).InProgress = true →
      (s.URB q).Submitted = true) ∧
    ((irq_sof_schedule u g).URB = u.URB ∨
      ∃ r, r ≠ 0 ∧ (u.URB r).Submitted = true ∧ (u.URB r).InProgress = false ∧
        (irq_sof_schedule u g).URB =
          Function.update u.URB r { u.URB r with InProgress := true }) ∧
    ((u.HW_Accessing = true ∨ ∃ c, c < OTG_FS_MAX_CH ∧ u.CHURB c ≠ 0 ∧
        (u.URB (u.CHURB c)).InProgress = true) →
      (irq_sof_schedule u g).URB = u.URB) ∧
    (sa.1.CHURB ch = p → p ≠ 0 → (sa.1.URB p).Submitted = true →
      (sa.1.URB p).InProgress = false →
      (sa.1.CH ch).EPTYP = USB_ENDPOINT_TYPE_INTERRUPT →
      (irq_schedule sa ch).1.cntInterval ch =
        (if sa.1.cntInterval ch = 0 then 0
          else if sa.2 = true ∧ sa.1.cntInterval ch = 1 then 1
          else sa.1.cntInterval ch - 1) ∧
      (((irq_schedule sa ch).1.URB p).InProgress = true ↔
        (sa.2 = false ∧ (irq_schedule sa ch).1.cntInterval ch = 0))) := by
  obtain ⟨_, a2, r, a3⟩ := IRQHandler_starts s t h
  have key : ∀ q, (s.URB q).InProgress = false → (t.URB q).InProgress = true → q = r := by
    intro q hq0 hq1
    by_contra hne
    have := a3 q hne hq1
    rw [hq0] at this
    exact Bool.noConfusion this
  refine ⟨fun q1 q2 h1 h2 h3 h4 => (key q1 h1 h2).trans (key q2 h3 h4).symm,
    fun q hq0 hq1 => ?_, irq_sof_schedule_done u g, irq_sof_schedule_active u g,
    irq_schedule_countdown sa ch p⟩
  rcases a2 q hq1 with e | e
  · rw [hq0] at e
    exact Bool.noConfusion e
  · exact e

/-- C24, witness: the fresh URB on the interrupt IN endpoint and one
start-of-frame interrupt: the URB at 0x20003000 is the one that is started,
its countdown going from 1 to 0 on the inactive bus. -/
theorem C24_schedule_pass_witness :
    ∃ t, USBH_FS_IRQHandler sofPending = some t ∧
      (sofPending.URB 0x20003000).InProgress = false ∧
      (t.URB 0x20003000).InProgress = true ∧
      (∀ q, (sofPending.URB q).InProgress = false → (t.URB q).InProgress = true →
        q = 0x20003000) ∧
      (irq_schedule (sofPending, false) 0).1.cntInterval 0 = 0 :=
  have hs : USBH_FS_IRQHandler sofPending =
      some ((USBH_FS_IRQHandler sofPending).getD sofPending) :=
    some_getD_of_isSome _ _ (by decide)
  have ht : (((USBH_FS_IRQHandler sofPending).getD sofPending).URB 0x20003000).InProgress
      = true := by
    decide
  have H := C24_schedule_pass sofPending ((USBH_FS_IRQHandler sofPending).getD sofPending)
    sofPending USBH_STM32_GINTSTS_SOF (sofPending, false) 0 0x20003000 hs
  ⟨_, hs, by decide, ht,
    fun q a b => H.1 q 0x20003000 a b (by decide) ht,
    (H.2.2.2.2 (by decide) (by decide) (by decide) (by decide) (by decide)).1.trans (by decide)⟩

/-! ## Submit on an isochronous endpoint -/

/-- The submit of a URB on an isochronous channel: the URB is reset and put
into the slot, and nothing else happens. -/
theorem Submit_iso_eq (s : State) (hndl p mc : Nat) (hh : hndl ≠ 0) (hp : p ≠ 0)
    (hc : s.Port_Con ≠ 0) (hs : (s.URB p).Submitted = false)
    (hi : (s.URB p).InProgress = false)
    (hty : (s.CH (USBH_STM32_CH_GetIndexFromCH hndl)).EPTYP = USB_ENDPOINT_TYPE_ISOCHRONOUS) :
    USBH_STM32_URB_Submit s hndl p mc =
      (setCHURB (modURB (modURB (modURB s p
          (fun u => { u with DataTransferred := 0 })) p USBH_URB.clearStatus) p
          (fun u => { u with TimeoutCount := MAX_TIMEOUT_COUNT }))
          (USBH_STM32_CH_GetIndexFromCH hndl) p, true) := by
  have hfl : ¬ ((s.URB p).Submitted = true ∨ (s.URB p).InProgress = true) := by
    simp [hs, hi]
  have c1 : ¬ (((setCHURB (modURB (modURB (modURB s p
      (fun u => { u with DataTransferred := 0 })) p USBH_URB.clearStatus) p
      (fun u => { u with TimeoutCount := MAX_TIMEOUT_COUNT }))
      (USBH_STM32_CH_GetIndexFromCH hndl) p).CH (USBH_STM32_CH_GetIndexFromCH hndl)).EPTYP =
        USB_ENDPOINT_TYPE_INTERRUPT) := by
    show ¬ ((s.CH (USBH_STM32_CH_GetIndexFromCH hndl)).EPTYP = USB_ENDPOINT_TYPE_INTERRUPT)
    rw [hty]
    decide
  have c2 : ¬ (((setCHURB (modURB (modURB (modURB s p
      (fun u => { u with DataTransferred := 0 })) p USBH_URB.clearStatus) p
      (fun u => { u with TimeoutCount := MAX_TIMEOUT_COUNT }))
      (USBH_STM32_CH_GetIndexFromCH hndl) p).CH (USBH_STM32_CH_GetIndexFromCH hndl)).EPTYP =
        USB_ENDPOINT_TYPE_CONTROL ∨
      ((setCHURB (modURB (modURB (modURB s p
      (fun u => { u with DataTransferred := 0 })) p USBH_URB.clearStatus) p
      (fun u => { u with TimeoutCount := MAX_TIMEOUT_COUNT }))
      (USBH_STM32_CH_GetIndexFromCH hndl) p).CH (USBH_STM32_CH_GetIndexFromCH hndl)).EPTYP =
        USB_ENDPOINT_TYPE_BULK) := by
    show ¬ ((s.CH (USBH_STM32_CH_GetIndexFromCH hndl)).EPTYP = USB_ENDPOINT_TYPE_CONTROL ∨
      (s.CH (USBH_STM32_CH_GetIndexFromCH hndl)).EPTYP = USB_ENDPOINT_TYPE_BULK)
    rw [hty]
    decide
  unfold USBH_STM32_URB_Submit
  simp only [hh, hp, hc, hfl, if_false]
  rw [if_neg c1, if_neg c2]

theorem land_land_disjoint (a m b : Nat) (h : a &&& b = 0) : a &&& m &&& b = 0 := by
  rw [Nat.land_assoc, Nat.land_comm m b, ← Nat.land_assoc, h, Nat.zero_and]

/-- A URB that is neither submitted nor in progress stays so over one
start-of-frame interrupt, and the handler returns. -/
theorem sof_keeps_idle (a : State) (p : Nat) (hs : (a.URB p).Submitted = false)
    (hi : (a.URB p).InProgress = false) :
    ∃ b, USBH_FS_IRQHandler (raiseSOF a) = some b ∧ (b.URB p).Submitted = false ∧
      (b.URB p).InProgress = false := by
  obtain ⟨b, hb⟩ := IRQHandler_total (raiseSOF a)
    (land_land_disjoint _ _ _
      (show USBH_STM32_GINTSTS_SOF &&& USBH_STM32_GINTSTS_RXFLVL = 0 by decide))
    (land_land_disjoint _ _ _
      (show USBH_STM32_GINTSTS_SOF &&& USBH_STM32_GINTSTS_HCINT = 0 by decide))
  obtain ⟨a1, a2, _⟩ := IRQHandler_starts (raiseSOF a) b hb
  refine ⟨b, hb, ?_, ?_⟩
  · by_contra hne
    have h1 := a1 p (by simpa using hne)
    have h2 : (a.URB p).Submitted = true := h1
    rw [hs] at h2
    exact Bool.noConfusion h2
  · by_contra hne
    rcases a2 p (by simpa using hne) with e | e
    · have e2 : (a.URB p).InProgress = true := e
      rw [hi] at e2
      exact Bool.noConfusion e2
    · have e2 : (a.URB p).Submitted = true := e
      rw [hs] at e2
      exact Bool.noConfusion e2

theorem sofIrqs_keep_idle (n : Nat) (a : State) (p : Nat) (hs : (a.URB p).Submitted = false)
    (hi : (a.URB p).InProgress = false) :
    ∃ b, sofIrqs n a = some b ∧ (b.URB p).Submitted = false ∧ (b.URB p).InProgress = false := by
  induction n generalizing a with
  | zero => exact ⟨a, rfl, hs, hi⟩
  | succ n ih =>
    obtain ⟨b, hb, h1, h2⟩ := sof_keeps_idle a p hs hi
    rw [sofIrqs_succ n a b hb]
    exact ih b h1 h2

/-- The scheduling pass leaves a URB that is not submitted as it is. -/
theorem irq_sof_schedule_not_submitted (a : State) (g p : Nat)
    (hs : (a.URB p).Submitted = false) : (irq_sof_schedule a g).URB p = a.URB p := by
  rcases irq_sof_schedule_done a g with e | ⟨r, _, e1, _, e3⟩
  · rw [e]
  · have hne : p ≠ r := by
      intro e
      rw [← e, hs] at e1
      exact Bool.noConfusion e1
    rw [e3, Function.update_noteq hne]

/-- C29: on a channel whose endpoint type is isochronous, with the port
connected and a URB that is neither submitted nor in progress,
`USBH_STM32_URB_Submit` returns success and stores the URB in the channel's
slot, but leaves `Submitted` and `InProgress` clear and writes no channel
register; no scheduling pass changes that URB, and after any number of
start-of-frame interrupts it is still neither submitted nor in progress. -/
theorem C29_submit_isochronous (s : State) (hndl p mc : Nat) (hh : hndl ≠ 0) (hp : p ≠ 0)
    (hc : s.Port_Con ≠ 0) (hs : (s.URB p).Submitted = false)
    (hi : (s.URB p).InProgress = false)
    (hty : (s.CH (USBH_STM32_CH_GetIndexFromCH hndl)).EPTYP = USB_ENDPOINT_TYPE_ISOCHRONOUS) :
    (USBH_STM32_URB_Submit s hndl p mc).2 = true ∧
    (USBH_STM32_URB_Submit s hndl p mc).1.CHURB (USBH_STM32_CH_GetIndexFromCH hndl) = p ∧
    ((USBH_STM32_URB_Submit s hndl p mc).1.URB p).Submitted = false ∧
    ((USBH_STM32_URB_Submit s hndl p mc).1.URB p).InProgress = false ∧
    (USBH_STM32_URB_Submit s hndl p mc).1.CH = s.CH ∧
    (USBH_STM32_URB_Submit s hndl p mc).1.log = s.log ∧
    (∀ g, (irq_sof_schedule (USBH_STM32_URB_Submit s hndl p mc).1 g).URB p =
      (USBH_STM32_URB_Submit s hndl p mc).1.URB p) ∧
    (∀ n, ∃ u, sofIrqs n (USBH_STM32_URB_Submit s hndl p mc).1 = some u ∧
      (u.URB p).Submitted = false ∧ (u.URB p).InProgress = false) := by
  rw [Submit_iso_eq s hndl p mc hh hp hc hs hi hty]
  have f1 : ((setCHURB (modURB (modURB (modURB s p
      (fun u => { u with DataTransferred := 0 })) p USBH_URB.clearStatus) p
      (fun u => { u with TimeoutCount := MAX_TIMEOUT_COUNT }))
      (USBH_STM32_CH_GetIndexFromCH hndl) p).URB p).Submitted = false := by
    simp only [setCHURB, modURB, Function.update_same, USBH_URB.clearStatus]
  have f2 : ((setCHURB (modURB (modURB (modURB s p
      (fun u => { u with DataTransferred := 0 })) p USBH_URB.clearStatus) p
      (fun u => { u with TimeoutCount := MAX_TIMEOUT_COUNT }))
      (USBH_STM32_CH_GetIndexFromCH hndl) p).URB p).InProgress = false := by
    simp only [setCHURB, modURB, Function.update_same, USBH_URB.clearStatus]
  refine ⟨rfl, ?_, f1, f2, rfl, rfl, fun g => irq_sof_schedule_not_submitted _ g p f1,
    fun n => sofIrqs_keep_idle n _ p f1 f2⟩
  simp only [setCHURB, Function.update_same]

/-- C29, witness: the IN URB at 0x20003000 submitted on the isochronous IN
endpoint of device 5 (channel 0). -/
theorem C29_submit_isochronous_witness :
    (USBH_STM32_URB_Submit (USBH_STM32_EP_Add connectedFS 5 USBH_FS epIsoIn).1 HCCHAR0_ADDR
      0x20003000 0).2 = true ∧
    (USBH_STM32_URB_Submit (USBH_STM32_EP_Add connectedFS 5 USBH_FS epIsoIn).1 HCCHAR0_ADDR
      0x20003000 0).1.CHURB (USBH_STM32_CH_GetIndexFromCH HCCHAR0_ADDR) = 0x20003000 ∧
    ∀ n, ∃ u, sofIrqs n (USBH_STM32_URB_Submit (USBH_STM32_EP_Add connectedFS 5 USBH_FS
        epIsoIn).1 HCCHAR0_ADDR 0x20003000 0).1 = some u ∧
      (u.URB 0x20003000).Submitted = false ∧ (u.URB 0x20003000).InProgress = false :=
  have h := C29_submit_isochronous (USBH_STM32_EP_Add connectedFS 5 USBH_FS epIsoIn).1
    HCCHAR0_ADDR 0x20003000 0 (by decide) (by decide) (by decide) (by decide) (by decide)
    (by decide)
  ⟨h.1, h.2.1, h.2.2.2.2.2.2.2⟩

/-! ## The branches of the channel interrupt -/

/-- The channel interrupt of a flagged channel with a URB: the error bits of
the causes are added to the URB's error field, the branch of the URB's packet
kind runs, and the causes are cleared. -/
theorem irq_channel_dispatch (haint : Nat) (s : State) (ch p : Nat)
    (hfl : haint &&& (1 <<< ch) ≠ 0) (hsl : s.CHURB ch = p) (hp0 : p ≠ 0) :
    ∃ k, irq_channel haint s ch =
      some (wrHCINT
        (if (s.URB p).PacketType = USBH_PACKET_OUT ∨ (s.URB p).PacketType = USBH_PACKET_SETUP
          then irq_ch_out (modURB s p (fun u => { u with Error := (u.Error ||| k) % 256 })) ch p
            ((s.CH ch).HCINT &&& (s.CH ch).HCINTMSK)
          else if (s.URB p).PacketType = USBH_PACKET_PING
          then irq_ch_ping (modURB s p (fun u => { u with Error := (u.Error ||| k) % 256 })) ch p
            ((s.CH ch).HCINT &&& (s.CH ch).HCINTMSK)
          else if (s.URB p).PacketType = USBH_PACKET_IN
          then irq_ch_in (modURB s p (fun u => { u with Error := (u.Error ||| k) % 256 })) ch p
            ((s.CH ch).HCINT &&& (s.CH ch).HCINTMSK)
          else modURB s p (fun u => { u with Error := (u.Error ||| k) % 256 })) ch 0x7FF) := by
  refine ⟨((s.CH ch).HCINT &&& (s.CH ch).HCINTMSK &&& USBH_STM32_HCINT_ERR) >>> 7, ?_⟩
  have hpt : ((modURB s p (fun u => { u with Error :=
      (u.Error ||| (((s.CH ch).HCINT &&& (s.CH ch).HCINTMSK &&& USBH_STM32_HCINT_ERR) >>> 7))
        % 256 })).URB p).PacketType = (s.URB p).PacketType := by
    simp [modURB, USBH_URB.PacketType]
  unfold irq_channel
  simp only [hfl, hsl, hp0, hpt, ne_eq, not_false_eq_true, if_true, if_false]

theorem irq_ch_out_chh (s : State) (ch p hcint : Nat) (h : chhBranchOut hcint) :
    irq_ch_out s ch p hcint = irq_chh_out s ch p := by
  obtain ⟨h1, h2, h3, h4, h5, h6⟩ := h
  unfold irq_ch_out
  simp only [h1, h2, h3, h4, h5, h6, ne_eq, not_true_eq_false, not_false_eq_true, or_self,
    if_true, if_false]

theorem irq_ch_ping_chh (s : State) (ch p hcint : Nat) (h : chhBranchPing hcint) :
    irq_ch_ping s ch p hcint = irq_chh_out s ch p := by
  obtain ⟨h1, h2, h3, h4⟩ := h
  unfold irq_ch_ping
  simp only [h1, h2, h3, h4, ne_eq, not_true_eq_false, not_false_eq_true, or_self,
    if_true, if_false]

/-- The channel-halted branch of an IN channel finalizes the URB and calls
its completion callback when there is one. -/
theorem irq_ch_in_chh_eq (s : State) (ch p hcint : Nat) (h : chhBranchIn hcint) :
    irq_ch_in s ch p hcint =
      { setCHURB (modURB (modURB (modURB (wrHCINTMSK s ch 0) p
          (fun u => { u with Submitted := false })) p
          (fun u => { u with InProgress := false })) p
          (fun u => { u with Completed := true })) ch 0 with
        log := s.log ++ [HwOp.wrHCINTMSK ch 0] ++
          (if (s.URB p).CompletedCallback ≠ 0 then [HwOp.callback (s.URB p).CompletedCallback]
            else []) } := by
  obtain ⟨h1, h2, h3, h4, h5, h6⟩ := h
  unfold irq_ch_in
  simp only [h1, h2, h3, h4, h5, h6, ne_eq, not_true_eq_false, not_false_eq_true, or_self,
    if_true, if_false]
  by_cases hc : (s.URB p).CompletedCallback = 0
  · simp [hc, setCHURB, modURB, wrHCINTMSK]
  · simp [hc, setCHURB, modURB, wrHCINTMSK]

/-- The channel-halted branch of OUT, SETUP and PING when the retry test
fails: the URB is finalized, no callback is called. -/
theorem irq_chh_out_final (s : State) (ch p : Nat)
    (hno : (irq_retry_test s ch p).2 = false) :
    irq_chh_out s ch p =
      setCHURB (modURB (modURB (modURB (wrHCINTMSK (irq_retry_test s ch p).1 ch 0) p
        (fun u => { u with Submitted := false })) p
        (fun u => { u with InProgress := false })) p
        (fun u => { u with Completed := true })) ch 0 := by
  unfold irq_chh_out
  simp only [hno, Bool.false_eq_true, if_false]

/-- The retry test when it is not taken as far as the retry count: nothing
changes. -/
theorem irq_retry_test_skip (s : State) (ch p : Nat)
    (h : (s.CH ch).EPTYP = USB_ENDPOINT_TYPE_INTERRUPT ∨
      (s.URB p).ResponsePacketType ≠ USBH_PACKET_NAK) :
    irq_retry_test s ch p = (s, false) := by
  unfold irq_retry_test
  rw [if_neg]
  intro hc
  rcases h with h | h
  · exact hc.1 h
  · exact h hc.2

/-- The retry test when it reaches the retry count: the count is
decremented, and the retry is taken when it was not 0. -/
theorem irq_retry_test_count (s : State) (ch p : Nat)
    (hty : (s.CH ch).EPTYP ≠ USB_ENDPOINT_TYPE_INTERRUPT)
    (hr : (s.URB p).ResponsePacketType = USBH_PACKET_NAK) :
    irq_retry_test s ch p =
      (modURB s (s.CHURB ch) (fun u => { u with NAKRetries := sub32 u.NAKRetries 1 }),
        decide ((s.URB (s.CHURB ch)).NAKRetries ≠ 0)) := by
  unfold irq_retry_test
  rw [if_pos ⟨hty, hr⟩]

theorem callbacks_append (a b : List HwOp) : callbacks (a ++ b) = callbacks a ++ callbacks b := by
  unfold callbacks
  exact List.filterMap_append a b _

theorem irq_retry_test_log (s : State) (ch p : Nat) : (irq_retry_test s ch p).1.log = s.log := by
  unfold irq_retry_test
  split_ifs <;> rfl

theorem irq_retry_test_CH (s : State) (ch p : Nat) : (irq_retry_test s ch p).1.CH = s.CH := by
  unfold irq_retry_test
  split_ifs <;> rfl

theorem irq_retry_test_CHURB (s : State) (ch p : Nat) :
    (irq_retry_test s ch p).1.CHURB = s.CHURB := by
  unfold irq_retry_test
  split_ifs <;> rfl

/-- What the finalizing stores of a channel-halted branch leave behind. -/
theorem chh_final_fields (r : State) (ch p : Nat) :
    ((wrHCINT (setCHURB (modURB (modURB (modURB (wrHCINTMSK r ch 0) p
        (fun u => { u with Submitted := false })) p
        (fun u => { u with InProgress := false })) p
        (fun u => { u with Completed := true })) ch 0) ch 0x7FF).CH ch).HCINTMSK = 0 ∧
    ((wrHCINT (setCHURB (modURB (modURB (modURB (wrHCINTMSK r ch 0) p
        (fun u => { u with Submitted := false })) p
        (fun u => { u with InProgress := false })) p
        (fun u => { u with Completed := true })) ch 0) ch 0x7FF).URB p).Submitted = false ∧
    ((wrHCINT (setCHURB (modURB (modURB (modURB (wrHCINTMSK r ch 0) p
        (fun u => { u with Submitted := false })) p
        (fun u => { u with InProgress := false })) p
        (fun u => { u with Completed := true })) ch 0) ch 0x7FF).URB p).InProgress = false ∧
    ((wrHCINT (setCHURB (modURB (modURB (modURB (wrHCINTMSK r ch 0) p
        (fun u => { u with Submitted := false })) p
        (fun u => { u with InProgress := false })) p
        (fun u => { u with Completed := true })) ch 0) ch 0x7FF).URB p).Completed = true ∧
    (wrHCINT (setCHURB (modURB (modURB (modURB (wrHCINTMSK r ch 0) p
        (fun u => { u with Submitted := false })) p
        (fun u => { u with InProgress := false })) p
        (fun u => { u with Completed := true })) ch 0) ch 0x7FF).CHURB ch = 0 ∧
    (wrHCINT (setCHURB (modURB (modURB (modURB (wrHCINTMSK r ch 0) p
        (fun u => { u with Submitted := false })) p
        (fun u => { u with InProgress := false })) p
        (fun u => { u with Completed := true })) ch 0) ch 0x7FF).log =
      r.log ++ [HwOp.wrHCINTMSK ch 0, HwOp.wrHCINT ch 0x7FF] := by
  refine ⟨?_, ?_, ?_, ?_, ?_, ?_⟩ <;>
    simp [wrHCINT, setCHURB, modURB, wrHCINTMSK]

/-- The retry test fails when the endpoint is an interrupt endpoint, the
last response was not NAK, or no retry is left; the Error field of the URB
plays no part. -/
theorem irq_retry_test_fails (s : State) (ch p k : Nat) (hsl : s.CHURB ch = p)
    (hno : ¬ ((s.CH ch).EPTYP ≠ USB_ENDPOINT_TYPE_INTERRUPT ∧
      (s.URB p).ResponsePacketType = USBH_PACKET_NAK ∧ (s.URB p).NAKRetries ≠ 0)) :
    (irq_retry_test (modURB s p (fun u => { u with Error := (u.Error ||| k) % 256 })) ch p).2
      = false := by
  unfold irq_retry_test
  split_ifs with h
  · have h1 : (s.CH ch).EPTYP ≠ USB_ENDPOINT_TYPE_INTERRUPT := h.1
    have h2 : (s.URB p).ResponsePacketType = USBH_PACKET_NAK := by
      simpa [modURB] using h.2
    have h3 : (s.URB p).NAKRetries = 0 := by
      by_contra h3
      exact hno ⟨h1, h2, h3⟩
    simp [modURB, hsl, h3]
  · rfl

/-- C23: the code at the failing input.  An OUT URB with a completion
callback and no retry budget is in progress on the bulk OUT channel; the
device answers STALL, the channel halts, and the handler finalizes the URB on
the channel-halted cause: mask 0, `Submitted` and `InProgress` clear,
`Completed` set, slot empty, and no call of the callback.  The IN branch,
finalizing an IN URB with the same callback on the same cause, makes the same
stores and calls the callback once. -/
theorem C23_callback_missing :
    (stalledBulkOut.URB 0x20002000).CompletedCallback = 0x08001000 ∧
    (stalledBulkOut.URB 0x20002000).PacketType = USBH_PACKET_OUT ∧
    (channelIrqs 0 [USBH_STM32_HCINT_STALL, USBH_STM32_HCINT_CHH] stalledBulkOut).map
      (fun t => ((t.URB 0x20002000).Completed, (t.URB 0x20002000).CompletedCallback,
        callbacks t.log)) = some (true, 0x08001000, []) ∧
    (channelIrqs 0 [USBH_STM32_HCINT_STALL, USBH_STM32_HCINT_CHH] stalledBulkOut).map
      (fun t => ((t.URB 0x20002000).Submitted, (t.URB 0x20002000).InProgress, t.CHURB 0,
        (t.CH 0).HCINTMSK)) = some (false, false, 0, 0) ∧
    (haltedBulkIn.URB 0x20003000).CompletedCallback = 0x08001000 ∧
    (haltedBulkIn.URB 0x20003000).PacketType = USBH_PACKET_IN ∧
    (irq_channel 1 haltedBulkIn 0).map
      (fun t => ((t.URB 0x20003000).Completed, t.CHURB 0, (t.CH 0).HCINTMSK,
        callbacks t.log)) = some (true, 0, 0, [0x08001000]) := by
  decide

/-- The stores of the finalizing channel-halted branches: the interrupt of a
flagged channel that takes the channel-halted branch and finalizes the URB
(for OUT, SETUP and PING: when the retry test fails) sets the channel's
interrupt mask to 0, clears `Submitted` and `InProgress`, sets `Completed`
and empties the slot.  The log of the IN branch holds the call of the
completion callback, once, when the URB has one; the log of the OUT, SETUP
and PING branches holds the two register stores only. -/
theorem finalize_on_halt (haint : Nat) (s : State) (ch p : Nat)
    (hfl : haint &&& (1 <<< ch) ≠ 0) (hsl : s.CHURB ch = p) (hp0 : p ≠ 0) :
    ((((s.URB p).PacketType = USBH_PACKET_OUT ∨ (s.URB p).PacketType = USBH_PACKET_SETUP) ∧
          chhBranchOut ((s.CH ch).HCINT &&& (s.CH ch).HCINTMSK)) ∨
        ((s.URB p).PacketType = USBH_PACKET_PING ∧
          chhBranchPing ((s.CH ch).HCINT &&& (s.CH ch).HCINTMSK)) →
      ¬ ((s.CH ch).EPTYP ≠ USB_ENDPOINT_TYPE_INTERRUPT ∧
        (s.URB p).ResponsePacketType = USBH_PACKET_NAK ∧ (s.URB p).NAKRetries ≠ 0) →
      ∃ t, irq_channel haint s ch = some t ∧
        (t.CH ch).HCINTMSK = 0 ∧ (t.URB p).Submitted = false ∧
        (t.URB p).InProgress = false ∧ (t.URB p).Completed = true ∧ t.CHURB ch = 0 ∧
        t.log = s.log ++ [HwOp.wrHCINTMSK ch 0, HwOp.wrHCINT ch 0x7FF]) ∧
    ((s.URB p).PacketType = USBH_PACKET_IN →
      chhBranchIn ((s.CH ch).HCINT &&& (s.CH ch).HCINTMSK) →
      ∃ t, irq_channel haint s ch = some t ∧
        (t.CH ch).HCINTMSK = 0 ∧ (t.URB p).Submitted = false ∧
        (t.URB p).InProgress = false ∧ (t.URB p).Completed = true ∧ t.CHURB ch = 0 ∧
        t.log = s.log ++ [HwOp.wrHCINTMSK ch 0] ++
          (if (s.URB p).CompletedCallback ≠ 0 then [HwOp.callback (s.URB p).CompletedCallback]
            else []) ++ [HwOp.wrHCINT ch 0x7FF]) := by
  obtain ⟨k, e⟩ := irq_channel_dispatch haint s ch p hfl hsl hp0
  refine ⟨fun hb hno => ?_, fun hpt hb => ?_⟩
  · have hf := irq_retry_test_fails s ch p k hsl hno
    have hfin : (if (s.URB p).PacketType = USBH_PACKET_OUT ∨
          (s.URB p).PacketType = USBH_PACKET_SETUP
        then irq_ch_out (modURB s p (fun u => { u with Error := (u.Error ||| k) % 256 })) ch p
          ((s.CH ch).HCINT &&& (s.CH ch).HCINTMSK)
        else if (s.URB p).PacketType = USBH_PACKET_PING
        then irq_ch_ping (modURB s p (fun u => { u with Error := (u.Error ||| k) % 256 })) ch p
          ((s.CH ch).HCINT &&& (s.CH ch).HCINTMSK)
        else if (s.URB p).PacketType = USBH_PACKET_IN
        then irq_ch_in (modURB s p (fun u => { u with Error := (u.Error ||| k) % 256 })) ch p
          ((s.CH ch).HCINT &&& (s.CH ch).HCINTMSK)
        else modURB s p (fun u => { u with Error := (u.Error ||| k) % 256 })) =
        irq_chh_out (modURB s p (fun u => { u with Error := (u.Error ||| k) % 256 })) ch p := by
      rcases hb with ⟨hpt, hb⟩ | ⟨hpt, hb⟩
      · rw [if_pos hpt, irq_ch_out_chh _ _ _ _ hb]
      · rw [if_neg (by rw [hpt]; decide), if_pos hpt, irq_ch_ping_chh _ _ _ _ hb]
    rw [e, hfin, irq_chh_out_final _ _ _ hf]
    obtain ⟨f1, f2, f3, f4, f5, f6⟩ := chh_final_fields
      (irq_retry_test (modURB s p (fun u => { u with Error := (u.Error ||| k) % 256 })) ch p).1
      ch p
    refine ⟨_, rfl, f1, f2, f3, f4, f5, ?_⟩
    rw [f6, irq_retry_test_log]
    rfl
  · rw [e, if_neg (by rw [hpt]; decide), if_neg (by rw [hpt]; decide), if_pos hpt,
      irq_ch_in_chh_eq _ _ _ _ hb]
    refine ⟨_, rfl, ?_, ?_, ?_, ?_, ?_, ?_⟩ <;>
      simp [wrHCINT, setCHURB, modURB, wrHCINTMSK]

/-- The IN URB with a completion callback on the bulk IN channel, finalized
on the channel-halted cause: the callback is called once. -/
theorem finalize_on_halt_bulk_in :
    (∃ t, irq_channel 1 haltedBulkIn 0 = some t ∧
      (t.CH 0).HCINTMSK = 0 ∧ (t.URB 0x20003000).Submitted = false ∧
      (t.URB 0x20003000).InProgress = false ∧ (t.URB 0x20003000).Completed = true ∧
      t.CHURB 0 = 0 ∧
      t.log = haltedBulkIn.log ++ [HwOp.wrHCINTMSK 0 0] ++
        (if (haltedBulkIn.URB 0x20003000).CompletedCallback ≠ 0
          then [HwOp.callback (haltedBulkIn.URB 0x20003000).CompletedCallback] else []) ++
        [HwOp.wrHCINT 0 0x7FF]) ∧
    (haltedBulkIn.URB 0x20003000).CompletedCallback = 0x08001000 :=
  ⟨(finalize_on_halt 1 haltedBulkIn 0 0x20003000 (by decide) (by decide) (by decide)).2
    (by decide) (by decide), by decide⟩

/-! ## The retry count in the retry test -/

theorem or_halt_CHDIS (a : Nat) :
    (a ||| (USBH_STM32_HCCHAR_CHENA ||| USBH_STM32_HCCHAR_CHDIS)) &&&
      USBH_STM32_HCCHAR_CHDIS ≠ 0 := by
  rw [or_and_distrib]
  exact lor_ne_zero_right _ (by decide)

/-- The channel-halted branch of OUT, SETUP and PING when the retry test
reaches the retry count: the count is decremented (wrapping at 0), and with
a count of 0 the URB is finalized without a retry. -/
theorem chh_out_counted (r : State) (ch p : Nat) (hsl : r.CHURB ch = p)
    (hty : (r.CH ch).EPTYP ≠ USB_ENDPOINT_TYPE_INTERRUPT)
    (hr : (r.URB p).ResponsePacketType = USBH_PACKET_NAK) :
    ((irq_chh_out r ch p).URB p).NAKRetries = sub32 (r.URB p).NAKRetries 1 ∧
    ((r.URB p).NAKRetries = 0 →
      ((irq_chh_out r ch p).URB p).Completed = true ∧ (irq_chh_out r ch p).CHURB ch = 0 ∧
      (irq_chh_out r ch p).log = r.log ++ [HwOp.wrHCINTMSK ch 0]) := by
  unfold irq_chh_out
  rw [irq_retry_test_count r ch p hty hr, hsl]
  by_cases h0 : (r.URB p).NAKRetries = 0
  · simp [h0, setCHURB, modURB, wrHCINTMSK]
  · simp only [h0, ne_eq, not_false_eq_true, decide_True, if_true]
    refine ⟨?_, fun h => False.elim h⟩
    rw [(TransferEnqueue_frame _ _ _ _ _).churb]
    simp [modURB, hsl, TransferEnqueue_URB]

/-- The channel-halted branch of OUT, SETUP and PING when the retry test does
not reach the retry count: the count is as before and the URB is
finalized. -/
theorem chh_out_skipped (r : State) (ch p : Nat)
    (h : (r.CH ch).EPTYP = USB_ENDPOINT_TYPE_INTERRUPT ∨
      (r.URB p).ResponsePacketType ≠ USBH_PACKET_NAK) :
    ((irq_chh_out r ch p).URB p).NAKRetries = (r.URB p).NAKRetries ∧
    ((irq_chh_out r ch p).URB p).Completed = true ∧ (irq_chh_out r ch p).CHURB ch = 0 ∧
    (irq_chh_out r ch p).log = r.log ++ [HwOp.wrHCINTMSK ch 0] := by
  unfold irq_chh_out
  rw [irq_retry_test_skip r ch p h]
  simp [setCHURB, modURB, wrHCINTMSK]

/-- The NAK branch of IN when the retry test reaches the retry count. -/
theorem in_nak_counted (r : State) (ch p hcint : Nat) (hsl : r.CHURB ch = p)
    (hx : hcint &&& USBH_STM32_HCINT_XFRC = 0) (hn : hcint &&& USBH_STM32_HCINT_NAK ≠ 0)
    (hc : r.Port_Con ≠ 0) (hty : (r.CH ch).EPTYP ≠ USB_ENDPOINT_TYPE_INTERRUPT) :
    ((irq_ch_in r ch p hcint).URB p).NAKRetries = sub32 (r.URB p).NAKRetries 1 ∧
    ((r.URB p).NAKRetries = 0 →
      ((irq_ch_in r ch p hcint).CH ch).HCINTMSK = USBH_STM32_HCINT_CHH ∧
      ((irq_ch_in r ch p hcint).CH ch).HCCHAR &&& USBH_STM32_HCCHAR_CHDIS ≠ 0) := by
  have c1 : (modURB r p (fun u => { u with ResponsePacketType := USBH_PACKET_NAK })).Port_Con
      ≠ 0 ∧ ((modURB r p (fun u => { u with ResponsePacketType := USBH_PACKET_NAK })).CH
        ch).EPTYP ≠ USB_ENDPOINT_TYPE_INTERRUPT := ⟨hc, hty⟩
  unfold irq_ch_in
  simp only [hx, hn, ne_eq, not_true_eq_false, not_false_eq_true, if_true, if_false]
  rw [if_pos c1]
  by_cases h0 : (r.URB p).NAKRetries = 0
  · have e : ((modURB r p (fun u => { u with ResponsePacketType := USBH_PACKET_NAK })).URB
        ((modURB r p (fun u => { u with ResponsePacketType := USBH_PACKET_NAK })).CHURB
          ch)).NAKRetries = 0 := by
      simp [modURB, hsl, h0]
    rw [if_neg (fun h => h e)]
    refine ⟨?_, fun _ => ⟨?_, ?_⟩⟩
    · simp [modURB, wrHCINTMSK, wrHCCHAR, hsl]
    · simp [modURB, wrHCINTMSK, wrHCCHAR]
    · simp only [modURB, wrHCINTMSK, wrHCCHAR, Function.update_same]
      exact or_halt_CHDIS _
  · have e : ((modURB r p (fun u => { u with ResponsePacketType := USBH_PACKET_NAK })).URB
        ((modURB r p (fun u => { u with ResponsePacketType := USBH_PACKET_NAK })).CHURB
          ch)).NAKRetries ≠ 0 := by
      simp [modURB, hsl, h0]
    rw [if_pos e]
    refine ⟨?_, fun h => absurd h h0⟩
    simp [modURB, wrHCINTMSK, wrHCCHAR, hsl]

/-- The NAK branch of IN when the retry test does not reach the retry count:
the count is as before and the channel is halted. -/
theorem in_nak_skipped (r : State) (ch p hcint : Nat)
    (hx : hcint &&& USBH_STM32_HCINT_XFRC = 0) (hn : hcint &&& USBH_STM32_HCINT_NAK ≠ 0)
    (h : r.Port_Con = 0 ∨ (r.CH ch).EPTYP = USB_ENDPOINT_TYPE_INTERRUPT) :
    ((irq_ch_in r ch p hcint).URB p).NAKRetries = (r.URB p).NAKRetries ∧
    ((irq_ch_in r ch p hcint).CH ch).HCINTMSK = USBH_STM32_HCINT_CHH ∧
    ((irq_ch_in r ch p hcint).CH ch).HCCHAR &&& USBH_STM32_HCCHAR_CHDIS ≠ 0 := by
  have c1 : ¬ ((modURB r p (fun u => { u with ResponsePacketType := USBH_PACKET_NAK })).Port_Con
      ≠ 0 ∧ ((modURB r p (fun u => { u with ResponsePacketType := USBH_PACKET_NAK })).CH
        ch).EPTYP ≠ USB_ENDPOINT_TYPE_INTERRUPT) := by
    intro hc
    rcases h with h | h
    · exact hc.1 h
    · exact hc.2 h
  unfold irq_ch_in
  simp only [hx, hn, ne_eq, not_true_eq_false, not_false_eq_true, if_true, if_false]
  rw [if_neg c1]
  refine ⟨?_, ?_, ?_⟩
  · simp [modURB, wrHCINTMSK, wrHCCHAR]
  · simp [modURB, wrHCINTMSK, wrHCCHAR]
  · simp only [modURB, wrHCINTMSK, wrHCCHAR, Function.update_same]
    exact or_halt_CHDIS _

/-- C27, as stated, fails: an OUT URB with `NAKRetries` = 0 is in progress on
the bulk OUT channel (not an interrupt endpoint); the device answers STALL
and the channel halts.  The channel-halted branch evaluates its retry test,
finalizes the URB, and `NAKRetries` is still 0: the decrement is not reached
because the last response is not NAK. -/
theorem C27_counterexample :
    (stalledBulkOut.URB 0x20002000).NAKRetries = 0 ∧
    (stalledBulkOut.CH 0).EPTYP = USB_ENDPOINT_TYPE_BULK ∧
    (channelIrqs 0 [USBH_STM32_HCINT_STALL, USBH_STM32_HCINT_CHH] stalledBulkOut).map
      (fun t => ((t.URB 0x20002000).Completed, (t.URB 0x20002000).ResponsePacketType,
        (t.URB 0x20002000).NAKRetries)) = some (true, USBH_PACKET_STALL, 0) := by
  decide

/-- C27, amended: `NAKRetries` is decremented exactly when the operands of
the retry test before `NAKRetries--` hold.  In the channel-halted branches of
OUT, SETUP and PING these are: the endpoint is not an interrupt endpoint and
the last response is NAK; in the NAK branch of IN: the port is connected and
the endpoint is not an interrupt endpoint.  Then the stored count becomes
`NAKRetries` - 1 modulo 2^32, so a count of 0 wraps to 4294967295 while no
retry is issued (the URB is finalized, or the IN channel halted).  Otherwise
the count is not changed, and the URB is finalized, or the IN channel
halted. -/
theorem C27_retry_budget (haint : Nat) (s : State) (ch p : Nat)
    (hfl : haint &&& (1 <<< ch) ≠ 0) (hsl : s.CHURB ch = p) (hp0 : p ≠ 0) :
    ((((s.URB p).PacketType = USBH_PACKET_OUT ∨ (s.URB p).PacketType = USBH_PACKET_SETUP) ∧
          chhBranchOut ((s.CH ch).HCINT &&& (s.CH ch).HCINTMSK)) ∨
        ((s.URB p).PacketType = USBH_PACKET_PING ∧
          chhBranchPing ((s.CH ch).HCINT &&& (s.CH ch).HCINTMSK)) →
      ∃ t, irq_channel haint s ch = some t ∧
        ((s.CH ch).EPTYP ≠ USB_ENDPOINT_TYPE_INTERRUPT ∧
            (s.URB p).ResponsePacketType = USBH_PACKET_NAK →
          (t.URB p).NAKRetries = sub32 (s.URB p).NAKRetries 1 ∧
          ((s.URB p).NAKRetries = 0 →
            (t.URB p).NAKRetries = 4294967295 ∧ (t.URB p).Completed = true ∧
            t.CHURB ch = 0 ∧
            t.log = s.log ++ [HwOp.wrHCINTMSK ch 0, HwOp.wrHCINT ch 0x7FF])) ∧
        ((s.CH ch).EPTYP = USB_ENDPOINT_TYPE_INTERRUPT ∨
            (s.URB p).ResponsePacketType ≠ USBH_PACKET_NAK →
          (t.URB p).NAKRetries = (s.URB p).NAKRetries ∧ (t.URB p).Completed = true ∧
          t.CHURB ch = 0)) ∧
    ((s.URB p).PacketType = USBH_PACKET_IN →
      ((s.CH ch).HCINT &&& (s.CH ch).HCINTMSK) &&& USBH_STM32_HCINT_XFRC = 0 →
      ((s.CH ch).HCINT &&& (s.CH ch).HCINTMSK) &&& USBH_STM32_HCINT_NAK ≠ 0 →
      ∃ t, irq_channel haint s ch = some t ∧
        (s.Port_Con ≠ 0 ∧ (s.CH ch).EPTYP ≠ USB_ENDPOINT_TYPE_INTERRUPT →
          (t.URB p).NAKRetries = sub32 (s.URB p).NAKRetries 1 ∧
          ((s.URB p).NAKRetries = 0 →
            (t.URB p).NAKRetries = 4294967295 ∧
            (t.CH ch).HCINTMSK = USBH_STM32_HCINT_CHH ∧
            (t.CH ch).HCCHAR &&& USBH_STM32_HCCHAR_CHDIS ≠ 0)) ∧
        (s.Port_Con = 0 ∨ (s.CH ch).EPTYP = USB_ENDPOINT_TYPE_INTERRUPT →
          (t.URB p).NAKRetries = (s.URB p).NAKRetries ∧
          (t.CH ch).HCINTMSK = USBH_STM32_HCINT_CHH ∧
          (t.CH ch).HCCHAR &&& USBH_STM32_HCCHAR_CHDIS ≠ 0)) := by
  obtain ⟨k, e⟩ := irq_channel_dispatch haint s ch p hfl hsl hp0
  have r1 : (modURB s p (fun u => { u with Error := (u.Error ||| k) % 256 })).CHURB ch = p := hsl
  have r2 : (modURB s p (fun u => { u with Error := (u.Error ||| k) % 256 })).CH = s.CH := rfl
  have r3 : ((modURB s p (fun u => { u with Error := (u.Error ||| k) % 256 })).URB
      p).ResponsePacketType = (s.URB p).ResponsePacketType := by
    simp [modURB]
  have r4 : ((modURB s p (fun u => { u with Error := (u.Error ||| k) % 256 })).URB
      p).NAKRetries = (s.URB p).NAKRetries := by
    simp [modURB]
  have r5 : (modURB s p (fun u => { u with Error := (u.Error ||| k) % 256 })).Port_Con =
      s.Port_Con := rfl
  have r6 : (modURB s p (fun u => { u with Error := (u.Error ||| k) % 256 })).log = s.log := rfl
  generalize modURB s p (fun u => { u with Error := (u.Error ||| k) % 256 }) = r
    at e r1 r2 r3 r4 r5 r6
  refine ⟨fun hb => ?_, fun hpt hx hn => ?_⟩
  · have hfin : irq_channel haint s ch = some (wrHCINT (irq_chh_out r ch p) ch 0x7FF) := by
      rw [e]
      rcases hb with ⟨hpt, hb⟩ | ⟨hpt, hb⟩
      · rw [if_pos hpt, irq_ch_out_chh _ _ _ _ hb]
      · rw [if_neg (by rw [hpt]; decide), if_pos hpt, irq_ch_ping_chh _ _ _ _ hb]
    refine ⟨_, hfin, fun hc => ?_, fun hc => ?_⟩
    · obtain ⟨a1, a2⟩ := chh_out_counted r ch p r1 (by rw [r2]; exact hc.1)
        (by rw [r3]; exact hc.2)
      rw [r4] at a1 a2
      refine ⟨a1, fun h0 => ?_⟩
      obtain ⟨b1, b2, b3⟩ := a2 h0
      refine ⟨by rw [show (wrHCINT (irq_chh_out r ch p) ch 0x7FF).URB = (irq_chh_out r ch p).URB
        from rfl, a1, h0]; rfl, b1, b2, ?_⟩
      show (irq_chh_out r ch p).log ++ [HwOp.wrHCINT ch 0x7FF] = _
      rw [b3, r6, List.append_assoc]
      rfl
    · obtain ⟨a1, a2, a3, _⟩ := chh_out_skipped r ch p (by rw [r2, r3]; exact hc)
      rw [r4] at a1
      exact ⟨a1, a2, a3⟩
  · have hfin : irq_channel haint s ch =
        some (wrHCINT (irq_ch_in r ch p ((s.CH ch).HCINT &&& (s.CH ch).HCINTMSK)) ch 0x7FF) := by
      rw [e, if_neg (by rw [hpt]; decide), if_neg (by rw [hpt]; decide), if_pos hpt]
    have hmask : ∀ x : State, ((wrHCINT x ch 0x7FF).CH ch).HCINTMSK = (x.CH ch).HCINTMSK :=
      fun x => by simp [wrHCINT]
    have hchar : ∀ x : State, ((wrHCINT x ch 0x7FF).CH ch).HCCHAR = (x.CH ch).HCCHAR :=
      fun x => by simp [wrHCINT]
    refine ⟨_, hfin, fun hc => ?_, fun hc => ?_⟩
    · obtain ⟨a1, a2⟩ := in_nak_counted r ch p _ r1 hx hn (by rw [r5]; exact hc.1)
        (by rw [r2]; exact hc.2)
      rw [r4] at a1 a2
      refine ⟨a1, fun h0 => ?_⟩
      obtain ⟨b1, b2⟩ := a2 h0
      refine ⟨by rw [show (wrHCINT (irq_ch_in r ch p _) ch 0x7FF).URB = (irq_ch_in r ch p _).URB
        from rfl, a1, h0]; rfl, by rw [hmask]; exact b1, by rw [hchar]; exact b2⟩
    · obtain ⟨a1, a2, a3⟩ := in_nak_skipped r ch p _ hx hn (by rw [r5, r2]; exact hc)
      rw [r4] at a1
      exact ⟨a1, by rw [hmask]; exact a2, by rw [hchar]; exact a3⟩

/-- C27, witness: the OUT URB with `NAKRetries` = 0 on the bulk OUT channel,
halted after a NAK: the channel-halted interrupt finalizes it and the count
wraps to 4294967295. -/
theorem C27_retry_budget_witness :
    (nakHaltedOut.URB 0x20002000).NAKRetries = 0 ∧
    ∃ t, irq_channel 1 nakHaltedOut 0 = some t ∧
      (t.URB 0x20002000).NAKRetries = 4294967295 ∧ (t.URB 0x20002000).Completed = true ∧
      t.CHURB 0 = 0 :=
  ⟨by decide,
    ((C27_retry_budget 1 nakHaltedOut 0 0x20002000 (by decide) (by decide) (by decide)).1
      (Or.inl (by decide))).imp
      (fun _ h => ⟨h.1, ((h.2.1 (by decide)).2 (by decide)).1,
        ((h.2.1 (by decide)).2 (by decide)).2.1, ((h.2.1 (by decide)).2 (by decide)).2.2.1⟩)⟩

/-! ## The rest of an OUT transfer after NAK -/

/-- The transferred count the handler computes from the packets left, for
values in range: a multiple of the packet size below the length. -/
theorem out_rest_arith (L m pc : Nat) (hL : 0 < L) (hm : 0 < m)
    (hfit : L + m - 1 < 4294967296) (hp1 : 1 ≤ pc) (hp2 : pc ≤ (L + m - 1) / m) :
    u32 (sub32 (u32 (L + m - 1) / m) pc * m) = ((L + m - 1) / m - pc) * m ∧
    ((L + m - 1) / m - pc) * m < L := by
  have hc : (L + m - 1) / m * m ≤ L + m - 1 := Nat.div_mul_le_self _ _
  have hd : (L + m - 1) / m ≤ L + m - 1 := Nat.div_le_self _ _
  have h1 : ((L + m - 1) / m - pc) * m ≤ ((L + m - 1) / m - 1) * m :=
    Nat.mul_le_mul_right m (by omega)
  have h2 : ((L + m - 1) / m - 1) * m = (L + m - 1) / m * m - m := by
    rw [Nat.sub_mul, Nat.one_mul]
  have h3 : ((L + m - 1) / m - pc) * m < L := by omega
  refine ⟨?_, h3⟩
  have e1 : u32 (L + m - 1) = L + m - 1 := Nat.mod_eq_of_lt hfit
  have e2 : sub32 ((L + m - 1) / m) pc = (L + m - 1) / m - pc := by
    unfold sub32
    omega
  rw [e1, e2]
  exact Nat.mod_eq_of_lt (by omega)

/-- The NAK, NYET and transaction error branch of OUT and SETUP for a URB
with data: the transferred count is computed from the packets left in
`HCTSIZ`, and the channel is asked to halt. -/
theorem out_nak_transferred (r : State) (ch p hcint : Nat)
    (hx : hcint &&& USBH_STM32_HCINT_XFRC = 0) (hst : hcint &&& USBH_STM32_HCINT_STALL = 0)
    (hany : hcint &&& USBH_STM32_HCINT_NAK ≠ 0 ∨ hcint &&& USBH_STM32_HCINT_NYET ≠ 0 ∨
      hcint &&& USBH_STM32_HCINT_TXERR ≠ 0)
    (hL : (r.URB p).DataLength ≠ 0) :
    ((irq_ch_out r ch p hcint).URB p).DataTransferred =
      u32 (sub32 (u32 ((r.URB p).DataLength + ((r.CH ch).HCCHAR &&& 0x7FF) - 1) /
        ((r.CH ch).HCCHAR &&& 0x7FF)) (((r.CH ch).HCTSIZ >>> 19) &&& 0x3FF) *
        ((r.CH ch).HCCHAR &&& 0x7FF)) ∧
    ((irq_ch_out r ch p hcint).URB p).DataLength = (r.URB p).DataLength ∧
    ((irq_ch_out r ch p hcint).URB p).ptrDataBuffer = (r.URB p).ptrDataBuffer ∧
    ((irq_ch_out r ch p hcint).CH ch).HCCHAR &&& USBH_STM32_HCCHAR_CHDIS ≠ 0 := by
  unfold irq_ch_out
  simp only [hx, hst, ne_eq, not_true_eq_false, if_false]
  rw [if_pos hany]
  have hch : ∀ x : State, ((wrHCCHAR x ch ((x.CH ch).HCCHAR |||
      (USBH_STM32_HCCHAR_CHENA ||| USBH_STM32_HCCHAR_CHDIS))).CH ch).HCCHAR &&&
        USBH_STM32_HCCHAR_CHDIS ≠ 0 := fun x => by
    simp only [wrHCCHAR, Function.update_same]
    exact or_halt_CHDIS _
  refine ⟨?_, ?_, ?_, hch _⟩
  · split_ifs <;>
      simp_all [wrHCCHAR, wrHCINTMSK, modURB, DMA_Stop_URB, DMA_Stop_CH]
  · split_ifs <;>
      simp_all [wrHCCHAR, wrHCINTMSK, modURB, DMA_Stop_URB, DMA_Stop_CH]
  · split_ifs <;>
      simp_all [wrHCCHAR, wrHCINTMSK, modURB, DMA_Stop_URB, DMA_Stop_CH]

/-- The channel-halted branch of OUT, SETUP and PING when the retry is
taken: the transfer is enqueued again with the rest of the buffer and the
timeout budget is reset. -/
theorem irq_chh_out_retry (r : State) (ch p : Nat)
    (hty : (r.CH ch).EPTYP ≠ USB_ENDPOINT_TYPE_INTERRUPT)
    (hresp : (r.URB p).ResponsePacketType = USBH_PACKET_NAK)
    (hsl : r.CHURB ch = p) (hret : (r.URB p).NAKRetries ≠ 0) :
    irq_chh_out r ch p =
      modURB (USBH_STM32_CH_TransferEnqueue
          (modURB r p (fun u => { u with NAKRetries := sub32 u.NAKRetries 1 }))
          (USBH_STM32_CH_GetCHFromIndex ch) ((r.URB p).Parameters % 256)
          (u32 ((r.URB p).ptrDataBuffer + (r.URB p).DataTransferred))
          (sub32 (r.URB p).DataLength (r.URB p).DataTransferred)).1 p
        (fun u => { u with TimeoutCount := MAX_TIMEOUT_COUNT }) := by
  have c1 : (r.CH ch).EPTYP ≠ USB_ENDPOINT_TYPE_INTERRUPT ∧
      (r.URB p).ResponsePacketType = USBH_PACKET_NAK := ⟨hty, hresp⟩
  unfold irq_chh_out irq_retry_test
  simp only [if_pos c1, hsl, hret, ne_eq, not_false_eq_true, decide_True, if_true]
  rw [(TransferEnqueue_frame _ _ _ _ _).churb]
  simp only [modURB, hsl, Function.update_same]

/-- C26, as stated, fails: an OUT URB with `DataLength` L = 4294967295 on a
channel with max packet size m = 48, one packet left in `HCTSIZ` (p = 1 ≤
ceil(L / m) = 89478486), and NAK pending.  The handler sets
`DataTransferred` to 4294967248, not to (ceil(L / m) - p) * m = 4294967280,
and the value is not a multiple of 48: the sum L + m - 1 wraps around. -/
theorem C26_counterexample :
    (wrapOut.URB 0x20002000).PacketType = USBH_PACKET_OUT ∧
    (wrapOut.URB 0x20002000).DataLength = 4294967295 ∧
    (wrapOut.CH 0).HCCHAR &&& 0x7FF = 48 ∧
    ((wrapOut.CH 0).HCTSIZ >>> 19) &&& 0x3FF = 1 ∧
    (4294967295 + 48 - 1) / 48 = 89478486 ∧
    (irq_channel 1 wrapOut 0).map (fun t => (t.URB 0x20002000).DataTransferred) =
      some 4294967248 ∧
    ((4294967295 + 48 - 1) / 48 - 1) * 48 = 4294967280 ∧
    4294967248 % 48 ≠ 0 := by
  decide

/-- C26, amended: for an OUT or SETUP URB with `DataLength` L > 0 on a
channel with max packet size m > 0 and L + m - 1 < 2^32, when NAK, NYET or a
transaction error is handled with p packets left in `HCTSIZ`
(1 ≤ p ≤ ceil(L / m)), `DataTransferred` is set to (ceil(L / m) - p) * m, a
multiple of m below L, and the channel is asked to halt.  When the
channel-halted interrupt of an OUT or SETUP URB with `DataTransferred` = D
below `DataLength` = L takes the retry, it enqueues the transfer at
`ptrDataBuffer` + D with length L - D > 0 and resets `TimeoutCount` to
100. -/
theorem C26_retry_rest (haint : Nat) (s u : State) (ch p : Nat)
    (hfl : haint &&& (1 <<< ch) ≠ 0) (hp0 : p ≠ 0) :
    (s.CHURB ch = p →
      (s.URB p).PacketType = USBH_PACKET_OUT ∨ (s.URB p).PacketType = USBH_PACKET_SETUP →
      ((s.CH ch).HCINT &&& (s.CH ch).HCINTMSK) &&& USBH_STM32_HCINT_XFRC = 0 →
      ((s.CH ch).HCINT &&& (s.CH ch).HCINTMSK) &&& USBH_STM32_HCINT_STALL = 0 →
      (((s.CH ch).HCINT &&& (s.CH ch).HCINTMSK) &&& USBH_STM32_HCINT_NAK ≠ 0 ∨
        ((s.CH ch).HCINT &&& (s.CH ch).HCINTMSK) &&& USBH_STM32_HCINT_NYET ≠ 0 ∨
        ((s.CH ch).HCINT &&& (s.CH ch).HCINTMSK) &&& USBH_STM32_HCINT_TXERR ≠ 0) →
      0 < (s.URB p).DataLength → 0 < (s.CH ch).HCCHAR &&& 0x7FF →
      (s.URB p).DataLength + ((s.CH ch).HCCHAR &&& 0x7FF) - 1 < 4294967296 →
      1 ≤ ((s.CH ch).HCTSIZ >>> 19) &&& 0x3FF →
      ((s.CH ch).HCTSIZ >>> 19) &&& 0x3FF ≤
        ((s.URB p).DataLength + ((s.CH ch).HCCHAR &&& 0x7FF) - 1) /
          ((s.CH ch).HCCHAR &&& 0x7FF) →
      ∃ t, irq_channel haint s ch = some t ∧
        (t.URB p).DataTransferred =
          (((s.URB p).DataLength + ((s.CH ch).HCCHAR &&& 0x7FF) - 1) /
            ((s.CH ch).HCCHAR &&& 0x7FF) - (((s.CH ch).HCTSIZ >>> 19) &&& 0x3FF)) *
            ((s.CH ch).HCCHAR &&& 0x7FF) ∧
        ((s.CH ch).HCCHAR &&& 0x7FF) ∣ (t.URB p).DataTransferred ∧
        (t.URB p).DataTransferred < (s.URB p).DataLength ∧
        (t.URB p).DataLength = (s.URB p).DataLength ∧
        (t.URB p).ptrDataBuffer = (s.URB p).ptrDataBuffer ∧
        (t.CH ch).HCCHAR &&& USBH_STM32_HCCHAR_CHDIS ≠ 0) ∧
    (u.CHURB ch = p →
      (u.URB p).PacketType = USBH_PACKET_OUT ∨ (u.URB p).PacketType = USBH_PACKET_SETUP →
      chhBranchOut ((u.CH ch).HCINT &&& (u.CH ch).HCINTMSK) →
      (u.CH ch).EPTYP ≠ USB_ENDPOINT_TYPE_INTERRUPT →
      (u.URB p).ResponsePacketType = USBH_PACKET_NAK → (u.URB p).NAKRetries ≠ 0 →
      (u.URB p).DataTransferred < (u.URB p).DataLength →
      (u.URB p).DataLength < 4294967296 →
      0 < (u.URB p).DataLength - (u.URB p).DataTransferred ∧
      ((u.URB p).ptrDataBuffer + (u.URB p).DataLength ≤ 4294967296 →
        u32 ((u.URB p).ptrDataBuffer + (u.URB p).DataTransferred) =
          (u.URB p).ptrDataBuffer + (u.URB p).DataTransferred) ∧
      ∃ k t, irq_channel haint u ch = some t ∧
        t = wrHCINT (modURB (USBH_STM32_CH_TransferEnqueue
            (modURB (modURB u p (fun x => { x with Error := (x.Error ||| k) % 256 })) p
              (fun x => { x with NAKRetries := sub32 x.NAKRetries 1 }))
            (USBH_STM32_CH_GetCHFromIndex ch) ((u.URB p).Parameters % 256)
            (u32 ((u.URB p).ptrDataBuffer + (u.URB p).DataTransferred))
            ((u.URB p).DataLength - (u.URB p).DataTransferred)).1 p
          (fun x => { x with TimeoutCount := MAX_TIMEOUT_COUNT })) ch 0x7FF ∧
        (t.URB p).TimeoutCount = 100) := by
  refine ⟨fun hsl hpt hx hst hany hL hm hfit hp1 hp2 => ?_,
    fun hsl hpt hb hty hresp hret hD hL => ?_⟩
  · obtain ⟨k, e⟩ := irq_channel_dispatch haint s ch p hfl hsl hp0
    rw [if_pos hpt] at e
    have r2 : (modURB s p (fun u => { u with Error := (u.Error ||| k) % 256 })).CH = s.CH := rfl
    have r3 : ((modURB s p (fun u => { u with Error := (u.Error ||| k) % 256 })).URB
        p).DataLength = (s.URB p).DataLength := by
      simp [modURB]
    have r4 : ((modURB s p (fun u => { u with Error := (u.Error ||| k) % 256 })).URB
        p).ptrDataBuffer = (s.URB p).ptrDataBuffer := by
      simp [modURB]
    generalize modURB s p (fun u => { u with Error := (u.Error ||| k) % 256 }) = r
      at e r2 r3 r4
    obtain ⟨a1, a2, a3, a4⟩ := out_nak_transferred r ch p _ hx hst hany
      (by rw [r3]; omega)
    rw [r2, r3] at a1
    rw [r3] at a2
    rw [r4] at a3
    obtain ⟨b1, b2⟩ := out_rest_arith _ _ _ hL hm hfit hp1 hp2
    have hurb : ∀ x : State, (wrHCINT x ch 0x7FF).URB = x.URB := fun _ => rfl
    have hchar : ∀ x : State, ((wrHCINT x ch 0x7FF).CH ch).HCCHAR = (x.CH ch).HCCHAR :=
      fun x => by simp [wrHCINT]
    refine ⟨_, e, ?_, ?_, ?_, ?_, ?_, ?_⟩
    · rw [hurb, a1, b1]
    · rw [hurb, a1, b1]
      exact Dvd.intro_left _ rfl
    · rw [hurb, a1, b1]
      exact b2
    · rw [hurb, a2]
    · rw [hurb, a3]
    · rw [hchar]
      exact a4
  · refine ⟨by omega, fun hbuf => Nat.mod_eq_of_lt (by omega), ?_⟩
    obtain ⟨k, e⟩ := irq_channel_dispatch haint u ch p hfl hsl hp0
    rw [if_pos hpt, irq_ch_out_chh _ _ _ _ hb] at e
    have e2 := irq_chh_out_retry (modURB u p (fun x => { x with Error := (x.Error ||| k) % 256 }))
      ch p hty (by simpa [modURB] using hresp) hsl (by simpa [modURB] using hret)
    have e3 : sub32 (u.URB p).DataLength (u.URB p).DataTransferred =
        (u.URB p).DataLength - (u.URB p).DataTransferred := by
      unfold sub32
      omega
    refine ⟨k, _, e, ?_, ?_⟩
    · rw [e2]
      simp [modURB, e3]
    · rw [e2]
      simp [wrHCINT, modURB, MAX_TIMEOUT_COUNT]

/-- C26, witness: the OUT URB of 200 bytes on the bulk OUT channel with max
packet size 64, two of four packets left when the NAK arrives: the
transferred count becomes (4 - 2) * 64 = 128, and the retry of the
channel-halted interrupt loads the 72 bytes from offset 128. -/
theorem C26_retry_rest_witness :
    (∃ t, irq_channel 1 nakOutTwoLeft 0 = some t ∧
      (t.URB 0x20002000).DataTransferred = 128 ∧
      (t.URB 0x20002000).DataTransferred < (nakOutTwoLeft.URB 0x20002000).DataLength) ∧
    (irq_channel 1 nakOutHalted 0).map (fun t => t.log.drop (nakOutHalted.log.length + 4)) =
      some [HwOp.wrHCCHAR 0 0x81480840, HwOp.dmaStart (OTG_DFIFO 0) (0x20000000 + 128) 72,
        HwOp.wrHCINT 0 0x7FF] ∧
    ∃ k t, irq_channel 1 nakOutHalted 0 = some t ∧
      t = wrHCINT (modURB (USBH_STM32_CH_TransferEnqueue
          (modURB (modURB nakOutHalted 0x20002000
              (fun x => { x with Error := (x.Error ||| k) % 256 })) 0x20002000
            (fun x => { x with NAKRetries := sub32 x.NAKRetries 1 }))
          (USBH_STM32_CH_GetCHFromIndex 0) ((nakOutHalted.URB 0x20002000).Parameters % 256)
          (u32 ((nakOutHalted.URB 0x20002000).ptrDataBuffer +
            (nakOutHalted.URB 0x20002000).DataTransferred))
          ((nakOutHalted.URB 0x20002000).DataLength -
            (nakOutHalted.URB 0x20002000).DataTransferred)).1 0x20002000
        (fun x => { x with TimeoutCount := MAX_TIMEOUT_COUNT })) 0 0x7FF ∧
      (t.URB 0x20002000).TimeoutCount = 100 :=
  have H := C26_retry_rest 1 nakOutTwoLeft nakOutHalted 0 0x20002000 (by decide) (by decide)
  ⟨(H.1 (by decide) (by decide) (by decide) (by decide) (by decide) (by decide) (by decide)
      (by decide) (by decide) (by decide)).imp
      (fun _ h => ⟨h.1, h.2.1.trans (by decide), h.2.2.2.1⟩),
    by decide,
    (H.2 (by decide) (by decide) (by decide) (by decide) (by decide) (by decide) (by decide)
      (by decide)).2.2⟩

/-! ## C28: the channel dispatch and the empty slot -/

/-- The dispatch of one channel goes through the slot exactly when the
channel is flagged; it fails exactly on a flagged channel with empty slot. -/
theorem irq_channel_none_iff (haint : Nat) (s : State) (ch : Nat) :
    irq_channel haint s ch = none ↔ haint &&& (1 <<< ch) ≠ 0 ∧ s.CHURB ch = 0 := by
  unfold irq_channel
  by_cases hf : haint &&& (1 <<< ch) ≠ 0
  · rw [if_pos hf]
    by_cases hz : s.CHURB ch = 0
    · simp only [hz, if_true, hf, ne_eq, not_false_eq_true, and_self]
    · simp only [hz, if_false, and_false]
      exact ⟨fun h => Option.noConfusion h, fun h => False.elim h⟩
  · rw [if_neg hf]
    exact ⟨fun h => Option.noConfusion h, fun h => absurd h.1 hf⟩

/-- The loop of the dispatch over channels that are pairwise different
returns when every flagged channel of the list has a URB in its slot at the
start of the loop. -/
theorem irq_channels_total (haint : Nat) (l : List Nat) (hl : l.Nodup) (s : State)
    (h : ∀ ch ∈ l, haint &&& (1 <<< ch) ≠ 0 → s.CHURB ch ≠ 0) :
    ∃ t, irq_channels haint l s = some t := by
  induction l generalizing s with
  | nil => exact ⟨s, rfl⟩
  | cons c l ih =>
    rw [irq_channels_cons]
    cases e : irq_channel haint s c with
    | none =>
      have h1 := (irq_channel_none_iff haint s c).1 e
      exact absurd h1.2 (h c (List.mem_cons_self c l) h1.1)
    | some s1 =>
      rw [Option.some_bind]
      have f := irq_channel_sf haint s s1 c e
      refine ih (List.nodup_cons.1 hl).2 s1 (fun ch hch hfl => ?_)
      have hne : ch ≠ c := fun hc => (List.nodup_cons.1 hl).1 (hc ▸ hch)
      rw [f.churb ch hne]
      exact h ch (List.mem_cons_of_mem c hch) hfl

/-- The loop of the dispatch fails exactly when it reaches a flagged channel
whose slot is empty at that moment. -/
theorem irq_channels_none_iff (haint : Nat) (l : List Nat) (s : State) :
    irq_channels haint l s = none ↔
      ∃ pre ch post u, l = pre ++ ch :: post ∧ irq_channels haint pre s = some u ∧
        haint &&& (1 <<< ch) ≠ 0 ∧ u.CHURB ch = 0 := by
  induction l generalizing s with
  | nil =>
    refine ⟨fun h => Option.noConfusion h, fun h => ?_⟩
    obtain ⟨pre, ch, post, u, e, _⟩ := h
    exact absurd (List.append_eq_nil.1 e.symm).2 (List.cons_ne_nil ch post)
  | cons c l ih =>
    rw [irq_channels_cons]
    cases e : irq_channel haint s c with
    | none =>
      have h1 := (irq_channel_none_iff haint s c).1 e
      exact ⟨fun _ => ⟨[], c, l, s, rfl, rfl, h1.1, h1.2⟩, fun _ => rfl⟩
    | some s1 =>
      rw [Option.some_bind, ih s1]
      constructor
      · rintro ⟨pre, ch, post, u, e1, e2, e3, e4⟩
        refine ⟨c :: pre, ch, post, u, by rw [e1]; rfl, ?_, e3, e4⟩
        rw [irq_channels_cons, e, Option.some_bind]
        exact e2
      · rintro ⟨pre, ch, post, u, e1, e2, e3, e4⟩
        cases pre with
        | nil =>
          injection e1 with a1 a2
          injection e2 with a3
          subst a1 a3
          have := (irq_channel_none_iff haint s c).2 ⟨e3, e4⟩
          rw [this] at e
          exact Option.noConfusion e
        | cons d pre =>
          injection e1 with a1 a2
          subst a1
          rw [irq_channels_cons, e, Option.some_bind] at e2
          exact ⟨pre, ch, post, u, a2, e2, e3, e4⟩

/-- C28: the dispatch of a channel reads the channel's slot unchecked: it
fails exactly on a flagged channel with empty slot, and the loop over the
channels fails exactly when it reaches such a channel.  With the disconnect
and the channel interrupt both pending and channel 0 flagged, the sweep of
the same invocation empties slot 0 and the dispatch then goes through the
empty slot.  When every flagged channel has a URB in its slot at the start
of the dispatch, the dispatch returns; so does the whole invocation when no
receive interrupt is pending and this holds after the sweep. -/
theorem C28_dispatch_after_sweep (haint : Nat) (s : State) (l : List Nat) :
    (sweptBulkOut.GINTSTS &&& sweptBulkOut.GINTMSK &&& USBH_STM32_GINTSTS_DISCINT ≠ 0 ∧
      sweptBulkOut.GINTSTS &&& sweptBulkOut.GINTMSK &&& USBH_STM32_GINTSTS_HCINT ≠ 0 ∧
      sweptBulkOut.HAINT &&& (1 <<< 0) ≠ 0 ∧
      sweptBulkOut.CHURB 0 = 0x20002000 ∧
      (irq_discon_sweep (irq_port (irq_sof_timeouts sweptBulkOut
        (sweptBulkOut.GINTSTS &&& sweptBulkOut.GINTMSK))
        (sweptBulkOut.GINTSTS &&& sweptBulkOut.GINTMSK) sweptBulkOut.HPRT)).CHURB 0 = 0 ∧
      USBH_FS_IRQHandler sweptBulkOut = none ∧
      (USBH_FS_IRQHandler flaggedBulkOut).isSome = true) ∧
    (∀ ch, irq_channel haint s ch = none ↔ haint &&& (1 <<< ch) ≠ 0 ∧ s.CHURB ch = 0) ∧
    (irq_channels haint l s = none ↔
      ∃ pre ch post u, l = pre ++ ch :: post ∧ irq_channels haint pre s = some u ∧
        haint &&& (1 <<< ch) ≠ 0 ∧ u.CHURB ch = 0) ∧
    ((∀ ch, ch < OTG_FS_MAX_CH → haint &&& (1 <<< ch) ≠ 0 → s.CHURB ch ≠ 0) →
      ∃ t, irq_channels haint channels s = some t) ∧
    (s.GINTSTS &&& s.GINTMSK &&& USBH_STM32_GINTSTS_RXFLVL = 0 →
      (∀ ch, ch < OTG_FS_MAX_CH → s.HAINT &&& (1 <<< ch) ≠ 0 →
        (irq_discon_sweep (irq_port (irq_sof_timeouts s (s.GINTSTS &&& s.GINTMSK))
          (s.GINTSTS &&& s.GINTMSK) s.HPRT)).CHURB ch ≠ 0) →
      ∃ t, USBH_FS_IRQHandler s = some t) := by
  have tot : ∀ (h : Nat) (x : State),
      (∀ ch, ch < OTG_FS_MAX_CH → h &&& (1 <<< ch) ≠ 0 → x.CHURB ch ≠ 0) →
      ∃ t, irq_channels h channels x = some t := fun h x hx =>
    irq_channels_total h channels (by decide) x (fun ch hch => hx ch (channels_lt ch hch))
  refine ⟨⟨by decide, by decide, by decide, by decide, by decide, ?_, by decide⟩,
    irq_channel_none_iff haint s, irq_channels_none_iff haint l s, tot haint s,
    fun hrx hpre => ?_⟩
  · exact Option.not_isSome_iff_eq_none.1 (by decide)
  · unfold USBH_FS_IRQHandler irq_rxflvl irq_hcint
    simp only [hrx, ne_eq, not_true_eq_false, if_false, Option.some_bind]
    obtain ⟨t, ht⟩ := tot s.HAINT _ hpre
    by_cases hh : s.GINTSTS &&& s.GINTMSK &&& USBH_STM32_GINTSTS_HCINT = 0
    · simp only [hh, not_true_eq_false, if_false, Option.map_some']
      exact ⟨_, rfl⟩
    · simp only [hh, not_false_eq_true, if_true, ht, Option.map_some']
      exact ⟨_, rfl⟩

/-- C28, witness: the bulk OUT URB in progress on channel 0 with the channel
interrupt alone pending: slot 0 holds the URB, the dispatch and the
invocation return. -/
theorem C28_dispatch_after_sweep_witness :
    (∃ t, irq_channels 1 channels flaggedBulkOut = some t) ∧
    (∃ t, USBH_FS_IRQHandler flaggedBulkOut = some t) :=
  have H := C28_dispatch_after_sweep 1 flaggedBulkOut channels
  ⟨H.2.2.2.1 (by decide), H.2.2.2.2 (by decide) (by decide)⟩

/-! ## C25: the receive drain -/

theorem fifoRead_eq (s : State) :
    fifoRead s = (s.fifo.getD 0 0, { s with fifo := s.fifo.drop 1 }) := by
  unfold fifoRead
  cases s with
  | mk CH HW CHURB cI cM cD PD PS PC GS GM HP HA GR DMA URB mem fifo hw log =>
    cases fifo <;> rfl

theorem fifoByte_drop (f : List Nat) (k i : Nat) :
    fifoByte (f.drop k) i = fifoByte f (4 * k + i) := by
  unfold fifoByte
  have e1 : (4 * k + i) / 4 = k + i / 4 := by omega
  have e2 : (4 * k + i) % 4 = i % 4 := by omega
  rw [e1, e2, List.getD_eq_getElem?_getD, List.getD_eq_getElem?_getD, List.getElem?_drop]

theorem irq_rx_words_eq (n : Nat) (s : State) (p a : Nat) (ha : a < 4294967296)
    (hn : 4 * n ≤ 4294967296) (hDT : (s.URB p).DataTransferred < 4294967296) :
    irq_rx_words n s p a =
      ({ s with
          fifo := s.fifo.drop n,
          mem := fun x =>
            if x < 4294967296 ∧ sub32 x a < 4 * n then fifoByte s.fifo (sub32 x a)
            else s.mem x,
          URB := Function.update s.URB p
            { s.URB p with DataTransferred := u32 ((s.URB p).DataTransferred + 4 * n) } },
        u32 (a + 4 * n)) := by
  induction n generalizing s a with
  | zero =>
    unfold irq_rx_words
    have e : u32 ((s.URB p).DataTransferred + 4 * 0) = (s.URB p).DataTransferred :=
      Nat.mod_eq_of_lt hDT
    have e3 : u32 (a + 4 * 0) = a := Nat.mod_eq_of_lt ha
    rw [e, e3]
    have e2 : (fun x => if x < 4294967296 ∧ sub32 x a < 4 * 0 then fifoByte s.fifo (sub32 x a)
        else s.mem x) = s.mem := by
      funext x
      rw [if_neg (by omega)]
    rw [e2, Function.update_eq_self, List.drop_zero]
  | succ n ih =>
    unfold irq_rx_words
    simp only []
    rw [ih _ (u32 (a + 4)) (show u32 (a + 4) < 4294967296 from Nat.mod_lt _ (by decide))
      (by omega) (by
      simp only [modURB, storeByte, fifoRead_eq, Function.update_same]
      exact Nat.mod_lt _ (by decide))]
    simp only [modURB, storeByte, fifoRead_eq, Function.update_same, Function.update_idem,
      List.drop_drop]
    refine Prod.ext ?_ (by
      show u32 (u32 (a + 4) + 4 * n) = u32 (a + 4 * (n + 1))
      unfold u32
      omega)
    simp only [State.mk.injEq, true_and, and_true]
    refine ⟨?_, ?_, ?_⟩
    · have e : u32 (u32 ((s.URB p).DataTransferred + 4) + 4 * n) =
          u32 ((s.URB p).DataTransferred + 4 * (n + 1)) := by
        unfold u32
        omega
      rw [e]
    · funext x
      have hd : sub32 x a = (x % 4294967296 + 4294967296 - a % 4294967296) % 4294967296 := rfl
      have he : sub32 x (u32 (a + 4)) =
          (x % 4294967296 + 4294967296 - (a + 4) % 4294967296 % 4294967296) % 4294967296 := rfl
      have h1 : u32 (a + 1) = (a + 1) % 4294967296 := rfl
      have h2 : u32 (a + 2) = (a + 2) % 4294967296 := rfl
      have h3 : u32 (a + 3) = (a + 3) % 4294967296 := rfl
      generalize sub32 x a = d at hd
      generalize sub32 x (u32 (a + 4)) = e at he
      generalize u32 (a + 1) = a1 at h1
      generalize u32 (a + 2) = a2 at h2
      generalize u32 (a + 3) = a3 at h3
      rw [fifoByte_drop]
      by_cases hx : x < 4294967296
      · rcases (show d = 0 ∨ d = 1 ∨ d = 2 ∨ d = 3 ∨ 4 ≤ d by omega) with h | h | h | h | h
        · have c1 : ¬ (x < 4294967296 ∧ e < 4 * n) := by omega
          have c2 : x < 4294967296 ∧ d < 4 * (n + 1) := by omega
          have x0 : x = a := by omega
          rw [if_neg c1, if_pos c2, Function.update_noteq (by omega),
            Function.update_noteq (by omega), Function.update_noteq (by omega), x0,
            Function.update_same, h]
          rfl
        · have c1 : ¬ (x < 4294967296 ∧ e < 4 * n) := by omega
          have c2 : x < 4294967296 ∧ d < 4 * (n + 1) := by omega
          have x0 : x = a1 := by omega
          rw [if_neg c1, if_pos c2, Function.update_noteq (by omega),
            Function.update_noteq (by omega), x0, Function.update_same, h]
          rfl
        · have c1 : ¬ (x < 4294967296 ∧ e < 4 * n) := by omega
          have c2 : x < 4294967296 ∧ d < 4 * (n + 1) := by omega
          have x0 : x = a2 := by omega
          rw [if_neg c1, if_pos c2, Function.update_noteq (by omega), x0,
            Function.update_same, h]
          rfl
        · have c1 : ¬ (x < 4294967296 ∧ e < 4 * n) := by omega
          have c2 : x < 4294967296 ∧ d < 4 * (n + 1) := by omega
          have x0 : x = a3 := by omega
          rw [if_neg c1, if_pos c2, x0, Function.update_same, h]
          rfl
        · by_cases h4 : d < 4 * (n + 1)
          · have c1 : x < 4294967296 ∧ e < 4 * n := by omega
            have c2 : x < 4294967296 ∧ d < 4 * (n + 1) := ⟨hx, h4⟩
            rw [if_pos c1, if_pos c2, show 4 * 1 + e = d by omega]
          · have c1 : ¬ (x < 4294967296 ∧ e < 4 * n) := by omega
            have c2 : ¬ (x < 4294967296 ∧ d < 4 * (n + 1)) := fun h => h4 h.2
            rw [if_neg c1, if_neg c2, Function.update_noteq (by omega),
              Function.update_noteq (by omega), Function.update_noteq (by omega),
              Function.update_noteq (by omega)]
      · have c1 : ¬ (x < 4294967296 ∧ e < 4 * n) := fun h => hx h.1
        have c2 : ¬ (x < 4294967296 ∧ d < 4 * (n + 1)) := fun h => hx h.1
        rw [if_neg c1, if_neg c2, Function.update_noteq (by omega),
          Function.update_noteq (by omega), Function.update_noteq (by omega),
          Function.update_noteq (by omega)]
    · rw [Nat.add_comm]

theorem irq_rx_bytes_eq (n : Nat) (s : State) (p a dat : Nat) (ha : a < 4294967296)
    (hn : n ≤ 4294967296) (hDT : (s.URB p).DataTransferred < 4294967296) :
    irq_rx_bytes n s p a dat =
      { s with
          mem := fun x =>
            if x < 4294967296 ∧ sub32 x a < n then (dat >>> (8 * sub32 x a)) % 256
            else s.mem x,
          URB := Function.update s.URB p
            { s.URB p with DataTransferred := u32 ((s.URB p).DataTransferred + n) } } := by
  induction n generalizing s a dat with
  | zero =>
    unfold irq_rx_bytes
    have e : u32 ((s.URB p).DataTransferred + 0) = (s.URB p).DataTransferred :=
      Nat.mod_eq_of_lt hDT
    rw [e]
    have e2 : (fun x => if x < 4294967296 ∧ sub32 x a < 0 then (dat >>> (8 * sub32 x a)) % 256
        else s.mem x) = s.mem := by
      funext x
      rw [if_neg (by omega)]
    rw [e2, Function.update_eq_self]
  | succ n ih =>
    unfold irq_rx_bytes
    simp only []
    rw [ih _ (u32 (a + 1)) _ (show u32 (a + 1) < 4294967296 from Nat.mod_lt _ (by decide))
      (by omega) (by
      simp only [modURB, storeByte, Function.update_same]
      exact Nat.mod_lt _ (by decide))]
    simp only [modURB, storeByte, Function.update_same, Function.update_idem]
    simp only [State.mk.injEq, true_and, and_true]
    refine ⟨?_, ?_⟩
    · have e : u32 (u32 ((s.URB p).DataTransferred + 1) + n) =
          u32 ((s.URB p).DataTransferred + (n + 1)) := by
        unfold u32
        omega
      rw [e]
    · funext x
      have hd : sub32 x a = (x % 4294967296 + 4294967296 - a % 4294967296) % 4294967296 := rfl
      have he : sub32 x (u32 (a + 1)) =
          (x % 4294967296 + 4294967296 - (a + 1) % 4294967296 % 4294967296) % 4294967296 := rfl
      generalize sub32 x a = d at hd
      generalize sub32 x (u32 (a + 1)) = e at he
      by_cases hx : x < 4294967296
      · rcases (show d = 0 ∨ 1 ≤ d by omega) with h | h
        · have c1 : ¬ (x < 4294967296 ∧ e < n) := by omega
          have c2 : x < 4294967296 ∧ d < n + 1 := by omega
          have x0 : x = a := by omega
          rw [if_neg c1, if_pos c2, x0, Function.update_same, h]
          rfl
        · by_cases h4 : d < n + 1
          · have c1 : x < 4294967296 ∧ e < n := by omega
            have c2 : x < 4294967296 ∧ d < n + 1 := ⟨hx, h4⟩
            rw [if_pos c1, if_pos c2, ← Nat.shiftRight_add, show 8 + 8 * e = 8 * d by omega]
          · have c1 : ¬ (x < 4294967296 ∧ e < n) := by omega
            have c2 : ¬ (x < 4294967296 ∧ d < n + 1) := fun h => h4 h.2
            rw [if_neg c1, if_neg c2, Function.update_noteq (by omega)]
      · have c1 : ¬ (x < 4294967296 ∧ e < n) := fun h => hx h.1
        have c2 : ¬ (x < 4294967296 ∧ d < n + 1) := fun h => hx h.1
        rw [if_neg c1, if_neg c2, Function.update_noteq (by omega)]

theorem land_three (n : Nat) : n &&& 3 = n % 4 := Nat.and_pow_two_sub_one_eq_mod n 2

/-- The two copy loops of the receive drain, for `n` bytes to address `a`. -/
theorem irq_rx_body (s : State) (n p a : Nat) (ha : a < 4294967296) (hn : n < 4294967296)
    (hDT : (s.URB p).DataTransferred < 4294967296) :
    (if n % 4 ≠ 0 then
        irq_rx_bytes (n % 4) (fifoRead (irq_rx_words (n / 4) s p a).1).2 p
          (irq_rx_words (n / 4) s p a).2 (fifoRead (irq_rx_words (n / 4) s p a).1).1
      else (irq_rx_words (n / 4) s p a).1) =
      { s with
        fifo := s.fifo.drop ((n + 3) / 4),
        mem := fun x =>
          if x < 4294967296 ∧ sub32 x a < n then fifoByte s.fifo (sub32 x a) else s.mem x,
        URB := Function.update s.URB p
          { s.URB p with DataTransferred := u32 ((s.URB p).DataTransferred + n) } } := by
  rw [irq_rx_words_eq _ _ _ _ ha (by omega) hDT]
  by_cases hr : n % 4 = 0
  · rw [if_neg (not_not.2 hr)]
    have e1 : 4 * (n / 4) = n := by omega
    have e2 : (n + 3) / 4 = n / 4 := by omega
    rw [e1, e2]
  · rw [if_pos hr, irq_rx_bytes_eq _ _ _ (u32 (a + 4 * (n / 4))) _
      (show u32 (a + 4 * (n / 4)) < 4294967296 from Nat.mod_lt _ (by decide)) (by omega) (by
      simp only [fifoRead_eq, Function.update_same]
      exact Nat.mod_lt _ (by decide))]
    simp only [fifoRead_eq, Function.update_same, Function.update_idem, List.drop_drop,
      State.mk.injEq, true_and, and_true]
    refine ⟨?_, ?_, ?_⟩
    · have e : u32 (u32 ((s.URB p).DataTransferred + 4 * (n / 4)) + n % 4) =
          u32 ((s.URB p).DataTransferred + n) := by
        unfold u32
        omega
      rw [e]
    · funext x
      have hd : sub32 x a = (x % 4294967296 + 4294967296 - a % 4294967296) % 4294967296 := rfl
      have he : sub32 x (u32 (a + 4 * (n / 4))) =
          (x % 4294967296 + 4294967296 - (a + 4 * (n / 4)) % 4294967296 % 4294967296) %
            4294967296 := rfl
      generalize sub32 x a = d at hd
      generalize sub32 x (u32 (a + 4 * (n / 4))) = e at he
      by_cases hx : x < 4294967296
      · by_cases h1 : d < 4 * (n / 4)
        · have c1 : ¬ (x < 4294967296 ∧ e < n % 4) := by omega
          have c2 : x < 4294967296 ∧ d < 4 * (n / 4) := ⟨hx, h1⟩
          have c3 : x < 4294967296 ∧ d < n := by omega
          rw [if_neg c1, if_pos c2, if_pos c3]
        · have c2 : ¬ (x < 4294967296 ∧ d < 4 * (n / 4)) := fun h => h1 h.2
          by_cases h2 : d < n
          · have c1 : x < 4294967296 ∧ e < n % 4 := by omega
            have c3 : x < 4294967296 ∧ d < n := ⟨hx, h2⟩
            rw [if_pos c1, if_pos c3]
            unfold fifoByte
            rw [List.getD_eq_getElem?_getD, List.getD_eq_getElem?_getD, List.getElem?_drop,
              show n / 4 + 0 = d / 4 by omega, show e = d % 4 by omega]
          · have c1 : ¬ (x < 4294967296 ∧ e < n % 4) := by omega
            have c3 : ¬ (x < 4294967296 ∧ d < n) := fun h => h2 h.2
            rw [if_neg c1, if_neg c2, if_neg c3]
      · have c1 : ¬ (x < 4294967296 ∧ e < n % 4) := fun h => hx h.1
        have c2 : ¬ (x < 4294967296 ∧ d < 4 * (n / 4)) := fun h => hx h.1
        have c3 : ¬ (x < 4294967296 ∧ d < n) := fun h => hx h.1
        rw [if_neg c1, if_neg c2, if_neg c3]
    · rw [show (n + 3) / 4 = n / 4 + 1 by omega]

/-- The byte count field of the status word is below 2048. -/
theorem bcnt_lt (g : Nat) : (g >>> 4) &&& 0x7FF < 2048 :=
  Nat.lt_succ_of_le Nat.and_le_right

/-- The receive drain on a data entry: the whole state after the block. -/
theorem irq_rx_data (s : State) (n ch p : Nat)
    (hst : (s.GRXSTS >>> 17) &&& 0x0F = 0x02)
    (hn : (s.GRXSTS >>> 4) &&& 0x7FF = n)
    (hch : (s.GRXSTS >>> 0) &&& 0x00F = ch)
    (hlt : ch < OTG_FS_MAX_CH) (hsl : s.CHURB ch = p) (hp : p ≠ 0)
    (hDT : (s.URB p).DataTransferred < 4294967296) :
    irq_rx s = some
      { s with
        GINTMSK := (s.GINTMSK &&& not32 USBH_STM32_GINTMSK_RXFLVLM) |||
          USBH_STM32_GINTMSK_RXFLVLM,
        log := s.log ++ [HwOp.rdGRXSTSP],
        fifo := s.fifo.drop ((n + 3) / 4),
        mem := fun x =>
          if x < 4294967296 ∧
              sub32 x (u32 ((s.URB p).ptrDataBuffer + (s.URB p).DataTransferred)) < n then
            fifoByte s.fifo
              (sub32 x (u32 ((s.URB p).ptrDataBuffer + (s.URB p).DataTransferred)))
          else s.mem x,
        URB := Function.update s.URB p
          { s.URB p with DataTransferred := u32 ((s.URB p).DataTransferred + n) } } := by
  have hn2 : n < 4294967296 := by
    have := bcnt_lt s.GRXSTS
    omega
  unfold irq_rx
  simp only [hst, hn, hch, if_true, if_neg (Nat.not_le.2 hlt), hsl, if_neg hp, land_three]
  have e := irq_rx_body
    { s with
      GINTMSK := s.GINTMSK &&& not32 USBH_STM32_GINTMSK_RXFLVLM,
      log := s.log ++ [HwOp.rdGRXSTSP] } n p
    (u32 ((s.URB p).ptrDataBuffer + (s.URB p).DataTransferred))
    (Nat.mod_lt _ (by decide)) hn2 hDT
  rw [e]

/-- The receive drain on any other entry: the entry is popped, nothing else
but the mask changes. -/
theorem irq_rx_other (s : State) (hst : (s.GRXSTS >>> 17) &&& 0x0F ≠ 0x02) :
    irq_rx s = some
      { s with
        GINTMSK := (s.GINTMSK &&& not32 USBH_STM32_GINTMSK_RXFLVLM) |||
          USBH_STM32_GINTMSK_RXFLVLM,
        log := s.log ++ [HwOp.rdGRXSTSP] } := by
  unfold irq_rx
  simp only [hst, if_false]

/-- The mask bit is set in a word after it has been or-ed in. -/
theorem rxflvlm_set (x : Nat) :
    (x ||| USBH_STM32_GINTMSK_RXFLVLM) &&& USBH_STM32_GINTMSK_RXFLVLM ≠ 0 := by
  rw [or_and_distrib, Nat.and_self]
  exact lor_ne_zero_right _ (by decide)

/-- An invocation with the receive interrupt the only pending and enabled
one and no disconnect flagged runs the receive drain alone. -/
theorem IRQHandler_rxflvl (s : State)
    (hg : s.GINTSTS &&& s.GINTMSK = USBH_STM32_GINTSTS_RXFLVL) (hd : s.Port_Discon_Evt = 0) :
    USBH_FS_IRQHandler s =
      (irq_rx s).map (fun t => { t with GINTSTS := USBH_STM32_GINTSTS_RXFLVL }) := by
  have e1 : irq_sof_timeouts s USBH_STM32_GINTSTS_RXFLVL = s := by
    unfold irq_sof_timeouts
    rw [if_neg (by decide)]
  have e2 : irq_port s USBH_STM32_GINTSTS_RXFLVL s.HPRT = s := by
    have a : irq_hprt s USBH_STM32_GINTSTS_RXFLVL s.HPRT = s := by
      unfold irq_hprt
      rw [if_neg (by decide)]
    have b : irq_discint s USBH_STM32_GINTSTS_RXFLVL = s := by
      unfold irq_discint
      rw [if_neg]
      intro h
      exact absurd h.1 (by decide)
    unfold irq_port
    rw [a, b]
  have e3 : irq_discon_sweep s = s := by
    unfold irq_discon_sweep
    rw [if_neg]
    simp [hd]
  have e4 : irq_rxflvl s USBH_STM32_GINTSTS_RXFLVL = irq_rx s := by
    unfold irq_rxflvl
    rw [if_pos (by decide)]
  have e5 : ∀ t : State, irq_hcint t USBH_STM32_GINTSTS_RXFLVL s.HAINT = some t := by
    intro t
    unfold irq_hcint
    rw [if_neg (by decide)]
  have e6 : ∀ t : State, irq_sof_schedule t USBH_STM32_GINTSTS_RXFLVL = t := by
    intro t
    unfold irq_sof_schedule
    rw [if_neg (by decide)]
  unfold USBH_FS_IRQHandler
  simp only [hg, e1, e2, e3, e4, e5, e6, Option.map_some']
  cases irq_rx s <;> rfl

/-- C25: the receive drain on a data entry (packet status 2) with byte count
n for a channel below 8 whose slot holds URB p (`DataTransferred` in its
32-bit range): the block returns, takes exactly ceil(n / 4) words from the
receive FIFO, stores byte i of them (least significant byte of a word first)
at the address of offset `DataTransferred` + i of the URB's buffer for every
i < n, writes no other byte, and increases `DataTransferred` by n; no other
URB field and no other URB changes.  Addresses and count are 32-bit values:
they are the sums modulo 2^32, and the plain sums whenever the buffer region
ends inside the address space.  On any other entry the entry is popped and no
URB, no byte and no FIFO word changes.  Both ways the receive mask bit is set
after the block, and an invocation with the receive interrupt alone pending
is this block followed by the store to `GINTSTS`. -/
theorem C25_rx_drain (s : State) (n ch p : Nat) :
    ((s.GRXSTS >>> 17) &&& 0x0F = 0x02 → (s.GRXSTS >>> 4) &&& 0x7FF = n →
      (s.GRXSTS >>> 0) &&& 0x00F = ch → ch < OTG_FS_MAX_CH → s.CHURB ch = p → p ≠ 0 →
      (s.URB p).DataTransferred < 4294967296 →
      ∃ t, irq_rx s = some t ∧
        t.fifo = s.fifo.drop ((n + 3) / 4) ∧
        (∀ i, i < n →
          t.mem (u32 ((s.URB p).ptrDataBuffer + (s.URB p).DataTransferred + i)) =
            fifoByte s.fifo i) ∧
        (∀ x, (∀ i, i < n →
            x ≠ u32 ((s.URB p).ptrDataBuffer + (s.URB p).DataTransferred + i)) →
          t.mem x = s.mem x) ∧
        t.URB = Function.update s.URB p
          { s.URB p with DataTransferred := u32 ((s.URB p).DataTransferred + n) } ∧
        ((s.URB p).ptrDataBuffer + (s.URB p).DataTransferred + n ≤ 4294967296 →
          (∀ i, i < n →
            t.mem ((s.URB p).ptrDataBuffer + (s.URB p).DataTransferred + i) =
              fifoByte s.fifo i) ∧
          (∀ x, ¬ ((s.URB p).ptrDataBuffer + (s.URB p).DataTransferred ≤ x ∧
              x < (s.URB p).ptrDataBuffer + (s.URB p).DataTransferred + n) →
            t.mem x = s.mem x)) ∧
        ((s.URB p).DataTransferred + n < 4294967296 →
          (t.URB p).DataTransferred = (s.URB p).DataTransferred + n) ∧
        t.log = s.log ++ [HwOp.rdGRXSTSP] ∧
        t.CHURB = s.CHURB ∧ t.CH = s.CH ∧
        t.GINTMSK &&& USBH_STM32_GINTMSK_RXFLVLM ≠ 0) ∧
    ((s.GRXSTS >>> 17) &&& 0x0F ≠ 0x02 →
      ∃ t, irq_rx s = some t ∧ t.log = s.log ++ [HwOp.rdGRXSTSP] ∧ t.URB = s.URB ∧
        t.mem = s.mem ∧ t.fifo = s.fifo ∧ t.CHURB = s.CHURB ∧ t.CH = s.CH ∧
        t.GINTMSK &&& USBH_STM32_GINTMSK_RXFLVLM ≠ 0) ∧
    (s.GINTSTS &&& s.GINTMSK = USBH_STM32_GINTSTS_RXFLVL → s.Port_Discon_Evt = 0 →
      USBH_FS_IRQHandler s =
        (irq_rx s).map (fun t => { t with GINTSTS := USBH_STM32_GINTSTS_RXFLVL })) := by
  refine ⟨fun hst hn hch hlt hsl hp hDT => ?_, fun hst => ?_, IRQHandler_rxflvl s⟩
  · have hn2 : n < 2048 := by
      have := bcnt_lt s.GRXSTS
      omega
    have hu : ∀ y, u32 y = y % 4294967296 := fun _ => rfl
    have hs : ∀ x y, sub32 x y =
        (x % 4294967296 + 4294967296 - y % 4294967296) % 4294967296 := fun _ _ => rfl
    have m1 : ∀ (mm : Nat → Nat) (b : Nat),
        (mm = fun x => if x < 4294967296 ∧ sub32 x (u32 b) < n then
          fifoByte s.fifo (sub32 x (u32 b)) else s.mem x) →
        (∀ i, i < n → mm (u32 (b + i)) = fifoByte s.fifo i) ∧
        (∀ x, (∀ i, i < n → x ≠ u32 (b + i)) → mm x = s.mem x) := by
      intro mm b ht
      constructor
      · intro i hi
        have c : u32 (b + i) < 4294967296 ∧ sub32 (u32 (b + i)) (u32 b) < n := by
          rw [hs, hu, hu]
          omega
        have c2 : sub32 (u32 (b + i)) (u32 b) = i := by
          rw [hs, hu, hu]
          omega
        rw [ht]
        show (if _ then _ else _) = _
        rw [if_pos c, c2]
      · intro x hx
        rw [ht]
        show (if _ then _ else _) = _
        rw [if_neg]
        intro c
        refine hx (sub32 x (u32 b)) c.2 ?_
        have c1 := c.1
        rw [hu, hs, hu]
        omega
    obtain ⟨g1, g2⟩ := m1
      (fun x =>
        if x < 4294967296 ∧
            sub32 x (u32 ((s.URB p).ptrDataBuffer + (s.URB p).DataTransferred)) < n then
          fifoByte s.fifo (sub32 x (u32 ((s.URB p).ptrDataBuffer + (s.URB p).DataTransferred)))
        else s.mem x)
      ((s.URB p).ptrDataBuffer + (s.URB p).DataTransferred) rfl
    refine ⟨_, irq_rx_data s n ch p hst hn hch hlt hsl hp hDT, rfl, g1, g2, rfl,
      fun hb => ⟨fun i hi => ?_, fun x hx => ?_⟩, fun h => ?_, rfl, rfl, rfl, rxflvlm_set _⟩
    · have e : u32 ((s.URB p).ptrDataBuffer + (s.URB p).DataTransferred + i) =
          (s.URB p).ptrDataBuffer + (s.URB p).DataTransferred + i :=
        Nat.mod_eq_of_lt (by omega)
      rw [← e]
      exact g1 i hi
    · refine g2 x (fun i hi hxi => hx ?_)
      have e : u32 ((s.URB p).ptrDataBuffer + (s.URB p).DataTransferred + i) =
          (s.URB p).ptrDataBuffer + (s.URB p).DataTransferred + i :=
        Nat.mod_eq_of_lt (by omega)
      rw [hxi, e]
      omega
    · show (Function.update s.URB p _ p).DataTransferred = _
      rw [Function.update_same]
      exact Nat.mod_eq_of_lt h
  · exact ⟨_, irq_rx_other s hst, rfl, rfl, rfl, rfl, rfl, rfl, rxflvlm_set _⟩

/-- C25, witness: the data entry of 6 bytes for channel 0 takes two of the
three words, fills the first six bytes of the buffer and sets the count to
6; the transfer-complete entry is popped and changes no URB; the invocation
with the receive interrupt alone returns. -/
theorem C25_rx_drain_witness :
    (∃ t, irq_rx rxBulkIn = some t ∧ t.fifo = [0xCCBBAA99] ∧
      (t.URB 0x20003000).DataTransferred = 0 + 6 ∧
      t.mem (0x20000100 + 0 + 5) = 0x66 ∧ t.mem (0x20000100 + 6) = 0) ∧
    (∃ t, irq_rx rxDoneIn = some t ∧ t.URB = rxDoneIn.URB) ∧
    USBH_FS_IRQHandler rxBulkIn =
      (irq_rx rxBulkIn).map (fun t => { t with GINTSTS := USBH_STM32_GINTSTS_RXFLVL }) := by
  have eb : (rxBulkIn.URB 0x20003000).ptrDataBuffer = 0x20000100 := by decide
  have ed : (rxBulkIn.URB 0x20003000).DataTransferred = 0 := by decide
  refine ⟨?_, ((C25_rx_drain rxDoneIn 0 0 0).2.1 (by decide)).imp (fun _ h => ⟨h.1, h.2.2.1⟩),
    (C25_rx_drain rxBulkIn 6 0 0x20003000).2.2 (by decide) (by decide)⟩
  obtain ⟨t, h⟩ := (C25_rx_drain rxBulkIn 6 0 0x20003000).1 (by decide) (by decide) (by decide)
    (by decide) (by decide) (by decide) (by decide)
  have a1 := h.2.1.trans (show List.drop ((6 + 3) / 4) rxBulkIn.fifo = [0xCCBBAA99] by decide)
  have a2 := h.2.2.2.2.2.2.1 (by decide)
  have a3 := (h.2.2.2.2.2.1 (by decide)).1 5 (by decide)
  have a4 := (h.2.2.2.2.2.1 (by decide)).2 (0x20000100 + 6) (by decide)
  rw [ed] at a2
  rw [eb, ed] at a3
  exact ⟨t, h.1, a1, a2, a3.trans (by decide), a4.trans (by decide)⟩

/-! ## C15: the debounce window with the connect-detected interrupt -/

end Usbh
